import Mathlib

/-!
# Kotekan packet ingestion: sequence tracking, loss recovery and frame assembly

A shallow embedding of

* `lib/dpdk/iceBoardHandler.hpp` (class `iceBoardHandler`),
* `lib/network_dpdk.c` (the legacy per-link ingestion loop `lcore_recv_pkt`
  with its helpers),
* `cmap` of `lib/processes/hdf5Writer.cpp`, and
* `mod` of `lib/utils/util.c`,

followed by theorems about them.

Conventions.  Unsigned machine integers are `Nat`, signed ones are `Int`;
every conversion between C integer types that can change a value is written
out with `to_uint32`, `to_uint64`, `to_int32`, `to_int64`.  A `double` is the
number it stands for, and every operation on doubles rounds to the nearest
`double` (`double.round`).  Memory of a frame is a function from a byte index
to a byte; an index outside `[0, buffer_size)` stands for memory outside the
frame.  A VDIF header written through a `struct VDIFHeader *` occupies 32 of
these bytes.  A function returns `none` when the C code aborts (failed
`assert`, NULL dereference) or does not return.
-/

namespace Kotekan

/-! ## Machine integers -/

/-- Conversion to `uint32_t`. -/
def to_uint32 (x : Int) : Int := x % 2 ^ 32

/-- Conversion to `uint64_t`. -/
def to_uint64 (x : Int) : Int := x % 2 ^ 64

/-- Conversion to `int32_t` (two's complement wrap). -/
def to_int32 (x : Int) : Int := (x + 2 ^ 31) % 2 ^ 32 - 2 ^ 31

/-- Conversion to `int64_t` (two's complement wrap). -/
def to_int64 (x : Int) : Int := (x + 2 ^ 63) % 2 ^ 64 - 2 ^ 63

/-- Addition of two `uint64_t` values. -/
def u64_add (a b : Nat) : Nat := (a + b) % 2 ^ 64

/-! ## Packets -/

/-- The decoded stream identity (`stream_id_t` of `fpga_header_functions.h`). -/
structure stream_id_t where
  link_id : Nat
  slot_id : Nat
  crate_id : Nat
  unused : Nat
deriving DecidableEq

/-- A received packet (`struct rte_mbuf`): offload flags, total length, and
the bytes of the packet (`data i` is the byte at offset `i` from
`rte_pktmbuf_mtod`, the segments of a chained mbuf laid end to end). -/
structure rte_mbuf where
  ol_flags : Nat
  pkt_len : Nat
  data : Nat → Nat

/-- The `uint16_t` stored little-endian at byte offset `off` of the packet. -/
def read_uint16 (m : rte_mbuf) (off : Nat) : Nat :=
  m.data off % 256 + 256 * (m.data (off + 1) % 256)

/-- The `uint32_t` stored little-endian at byte offset `off` of the packet. -/
def read_uint32 (m : rte_mbuf) (off : Nat) : Nat :=
  m.data off % 256 + 256 * (m.data (off + 1) % 256)
    + 65536 * (m.data (off + 2) % 256) + 16777216 * (m.data (off + 3) % 256)

/-- The function `get_mbuf_seq_num` (identical in `network_dpdk.c` and in
`iceBoardHandler`): the 48-bit FPGA sequence number of a packet. -/
def get_mbuf_seq_num (cur_mbuf : rte_mbuf) : Nat :=
  read_uint32 cur_mbuf 54 + ((0xFFFF &&& read_uint32 cur_mbuf 50) <<< 32)

/-- The function `get_mbuf_stream_id`: the encoded 16-bit stream identity. -/
def get_mbuf_stream_id (cur_mbuf : rte_mbuf) : Nat :=
  read_uint16 cur_mbuf 44

namespace network_dpdk

/-- The fields of `struct VDIFHeader` (`vdif_functions.h`).  The bit widths of
the fields are declared outside the sources at hand; a field holds the value
assigned to it. -/
structure VDIFHeader where
  seconds : Int
  legacy : Int
  invalid : Int
  data_frame : Int
  ref_epoch : Int
  unused : Int
  frame_len : Int
  log_num_chan : Int
  vdif_version : Int
  station_id : Int
  thread_id : Int
  bits_depth : Int
  data_type : Int
  eud1 : Int
  edv : Int
  eud2 : Int
  eud3 : Int
  eud4 : Int
deriving DecidableEq

end network_dpdk

/-- What the sources use but do not define: the DPDK flag
`PKT_RX_IP_CKSUM_BAD`, `extract_stream_id` and `bin_number_16_elem` of
`fpga_header_functions.h`, and the layout of `struct VDIFHeader` in memory
(`vdif_functions.h`): `vdif_header_bytes h k` is byte `k` of the 32 bytes that
hold a record with the fields `h`, and `vdif_header_read m` are the fields of
the record whose 32 bytes are `m 0`, ..., `m 31`.  They are parameters of the
embedding. -/
structure Deps where
  PKT_RX_IP_CKSUM_BAD : Nat
  extract_stream_id : Nat → stream_id_t
  bin_number_16_elem : stream_id_t → Int → Int
  vdif_header_bytes : network_dpdk.VDIFHeader → Nat → Nat
  vdif_header_read : (Nat → Nat) → network_dpdk.VDIFHeader

/-! ## `iceBoardHandler` -/

namespace iceBoardHandler

/-- The data members of `iceBoardHandler`, and the number of `raise(SIGINT)`
calls made so far. -/
structure State where
  cur_seq : Nat
  last_seq : Nat
  port_stream_id : stream_id_t
  got_first_packet : Bool
  sample_size : Nat
  fpga_packet_size : Nat
  samples_per_packet : Nat
  alignment : Nat
  rx_errors_total : Nat
  rx_ip_cksum_errors_total : Nat
  rx_packet_len_errors_total : Nat
  rx_packets_total : Nat
  rx_bytes_total : Nat
  rx_out_of_order_errors_total : Nat
  rx_lost_samples_total : Nat
  sigint_raised : Nat
deriving DecidableEq

/-- The method `iceBoardHandler::align_first_packet`. -/
def align_first_packet (d : Deps) (h : State) (mbuf : rte_mbuf) : State × Bool :=
  let seq := get_mbuf_seq_num mbuf
  let stream_id := d.extract_stream_id (get_mbuf_stream_id mbuf)
  if seq % h.alignment ≤ 100 ∧ seq % h.alignment ≥ 0 then
    ({ h with
        last_seq := seq - seq % h.alignment
        cur_seq := seq
        port_stream_id := stream_id
        got_first_packet := true }, true)
  else
    (h, false)

/-- The method `iceBoardHandler::check_packet`. -/
def check_packet (d : Deps) (h : State) (cur_mbuf : rte_mbuf) : State × Bool :=
  if (cur_mbuf.ol_flags ||| d.PKT_RX_IP_CKSUM_BAD) = 1 then
    ({ h with
        rx_ip_cksum_errors_total := u64_add h.rx_ip_cksum_errors_total 1
        rx_errors_total := u64_add h.rx_errors_total 1 }, false)
  else if h.fpga_packet_size ≠ cur_mbuf.pkt_len then
    ({ h with
        sigint_raised := h.sigint_raised + 1
        rx_packet_len_errors_total := u64_add h.rx_packet_len_errors_total 1
        rx_errors_total := u64_add h.rx_errors_total 1 }, false)
  else
    ({ h with
        rx_packets_total := u64_add h.rx_packets_total 1
        rx_bytes_total := u64_add h.rx_bytes_total cur_mbuf.pkt_len }, true)

/-- The method `iceBoardHandler::check_order`. -/
def check_order (h : State) (diff : Int) : State × Bool :=
  if diff < 0 then
    ({ h with
        rx_out_of_order_errors_total := u64_add h.rx_out_of_order_errors_total 1
        rx_errors_total := u64_add h.rx_errors_total 1 }, false)
  else
    (h, true)

/-- The method `iceBoardHandler::check_for_reset`. -/
def check_for_reset (h : State) (diff : Int) : State × Bool :=
  if diff < -1000 then
    ({ h with sigint_raised := h.sigint_raised + 1 }, false)
  else
    (h, true)

/-- The method `iceBoardHandler::get_packet_diff`. -/
def get_packet_diff (h : State) : Int :=
  to_int64 (to_int64 h.cur_seq - to_int64 h.last_seq)

end iceBoardHandler

/-! ## `double` arithmetic -/

/-- A finite `double` (IEEE 754 binary64): the number `m * 2 ^ e`.  A result
of magnitude `2 ^ 1024` or more (an infinity in IEEE 754) and a division by
zero are not modelled. -/
structure double where
  m : Int
  e : Int
deriving DecidableEq

namespace double

/-- The number of binary digits of `n`, for `n <= fuel`. -/
def bits : Nat → Nat → Nat
  | 0, _ => 0
  | fuel + 1, n => if n = 0 then 0 else bits fuel (n / 2) + 1

/-- Whether `2 ^ k <= n / d`. -/
def pow_le (k : Int) (n d : Nat) : Bool :=
  if 0 ≤ k then decide (d * 2 ^ k.toNat ≤ n) else decide (d ≤ n * 2 ^ (-k).toNat)

/-- The integer part of the binary logarithm of `n / d`, for `n, d > 0`. -/
def ilog2 (n d : Nat) : Int :=
  let k : Int := (bits n n : Int) - bits d d
  if pow_le k n d then k else k - 1

/-- The `double` nearest to `n / d` (`d > 0`), ties to the even significand:
the rounding of every arithmetic operation in the default rounding mode.  The
significand has 53 bits, fewer below `2 ^ -1022` (subnormal numbers). -/
def round (n : Int) (d : Nat) : double :=
  if n = 0 then ⟨0, 0⟩ else
  let a := n.natAbs
  let e : Int := max (ilog2 a d - 52) (-1074)
  let N : Nat := if 0 ≤ e then a else a * 2 ^ (-e).toNat
  let D : Nat := if 0 ≤ e then d * 2 ^ e.toNat else d
  let q := N / D
  let r := N % D
  let m : Nat := if 2 * r < D then q else if D < 2 * r then q + 1
    else if q % 2 = 0 then q else q + 1
  ⟨if n < 0 then -(m : Int) else m, e⟩

/-- The `double` nearest to `m * 2 ^ e`. -/
def of_dyadic (m e : Int) : double :=
  if 0 ≤ e then round (m * 2 ^ e.toNat) 1 else round m (2 ^ (-e).toNat)

/-- The conversion `(double)n` of an integer. -/
def of_int (n : Int) : double := round n 1

/-- The product `a * b` of two `double`s. -/
def mul (a b : double) : double := of_dyadic (a.m * b.m) (a.e + b.e)

/-- The difference `a - b` of two `double`s. -/
def sub (a b : double) : double :=
  let e := min a.e b.e
  of_dyadic (a.m * 2 ^ (a.e - e).toNat - b.m * 2 ^ (b.e - e).toNat) e

/-- The quotient `a / b` of two `double`s, `b` not zero. -/
def div (a b : double) : double :=
  let e := a.e - b.e
  let n := if b.m < 0 then -a.m else a.m
  if 0 ≤ e then round (n * 2 ^ e.toNat) b.m.natAbs
  else round n (b.m.natAbs * 2 ^ (-e).toNat)

/-- The function `floor` of `math.h`, its integral result as an integer. -/
def floor (a : double) : Int :=
  if 0 ≤ a.e then a.m * 2 ^ a.e.toNat else a.m / 2 ^ (-a.e).toNat

end double

/-! ## `network_dpdk.c` -/

namespace network_dpdk

/-- A wall-clock reading (`struct timeval`). -/
structure timeval where
  tv_sec : Int
  tv_usec : Int
deriving DecidableEq

/-- Modelled from the spec: `struct Buffer` of `buffers.h` (the
RingFrameBuffer), a pool of `num_buffers` frames of `buffer_size` bytes.
Per frame id: the bytes (`data id i`), the full flag, the metadata (frame
start sequence, stream identity, data id, receive time) and the lost-sample
count of its error matrix.  `headers id i` are the fields of the
`struct VDIFHeader` whose 32 bytes start at byte index `i`, as the code sees
them through a `struct VDIFHeader *`: a header written there holds the fields
assigned to it until one of its bytes is written again, and then the fields
are read from the bytes. -/
structure Buffer where
  num_buffers : Int
  buffer_size : Int
  data : Int → Int → Nat
  headers : Int → Int → VDIFHeader
  is_full : Int → Bool
  fpga_seq_num : Int → Nat
  stream_ID : Int → Nat
  data_ID : Int → Int
  first_packet_recv_time : Int → timeval
  bad_timesamples : Int → Int

/-- Modelled from the spec: `mark_buffer_full` of `buffers.h` (`mark_full(handle)`),
ownership of frame `id` passes to the consumer. -/
def mark_buffer_full (b : Buffer) (id : Int) : Buffer :=
  { b with is_full := Function.update b.is_full id true }

/-- Modelled from the spec: `wait_for_empty_buffer` of `buffers.h`
(`acquire_empty_frame`, may block).  The call returns once the consumer has
emptied frame `id`; afterwards the frame is writable. -/
def wait_for_empty_buffer (b : Buffer) (id : Int) : Buffer :=
  { b with is_full := Function.update b.is_full id false }

/-- Modelled from the spec: `set_data_ID` of `buffers.h`. -/
def set_data_ID (b : Buffer) (id : Int) (data_id : Int) : Buffer :=
  { b with data_ID := Function.update b.data_ID id data_id }

/-- Modelled from the spec: `set_first_packet_recv_time` of `buffers.h`
(`set_receive_time(handle, timestamp)`). -/
def set_first_packet_recv_time (b : Buffer) (id : Int) (t : timeval) : Buffer :=
  { b with first_packet_recv_time := Function.update b.first_packet_recv_time id t }

/-- Modelled from the spec: `set_stream_ID` of `buffers.h`
(`set_stream_identity(handle, id)`). -/
def set_stream_ID (b : Buffer) (id : Int) (stream_id : Nat) : Buffer :=
  { b with stream_ID := Function.update b.stream_ID id stream_id }

/-- Modelled from the spec: `set_fpga_seq_num` of `buffers.h`
(`set_frame_start_seq(handle, u64)`). -/
def set_fpga_seq_num (b : Buffer) (id : Int) (seq : Nat) : Buffer :=
  { b with fpga_seq_num := Function.update b.fpga_seq_num id seq }

/-- Modelled from the spec: `get_fpga_seq_num` of `buffers.h`, the
`frame_start_seq` of frame `id`. -/
def get_fpga_seq_num (b : Buffer) (id : Int) : Nat :=
  b.fpga_seq_num id

/-- Modelled from the spec: `add_bad_timesamples(get_error_matrix(buf, id), n)`
of `errors.h` (`add_lost_samples(handle, count)`): adds `n` to the lost-sample
count of frame `id`. -/
def add_bad_timesamples (b : Buffer) (id : Int) (n : Int) : Buffer :=
  { b with bad_timesamples := Function.update b.bad_timesamples id (b.bad_timesamples id + n) }

/-- Modelled from the spec: `nt_memset` of `nt_memset.h`: sets the `n` bytes
from byte index `off` of frame `id` to `c`. -/
def nt_memset (b : Buffer) (id : Int) (off : Int) (c : Nat) (n : Int) : Buffer :=
  { b with data := fun i j => if i = id ∧ off ≤ j ∧ j < off + n then c else b.data i j }

/-- Modelled from the spec: `copy_block` of `packet_copy.h` (payload bytes are
copied verbatim): copies `len` bytes of the packet, from packet offset
`offset` on, to byte index `off` of frame `id`. -/
def copy_block (cur_mbuf : rte_mbuf) (b : Buffer) (id : Int) (off : Int) (len : Int)
    (offset : Nat) : Buffer :=
  { b with data := fun i j =>
      if i = id ∧ off ≤ j ∧ j < off + len then cur_mbuf.data (offset + (j - off).toNat)
      else b.data i j }

/-- The write of the header record `h` at byte index `idx` of frame `id`
through a `struct VDIFHeader *`: the 32 bytes from `idx` on become the bytes
of `h`; a header that starts elsewhere and shares a byte with them is read
from the bytes from then on. -/
def store_vdif_header (d : Deps) (b : Buffer) (id idx : Int) (h : VDIFHeader) : Buffer :=
  let data : Int → Int → Nat := fun i j =>
    if i = id ∧ idx ≤ j ∧ j < idx + 32 then d.vdif_header_bytes h (j - idx).toNat
    else b.data i j
  { b with
    data := data
    headers := fun i j =>
      if i = id ∧ j = idx then h
      else if i = id ∧ idx - 32 < j ∧ j < idx + 32 then
        d.vdif_header_read (fun k => data i (j + k))
      else b.headers i j }

/-- The write of the byte `c` at byte index `idx` of frame `id` of a pool that
holds headers: a header one of whose 32 bytes this is, is read from the bytes
from then on. -/
def store_byte (d : Deps) (b : Buffer) (id idx : Int) (c : Nat) : Buffer :=
  let data : Int → Int → Nat := fun i j => if i = id ∧ j = idx then c else b.data i j
  { b with
    data := data
    headers := fun i j =>
      if i = id ∧ idx - 32 < j ∧ j ≤ idx then d.vdif_header_read (fun k => data i (j + k))
      else b.headers i j }

/-- The fields of `struct Config` read by the ingestion path (`config.h` is
not among the sources). -/
structure Config where
  timesamples_per_packet : Int
  udp_packet_size : Nat
  samples_per_data_set : Int
  num_data_sets : Int
  num_gpu_frames : Int

/-- The type `struct LinkData`. -/
structure LinkData where
  seq : Nat
  last_seq : Nat
  stream_ID : Nat
  s_stream_ID : stream_id_t
  first_packet : Int
  buffer_id : Int
  vdif_buffer_id : Int
  finished_buffer : Int
  data_id : Int

/-- The type `struct networkDPDKArg`, with the buffers it points to.  `buf` and
`vdif_buf` are `none` for a NULL pointer. -/
structure networkDPDKArg where
  buf : Option (Nat → Buffer)
  num_links : Int
  num_lcores : Int
  num_links_per_lcore : Int
  config : Config
  num_links_in_group : Nat → Nat
  link_id : Nat → Nat
  port_offset : Nat → Nat
  vdif_buf : Option Buffer

/-- The type `struct NetworkDPDK` (the fields the packet path reads or writes). -/
structure NetworkDPDK where
  link_data : Nat → LinkData
  args : networkDPDKArg
  vdif_time_set : Int
  vdif_offset : Nat
  vdif_base_time : Nat

/-- The frame pool `dpdk_net->args->buf[port]`; `none` when `buf` is NULL. -/
def get_buf (dpdk_net : NetworkDPDK) (port : Nat) : Option Buffer :=
  dpdk_net.args.buf.map (fun bufs => bufs port)

/-- Stores `b` as the frame pool `dpdk_net->args->buf[port]`. -/
def set_buf (dpdk_net : NetworkDPDK) (port : Nat) (b : Buffer) : NetworkDPDK :=
  { dpdk_net with args := { dpdk_net.args with
      buf := dpdk_net.args.buf.map (fun bufs => Function.update bufs port b) } }

/-- Stores `b` as the frame pool `dpdk_net->args->vdif_buf`. -/
def set_vdif_buf (dpdk_net : NetworkDPDK) (b : Buffer) : NetworkDPDK :=
  { dpdk_net with args := { dpdk_net.args with vdif_buf := dpdk_net.args.vdif_buf.map (fun _ => b) } }

/-- Stores `ld` as `dpdk_net->link_data[port]`. -/
def set_link (dpdk_net : NetworkDPDK) (port : Nat) (ld : LinkData) : NetworkDPDK :=
  { dpdk_net with link_data := Function.update dpdk_net.link_data port ld }

/-- The function `advance_frame`; `now` is the value `gettimeofday` returns. -/
def advance_frame (dpdk_net : NetworkDPDK) (port : Nat) (new_seq : Nat) (now : timeval) :
    Option NetworkDPDK :=
  match get_buf dpdk_net port with
  | none => none
  | some b =>
    let ld := dpdk_net.link_data port
    let b1 := mark_buffer_full b ld.buffer_id
    let buffer_id := to_int32 (to_uint32 (ld.buffer_id + dpdk_net.args.num_links_in_group port)
                      % to_uint32 b.num_buffers)
    let b2 := wait_for_empty_buffer b1 buffer_id
    let b3 := set_data_ID b2 buffer_id ld.data_id
    let b4 := set_first_packet_recv_time b3 buffer_id now
    let b5 := set_stream_ID b4 buffer_id ld.stream_ID
    let b6 := set_fpga_seq_num b5 buffer_id new_seq
    some (set_buf
      (set_link dpdk_net port { ld with buffer_id := buffer_id, data_id := to_int32 (ld.data_id + 1) })
      port b6)

/-- The function `advance_vdif_frame`. -/
def advance_vdif_frame (dpdk_net : NetworkDPDK) (port : Nat) (new_seq : Nat) (now : timeval) :
    Option NetworkDPDK :=
  match dpdk_net.args.vdif_buf with
  | none => none
  | some b =>
    let ld := dpdk_net.link_data port
    let b1 := mark_buffer_full b ld.vdif_buffer_id
    let vdif_buffer_id := to_int32 (Int.tmod (to_int32 (ld.vdif_buffer_id + 1)) b.num_buffers)
    let b2 := wait_for_empty_buffer b1 vdif_buffer_id
    let b3 := set_data_ID b2 vdif_buffer_id ld.data_id
    let b4 := set_first_packet_recv_time b3 vdif_buffer_id now
    let b5 := set_stream_ID b4 vdif_buffer_id ld.stream_ID
    let b6 := set_fpga_seq_num b5 vdif_buffer_id new_seq
    some (set_vdif_buf
      (set_link dpdk_net port
        { ld with vdif_buffer_id := vdif_buffer_id, data_id := to_int32 (ld.data_id + 1) })
      b6)

/-- The assignments `set_vdif_header_options` makes to one header: `old` is
the header found at the location, `elem` and `time_step` are the loop
counters. -/
def vdif_header_fields (dpdk_net : NetworkDPDK) (old : VDIFHeader) (invalid : Int) (seq : Nat)
    (time_step elem : Int) : VDIFHeader :=
  let h1 : VDIFHeader := { old with
    legacy := 0, vdif_version := 1, data_type := 1, unused := 0, ref_epoch := 0,
    frame_len := 132, log_num_chan := 10, bits_depth := 3, edv := 0,
    eud1 := 0, eud2 := 0, eud3 := 0, eud4 := 0,
    station_id := 0x4151, thread_id := elem }
  let h2 : VDIFHeader := if invalid = 1 then { h1 with invalid := invalid } else h1
  if dpdk_net.vdif_time_set ≠ 0 then
    { h2 with
      seconds := to_uint64 (to_uint64 (seq + time_step - dpdk_net.vdif_offset) / 390625
                  + dpdk_net.vdif_base_time)
      data_frame := to_uint64 (seq + time_step - dpdk_net.vdif_offset) % 390625 }
  else
    { h2 with invalid := 1, seconds := 0, data_frame := 0 }

/-- The function `set_vdif_header_options`; `none` when its `assert` fails. -/
def set_vdif_header_options (d : Deps) (dpdk_net : NetworkDPDK) (vdif_frame_location
    num_elements vdif_packet_len invalid : Int) (seq : Nat) (port : Nat) :
    Option NetworkDPDK :=
  match dpdk_net.args.vdif_buf with
  | none => none
  | some vb =>
    let buffer_id := (dpdk_net.link_data port).vdif_buffer_id
    let r := (List.range dpdk_net.args.config.timesamples_per_packet.toNat).foldlM
      (fun (b : Buffer) (time_step : Nat) =>
        (List.range num_elements.toNat).foldlM
          (fun (b : Buffer) (elem : Nat) =>
            let header_idx := to_int32 (vdif_frame_location
              + vdif_packet_len * num_elements * time_step + vdif_packet_len * elem)
            if header_idx < b.buffer_size then
              some (store_vdif_header d b buffer_id header_idx
                (vdif_header_fields dpdk_net (b.headers buffer_id header_idx) invalid seq
                  time_step elem))
            else none)
          b)
      vb
    r.map (set_vdif_buf dpdk_net)

/-- The byte copy loop of `copy_data_to_vdif`: for every time step, frequency
and element one byte of the packet goes to `output_idx` of frame `buffer_id`.
The packet bytes are read from the flattened chain, so the walk along
`cur_mbuf->next` does not appear. -/
def copy_vdif_bytes (d : Deps) (cur_mbuf : rte_mbuf) (stream_id : stream_id_t)
    (timesamples_per_packet : Int) (vdif_frame_location : Int) (buffer_id : Int)
    (b : Buffer) : Buffer :=
  let vdif_header_len : Int := 32
  let vdif_packet_len : Int := vdif_header_len + 1024
  let total_num_elements : Int := 16
  let num_elements : Int := 2
  let frame_size : Int := vdif_packet_len * num_elements
  let r := (List.range timesamples_per_packet.toNat).foldl
    (fun (st : Buffer × Int) (time_step : Nat) =>
      (List.range 128).foldl
        (fun (st : Buffer × Int) (freq : Nat) =>
          let st2 := (List.range num_elements.toNat).foldl
            (fun (st : Buffer × Int) (elem : Nat) =>
              let output_idx := to_int32 (vdif_frame_location * frame_size
                + vdif_packet_len * num_elements * time_step + vdif_packet_len * elem
                + vdif_header_len + d.bin_number_16_elem stream_id freq)
              (store_byte d st.1 buffer_id output_idx (cur_mbuf.data st.2.toNat),
               to_int32 (st.2 + 1)))
            st
          (st2.1, to_int32 (st2.2 + (total_num_elements - num_elements))))
        st)
    (b, (58 : Int))
  r.1

/-- The function `copy_data_to_vdif`; `none` when an `assert` fails. -/
def copy_data_to_vdif (d : Deps) (dpdk_net : NetworkDPDK) (cur_mbuf : rte_mbuf) (port : Nat)
    (now : timeval) : Option NetworkDPDK :=
  match dpdk_net.args.vdif_buf with
  | none => none
  | some vb =>
    let vdif_header_len : Int := 32
    let vdif_packet_len : Int := vdif_header_len + 1024
    let num_elements : Int := 2
    let frame_size : Int := vdif_packet_len * num_elements
    let ld := dpdk_net.link_data port
    let loc := to_int64 (ld.seq - get_fpga_seq_num vb ld.vdif_buffer_id)
    let adv : Bool := to_int64 (loc * frame_size) = vb.buffer_size
    match (if adv then advance_vdif_frame dpdk_net port ld.seq now else some dpdk_net) with
    | none => none
    | some s1 =>
      let vdif_frame_location : Int := if adv then 0 else loc
      let buffer_id := if adv then (s1.link_data port).vdif_buffer_id else ld.vdif_buffer_id
      let stream_id := (s1.link_data port).s_stream_ID
      if to_int64 ((vdif_frame_location + dpdk_net.args.config.timesamples_per_packet)
            * frame_size) ≤ vb.buffer_size then
        match (if port = 0 then
                set_vdif_header_options d s1 (to_int32 (vdif_frame_location * frame_size))
                  num_elements vdif_packet_len 0 ld.seq port
               else some s1) with
        | none => none
        | some s2 =>
          match s2.args.vdif_buf with
          | none => none
          | some vb2 =>
            some (set_vdif_buf s2
              (copy_vdif_bytes d cur_mbuf stream_id dpdk_net.args.config.timesamples_per_packet
                vdif_frame_location buffer_id vb2))
      else none

/-- The function `copy_data_no_shuffle`. -/
def copy_data_no_shuffle (dpdk_net : NetworkDPDK) (cur_mbuf : rte_mbuf) (port : Nat)
    (now : timeval) : Option NetworkDPDK :=
  match get_buf dpdk_net port with
  | none => none
  | some b =>
    let offset : Nat := 58
    let frame_size : Int := 2048
    let packet_data_size := to_int32 (frame_size * dpdk_net.args.config.timesamples_per_packet)
    let ld := dpdk_net.link_data port
    let loc := to_int64 (ld.seq - get_fpga_seq_num b ld.buffer_id)
    let adv : Bool := to_int64 (loc * frame_size) = b.buffer_size
    match (if adv then advance_frame dpdk_net port ld.seq now else some dpdk_net) with
    | none => none
    | some s1 =>
      let frame_location : Int := if adv then 0 else loc
      let buffer_id := if adv then (s1.link_data port).buffer_id else ld.buffer_id
      match get_buf s1 port with
      | none => none
      | some b1 =>
        some (set_buf s1 port
          (copy_block cur_mbuf b1 buffer_id (to_int64 (frame_location * frame_size))
            packet_data_size offset))

/-- The function `setup_for_first_packet`. -/
def setup_for_first_packet (dpdk_net : NetworkDPDK) (port : Nat) : NetworkDPDK :=
  let s1 :=
    match get_buf dpdk_net port with
    | none => dpdk_net
    | some b =>
      let ld := dpdk_net.link_data port
      set_buf (set_link dpdk_net port { ld with data_id := to_int32 (ld.data_id + 1) }) port
        (set_data_ID (wait_for_empty_buffer b ld.buffer_id) ld.buffer_id ld.data_id)
  match s1.args.vdif_buf with
  | none => s1
  | some vb =>
    let ld := s1.link_data port
    set_vdif_buf (set_link s1 port { ld with data_id := to_int32 (ld.data_id + 1) })
      (set_data_ID (wait_for_empty_buffer vb 0) ld.vdif_buffer_id ld.data_id)

/-- The value of `integration_period` in `align_first_packet`: the product of
the three configuration values converted to `uint64_t` (an overflow of the
product itself, undefined in C, is not modelled). -/
def integration_period (c : Config) : Nat :=
  (to_uint64 (c.samples_per_data_set * c.num_data_sets * c.num_gpu_frames)).toNat

/-- The value of `floor(seq - 390625.0*((double)now.tv_usec/1000000.0))` in
`align_first_packet`: `seq` and `tv_usec` are converted to `double`, and the
quotient, the product and the difference are each rounded to a `double`. -/
def vdif_offset_floor (seq : Nat) (now : timeval) : Int :=
  double.floor (double.sub (double.of_int seq)
    (double.mul (double.of_int 390625)
      (double.div (double.of_int now.tv_usec) (double.of_int 1000000))))

/-- The value stored in `vdif_offset` by `align_first_packet`,
`((uint64_t)floor(seq - 390625.0*((double)now.tv_usec/1000000.0))) % 390625`.
The conversion of a `double` to `uint64_t` is defined in C for the values in
`[0, 2^64)` only; for a floor outside this range the value modulo 2^64 is
taken here. -/
def vdif_offset_of (seq : Nat) (now : timeval) : Nat :=
  (to_uint64 (vdif_offset_floor seq now) % 390625).toNat

/-- The value stored in `vdif_base_time` by `align_first_packet`. -/
def vdif_base_time_of (seq : Nat) (vdif_offset : Nat) (now : timeval) : Nat :=
  (to_uint64 (now.tv_sec - 946684800 - to_uint64 (seq - vdif_offset) / 390625)).toNat

/-- The function `align_first_packet` of `network_dpdk.c`; `now` is the value
`gettimeofday` returns.  The result is the new state and the return value. -/
def align_first_packet (d : Deps) (dpdk_net : NetworkDPDK) (cur_mbuf : rte_mbuf) (port : Nat)
    (now : timeval) : NetworkDPDK × Int :=
  let seq := get_mbuf_seq_num cur_mbuf
  let stream_id := get_mbuf_stream_id cur_mbuf
  let integration_period := integration_period dpdk_net.args.config
  if seq % integration_period ≤ 100 ∧ seq % integration_period ≥ 0 then
    let ld := dpdk_net.link_data port
    let s1 := set_link dpdk_net port { ld with
      stream_ID := stream_id
      s_stream_ID := d.extract_stream_id stream_id
      last_seq := seq - seq % integration_period
      seq := seq }
    let s2 :=
      match get_buf s1 port with
      | none => s1
      | some b =>
        set_buf s1 port
          (set_stream_ID
            (set_first_packet_recv_time
              (set_fpga_seq_num b ld.buffer_id (seq - seq % integration_period))
              ld.buffer_id now)
            ld.buffer_id stream_id)
    let s3 :=
      match s2.args.vdif_buf with
      | none => s2
      | some vb =>
        set_vdif_buf s2
          (set_stream_ID
            (set_first_packet_recv_time
              (set_fpga_seq_num vb ld.vdif_buffer_id (seq - seq % integration_period))
              ld.vdif_buffer_id now)
            ld.vdif_buffer_id stream_id)
    let s4 :=
      if s3.args.vdif_buf.isSome ∧ port = 0 then
        let vdif_offset := vdif_offset_of seq now
        { s3 with
          vdif_offset := vdif_offset
          vdif_base_time := vdif_base_time_of seq vdif_offset now
          vdif_time_set := 1 }
      else s3
    (s4, 1)
  else
    (dpdk_net, 0)

/-- The `while (lost_frames > 0)` loop of `handle_lost_packets`, run for at
most `fuel` iterations (`none` if the loop is still running then).
`buffer_id` is the local variable of `handle_lost_packets`, read once before
the loop. -/
def lost_packets_loop (port : Nat) (now : timeval) (buffer_id : Int)
    (timesamples_per_packet : Int) :
    Nat → NetworkDPDK → Int → Int → Int → Option NetworkDPDK
  | 0, dpdk_net, _, _, lost_frames => if lost_frames > 0 then none else some dpdk_net
  | fuel + 1, dpdk_net, frame_location, cur_seq_num, lost_frames =>
    if lost_frames > 0 then
      match get_buf dpdk_net port with
      | none => none
      | some b =>
        let frame_size : Int := 2048
        let adv : Bool := to_int64 (frame_location * frame_size) = b.buffer_size
        match (if adv then advance_frame dpdk_net port (to_uint64 cur_seq_num).toNat now
               else some dpdk_net) with
        | none => none
        | some s1 =>
          let frame_location : Int := if adv then 0 else frame_location
          match get_buf s1 port with
          | none => none
          | some b1 =>
            let s2 := set_buf s1 port
              (nt_memset b1 buffer_id (to_int64 (frame_location * frame_size)) 0x88
                (to_int64 (frame_size * timesamples_per_packet)))
            lost_packets_loop port now buffer_id timesamples_per_packet fuel s2
              (to_int64 (frame_location + timesamples_per_packet))
              (to_int64 (cur_seq_num + timesamples_per_packet))
              (to_int32 (lost_frames - timesamples_per_packet))
    else some dpdk_net

/-- The function `handle_lost_packets`; `none` when its loop does not end. -/
def handle_lost_packets (dpdk_net : NetworkDPDK) (port : Nat) (now : timeval) :
    Option NetworkDPDK :=
  match get_buf dpdk_net port with
  | none => none
  | some b =>
    let ld := dpdk_net.link_data port
    let lost_frames := to_int32 (to_uint64 ((ld.seq : Int) - ld.last_seq))
    let timesamples_per_packet := to_int64 dpdk_net.args.config.timesamples_per_packet
    let frame_location := to_int64 ((ld.last_seq : Int) + timesamples_per_packet
      - get_fpga_seq_num b ld.buffer_id)
    let cur_seq_num := to_int64 ((ld.last_seq : Int) + timesamples_per_packet)
    let buffer_id := ld.buffer_id
    let s1 := set_buf dpdk_net port (add_bad_timesamples b buffer_id lost_frames)
    lost_packets_loop port now buffer_id timesamples_per_packet lost_frames.toNat s1
      frame_location cur_seq_num lost_frames

/-- The `while (lost_frames > 0)` loop of `handle_lost_raw_packets`, run for
at most `fuel` iterations. -/
def lost_raw_packets_loop (d : Deps) (port : Nat) (now : timeval)
    (timesamples_per_packet : Int) :
    Nat → NetworkDPDK → Int → Int → Int → Option NetworkDPDK
  | 0, dpdk_net, _, _, lost_frames => if lost_frames > 0 then none else some dpdk_net
  | fuel + 1, dpdk_net, frame_location, cur_seq_num, lost_frames =>
    if lost_frames > 0 then
      match dpdk_net.args.vdif_buf with
      | none => none
      | some vb =>
        let vdif_header_len : Int := 32
        let vdif_packet_len : Int := vdif_header_len + 1024
        let num_elements : Int := 2
        let frame_size : Int := to_int32 (vdif_packet_len * num_elements)
        let adv : Bool := to_int64 (frame_location * frame_size) = vb.buffer_size
        match (if adv then advance_vdif_frame dpdk_net port (to_uint64 cur_seq_num).toNat now
               else some dpdk_net) with
        | none => none
        | some s1 =>
          let frame_location : Int := if adv then 0 else frame_location
          match set_vdif_header_options d s1
              (to_int32 (to_int64 (frame_location * frame_size)))
              num_elements vdif_packet_len 1 (to_uint64 cur_seq_num).toNat port with
          | none => none
          | some s2 =>
            lost_raw_packets_loop d port now timesamples_per_packet fuel s2
              (to_int64 (frame_location + timesamples_per_packet))
              (to_int64 (cur_seq_num + timesamples_per_packet))
              (to_int32 (lost_frames - timesamples_per_packet))
    else some dpdk_net

/-- The function `handle_lost_raw_packets`; `none` when an `assert` fails or
its loop does not end. -/
def handle_lost_raw_packets (d : Deps) (dpdk_net : NetworkDPDK) (port : Nat)
    (now : timeval) : Option NetworkDPDK :=
  match dpdk_net.args.vdif_buf with
  | none => none
  | some vb =>
    let ld := dpdk_net.link_data port
    let lost_frames := to_int32 (to_uint64 ((ld.seq : Int) - ld.last_seq))
    let timesamples_per_packet := to_int64 dpdk_net.args.config.timesamples_per_packet
    let frame_location := to_int64 ((ld.last_seq : Int) + timesamples_per_packet
      - get_fpga_seq_num vb ld.vdif_buffer_id)
    let cur_seq_num := to_int64 ((ld.last_seq : Int) + timesamples_per_packet)
    let buffer_id := ld.vdif_buffer_id
    let s1 := set_vdif_buf dpdk_net (add_bad_timesamples vb buffer_id lost_frames)
    lost_raw_packets_loop d port now timesamples_per_packet lost_frames.toNat s1
      frame_location cur_seq_num lost_frames

/-- The path the body of the per-packet loop of `lcore_recv_pkt` takes: one of
the four `goto release_frame` exits, or the fall through to
`last_seq = seq` (`accepted`), with whether `handle_lost_packets` and
`handle_lost_raw_packets` were called on the way. -/
inductive Outcome where
  | bad_checksum
  | bad_length
  | waiting
  | stale
  | accepted (lost_packets lost_raw_packets : Bool)
deriving DecidableEq

/-- Lines 686 to 711 of `lcore_recv_pkt`, from
`link_data[port].seq = get_mbuf_seq_num(mbufs[i])` to `last_seq = seq`: the
part of the loop body that a checked packet reaches on an aligned link. -/
def recv_pkt_seq (d : Deps) (dpdk_net : NetworkDPDK) (port : Nat) (cur_mbuf : rte_mbuf)
    (now : timeval) : Option (NetworkDPDK × Outcome) :=
  let s2 := set_link dpdk_net port
    { dpdk_net.link_data port with seq := get_mbuf_seq_num cur_mbuf }
  let ld := s2.link_data port
  let diff := to_int64 (to_int64 ld.seq - to_int64 ld.last_seq)
  if diff < 0 then
    some (s2, Outcome.stale)
  else
    let lost : Bool := diff > to_int64 s2.args.config.timesamples_per_packet
    let r3 :=
      if s2.args.buf.isSome then
        (if lost then handle_lost_packets s2 port now else some s2).bind
          (fun t => copy_data_no_shuffle t cur_mbuf port now)
      else some s2
    match r3 with
    | none => none
    | some s3 =>
      let r4 :=
        if s3.args.vdif_buf.isSome then
          (if lost then handle_lost_raw_packets d s3 port now else some s3).bind
            (fun t => copy_data_to_vdif d t cur_mbuf port now)
        else some s3
      match r4 with
      | none => none
      | some s4 =>
        some (set_link s4 port { s4.link_data port with last_seq := (s4.link_data port).seq },
              Outcome.accepted (s2.args.buf.isSome && lost) (s3.args.vdif_buf.isSome && lost))

/-- The body of the `for (int i = 0; i < nb_rx; ++i)` loop of `lcore_recv_pkt`
for one packet `cur_mbuf` received on `port`: the two entry checks, the
alignment of the first packet, then `recv_pkt_seq`. -/
def recv_pkt (d : Deps) (dpdk_net : NetworkDPDK) (port : Nat) (cur_mbuf : rte_mbuf)
    (now : timeval) : Option (NetworkDPDK × Outcome) :=
  if (cur_mbuf.ol_flags ||| d.PKT_RX_IP_CKSUM_BAD) = 1 then
    some (dpdk_net, Outcome.bad_checksum)
  else if cur_mbuf.pkt_len ≠ dpdk_net.args.config.udp_packet_size then
    some (dpdk_net, Outcome.bad_length)
  else if (dpdk_net.link_data port).first_packet = 1 then
    let al := align_first_packet d dpdk_net cur_mbuf port now
    if al.2 = 0 then
      some (al.1, Outcome.waiting)
    else
      recv_pkt_seq d (set_link al.1 port { al.1.link_data port with first_packet := 0 })
        port cur_mbuf now
  else
    recv_pkt_seq d dpdk_net port cur_mbuf now

/-- The polling loop of `lcore_recv_pkt` run on the packets that arrive, in
order: each arrival is the port, the packet and the wall-clock time while it
is processed.  The result is the final state and the outcome of every packet;
`none` when the processing of a packet aborts or does not return. -/
def recv_loop (d : Deps) : NetworkDPDK → List (Nat × rte_mbuf × timeval) →
    Option (NetworkDPDK × List Outcome)
  | dpdk_net, [] => some (dpdk_net, [])
  | dpdk_net, (port, cur_mbuf, now) :: rest =>
    match recv_pkt d dpdk_net port cur_mbuf now with
    | none => none
    | some (s1, o) =>
      match recv_loop d s1 rest with
      | none => none
      | some (s2, os) => some (s2, o :: os)

/-- The function `lcore_recv_pkt` on logical core `lcore`: the setup of the
ports of this core, then the polling loop on the arrivals. -/
def lcore_recv_pkt (d : Deps) (dpdk_net : NetworkDPDK) (lcore : Nat)
    (arrivals : List (Nat × rte_mbuf × timeval)) : Option (NetworkDPDK × List Outcome) :=
  let port_offset := dpdk_net.args.port_offset lcore
  let s0 := (List.range dpdk_net.args.num_links_per_lcore.toNat).foldl
    (fun s i => setup_for_first_packet s (port_offset + i)) dpdk_net
  recv_loop d s0 arrivals

/-- What the frame writers and the loss handlers leave as it was when they
take the state `s` of link `port` to `t`: the sequence tracking fields and the
stream identity of the link, every other link, the configuration, whether
each output is enabled, and the time base. -/
structure link_kept (s t : NetworkDPDK) (port : Nat) : Prop where
  seq : (t.link_data port).seq = (s.link_data port).seq
  last_seq : (t.link_data port).last_seq = (s.link_data port).last_seq
  first_packet : (t.link_data port).first_packet = (s.link_data port).first_packet
  stream_ID : (t.link_data port).stream_ID = (s.link_data port).stream_ID
  s_stream_ID : (t.link_data port).s_stream_ID = (s.link_data port).s_stream_ID
  others : ∀ p, p ≠ port → t.link_data p = s.link_data p
  config : t.args.config = s.args.config
  num_links_in_group : t.args.num_links_in_group = s.args.num_links_in_group
  buf : t.args.buf.isSome = s.args.buf.isSome
  vdif_buf : t.args.vdif_buf.isSome = s.args.vdif_buf.isSome
  vdif_time_set : t.vdif_time_set = s.vdif_time_set
  vdif_offset : t.vdif_offset = s.vdif_offset
  vdif_base_time : t.vdif_base_time = s.vdif_base_time

end network_dpdk

/-! ## Concrete inputs used by the closed theorems -/

namespace Examples

open network_dpdk

/-- A packet of the configured length 4928 whose sequence number is `seq`
(below 2^16) and whose payload bytes all equal `fill`. -/
def packet (seq fill : Nat) : rte_mbuf :=
  { ol_flags := 0
    pkt_len := 4928
    data := fun i =>
      if i = 54 then seq % 256 else if i = 55 then seq / 256 % 256
      else if 58 ≤ i then fill else 0 }

/-- Word `w` of an example layout of `struct VDIFHeader`: eight 32-bit words,
the fields of a word from its least significant bit on, each cut to its
width. -/
def header_word (h : VDIFHeader) (w : Nat) : Int :=
  match w with
  | 0 => h.seconds % 2 ^ 30 + 2 ^ 30 * (h.legacy % 2) + 2 ^ 31 * (h.invalid % 2)
  | 1 => h.data_frame % 2 ^ 24 + 2 ^ 24 * (h.ref_epoch % 64) + 2 ^ 30 * (h.unused % 4)
  | 2 => h.frame_len % 2 ^ 24 + 2 ^ 24 * (h.log_num_chan % 32) + 2 ^ 29 * (h.vdif_version % 8)
  | 3 => h.station_id % 2 ^ 16 + 2 ^ 16 * (h.thread_id % 1024) + 2 ^ 26 * (h.bits_depth % 32)
          + 2 ^ 31 * (h.data_type % 2)
  | 4 => h.eud1 % 2 ^ 24 + 2 ^ 24 * (h.edv % 256)
  | 5 => h.eud2 % 2 ^ 32
  | 6 => h.eud3 % 2 ^ 32
  | 7 => h.eud4 % 2 ^ 32
  | _ => 0

/-- The fields read from 32 bytes in the example layout, the words stored
least significant byte first. -/
def header_read (m : Nat → Nat) : VDIFHeader :=
  let w : Nat → Int := fun i =>
    ((m (4 * i) % 256 + 256 * (m (4 * i + 1) % 256) + 65536 * (m (4 * i + 2) % 256)
      + 16777216 * (m (4 * i + 3) % 256) : Nat) : Int)
  { seconds := w 0 % 2 ^ 30, legacy := w 0 / 2 ^ 30 % 2, invalid := w 0 / 2 ^ 31 % 2
    data_frame := w 1 % 2 ^ 24, ref_epoch := w 1 / 2 ^ 24 % 64, unused := w 1 / 2 ^ 30 % 4
    frame_len := w 2 % 2 ^ 24, log_num_chan := w 2 / 2 ^ 24 % 32
    vdif_version := w 2 / 2 ^ 29 % 8
    station_id := w 3 % 2 ^ 16, thread_id := w 3 / 2 ^ 16 % 1024
    bits_depth := w 3 / 2 ^ 26 % 32, data_type := w 3 / 2 ^ 31 % 2
    eud1 := w 4 % 2 ^ 24, edv := w 4 / 2 ^ 24 % 256
    eud2 := w 5, eud3 := w 6, eud4 := w 7 }

/-- The external parameters: `PKT_RX_IP_CKSUM_BAD` is bit 4 as in DPDK, and
the example layout of the VDIF header. -/
def deps : Deps :=
  { PKT_RX_IP_CKSUM_BAD := 16
    extract_stream_id := fun x => ⟨x % 16, x / 16 % 16, x / 256 % 16, x / 4096 % 16⟩
    bin_number_16_elem := fun sid index => sid.link_id + index * 8
    vdif_header_bytes := fun h k => (header_word h (k / 4) / 256 ^ (k % 4) % 256).toNat
    vdif_header_read := header_read }

/-- A handler with the given alignment whose last accepted sequence is
`last_seq` and whose current sequence is `cur_seq`, all counters zero. -/
def handler (alignment cur_seq last_seq : Nat) : iceBoardHandler.State :=
  { cur_seq := cur_seq, last_seq := last_seq, port_stream_id := ⟨0, 0, 0, 0⟩
    got_first_packet := true, sample_size := 2048, fpga_packet_size := 4928
    samples_per_packet := 2, alignment := alignment
    rx_errors_total := 0, rx_ip_cksum_errors_total := 0, rx_packet_len_errors_total := 0
    rx_packets_total := 0, rx_bytes_total := 0, rx_out_of_order_errors_total := 0
    rx_lost_samples_total := 0, sigint_raised := 0 }

/-- A pool of two frames of 8 samples (16384 bytes); both frames start at
sequence `start`, every byte is `byte`, nothing is lost or full. -/
def pool (start byte : Nat) : Buffer :=
  { num_buffers := 2, buffer_size := 16384
    data := fun _ _ => byte
    headers := fun _ _ => ⟨0, 0, 0, 0, 0, 0, 0, 0, 0, 0, 0, 0, 0, 0, 0, 0, 0, 0⟩
    is_full := fun _ => false, fpga_seq_num := fun _ => start, stream_ID := fun _ => 0
    data_ID := fun _ => 0, first_packet_recv_time := fun _ => ⟨0, 0⟩
    bad_timesamples := fun _ => 0 }

/-- One link per core with the packed-layout output only: integration period
`period`, two samples per packet.  Every link has `first_packet = first`,
current and last sequence `seq` and `last_seq`, and writes into frame 0 of
`pool start byte`. -/
def net (period first : Int) (seq last_seq start byte : Nat) : NetworkDPDK :=
  { link_data := fun _ =>
      { seq := seq, last_seq := last_seq, stream_ID := 0, s_stream_ID := ⟨0, 0, 0, 0⟩
        first_packet := first, buffer_id := 0, vdif_buffer_id := 0, finished_buffer := 0
        data_id := 0 }
    args :=
      { buf := some (fun _ => pool start byte), num_links := 1, num_lcores := 1
        num_links_per_lcore := 1
        config := { timesamples_per_packet := 2, udp_packet_size := 4928
                    samples_per_data_set := period, num_data_sets := 1, num_gpu_frames := 1 }
        num_links_in_group := fun _ => 1, link_id := fun _ => 0, port_offset := fun _ => 0
        vdif_buf := none }
    vdif_time_set := 0, vdif_offset := 0, vdif_base_time := 0 }

/-- The wall-clock reading used in the examples. -/
def t0 : timeval := ⟨1500000000, 0⟩

/-- The arrivals on port 0 of packets with the sequence numbers `seqs`; the
payload bytes of the packet with sequence `q` are `q + 16`. -/
def arrivals (seqs : List Nat) : List (Nat × rte_mbuf × timeval) :=
  seqs.map (fun q => (0, packet q (q + 16), t0))

end Examples

namespace Examples

open network_dpdk

/-- The pool `pool start byte` with frames of `cap` bytes. -/
def pool_cap (cap : Int) (start byte : Nat) : Buffer :=
  { pool start byte with buffer_size := cap }

/-- The link setup `net` writing into `pool_cap cap start byte`. -/
def net_cap (cap period first : Int) (seq last_seq start byte : Nat) : NetworkDPDK :=
  { net period first seq last_seq start byte with
    args := { (net period first seq last_seq start byte).args with
      buf := some (fun _ => pool_cap cap start byte) } }

/-- One link per core with the timestamped output only: two frames of 8
samples (8 * 2112 bytes), two samples per packet, integration period `period`;
the time base is `time_set`, `offset`, `base`. -/
def vnet (period first : Int) (seq last_seq start : Nat) (time_set : Int)
    (offset base : Nat) : NetworkDPDK :=
  { net period first seq last_seq start 0 with
    args := { (net period first seq last_seq start 0).args with
      buf := none
      vdif_buf := some (pool_cap (8 * 2112) start 0) }
    vdif_time_set := time_set, vdif_offset := offset, vdif_base_time := base }

end Examples

namespace Examples

open network_dpdk

/-- The link setup `vnet` with timestamped frames of `cap` bytes. -/
def vnet_cap (cap period first : Int) (seq last_seq start : Nat) (time_set : Int)
    (offset base : Nat) : NetworkDPDK :=
  { vnet period first seq last_seq start time_set offset base with
    args := { (vnet period first seq last_seq start time_set offset base).args with
      vdif_buf := some (pool_cap cap start 0) } }

end Examples

/-! ## `iceBoardHandler`: sequences of calls -/

namespace iceBoardHandler

/-- A call of one of the methods of `iceBoardHandler` that read or write the
statistics counters, with its argument. -/
inductive Call where
  | check_packet (cur_mbuf : rte_mbuf)
  | check_order (diff : Int)
  | check_for_reset (diff : Int)
  | align_first_packet (mbuf : rte_mbuf)

/-- The handler after the call `c`. -/
def call (d : Deps) (h : State) : Call → State
  | Call.check_packet cur_mbuf => (check_packet d h cur_mbuf).1
  | Call.check_order diff => (check_order h diff).1
  | Call.check_for_reset diff => (check_for_reset h diff).1
  | Call.align_first_packet mbuf => (align_first_packet d h mbuf).1

/-- The handler after the calls `cs`, made in order. -/
def calls (d : Deps) (h : State) (cs : List Call) : State :=
  cs.foldl (call d) h

end iceBoardHandler

/-! ## `hdf5Writer.cpp` and `util.c` -/

namespace hdf5Writer

/-- The function `cmap`; every operand and every intermediate result is a
`uint32_t`. -/
def cmap (i j n : Nat) : Nat :=
  (to_uint32 (to_uint32 (to_uint32 (n * to_uint32 (n + 1)) / 2
      - to_uint32 (to_uint32 (n - i) * to_uint32 (to_uint32 (n - i) + 1)) / 2)
    + to_uint32 (j - i))).toNat

end hdf5Writer

namespace util

/-- The function `mod` of `util.c`.  The local `ret` is an `int`: the
remainder `a % b` (truncated division) is converted to `int`, and so is
`ret + b`; the result is returned as `int64_t`. -/
def mod (a b : Int) : Int :=
  let ret := to_int32 (Int.tmod a b)
  let ret := if ret < 0 then to_int32 (ret + b) else ret
  to_int64 ret

end util

namespace Examples

open network_dpdk

/-- The link setup `net` with both outputs enabled: the packed pool of `net`
and the timestamped pool of `vnet`, time base not yet set. -/
def bnet (period first : Int) (seq last_seq start byte : Nat) : NetworkDPDK :=
  { net period first seq last_seq start byte with
    args := { (net period first seq last_seq start byte).args with
      vdif_buf := some (pool_cap (8 * 2112) start 0) } }

end Examples

namespace network_dpdk

/-- What a call that writes nothing but VDIF headers leaves as it was when it
takes the pool `b` to `b1`: the geometry, the full flags, the metadata and the
lost-sample counts. -/
structure only_headers_changed (b b1 : Buffer) : Prop where
  num_buffers : b1.num_buffers = b.num_buffers
  buffer_size : b1.buffer_size = b.buffer_size
  is_full : b1.is_full = b.is_full
  fpga_seq_num : b1.fpga_seq_num = b.fpga_seq_num
  stream_ID : b1.stream_ID = b.stream_ID
  data_ID : b1.data_ID = b.data_ID
  first_packet_recv_time : b1.first_packet_recv_time = b.first_packet_recv_time
  bad_timesamples : b1.bad_timesamples = b.bad_timesamples

end network_dpdk

namespace network_dpdk

/-- Link `port` with the packed output only, whose pool `b` has frames of
exactly `P` samples, `P` being the integration period: the configuration, and
once the link is aligned, the start of its current frame a multiple of `P`
(with the sequence numbers in the range of the wire format). -/
structure period_frames (port P : Nat) (s : NetworkDPDK) (b : Buffer) : Prop where
  buf : get_buf s port = some b
  vdif_buf : s.args.vdif_buf = none
  period : integration_period s.args.config = P
  period_pos : 0 < P
  size : b.buffer_size = P * 2048
  tpp_pos : 1 ≤ s.args.config.timesamples_per_packet
  tpp_int : s.args.config.timesamples_per_packet < 2 ^ 31
  aligned : (s.link_data port).first_packet ≠ 1 →
    (P : Int) ∣ b.fpga_seq_num (s.link_data port).buffer_id
    ∧ b.fpga_seq_num (s.link_data port).buffer_id < 2 ^ 50
    ∧ (s.link_data port).last_seq < 2 ^ 48

end network_dpdk

namespace network_dpdk

/-- A correctly configured link `port` with the packed output only and pool
`b`: at least one sample per packet, a frame capacity that fits an `int` and is
a positive multiple of the payload of a packet; and once the link is aligned,
the last accepted sequence is a multiple of `timesamples_per_packet`, not
before the start of the current frame, a whole number of packets after it, and
the slot of the packet at that sequence lies inside the frame. -/
structure packed_frames (port : Nat) (s : NetworkDPDK) (b : Buffer) : Prop where
  buf : get_buf s port = some b
  vdif_buf : s.args.vdif_buf = none
  tpp_pos : 1 ≤ s.args.config.timesamples_per_packet
  size_int : b.buffer_size < 2 ^ 31
  size_mult : ∃ c : Int, 1 ≤ c
    ∧ b.buffer_size = c * (s.args.config.timesamples_per_packet * 2048)
  aligned : (s.link_data port).first_packet ≠ 1 →
    (b.fpga_seq_num (s.link_data port).buffer_id : Int) ≤ (s.link_data port).last_seq
    ∧ s.args.config.timesamples_per_packet ∣ ((s.link_data port).last_seq : Int)
    ∧ s.args.config.timesamples_per_packet
        ∣ ((s.link_data port).last_seq : Int) - b.fpga_seq_num (s.link_data port).buffer_id
    ∧ (((s.link_data port).last_seq : Int) - b.fpga_seq_num (s.link_data port).buffer_id
        + s.args.config.timesamples_per_packet) * 2048 ≤ b.buffer_size
    ∧ (s.link_data port).last_seq < 2 ^ 48

/-- The frame id that `advance_vdif_frame` moves on to from `id` in a pool of
`num_buffers` frames, `(vdif_buffer_id + 1) % num_buffers` in `int`
arithmetic. -/
def next_vdif_buffer_id (num_buffers id : Int) : Int :=
  to_int32 (Int.tmod (to_int32 (id + 1)) num_buffers)

/-- The frame id reached from `id` by `j` calls of `advance_vdif_frame`. -/
def vdif_buffer_id_after (num_buffers : Int) : Nat → Int → Int
  | 0, id => id
  | j + 1, id => vdif_buffer_id_after num_buffers j (next_vdif_buffer_id num_buffers id)

/-- The header at byte index `idx` of frame `id` is one that the timestamped
loss handler has written for element `e`: its invalid flag is 1, its thread id
is `e`, and the 32 bytes from `idx` on are the bytes of this record. -/
def lost_header (d : Deps) (b : Buffer) (id idx : Int) (e : Int) : Prop :=
  (b.headers id idx).invalid = 1 ∧ (b.headers id idx).thread_id = e
  ∧ ∀ k : Nat, k < 32 → b.data id (idx + k) = d.vdif_header_bytes (b.headers id idx) k

/-- Whether every packet of the stream `pkts` that arrives on link `port`
while the link is aligned finds a gap `seq - last_seq` below `bound`; the
state is taken from packet to packet by `recv_pkt`. -/
def gaps_below (d : Deps) (port : Nat) (bound : Int) :
    NetworkDPDK → List (rte_mbuf × timeval) → Bool
  | _, [] => true
  | s, p :: rest =>
    (decide ((s.link_data port).first_packet = 1)
      || decide ((get_mbuf_seq_num p.1 : Int) - (s.link_data port).last_seq < bound))
    && (match recv_pkt d s port p.1 p.2 with
        | none => true
        | some (t, _) => gaps_below d port bound t rest)

end network_dpdk

/-! ## Machine integer lemmas -/

theorem to_int64_of_range (x : Int) (h1 : -2 ^ 63 ≤ x) (h2 : x < 2 ^ 63) : to_int64 x = x := by
  unfold to_int64; omega

theorem to_int32_of_range (x : Int) (h1 : -2 ^ 31 ≤ x) (h2 : x < 2 ^ 31) : to_int32 x = x := by
  unfold to_int32; omega

theorem to_uint64_of_range (x : Int) (h1 : 0 ≤ x) (h2 : x < 2 ^ 64) : to_uint64 x = x := by
  unfold to_uint64; omega

theorem to_int32_to_uint64 (x : Int) : to_int32 (to_uint64 x) = to_int32 x := by
  unfold to_int32 to_uint64; omega

theorem read_uint32_lt (m : rte_mbuf) (off : Nat) : read_uint32 m off < 2 ^ 32 := by
  unfold read_uint32; omega

theorem get_mbuf_seq_num_lt (m : rte_mbuf) : get_mbuf_seq_num m < 2 ^ 48 := by
  unfold get_mbuf_seq_num
  have h1 := read_uint32_lt m 54
  have h2 : 0xFFFF &&& read_uint32 m 50 ≤ 0xFFFF := Nat.and_le_left
  rw [Nat.shiftLeft_eq]
  omega

/-! ## `iceBoardHandler`: ordering and reset checks -/


/-- C4. Stale packets in the handler.  `check_order diff` returns `false`
exactly when `diff < 0`.  In that case, as long as the two 64-bit counters do
not wrap, `rx_out_of_order_errors_total` and `rx_errors_total` each grow by
exactly 1 and every other member (`last_seq`, `cur_seq`, the other counters) is
unchanged; when `diff >= 0` it returns `true` and the handler is unchanged. -/
theorem C4_check_order (h : iceBoardHandler.State) (diff : Int)
    (hoo : h.rx_out_of_order_errors_total + 1 < 2 ^ 64)
    (herr : h.rx_errors_total + 1 < 2 ^ 64) :
    ((iceBoardHandler.check_order h diff).2 = false ↔ diff < 0)
    ∧ (diff < 0 →
        (iceBoardHandler.check_order h diff).1 =
          { h with
            rx_out_of_order_errors_total := h.rx_out_of_order_errors_total + 1
            rx_errors_total := h.rx_errors_total + 1 })
    ∧ (0 ≤ diff → iceBoardHandler.check_order h diff = (h, true)) := by
  unfold iceBoardHandler.check_order u64_add
  by_cases hd : diff < 0
  · simp [hd, Nat.mod_eq_of_lt hoo, Nat.mod_eq_of_lt herr]
    omega
  · simp [hd, Int.not_lt.mp hd]

/-- Witness of C4 (Scenario B): with `last_seq = 100` and `cur_seq = 98` the
difference is `-2`, `check_order` returns `false`, `last_seq` stays 100 and the
out-of-order counter goes from 0 to 1. -/
theorem C4_check_order_witness :
    iceBoardHandler.get_packet_diff (Examples.handler 8 98 100) = -2
    ∧ (iceBoardHandler.check_order (Examples.handler 8 98 100)
        (iceBoardHandler.get_packet_diff (Examples.handler 8 98 100))).2 = false
    ∧ (iceBoardHandler.check_order (Examples.handler 8 98 100)
        (iceBoardHandler.get_packet_diff (Examples.handler 8 98 100))).1.last_seq = 100
    ∧ (iceBoardHandler.check_order (Examples.handler 8 98 100)
        (iceBoardHandler.get_packet_diff (Examples.handler 8 98 100))).1.rx_out_of_order_errors_total
        = 1 := by
  have hw := C4_check_order (Examples.handler 8 98 100)
    (iceBoardHandler.get_packet_diff (Examples.handler 8 98 100)) (by decide) (by decide)
  have hneg : iceBoardHandler.get_packet_diff (Examples.handler 8 98 100) < 0 := by decide
  refine ⟨by decide, hw.1.mpr hneg, ?_, ?_⟩
  · rw [hw.2.1 hneg]; rfl
  · rw [hw.2.1 hneg]; rfl

/-- C5. Reset classification.  `check_for_reset diff` returns `false` (fatal
reset, with one `raise(SIGINT)`) exactly when `diff < -1000` and returns `true`
with the handler unchanged otherwise; `-1000` is not a reset, `-1001` is, and
`last_seq = 5000` followed by `seq = 2900` gives `diff = -2100`, a reset. -/
theorem C5_check_for_reset (h : iceBoardHandler.State) (diff : Int) :
    ((iceBoardHandler.check_for_reset h diff).2 = false ↔ diff < -1000)
    ∧ ((iceBoardHandler.check_for_reset h diff).2 = true ↔ -1000 ≤ diff)
    ∧ (iceBoardHandler.check_for_reset h diff).1 =
        (if diff < -1000 then { h with sigint_raised := h.sigint_raised + 1 } else h)
    ∧ (iceBoardHandler.check_for_reset h (-1000)).2 = true
    ∧ (iceBoardHandler.check_for_reset h (-1001)).2 = false
    ∧ iceBoardHandler.get_packet_diff (Examples.handler 8 2900 5000) = -2100
    ∧ (iceBoardHandler.check_for_reset h
        (iceBoardHandler.get_packet_diff (Examples.handler 8 2900 5000))).2 = false := by
  have hd : iceBoardHandler.get_packet_diff (Examples.handler 8 2900 5000) = -2100 := by decide
  rw [hd]
  unfold iceBoardHandler.check_for_reset
  refine ⟨?_, ?_, ?_, by simp, by simp, rfl, by simp⟩
  · by_cases hc : diff < -1000 <;> simp [hc]
  · by_cases hc : diff < -1000
    · simp [hc]
    · simp [hc, Int.not_lt.mp hc]
  · by_cases hc : diff < -1000 <;> simp [hc]

/-! ## `network_dpdk.c`: state bookkeeping -/

namespace network_dpdk

theorem link_kept_refl (s : NetworkDPDK) (port : Nat) : link_kept s s port :=
  ⟨rfl, rfl, rfl, rfl, rfl, fun _ _ => rfl, rfl, rfl, rfl, rfl, rfl, rfl, rfl⟩

theorem link_kept_trans {s t u : NetworkDPDK} {port : Nat} (h1 : link_kept s t port)
    (h2 : link_kept t u port) : link_kept s u port :=
  ⟨h2.seq.trans h1.seq, h2.last_seq.trans h1.last_seq, h2.first_packet.trans h1.first_packet,
   h2.stream_ID.trans h1.stream_ID, h2.s_stream_ID.trans h1.s_stream_ID,
   fun p hp => (h2.others p hp).trans (h1.others p hp), h2.config.trans h1.config,
   h2.num_links_in_group.trans h1.num_links_in_group, h2.buf.trans h1.buf,
   h2.vdif_buf.trans h1.vdif_buf, h2.vdif_time_set.trans h1.vdif_time_set,
   h2.vdif_offset.trans h1.vdif_offset, h2.vdif_base_time.trans h1.vdif_base_time⟩

@[simp] theorem set_link_link_data_self (s : NetworkDPDK) (port : Nat) (ld : LinkData) :
    (set_link s port ld).link_data port = ld := by
  simp [set_link]

theorem set_link_link_data_other (s : NetworkDPDK) (port p : Nat) (ld : LinkData)
    (h : p ≠ port) : (set_link s port ld).link_data p = s.link_data p := by
  simp [set_link, Function.update_noteq h]

@[simp] theorem set_link_args (s : NetworkDPDK) (port : Nat) (ld : LinkData) :
    (set_link s port ld).args = s.args := rfl

@[simp] theorem set_buf_link_data (s : NetworkDPDK) (port : Nat) (b : Buffer) :
    (set_buf s port b).link_data = s.link_data := rfl

@[simp] theorem set_buf_vdif_buf (s : NetworkDPDK) (port : Nat) (b : Buffer) :
    (set_buf s port b).args.vdif_buf = s.args.vdif_buf := rfl

@[simp] theorem set_buf_config (s : NetworkDPDK) (port : Nat) (b : Buffer) :
    (set_buf s port b).args.config = s.args.config := rfl

@[simp] theorem set_vdif_buf_link_data (s : NetworkDPDK) (b : Buffer) :
    (set_vdif_buf s b).link_data = s.link_data := rfl

@[simp] theorem set_vdif_buf_buf (s : NetworkDPDK) (b : Buffer) :
    (set_vdif_buf s b).args.buf = s.args.buf := rfl

@[simp] theorem set_vdif_buf_config (s : NetworkDPDK) (b : Buffer) :
    (set_vdif_buf s b).args.config = s.args.config := rfl

theorem get_buf_set_buf (s : NetworkDPDK) (port : Nat) (b b0 : Buffer)
    (h : get_buf s port = some b0) : get_buf (set_buf s port b) port = some b := by
  unfold get_buf set_buf at *
  cases hb : s.args.buf with
  | none => simp [hb] at h
  | some bufs => simp

@[simp] theorem get_buf_set_link (s : NetworkDPDK) (port p : Nat) (ld : LinkData) :
    get_buf (set_link s port ld) p = get_buf s p := rfl

theorem get_buf_isSome (s : NetworkDPDK) (port : Nat) (b : Buffer)
    (h : get_buf s port = some b) : s.args.buf.isSome = true := by
  unfold get_buf at h
  cases hb : s.args.buf with
  | none => simp [hb] at h
  | some bufs => rfl

theorem get_buf_of_isSome (s : NetworkDPDK) (port : Nat) (h : s.args.buf.isSome = true) :
    ∃ b, get_buf s port = some b := by
  unfold get_buf
  cases hb : s.args.buf with
  | none => simp [hb] at h
  | some bufs => exact ⟨bufs port, rfl⟩

theorem link_kept_set_buf (s : NetworkDPDK) (port : Nat) (b b0 : Buffer)
    (h : get_buf s port = some b0) : link_kept s (set_buf s port b) port := by
  have hs := get_buf_isSome s port b0 h
  refine ⟨rfl, rfl, rfl, rfl, rfl, fun _ _ => rfl, rfl, rfl, ?_, rfl, rfl, rfl, rfl⟩
  unfold set_buf
  cases hb : s.args.buf <;> simp

theorem link_kept_set_vdif_buf (s : NetworkDPDK) (port : Nat) (b : Buffer) :
    link_kept s (set_vdif_buf s b) port := by
  refine ⟨rfl, rfl, rfl, rfl, rfl, fun _ _ => rfl, rfl, rfl, rfl, ?_, rfl, rfl, rfl⟩
  unfold set_vdif_buf
  cases hb : s.args.vdif_buf <;> simp

/-- With the packed output enabled `advance_frame` returns; it changes the
current frame id and the data id of the link and the metadata of the pool. -/
theorem advance_frame_eq (s : NetworkDPDK) (port : Nat) (new_seq : Nat) (now : timeval)
    (b : Buffer) (h : get_buf s port = some b) :
    ∃ t b1, advance_frame s port new_seq now = some t ∧ get_buf t port = some b1
      ∧ link_kept s t port ∧ t.args.vdif_buf = s.args.vdif_buf
      ∧ b1.data = b.data ∧ b1.bad_timesamples = b.bad_timesamples
      ∧ b1.buffer_size = b.buffer_size ∧ b1.num_buffers = b.num_buffers
      ∧ (t.link_data port).buffer_id
          = to_int32 (to_uint32 ((s.link_data port).buffer_id + s.args.num_links_in_group port)
              % to_uint32 b.num_buffers)
      ∧ b1.fpga_seq_num (t.link_data port).buffer_id = new_seq := by
  unfold advance_frame
  rw [h]
  refine ⟨_, _, rfl, get_buf_set_buf _ _ _ b (by simpa using h), ?_, rfl, rfl, rfl, rfl, rfl,
    ?_, ?_⟩
  · refine link_kept_trans ?_ (link_kept_set_buf _ port _ b (by simpa using h))
    exact ⟨by simp, by simp, by simp, by simp, by simp,
      fun p hp => set_link_link_data_other _ _ _ _ hp, rfl, rfl, rfl, rfl, rfl, rfl, rfl⟩
  · simp
  · simp [set_fpga_seq_num]


/-- The filler loop of `handle_lost_packets` ends within `lost_frames`
iterations when a packet holds at least one sample; it keeps the link's
sequence fields, the lost-sample counts and the other output. -/
theorem lost_packets_loop_some (port : Nat) (now : timeval) (buffer_id tpp : Int)
    (h1 : 1 ≤ tpp) (h2 : tpp < 2 ^ 31) :
    ∀ (fuel : Nat) (s : NetworkDPDK) (fl cs lf : Int) (b : Buffer),
      lf ≤ fuel → lf < 2 ^ 31 → get_buf s port = some b →
      ∃ t b1, lost_packets_loop port now buffer_id tpp fuel s fl cs lf = some t
        ∧ get_buf t port = some b1 ∧ link_kept s t port
        ∧ t.args.vdif_buf = s.args.vdif_buf
        ∧ b1.bad_timesamples = b.bad_timesamples ∧ b1.buffer_size = b.buffer_size
        ∧ b1.num_buffers = b.num_buffers := by
  intro fuel
  induction fuel with
  | zero =>
    intro s fl cs lf b hle _ hb
    have : ¬ lf > 0 := by simp at hle; omega
    exact ⟨s, b, by simp [lost_packets_loop, this], hb, link_kept_refl s port, rfl, rfl, rfl, rfl⟩
  | succ n ih =>
    intro s fl cs lf b hle hlt hb
    by_cases hpos : lf > 0
    · rw [lost_packets_loop]
      simp only [hpos, if_true, hb]
      by_cases hadv : to_int64 (fl * 2048) = b.buffer_size
      · obtain ⟨t, b1, ht, hb1, hk, hv, hd, hbad, hsz, hnb, _, _⟩ :=
          advance_frame_eq s port (to_uint64 cs).toNat now b hb
        simp only [hadv, decide_True, if_true, ht, hb1]
        have hb2 := get_buf_set_buf t port
          (nt_memset b1 buffer_id (to_int64 (0 * 2048)) 0x88 (to_int64 (2048 * tpp))) b1 hb1
        obtain ⟨u, b3, hu, hb3, hk3, hv3, hbad3, hsz3, hnb3⟩ :=
          ih _ (to_int64 (0 + tpp)) (to_int64 (cs + tpp)) (to_int32 (lf - tpp)) _
            (by rw [to_int32_of_range _ (by omega) (by omega)]; push_cast at hle; omega)
            (by rw [to_int32_of_range _ (by omega) (by omega)]; omega) hb2
        refine ⟨u, b3, hu, hb3, ?_, ?_, ?_, ?_, ?_⟩
        · exact link_kept_trans (link_kept_trans hk (link_kept_set_buf t port _ b1 hb1)) hk3
        · rw [hv3]; simpa using hv
        · rw [hbad3]; simpa [nt_memset] using hbad
        · rw [hsz3]; simpa [nt_memset] using hsz
        · rw [hnb3]; simpa [nt_memset] using hnb
      · simp only [hadv, decide_False, if_false, hb, Bool.false_eq_true]
        have hb2 := get_buf_set_buf s port
          (nt_memset b buffer_id (to_int64 (fl * 2048)) 0x88 (to_int64 (2048 * tpp))) b hb
        obtain ⟨u, b3, hu, hb3, hk3, hv3, hbad3, hsz3, hnb3⟩ :=
          ih _ (to_int64 (fl + tpp)) (to_int64 (cs + tpp)) (to_int32 (lf - tpp)) _
            (by rw [to_int32_of_range _ (by omega) (by omega)]; push_cast at hle; omega)
            (by rw [to_int32_of_range _ (by omega) (by omega)]; omega) hb2
        refine ⟨u, b3, hu, hb3, ?_, ?_, ?_, ?_, ?_⟩
        · exact link_kept_trans (link_kept_set_buf s port _ b hb) hk3
        · rw [hv3]; simp
        · rw [hbad3]; simp [nt_memset]
        · rw [hsz3]; simp [nt_memset]
        · rw [hnb3]; simp [nt_memset]
    · refine ⟨s, b, ?_, hb, link_kept_refl s port, rfl, rfl, rfl, rfl⟩
      cases n <;> simp [lost_packets_loop, hpos]


/-- With the packed output enabled and at least one sample per packet
`handle_lost_packets` returns.  It adds `(int)(seq - last_seq)` to the
lost-sample count of the frame that is current on entry and changes no other
count. -/
theorem handle_lost_packets_some (s : NetworkDPDK) (port : Nat) (now : timeval) (b : Buffer)
    (hb : get_buf s port = some b) (h1 : 1 ≤ s.args.config.timesamples_per_packet)
    (h2 : s.args.config.timesamples_per_packet < 2 ^ 31) :
    ∃ t b1, handle_lost_packets s port now = some t ∧ get_buf t port = some b1
      ∧ link_kept s t port ∧ t.args.vdif_buf = s.args.vdif_buf
      ∧ b1.bad_timesamples = Function.update b.bad_timesamples (s.link_data port).buffer_id
          (b.bad_timesamples (s.link_data port).buffer_id
            + to_int32 (((s.link_data port).seq : Int) - (s.link_data port).last_seq))
      ∧ b1.buffer_size = b.buffer_size ∧ b1.num_buffers = b.num_buffers := by
  unfold handle_lost_packets
  simp only [hb]
  have htpp : to_int64 s.args.config.timesamples_per_packet
      = s.args.config.timesamples_per_packet := to_int64_of_range _ (by omega) (by omega)
  rw [htpp]
  have hb2 := get_buf_set_buf s port (add_bad_timesamples b (s.link_data port).buffer_id
    (to_int32 (to_uint64 (((s.link_data port).seq : Int) - (s.link_data port).last_seq)))) b hb
  obtain ⟨t, b1, ht, hb1, hk, hv, hbad, hsz, hnb⟩ :=
    lost_packets_loop_some port now (s.link_data port).buffer_id
      s.args.config.timesamples_per_packet h1 h2
      (to_int32 (to_uint64 (((s.link_data port).seq : Int) - (s.link_data port).last_seq))).toNat
      _ (to_int64 (((s.link_data port).last_seq : Int) + s.args.config.timesamples_per_packet
          - get_fpga_seq_num b (s.link_data port).buffer_id))
      (to_int64 (((s.link_data port).last_seq : Int) + s.args.config.timesamples_per_packet))
      (to_int32 (to_uint64 (((s.link_data port).seq : Int) - (s.link_data port).last_seq))) _
      (Int.self_le_toNat _) (by unfold to_int32; omega) hb2
  refine ⟨t, b1, ht, hb1, link_kept_trans (link_kept_set_buf s port _ b hb) hk, ?_, ?_, ?_, ?_⟩
  · rw [hv]; simp
  · rw [hbad, to_int32_to_uint64]; simp [add_bad_timesamples]
  · rw [hsz]; simp [add_bad_timesamples]
  · rw [hnb]; simp [add_bad_timesamples]

/-- The frame writer when the packet does not start a new frame: the payload is
copied to byte offset `frame_location * 2048` of the current frame. -/
theorem copy_data_no_shuffle_stay (s : NetworkDPDK) (m : rte_mbuf) (port : Nat) (now : timeval)
    (b : Buffer) (hb : get_buf s port = some b)
    (hadv : to_int64 (to_int64 (((s.link_data port).seq : Int)
        - get_fpga_seq_num b (s.link_data port).buffer_id) * 2048) ≠ b.buffer_size) :
    copy_data_no_shuffle s m port now = some (set_buf s port
      (copy_block m b (s.link_data port).buffer_id
        (to_int64 (to_int64 (((s.link_data port).seq : Int)
          - get_fpga_seq_num b (s.link_data port).buffer_id) * 2048))
        (to_int32 (2048 * s.args.config.timesamples_per_packet)) 58)) := by
  unfold copy_data_no_shuffle
  simp only [hb, hadv, decide_False, if_false, Bool.false_eq_true]

/-- The frame writer when the packet starts a new frame: after `advance_frame`
the payload is copied to byte offset 0 of the new current frame. -/
theorem copy_data_no_shuffle_advance (s : NetworkDPDK) (m : rte_mbuf) (port : Nat) (now : timeval)
    (b : Buffer) (hb : get_buf s port = some b)
    (hadv : to_int64 (to_int64 (((s.link_data port).seq : Int)
        - get_fpga_seq_num b (s.link_data port).buffer_id) * 2048) = b.buffer_size) :
    ∃ t b1, advance_frame s port (s.link_data port).seq now = some t
      ∧ get_buf t port = some b1
      ∧ copy_data_no_shuffle s m port now = some (set_buf t port
          (copy_block m b1 (t.link_data port).buffer_id 0
            (to_int32 (2048 * s.args.config.timesamples_per_packet)) 58)) := by
  obtain ⟨t, b1, ht, hb1, _⟩ := advance_frame_eq s port (s.link_data port).seq now b hb
  refine ⟨t, b1, ht, hb1, ?_⟩
  unfold copy_data_no_shuffle
  simp only [hb, hadv, decide_True, if_true, ht, hb1]
  simp [to_int64]

/-- With the packed output enabled `copy_data_no_shuffle` returns; it keeps the
link's sequence fields, the lost-sample counts and the other output. -/
theorem copy_data_no_shuffle_some (s : NetworkDPDK) (m : rte_mbuf) (port : Nat) (now : timeval)
    (b : Buffer) (hb : get_buf s port = some b) :
    ∃ t b1, copy_data_no_shuffle s m port now = some t ∧ get_buf t port = some b1
      ∧ link_kept s t port ∧ t.args.vdif_buf = s.args.vdif_buf
      ∧ b1.bad_timesamples = b.bad_timesamples := by
  by_cases hadv : to_int64 (to_int64 (((s.link_data port).seq : Int)
        - get_fpga_seq_num b (s.link_data port).buffer_id) * 2048) = b.buffer_size
  · obtain ⟨t, b1, ht, hb1, hk, hv, _, hbad, _⟩ :=
      advance_frame_eq s port (s.link_data port).seq now b hb
    obtain ⟨t2, b2, ht2, hb2, hc⟩ := copy_data_no_shuffle_advance s m port now b hb hadv
    rw [ht] at ht2
    cases ht2
    rw [hb1] at hb2
    cases hb2
    refine ⟨_, _, hc, get_buf_set_buf _ _ _ b1 hb1,
      link_kept_trans hk (link_kept_set_buf _ port _ b1 hb1), ?_, ?_⟩
    · simpa using hv
    · simpa [copy_block] using hbad
  · refine ⟨_, _, copy_data_no_shuffle_stay s m port now b hb hadv, get_buf_set_buf _ _ _ b hb,
      link_kept_set_buf _ port _ b hb, by simp, by simp [copy_block]⟩


theorem advance_vdif_frame_kept (s t : NetworkDPDK) (port : Nat) (new_seq : Nat) (now : timeval)
    (h : advance_vdif_frame s port new_seq now = some t) :
    link_kept s t port ∧ t.args.buf = s.args.buf := by
  unfold advance_vdif_frame at h
  cases hv : s.args.vdif_buf with
  | none => simp [hv] at h
  | some vb =>
    simp only [hv, Option.some.injEq] at h
    subst h
    refine ⟨link_kept_trans ?_ (link_kept_set_vdif_buf _ port _), rfl⟩
    exact ⟨by simp, by simp, by simp, by simp, by simp,
      fun p hp => set_link_link_data_other _ _ _ _ hp, rfl, rfl, rfl, rfl, rfl, rfl, rfl⟩

theorem set_vdif_header_options_kept (d : Deps) (s t : NetworkDPDK) (loc ne len inv : Int)
    (seq port : Nat)
    (h : set_vdif_header_options d s loc ne len inv seq port = some t) :
    link_kept s t port ∧ t.args.buf = s.args.buf := by
  unfold set_vdif_header_options at h
  cases hv : s.args.vdif_buf with
  | none => simp [hv] at h
  | some vb =>
    simp only [hv, Option.map_eq_some'] at h
    obtain ⟨b, _, hb⟩ := h
    subst hb
    exact ⟨link_kept_set_vdif_buf _ port _, rfl⟩

theorem lost_raw_packets_loop_kept (d : Deps) (port : Nat) (now : timeval) (tpp : Int) :
    ∀ (fuel : Nat) (s t : NetworkDPDK) (fl cs lf : Int),
      lost_raw_packets_loop d port now tpp fuel s fl cs lf = some t →
      link_kept s t port ∧ t.args.buf = s.args.buf := by
  intro fuel
  induction fuel with
  | zero =>
    intro s t fl cs lf h
    unfold lost_raw_packets_loop at h
    split_ifs at h
    cases h
    exact ⟨link_kept_refl _ _, rfl⟩
  | succ n ih =>
    intro s t fl cs lf h
    rw [lost_raw_packets_loop] at h
    split_ifs at h with hpos
    · cases hv : s.args.vdif_buf with
      | none => simp [hv] at h
      | some vb =>
        simp only [hv] at h
        split at h
        · cases h
        · rename_i s1 hs1
          have hk1 : link_kept s s1 port ∧ s1.args.buf = s.args.buf := by
            split_ifs at hs1
            · exact advance_vdif_frame_kept _ _ _ _ _ hs1
            · cases hs1
              exact ⟨link_kept_refl _ _, rfl⟩
          split at h
          · cases h
          · rename_i s2 hs2
            have hk2 := set_vdif_header_options_kept _ _ _ _ _ _ _ _ _ hs2
            have hk3 := ih _ _ _ _ _ h
            exact ⟨link_kept_trans (link_kept_trans hk1.1 hk2.1) hk3.1,
              hk3.2.trans (hk2.2.trans hk1.2)⟩
    · cases h
      exact ⟨link_kept_refl _ _, rfl⟩

theorem handle_lost_raw_packets_kept (d : Deps) (s t : NetworkDPDK) (port : Nat) (now : timeval)
    (h : handle_lost_raw_packets d s port now = some t) :
    link_kept s t port ∧ t.args.buf = s.args.buf := by
  unfold handle_lost_raw_packets at h
  cases hv : s.args.vdif_buf with
  | none => simp [hv] at h
  | some vb =>
    simp only [hv] at h
    have hk := lost_raw_packets_loop_kept _ _ _ _ _ _ _ _ _ _ h
    exact ⟨link_kept_trans (link_kept_set_vdif_buf _ port _) hk.1, hk.2⟩

theorem copy_data_to_vdif_kept (d : Deps) (s t : NetworkDPDK) (m : rte_mbuf) (port : Nat)
    (now : timeval) (h : copy_data_to_vdif d s m port now = some t) :
    link_kept s t port ∧ t.args.buf = s.args.buf := by
  unfold copy_data_to_vdif at h
  cases hv : s.args.vdif_buf with
  | none => simp [hv] at h
  | some vb =>
    simp only [hv] at h
    split at h
    · cases h
    · rename_i s1 hs1
      have hk1 : link_kept s s1 port ∧ s1.args.buf = s.args.buf := by
        split_ifs at hs1
        · exact advance_vdif_frame_kept _ _ _ _ _ hs1
        · cases hs1
          exact ⟨link_kept_refl _ _, rfl⟩
      split_ifs at h
      all_goals
        split at h
        · cases h
        · rename_i s2 hs2
          have hk2 : link_kept s1 s2 port ∧ s2.args.buf = s1.args.buf := by
            first
              | exact set_vdif_header_options_kept _ _ _ _ _ _ _ _ _ hs2
              | (cases hs2; exact ⟨link_kept_refl _ _, rfl⟩)
          split at h
          · cases h
          · cases h
            exact ⟨link_kept_trans (link_kept_trans hk1.1 hk2.1)
              (link_kept_set_vdif_buf _ port _), hk2.2.trans hk1.2⟩


theorem advance_frame_kept (s t : NetworkDPDK) (port : Nat) (new_seq : Nat) (now : timeval)
    (h : advance_frame s port new_seq now = some t) :
    link_kept s t port ∧ t.args.vdif_buf = s.args.vdif_buf := by
  cases hb : get_buf s port with
  | none => simp [advance_frame, hb] at h
  | some b =>
    obtain ⟨t1, _, ht1, _, hk, hv, _⟩ := advance_frame_eq s port new_seq now b hb
    rw [h] at ht1
    cases ht1
    exact ⟨hk, hv⟩

theorem lost_packets_loop_kept (port : Nat) (now : timeval) (buffer_id tpp : Int) :
    ∀ (fuel : Nat) (s t : NetworkDPDK) (fl cs lf : Int),
      lost_packets_loop port now buffer_id tpp fuel s fl cs lf = some t →
      link_kept s t port ∧ t.args.vdif_buf = s.args.vdif_buf := by
  intro fuel
  induction fuel with
  | zero =>
    intro s t fl cs lf h
    unfold lost_packets_loop at h
    split_ifs at h
    cases h
    exact ⟨link_kept_refl _ _, rfl⟩
  | succ n ih =>
    intro s t fl cs lf h
    rw [lost_packets_loop] at h
    split_ifs at h with hpos
    · cases hb : get_buf s port with
      | none => simp [hb] at h
      | some b =>
        simp only [hb] at h
        split at h
        · cases h
        · rename_i s1 hs1
          have hk1 : link_kept s s1 port ∧ s1.args.vdif_buf = s.args.vdif_buf := by
            split_ifs at hs1
            · exact advance_frame_kept _ _ _ _ _ hs1
            · cases hs1
              exact ⟨link_kept_refl _ _, rfl⟩
          cases hb1 : get_buf s1 port with
          | none => simp [hb1] at h
          | some b1 =>
            simp only [hb1] at h
            have hk3 := ih _ _ _ _ _ h
            exact ⟨link_kept_trans (link_kept_trans hk1.1 (link_kept_set_buf _ port _ b1 hb1))
              hk3.1, hk3.2.trans (by simpa using hk1.2)⟩
    · cases h
      exact ⟨link_kept_refl _ _, rfl⟩

theorem handle_lost_packets_kept (s t : NetworkDPDK) (port : Nat) (now : timeval)
    (h : handle_lost_packets s port now = some t) :
    link_kept s t port ∧ t.args.vdif_buf = s.args.vdif_buf := by
  unfold handle_lost_packets at h
  cases hb : get_buf s port with
  | none => simp [hb] at h
  | some b =>
    simp only [hb] at h
    have hk := lost_packets_loop_kept _ _ _ _ _ _ _ _ _ _ h
    exact ⟨link_kept_trans (link_kept_set_buf _ port _ b hb) hk.1, by simpa using hk.2⟩

theorem copy_data_no_shuffle_kept (s t : NetworkDPDK) (m : rte_mbuf) (port : Nat) (now : timeval)
    (h : copy_data_no_shuffle s m port now = some t) :
    link_kept s t port ∧ t.args.vdif_buf = s.args.vdif_buf := by
  cases hb : get_buf s port with
  | none => simp [copy_data_no_shuffle, hb] at h
  | some b =>
    obtain ⟨t1, _, ht1, _, hk, hv, _⟩ := copy_data_no_shuffle_some s m port now b hb
    rw [h] at ht1
    cases ht1
    exact ⟨hk, hv⟩

/-- The difference computed by `lcore_recv_pkt` is the exact difference of the
two sequence numbers when both are below 2^63. -/
theorem diff_exact (seq last_seq : Nat) (h1 : seq < 2 ^ 63) (h2 : last_seq < 2 ^ 63) :
    to_int64 (to_int64 seq - to_int64 last_seq) = (seq : Int) - last_seq := by
  unfold to_int64; omega

/-- A packet older than the last accepted one leaves `recv_pkt_seq` through
`goto release_frame` with only `link_data[port].seq` assigned. -/
theorem recv_pkt_seq_stale (d : Deps) (s : NetworkDPDK) (port : Nat) (m : rte_mbuf)
    (now : timeval) (hlast : (s.link_data port).last_seq < 2 ^ 63)
    (hlt : get_mbuf_seq_num m < (s.link_data port).last_seq) :
    recv_pkt_seq d s port m now
      = some (set_link s port { s.link_data port with seq := get_mbuf_seq_num m },
          Outcome.stale) := by
  have hseq := get_mbuf_seq_num_lt m
  unfold recv_pkt_seq
  simp only [set_link_link_data_self]
  rw [diff_exact _ _ (by omega) hlast]
  have : ((get_mbuf_seq_num m : Int) - (s.link_data port).last_seq) < 0 := by omega
  simp [this]

/-- A packet not older than the last accepted one is never dropped by
`recv_pkt_seq`: whenever the writers return, the outcome is `accepted`, the
loss handlers having been called exactly when `diff > timesamples_per_packet`,
and `last_seq` and `seq` both equal the sequence of the packet. -/
theorem recv_pkt_seq_accept (d : Deps) (s t : NetworkDPDK) (port : Nat) (m : rte_mbuf)
    (now : timeval) (o : Outcome) (hlast : (s.link_data port).last_seq < 2 ^ 63)
    (hle : (s.link_data port).last_seq ≤ get_mbuf_seq_num m)
    (h : recv_pkt_seq d s port m now = some (t, o)) :
    o = Outcome.accepted
          (s.args.buf.isSome && decide (to_int64 s.args.config.timesamples_per_packet
              < (get_mbuf_seq_num m : Int) - (s.link_data port).last_seq))
          (s.args.vdif_buf.isSome && decide (to_int64 s.args.config.timesamples_per_packet
              < (get_mbuf_seq_num m : Int) - (s.link_data port).last_seq))
    ∧ (t.link_data port).last_seq = get_mbuf_seq_num m
    ∧ (t.link_data port).seq = get_mbuf_seq_num m
    ∧ (t.link_data port).first_packet = (s.link_data port).first_packet
    ∧ (t.link_data port).stream_ID = (s.link_data port).stream_ID
    ∧ (t.link_data port).s_stream_ID = (s.link_data port).s_stream_ID
    ∧ (∀ p, p ≠ port → t.link_data p = s.link_data p)
    ∧ t.args.config = s.args.config
    ∧ t.vdif_time_set = s.vdif_time_set ∧ t.vdif_offset = s.vdif_offset
    ∧ t.vdif_base_time = s.vdif_base_time := by
  have hseq := get_mbuf_seq_num_lt m
  unfold recv_pkt_seq at h
  simp only [set_link_link_data_self] at h
  rw [diff_exact _ _ (by omega) hlast] at h
  have hnn : ¬ ((get_mbuf_seq_num m : Int) - (s.link_data port).last_seq) < 0 := by omega
  simp only [hnn, if_false] at h
  split at h
  · cases h
  · rename_i s3 hs3
    have hk3 : link_kept (set_link s port { s.link_data port with seq := get_mbuf_seq_num m })
        s3 port ∧ s3.args.vdif_buf = s.args.vdif_buf := by
      split_ifs at hs3
      · simp only [Option.bind_eq_some] at hs3
        obtain ⟨u, hu, hc⟩ := hs3
        have hk := handle_lost_packets_kept _ _ _ _ hu
        have hk2 := copy_data_no_shuffle_kept _ _ _ _ _ hc
        exact ⟨link_kept_trans hk.1 hk2.1, hk2.2.trans hk.2⟩
      · simp only [Option.bind_eq_some] at hs3
        obtain ⟨u, hu, hc⟩ := hs3
        cases hu
        exact copy_data_no_shuffle_kept _ _ _ _ _ hc
      · cases hs3
        exact ⟨link_kept_refl _ _, rfl⟩
    split at h
    · cases h
    · rename_i s4 hs4
      have hk4 : link_kept s3 s4 port := by
        split_ifs at hs4
        · simp only [Option.bind_eq_some] at hs4
          obtain ⟨u, hu, hc⟩ := hs4
          exact link_kept_trans (handle_lost_raw_packets_kept _ _ _ _ _ hu).1
            (copy_data_to_vdif_kept _ _ _ _ _ _ hc).1
        · simp only [Option.bind_eq_some] at hs4
          obtain ⟨u, hu, hc⟩ := hs4
          cases hu
          exact (copy_data_to_vdif_kept _ _ _ _ _ _ hc).1
        · cases hs4
          exact link_kept_refl _ _
      have hk := link_kept_trans hk3.1 hk4
      simp only [Option.some.injEq, Prod.mk.injEq] at h
      obtain ⟨ht, ho⟩ := h
      subst ht
      refine ⟨?_, ?_, ?_, ?_, ?_, ?_, ?_, ?_, ?_, ?_, ?_⟩
      · rw [← ho, hk3.2]
        simp [gt_iff_lt]
      · simp [hk.seq]
      · simp [hk.seq]
      · simp [hk.first_packet]
      · simp [hk.stream_ID]
      · simp [hk.s_stream_ID]
      · intro p hp
        rw [set_link_link_data_other _ _ _ _ hp, hk.others p hp,
          set_link_link_data_other _ _ _ _ hp]
      · simpa using hk.config
      · simpa [set_link] using hk.vdif_time_set
      · simpa [set_link] using hk.vdif_offset
      · simpa [set_link] using hk.vdif_base_time


/-- A checked packet on an aligned link goes straight to `recv_pkt_seq`. -/
theorem recv_pkt_of_sync (d : Deps) (s : NetworkDPDK) (port : Nat) (m : rte_mbuf) (now : timeval)
    (hck : (m.ol_flags ||| d.PKT_RX_IP_CKSUM_BAD) ≠ 1)
    (hlen : m.pkt_len = s.args.config.udp_packet_size)
    (hsync : (s.link_data port).first_packet ≠ 1) :
    recv_pkt d s port m now = recv_pkt_seq d s port m now := by
  unfold recv_pkt
  simp [hck, hlen, hsync]

/-- With only the packed output enabled, `recv_pkt_seq` on a packet that is
not older than the last accepted one is the frame writer, preceded by the
loss handler exactly when `diff > timesamples_per_packet`, followed by
`last_seq = seq`. -/
theorem recv_pkt_seq_packed (d : Deps) (s : NetworkDPDK) (port : Nat) (m : rte_mbuf)
    (now : timeval) (b : Buffer) (hb : get_buf s port = some b) (hv : s.args.vdif_buf = none)
    (hlast : (s.link_data port).last_seq < 2 ^ 63)
    (hle : (s.link_data port).last_seq ≤ get_mbuf_seq_num m)
    (u t : NetworkDPDK)
    (hu : (if to_int64 s.args.config.timesamples_per_packet
              < (get_mbuf_seq_num m : Int) - (s.link_data port).last_seq
           then handle_lost_packets
              (set_link s port { s.link_data port with seq := get_mbuf_seq_num m }) port now
           else some (set_link s port { s.link_data port with seq := get_mbuf_seq_num m }))
          = some u)
    (ht : copy_data_no_shuffle u m port now = some t) :
    recv_pkt_seq d s port m now
      = some (set_link t port { t.link_data port with last_seq := (t.link_data port).seq },
          Outcome.accepted (decide (to_int64 s.args.config.timesamples_per_packet
              < (get_mbuf_seq_num m : Int) - (s.link_data port).last_seq)) false) := by
  have hseq := get_mbuf_seq_num_lt m
  have hsome := get_buf_isSome s port b hb
  have hvt : t.args.vdif_buf = none := by
    rw [(copy_data_no_shuffle_kept _ _ _ _ _ ht).2]
    split_ifs at hu with hc
    · rw [(handle_lost_packets_kept _ _ _ _ hu).2]; simpa using hv
    · cases hu; simpa using hv
  unfold recv_pkt_seq
  simp only [set_link_link_data_self, set_link_args]
  rw [diff_exact _ _ (by omega) hlast]
  have hnn : ¬ ((get_mbuf_seq_num m : Int) - (s.link_data port).last_seq) < 0 := by omega
  simp only [hnn, if_false, hsome, if_true, gt_iff_lt, decide_eq_true_eq, hu, Option.some_bind,
    ht, hvt, Option.isSome_none, Bool.false_eq_true, Bool.true_and, Bool.false_and]


/-- The frame writer contract: `copy_data_no_shuffle` returns, and afterwards
the payload bytes of the packet are at byte offset
`(seq - frame_start_seq) * 2048` of the current frame, no other byte of any
frame has changed, and no lost-sample count has changed. -/
theorem copy_data_no_shuffle_effect (s : NetworkDPDK) (m : rte_mbuf) (port : Nat) (now : timeval)
    (b : Buffer) (hb : get_buf s port = some b)
    (htpp1 : 0 ≤ s.args.config.timesamples_per_packet)
    (htpp2 : s.args.config.timesamples_per_packet < 2 ^ 20)
    (hseq : (s.link_data port).seq < 2 ^ 48)
    (hstart : get_fpga_seq_num b (s.link_data port).buffer_id < 2 ^ 48) :
    ∃ t b1, copy_data_no_shuffle s m port now = some t ∧ get_buf t port = some b1
      ∧ link_kept s t port ∧ t.args.vdif_buf = s.args.vdif_buf
      ∧ b1.bad_timesamples = b.bad_timesamples
      ∧ (∀ k : Nat, (k : Int) < 2048 * s.args.config.timesamples_per_packet →
          b1.data (t.link_data port).buffer_id
            ((((s.link_data port).seq : Int) - b1.fpga_seq_num (t.link_data port).buffer_id)
              * 2048 + k) = m.data (58 + k))
      ∧ (∀ (id j : Int),
          ¬ (id = (t.link_data port).buffer_id
            ∧ (((s.link_data port).seq : Int) - b1.fpga_seq_num (t.link_data port).buffer_id)
                * 2048 ≤ j
            ∧ j < (((s.link_data port).seq : Int) - b1.fpga_seq_num (t.link_data port).buffer_id)
                    * 2048 + 2048 * s.args.config.timesamples_per_packet) →
          b1.data id j = b.data id j) := by
  have hpds : to_int32 (2048 * s.args.config.timesamples_per_packet)
      = 2048 * s.args.config.timesamples_per_packet := to_int32_of_range _ (by omega) (by omega)
  by_cases hadv : to_int64 (to_int64 (((s.link_data port).seq : Int)
        - get_fpga_seq_num b (s.link_data port).buffer_id) * 2048) = b.buffer_size
  · obtain ⟨t1, b1, hadv1, hb1, hcopy⟩ := copy_data_no_shuffle_advance s m port now b hb hadv
    obtain ⟨t1', b1', hadv1', hb1', hk, hv, hdata, hbad, _, _, _, hstamp⟩ :=
      advance_frame_eq s port (s.link_data port).seq now b hb
    rw [hadv1] at hadv1'
    cases hadv1'
    rw [hb1] at hb1'
    cases hb1'
    refine ⟨set_buf t1 port (copy_block m b1 (t1.link_data port).buffer_id 0
        (to_int32 (2048 * s.args.config.timesamples_per_packet)) 58),
      copy_block m b1 (t1.link_data port).buffer_id 0
        (to_int32 (2048 * s.args.config.timesamples_per_packet)) 58,
      hcopy, get_buf_set_buf _ _ _ b1 hb1,
      link_kept_trans hk (link_kept_set_buf _ port _ b1 hb1), by simpa using hv,
      by simpa [copy_block] using hbad, ?_, ?_⟩
    · intro k hk2
      simp only [set_buf_link_data, copy_block, hstamp, hpds]
      simp [hk2]
    · intro id j hnot
      simp only [set_buf_link_data, copy_block, hstamp, hpds] at hnot ⊢
      simp only [sub_self, zero_mul, zero_add] at hnot ⊢
      rw [if_neg hnot, hdata]
  · have hcopy := copy_data_no_shuffle_stay s m port now b hb hadv
    have hoff : to_int64 (to_int64 (((s.link_data port).seq : Int)
        - get_fpga_seq_num b (s.link_data port).buffer_id) * 2048)
        = (((s.link_data port).seq : Int)
            - get_fpga_seq_num b (s.link_data port).buffer_id) * 2048 := by
      unfold to_int64; omega
    rw [hoff, hpds] at hcopy
    refine ⟨_, copy_block m b (s.link_data port).buffer_id
        ((((s.link_data port).seq : Int)
            - get_fpga_seq_num b (s.link_data port).buffer_id) * 2048)
        (2048 * s.args.config.timesamples_per_packet) 58,
      hcopy, get_buf_set_buf _ _ _ b hb, link_kept_set_buf _ port _ b hb, by simp,
      by simp [copy_block], ?_, ?_⟩
    · intro k hk2
      simp only [set_buf_link_data, copy_block]
      simp [get_fpga_seq_num, hk2]
    · intro id j hnot
      simp only [set_buf_link_data, copy_block] at hnot ⊢
      simp only [get_fpga_seq_num] at hnot ⊢
      rw [if_neg hnot]

end network_dpdk

/-! ## Alignment and the sequence tracker of `lcore_recv_pkt` -/

/-- C1. Bootstrap rule.  For a positive alignment (integration period), both
`iceBoardHandler::align_first_packet` and `align_first_packet` of
`network_dpdk.c` accept the packet (return `true`, resp. `1`) exactly when
`seq mod alignment <= 100`.  On acceptance `last_seq = seq - seq mod alignment`,
a multiple of the alignment, `cur_seq = seq`, the stream identity of the packet
is recorded and, in the handler, `got_first_packet` is set; in
`network_dpdk.c` the frame start sequence of the current frame is stamped with
the same value.  On rejection the whole state is returned unchanged.  In
the loop body of `lcore_recv_pkt`, a checked packet on a link that is still
waiting (`first_packet = 1`) leaves the state as it was when it is rejected,
and when it is accepted the link is synchronised: whenever the writers return,
the packet has been accepted, `first_packet = 0` and `last_seq = seq`. -/
theorem C1_align_first_packet (d : Deps) (h : iceBoardHandler.State)
    (dpdk_net : network_dpdk.NetworkDPDK) (port : Nat) (now : network_dpdk.timeval)
    (mbuf : rte_mbuf) (_ha : 0 < h.alignment)
    (_hp : 0 < network_dpdk.integration_period dpdk_net.args.config) :
    ((iceBoardHandler.align_first_packet d h mbuf).2 = true
        ↔ get_mbuf_seq_num mbuf % h.alignment ≤ 100)
    ∧ (get_mbuf_seq_num mbuf % h.alignment ≤ 100 →
        (iceBoardHandler.align_first_packet d h mbuf).1 =
          { h with
            last_seq := get_mbuf_seq_num mbuf - get_mbuf_seq_num mbuf % h.alignment
            cur_seq := get_mbuf_seq_num mbuf
            port_stream_id := d.extract_stream_id (get_mbuf_stream_id mbuf)
            got_first_packet := true }
        ∧ h.alignment ∣ (iceBoardHandler.align_first_packet d h mbuf).1.last_seq)
    ∧ (100 < get_mbuf_seq_num mbuf % h.alignment →
        (iceBoardHandler.align_first_packet d h mbuf).1 = h)
    ∧ ((network_dpdk.align_first_packet d dpdk_net mbuf port now).2 = 1
        ↔ get_mbuf_seq_num mbuf % network_dpdk.integration_period dpdk_net.args.config ≤ 100)
    ∧ ((network_dpdk.align_first_packet d dpdk_net mbuf port now).2 = 0
        ↔ 100 < get_mbuf_seq_num mbuf % network_dpdk.integration_period dpdk_net.args.config)
    ∧ (get_mbuf_seq_num mbuf % network_dpdk.integration_period dpdk_net.args.config ≤ 100 →
        ((network_dpdk.align_first_packet d dpdk_net mbuf port now).1.link_data port) =
          { dpdk_net.link_data port with
            stream_ID := get_mbuf_stream_id mbuf
            s_stream_ID := d.extract_stream_id (get_mbuf_stream_id mbuf)
            last_seq := get_mbuf_seq_num mbuf
              - get_mbuf_seq_num mbuf % network_dpdk.integration_period dpdk_net.args.config
            seq := get_mbuf_seq_num mbuf }
        ∧ network_dpdk.integration_period dpdk_net.args.config ∣
            ((network_dpdk.align_first_packet d dpdk_net mbuf port now).1.link_data port).last_seq
        ∧ ∀ b, network_dpdk.get_buf dpdk_net port = some b →
            ∃ b1, network_dpdk.get_buf
                (network_dpdk.align_first_packet d dpdk_net mbuf port now).1 port = some b1
              ∧ b1.fpga_seq_num (dpdk_net.link_data port).buffer_id
                  = get_mbuf_seq_num mbuf
                    - get_mbuf_seq_num mbuf % network_dpdk.integration_period dpdk_net.args.config
              ∧ b1.stream_ID (dpdk_net.link_data port).buffer_id = get_mbuf_stream_id mbuf)
    ∧ (100 < get_mbuf_seq_num mbuf % network_dpdk.integration_period dpdk_net.args.config →
        (network_dpdk.align_first_packet d dpdk_net mbuf port now).1 = dpdk_net)
    ∧ ((mbuf.ol_flags ||| d.PKT_RX_IP_CKSUM_BAD) ≠ 1 →
        mbuf.pkt_len = dpdk_net.args.config.udp_packet_size →
        (dpdk_net.link_data port).first_packet = 1 →
        (100 < get_mbuf_seq_num mbuf % network_dpdk.integration_period dpdk_net.args.config →
          network_dpdk.recv_pkt d dpdk_net port mbuf now
            = some (dpdk_net, network_dpdk.Outcome.waiting))
        ∧ (get_mbuf_seq_num mbuf % network_dpdk.integration_period dpdk_net.args.config ≤ 100 →
          ∀ t o, network_dpdk.recv_pkt d dpdk_net port mbuf now = some (t, o) →
            (∃ a b, o = network_dpdk.Outcome.accepted a b)
            ∧ (t.link_data port).first_packet = 0
            ∧ (t.link_data port).last_seq = get_mbuf_seq_num mbuf)) := by
  have hdvd : ∀ a n : Nat, n ∣ a - a % n := fun a n => Nat.dvd_sub_mod a
  have hlink : get_mbuf_seq_num mbuf % network_dpdk.integration_period dpdk_net.args.config ≤ 100 →
      ((network_dpdk.align_first_packet d dpdk_net mbuf port now).1.link_data port) =
        { dpdk_net.link_data port with
          stream_ID := get_mbuf_stream_id mbuf
          s_stream_ID := d.extract_stream_id (get_mbuf_stream_id mbuf)
          last_seq := get_mbuf_seq_num mbuf
            - get_mbuf_seq_num mbuf % network_dpdk.integration_period dpdk_net.args.config
          seq := get_mbuf_seq_num mbuf } := by
    intro hc
    unfold network_dpdk.align_first_packet
    simp only [hc, ge_iff_le, Nat.zero_le, and_self, if_true]
    split_ifs <;> cases hb : dpdk_net.args.buf <;> cases hv : dpdk_net.args.vdif_buf <;>
      simp [network_dpdk.get_buf, network_dpdk.set_buf, network_dpdk.set_vdif_buf,
        network_dpdk.set_link, hb, hv]
  have hret0 : (network_dpdk.align_first_packet d dpdk_net mbuf port now).2 = 0
      ↔ 100 < get_mbuf_seq_num mbuf % network_dpdk.integration_period dpdk_net.args.config := by
    unfold network_dpdk.align_first_packet
    by_cases hc : get_mbuf_seq_num mbuf % network_dpdk.integration_period dpdk_net.args.config ≤ 100
    · simp [hc]
    · simp [hc]; omega
  have hrej : 100 < get_mbuf_seq_num mbuf % network_dpdk.integration_period dpdk_net.args.config →
      (network_dpdk.align_first_packet d dpdk_net mbuf port now).1 = dpdk_net := by
    intro hc
    unfold network_dpdk.align_first_packet
    simp [Nat.not_le.mpr hc]
  refine ⟨?_, ?_, ?_, ?_, hret0, ?_, hrej, ?_⟩
  · unfold iceBoardHandler.align_first_packet
    by_cases hc : get_mbuf_seq_num mbuf % h.alignment ≤ 100 <;> simp [hc]
  · intro hc
    unfold iceBoardHandler.align_first_packet
    simp [hc, hdvd]
  · intro hc
    unfold iceBoardHandler.align_first_packet
    simp [Nat.not_le.mpr hc]
  · unfold network_dpdk.align_first_packet
    by_cases hc : get_mbuf_seq_num mbuf % network_dpdk.integration_period dpdk_net.args.config ≤ 100
      <;> simp [hc]
  · intro hc
    refine ⟨hlink hc, ?_, ?_⟩
    · unfold network_dpdk.align_first_packet
      simp only [hc, ge_iff_le, Nat.zero_le, and_self, if_true]
      split_ifs <;> cases hb : dpdk_net.args.buf <;> cases hv : dpdk_net.args.vdif_buf <;>
        simp [network_dpdk.get_buf, network_dpdk.set_buf, network_dpdk.set_vdif_buf,
          network_dpdk.set_link, hb, hv, hdvd]
    · intro b hb0
      unfold network_dpdk.align_first_packet
      simp only [hc, ge_iff_le, Nat.zero_le, and_self, if_true]
      cases hb : dpdk_net.args.buf with
      | none => simp [network_dpdk.get_buf, hb] at hb0
      | some bufs =>
        split_ifs <;> cases hv : dpdk_net.args.vdif_buf <;>
          simp [network_dpdk.get_buf, network_dpdk.set_buf, network_dpdk.set_vdif_buf,
            network_dpdk.set_link, hb, hv, network_dpdk.set_stream_ID,
            network_dpdk.set_first_packet_recv_time, network_dpdk.set_fpga_seq_num]
  · intro hck hlen hfirst
    have hseq := get_mbuf_seq_num_lt mbuf
    constructor
    · intro hc
      unfold network_dpdk.recv_pkt
      simp [hck, hlen, hfirst, hret0.mpr hc, hrej hc]
    · intro hc t o hres
      have hne : (network_dpdk.align_first_packet d dpdk_net mbuf port now).2 ≠ 0 := by
        rw [Ne, hret0]; omega
      unfold network_dpdk.recv_pkt at hres
      simp only [hck, hlen, hfirst, hne, if_false, if_true, ne_eq, not_true_eq_false] at hres
      have hacc := network_dpdk.recv_pkt_seq_accept d _ t port mbuf now o
        (by simp only [network_dpdk.set_link_link_data_self, hlink hc]; omega)
        (by simp only [network_dpdk.set_link_link_data_self, hlink hc]; omega) hres
      refine ⟨⟨_, _, hacc.1⟩, ?_, hacc.2.1⟩
      rw [hacc.2.2.2.1]
      simp

/-- Witness of C1 with alignment 512: the packets with sequence 612 (residue
100) and 512 are accepted, the packet with sequence 613 (residue 101) is
rejected and leaves the handler as it was. -/
theorem C1_align_first_packet_witness :
    0 < (Examples.handler 512 0 0).alignment
    ∧ 0 < network_dpdk.integration_period (Examples.net 512 1 0 0 0 0).args.config
    ∧ get_mbuf_seq_num (Examples.packet 612 0) % 512 = 100
    ∧ (iceBoardHandler.align_first_packet Examples.deps (Examples.handler 512 0 0)
        (Examples.packet 612 0)).2 = true
    ∧ (iceBoardHandler.align_first_packet Examples.deps (Examples.handler 512 0 0)
        (Examples.packet 613 0)).1 = Examples.handler 512 0 0
    ∧ (network_dpdk.align_first_packet Examples.deps (Examples.net 512 1 0 0 0 0)
        (Examples.packet 612 0) 0 Examples.t0).2 = 1
    ∧ (network_dpdk.align_first_packet Examples.deps (Examples.net 512 1 0 0 0 0)
        (Examples.packet 613 0) 0 Examples.t0).2 = 0 :=
  ⟨by decide, by decide, by decide,
   (C1_align_first_packet Examples.deps (Examples.handler 512 0 0) (Examples.net 512 1 0 0 0 0)
      0 Examples.t0 (Examples.packet 612 0) (by decide) (by decide)).1.mpr (by decide),
   (C1_align_first_packet Examples.deps (Examples.handler 512 0 0) (Examples.net 512 1 0 0 0 0)
      0 Examples.t0 (Examples.packet 613 0) (by decide) (by decide)).2.2.1 (by decide),
   (C1_align_first_packet Examples.deps (Examples.handler 512 0 0) (Examples.net 512 1 0 0 0 0)
      0 Examples.t0 (Examples.packet 612 0) (by decide) (by decide)).2.2.2.1.mpr (by decide),
   (C1_align_first_packet Examples.deps (Examples.handler 512 0 0) (Examples.net 512 1 0 0 0 0)
      0 Examples.t0 (Examples.packet 613 0) (by decide) (by decide)).2.2.2.2.1.mpr (by decide)⟩

/-- C2. Normal case.  On an aligned link a checked packet with
`0 <= diff` (`diff = seq - last_seq`) is never dropped: whenever the writers
return it has been accepted, each loss handler of an enabled output having been
called exactly when `diff > timesamples_per_packet`, and `last_seq = seq`.
With the packed output alone the writers do return, and for
`0 <= diff <= timesamples_per_packet` the packet is accepted without a call of
the loss handler: no lost samples are counted, the payload bytes are written
to the current frame at byte offset `(seq - frame_start_seq) * 2048`, no other
byte of any frame changes (no filler is written), and afterwards
`last_seq = seq`; for `diff > timesamples_per_packet` the packet is accepted
after a call of the loss handler. -/
theorem C2_normal_case (d : Deps) (s : network_dpdk.NetworkDPDK) (port : Nat) (m : rte_mbuf)
    (now : network_dpdk.timeval)
    (hck : (m.ol_flags ||| d.PKT_RX_IP_CKSUM_BAD) ≠ 1)
    (hlen : m.pkt_len = s.args.config.udp_packet_size)
    (hsync : (s.link_data port).first_packet ≠ 1)
    (hlast : (s.link_data port).last_seq < 2 ^ 63)
    (hle : (s.link_data port).last_seq ≤ get_mbuf_seq_num m) :
    (∀ t o, network_dpdk.recv_pkt d s port m now = some (t, o) →
      o = network_dpdk.Outcome.accepted
            (s.args.buf.isSome && decide (to_int64 s.args.config.timesamples_per_packet
                < (get_mbuf_seq_num m : Int) - (s.link_data port).last_seq))
            (s.args.vdif_buf.isSome && decide (to_int64 s.args.config.timesamples_per_packet
                < (get_mbuf_seq_num m : Int) - (s.link_data port).last_seq))
      ∧ (t.link_data port).last_seq = get_mbuf_seq_num m)
    ∧ (∀ b, network_dpdk.get_buf s port = some b → s.args.vdif_buf = none →
        1 ≤ s.args.config.timesamples_per_packet →
        s.args.config.timesamples_per_packet < 2 ^ 20 →
        network_dpdk.get_fpga_seq_num b (s.link_data port).buffer_id < 2 ^ 48 →
        ((get_mbuf_seq_num m : Int) - (s.link_data port).last_seq
            ≤ s.args.config.timesamples_per_packet →
          ∃ t b1, network_dpdk.recv_pkt d s port m now
              = some (t, network_dpdk.Outcome.accepted false false)
            ∧ network_dpdk.get_buf t port = some b1
            ∧ (t.link_data port).last_seq = get_mbuf_seq_num m
            ∧ b1.bad_timesamples = b.bad_timesamples
            ∧ (∀ k : Nat, (k : Int) < 2048 * s.args.config.timesamples_per_packet →
                b1.data (t.link_data port).buffer_id
                  (((get_mbuf_seq_num m : Int)
                      - b1.fpga_seq_num (t.link_data port).buffer_id) * 2048 + k)
                  = m.data (58 + k))
            ∧ (∀ (id j : Int),
                ¬ (id = (t.link_data port).buffer_id
                  ∧ ((get_mbuf_seq_num m : Int)
                      - b1.fpga_seq_num (t.link_data port).buffer_id) * 2048 ≤ j
                  ∧ j < ((get_mbuf_seq_num m : Int)
                          - b1.fpga_seq_num (t.link_data port).buffer_id) * 2048
                        + 2048 * s.args.config.timesamples_per_packet) →
                b1.data id j = b.data id j))
        ∧ (s.args.config.timesamples_per_packet
              < (get_mbuf_seq_num m : Int) - (s.link_data port).last_seq →
          ∃ t, network_dpdk.recv_pkt d s port m now
              = some (t, network_dpdk.Outcome.accepted true false)
            ∧ (t.link_data port).last_seq = get_mbuf_seq_num m)) := by
  have hseq := get_mbuf_seq_num_lt m
  rw [network_dpdk.recv_pkt_of_sync d s port m now hck hlen hsync]
  refine ⟨fun t o hres => ?_, ?_⟩
  · have hacc := network_dpdk.recv_pkt_seq_accept d s t port m now o hlast hle hres
    exact ⟨hacc.1, hacc.2.1⟩
  intro b hb hv htpp1 htpp2 hstart
  have htpp : to_int64 s.args.config.timesamples_per_packet
      = s.args.config.timesamples_per_packet := to_int64_of_range _ (by omega) (by omega)
  have hb2 : network_dpdk.get_buf (network_dpdk.set_link s port
      { s.link_data port with seq := get_mbuf_seq_num m }) port = some b := by simpa using hb
  constructor
  · intro hnorm
    have hnl : ¬ (to_int64 s.args.config.timesamples_per_packet
        < (get_mbuf_seq_num m : Int) - (s.link_data port).last_seq) := by rw [htpp]; omega
    obtain ⟨t, b1, hcopy, hb1, hk, _, hbad, hpay, hrest⟩ :=
      network_dpdk.copy_data_no_shuffle_effect
        (network_dpdk.set_link s port { s.link_data port with seq := get_mbuf_seq_num m })
        m port now b hb2 (by simp only [network_dpdk.set_link_args]; omega)
        (by simpa using htpp2) (by simpa using hseq) (by simpa using hstart)
    have hres := network_dpdk.recv_pkt_seq_packed d s port m now b hb hv hlast hle _ t
      (by rw [if_neg hnl]) hcopy
    simp only [hnl, decide_False] at hres
    simp only [network_dpdk.set_link_link_data_self, network_dpdk.set_link_args] at hpay hrest
    refine ⟨network_dpdk.set_link t port
        { t.link_data port with last_seq := (t.link_data port).seq }, b1, hres, ?_, ?_, hbad,
      ?_, ?_⟩
    · simpa using hb1
    · simpa using hk.seq
    · intro k hk2
      simpa using hpay k hk2
    · intro id j hnot
      exact hrest id j (by simpa using hnot)
  · intro hloss
    have hl : to_int64 s.args.config.timesamples_per_packet
        < (get_mbuf_seq_num m : Int) - (s.link_data port).last_seq := by rw [htpp]; omega
    obtain ⟨u, bu, hu, hbu, hku, _⟩ := network_dpdk.handle_lost_packets_some
      (network_dpdk.set_link s port { s.link_data port with seq := get_mbuf_seq_num m })
      port now b hb2 (by simpa using htpp1) (by simp only [network_dpdk.set_link_args]; omega)
    obtain ⟨t, bt, ht, _, hk, _⟩ := network_dpdk.copy_data_no_shuffle_some u m port now bu hbu
    have hres := network_dpdk.recv_pkt_seq_packed d s port m now b hb hv hlast hle u t
      (by rw [if_pos hl]; exact hu) ht
    simp only [hl, decide_True] at hres
    refine ⟨network_dpdk.set_link t port
        { t.link_data port with last_seq := (t.link_data port).seq }, hres, ?_⟩
    have := hk.seq.trans hku.seq
    simpa using this

/-- Witness of C2 with two samples per packet and `last_seq = 4`: the packet
with sequence 6 (`diff = 2`) is accepted without the loss handler and
`last_seq` becomes 6; the packet with sequence 8 (`diff = 4`) is accepted after
the loss handler. -/
theorem C2_normal_case_witness :
    (∃ t b1, network_dpdk.recv_pkt Examples.deps (Examples.net 8 0 4 4 0 0) 0
        (Examples.packet 6 22) Examples.t0
          = some (t, network_dpdk.Outcome.accepted false false)
      ∧ network_dpdk.get_buf t 0 = some b1
      ∧ (t.link_data 0).last_seq = 6
      ∧ b1.bad_timesamples = (Examples.pool 0 0).bad_timesamples)
    ∧ (∃ t, network_dpdk.recv_pkt Examples.deps (Examples.net 8 0 4 4 0 0) 0
        (Examples.packet 8 24) Examples.t0
          = some (t, network_dpdk.Outcome.accepted true false)
      ∧ (t.link_data 0).last_seq = 8) := by
  constructor
  · obtain ⟨t, b1, h1, h2, h3, h4, _⟩ :=
      ((C2_normal_case Examples.deps (Examples.net 8 0 4 4 0 0) 0 (Examples.packet 6 22)
        Examples.t0 (by decide) (by decide) (by decide) (by decide) (by decide)).2
        (Examples.pool 0 0) rfl rfl (by decide) (by decide) (by decide)).1 (by decide)
    exact ⟨t, b1, h1, h2, h3, h4⟩
  · exact ((C2_normal_case Examples.deps (Examples.net 8 0 4 4 0 0) 0 (Examples.packet 8 24)
        Examples.t0 (by decide) (by decide) (by decide) (by decide) (by decide)).2
        (Examples.pool 0 0) rfl rfl (by decide) (by decide) (by decide)).2 (by decide)

/-- C3, counterexample.  A packet whose sequence equals `last_seq` is not
rejected: on an aligned link with `last_seq = 100` the checked packet with
sequence 100 is accepted. -/
theorem C3_equal_seq_accepted :
    ((Examples.net 8 0 100 100 96 0).link_data 0).first_packet = 0
    ∧ get_mbuf_seq_num (Examples.packet 100 7) = ((Examples.net 8 0 100 100 96 0).link_data 0).last_seq
    ∧ (network_dpdk.recv_pkt Examples.deps (Examples.net 8 0 100 100 96 0) 0
          (Examples.packet 100 7) Examples.t0).map Prod.snd
        = some (network_dpdk.Outcome.accepted false false) := by
  decide

/-- C3, amended.  Within a link the sequence numbers of accepted packets never
decrease.  On an aligned link a checked packet with `seq < last_seq` is
dropped: `last_seq` is not rewound and nothing changes but the field
`link_data[port].seq`, which takes the sequence of the packet.  A packet is
accepted only if `seq >= last_seq` (a packet with `seq = last_seq` is accepted)
and then `last_seq = seq`.  In the handler `check_order` rejects exactly the
packets with `cur_seq < last_seq` and changes neither `cur_seq` nor
`last_seq`. -/
theorem C3_accepted_non_decreasing (d : Deps) (s : network_dpdk.NetworkDPDK) (port : Nat)
    (m : rte_mbuf) (now : network_dpdk.timeval) (h : iceBoardHandler.State)
    (hck : (m.ol_flags ||| d.PKT_RX_IP_CKSUM_BAD) ≠ 1)
    (hlen : m.pkt_len = s.args.config.udp_packet_size)
    (hsync : (s.link_data port).first_packet ≠ 1)
    (hlast : (s.link_data port).last_seq < 2 ^ 63)
    (hcur : h.cur_seq < 2 ^ 63) (hhlast : h.last_seq < 2 ^ 63) :
    (get_mbuf_seq_num m < (s.link_data port).last_seq →
        network_dpdk.recv_pkt d s port m now
          = some (network_dpdk.set_link s port
                    { s.link_data port with seq := get_mbuf_seq_num m },
                  network_dpdk.Outcome.stale))
    ∧ (∀ t a b, network_dpdk.recv_pkt d s port m now
          = some (t, network_dpdk.Outcome.accepted a b) →
        (s.link_data port).last_seq ≤ get_mbuf_seq_num m
        ∧ (t.link_data port).last_seq = get_mbuf_seq_num m)
    ∧ ((iceBoardHandler.check_order h (iceBoardHandler.get_packet_diff h)).2 = false
        ↔ h.cur_seq < h.last_seq)
    ∧ (iceBoardHandler.check_order h (iceBoardHandler.get_packet_diff h)).1.last_seq = h.last_seq
    ∧ (iceBoardHandler.check_order h (iceBoardHandler.get_packet_diff h)).1.cur_seq = h.cur_seq := by
  rw [network_dpdk.recv_pkt_of_sync d s port m now hck hlen hsync]
  refine ⟨fun hlt => network_dpdk.recv_pkt_seq_stale d s port m now hlast hlt, ?_, ?_, ?_, ?_⟩
  · intro t a b hres
    by_cases hlt : get_mbuf_seq_num m < (s.link_data port).last_seq
    · rw [network_dpdk.recv_pkt_seq_stale d s port m now hlast hlt] at hres
      simp at hres
    · have hle : (s.link_data port).last_seq ≤ get_mbuf_seq_num m := Nat.le_of_not_lt hlt
      exact ⟨hle, (network_dpdk.recv_pkt_seq_accept d s t port m now _ hlast hle hres).2.1⟩
  · unfold iceBoardHandler.check_order iceBoardHandler.get_packet_diff
    rw [network_dpdk.diff_exact _ _ hcur hhlast]
    by_cases hc : (h.cur_seq : Int) - h.last_seq < 0
    · simp [hc]; omega
    · simp [hc]; omega
  · unfold iceBoardHandler.check_order
    split_ifs <;> rfl
  · unfold iceBoardHandler.check_order
    split_ifs <;> rfl

/-- Witness of C3 (amended): with `last_seq = 100` the checked packet with
sequence 98 is dropped and `last_seq` stays 100. -/
theorem C3_accepted_non_decreasing_witness :
    network_dpdk.recv_pkt Examples.deps (Examples.net 8 0 100 100 96 0) 0
        (Examples.packet 98 7) Examples.t0
      = some (network_dpdk.set_link (Examples.net 8 0 100 100 96 0) 0
                { (Examples.net 8 0 100 100 96 0).link_data 0 with
                  seq := get_mbuf_seq_num (Examples.packet 98 7) },
              network_dpdk.Outcome.stale)
    ∧ ((network_dpdk.set_link (Examples.net 8 0 100 100 96 0) 0
                { (Examples.net 8 0 100 100 96 0).link_data 0 with
                  seq := get_mbuf_seq_num (Examples.packet 98 7) }).link_data 0).last_seq = 100 :=
  ⟨(C3_accepted_non_decreasing Examples.deps (Examples.net 8 0 100 100 96 0) 0
      (Examples.packet 98 7) Examples.t0 (Examples.handler 8 98 100) (by decide) (by decide)
      (by decide) (by decide) (by decide) (by decide)).1 (by decide), by decide⟩

/-- C6, counterexample.  In `lcore_recv_pkt` a packet with `diff < -1000` does
not halt the link: with `last_seq = 5000`, after the packet with sequence 2900
(`diff = -2100`) the packet with sequence 5002 is accepted and `last_seq`
becomes 5002. -/
theorem C6_no_halt_after_reset :
    (get_mbuf_seq_num (Examples.packet 2900 7) : Int)
        - ((Examples.net 8 0 5000 5000 5000 0).link_data 0).last_seq < -1000
    ∧ (network_dpdk.recv_loop Examples.deps (Examples.net 8 0 5000 5000 5000 0)
          (Examples.arrivals [2900, 5002])).map (fun r => (r.2, (r.1.link_data 0).last_seq))
        = some ([network_dpdk.Outcome.stale, network_dpdk.Outcome.accepted false false], 5002) := by
  decide

/-- C6, amended.  In `lcore_recv_pkt` an aligned link that receives a checked
packet with `diff = seq - last_seq < -1000` drops it like any other stale
packet: the packet is not accepted, no frame is written and `last_seq` is not
updated.  The loop does not halt: it goes on with the packets that follow, and
whenever the writers return for a later checked packet with `seq >= last_seq`,
that packet is accepted and `last_seq` becomes its sequence. -/
theorem C6_reset_packet_dropped (d : Deps) (s : network_dpdk.NetworkDPDK) (port : Nat)
    (m : rte_mbuf) (now : network_dpdk.timeval)
    (rest : List (Nat × rte_mbuf × network_dpdk.timeval))
    (hck : (m.ol_flags ||| d.PKT_RX_IP_CKSUM_BAD) ≠ 1)
    (hlen : m.pkt_len = s.args.config.udp_packet_size)
    (hsync : (s.link_data port).first_packet ≠ 1)
    (hlast : (s.link_data port).last_seq < 2 ^ 63)
    (hreset : (get_mbuf_seq_num m : Int) - (s.link_data port).last_seq < -1000) :
    network_dpdk.recv_pkt d s port m now
        = some (network_dpdk.set_link s port
                  { s.link_data port with seq := get_mbuf_seq_num m },
                network_dpdk.Outcome.stale)
    ∧ ((network_dpdk.set_link s port
          { s.link_data port with seq := get_mbuf_seq_num m }).link_data port).last_seq
        = (s.link_data port).last_seq
    ∧ (network_dpdk.set_link s port
          { s.link_data port with seq := get_mbuf_seq_num m }).args = s.args
    ∧ network_dpdk.recv_loop d s ((port, m, now) :: rest)
        = (network_dpdk.recv_loop d
            (network_dpdk.set_link s port { s.link_data port with seq := get_mbuf_seq_num m })
            rest).map (fun r => (r.1, network_dpdk.Outcome.stale :: r.2))
    ∧ (∀ (m2 : rte_mbuf) (now2 : network_dpdk.timeval) (t : network_dpdk.NetworkDPDK)
        (o : network_dpdk.Outcome),
        (m2.ol_flags ||| d.PKT_RX_IP_CKSUM_BAD) ≠ 1 →
        m2.pkt_len = s.args.config.udp_packet_size →
        (s.link_data port).last_seq ≤ get_mbuf_seq_num m2 →
        network_dpdk.recv_pkt d
          (network_dpdk.set_link s port { s.link_data port with seq := get_mbuf_seq_num m })
          port m2 now2 = some (t, o) →
        (∃ a b, o = network_dpdk.Outcome.accepted a b)
        ∧ (t.link_data port).last_seq = get_mbuf_seq_num m2) := by
  have hlt : get_mbuf_seq_num m < (s.link_data port).last_seq := by omega
  have hstep : network_dpdk.recv_pkt d s port m now
      = some (network_dpdk.set_link s port
                { s.link_data port with seq := get_mbuf_seq_num m },
              network_dpdk.Outcome.stale) := by
    rw [network_dpdk.recv_pkt_of_sync d s port m now hck hlen hsync]
    exact network_dpdk.recv_pkt_seq_stale d s port m now hlast hlt
  refine ⟨hstep, by simp, rfl, ?_, ?_⟩
  · rw [network_dpdk.recv_loop, hstep]
    dsimp only
    split <;> simp_all
  · intro m2 now2 t o hck2 hlen2 hle2 hres
    rw [network_dpdk.recv_pkt_of_sync d _ port m2 now2 hck2 (by simpa using hlen2)
      (by simpa using hsync)] at hres
    have hacc := network_dpdk.recv_pkt_seq_accept d _ t port m2 now2 o
      (by simpa using hlast) (by simpa using hle2) hres
    exact ⟨⟨_, _, hacc.1⟩, hacc.2.1⟩

/-- Witness of C6 (amended), Scenario C: with `last_seq = 5000` the packet
with sequence 2900 is dropped as stale and `last_seq` stays 5000. -/
theorem C6_reset_packet_dropped_witness :
    network_dpdk.recv_pkt Examples.deps (Examples.net 8 0 5000 5000 5000 0) 0
        (Examples.packet 2900 7) Examples.t0
      = some (network_dpdk.set_link (Examples.net 8 0 5000 5000 5000 0) 0
                { (Examples.net 8 0 5000 5000 5000 0).link_data 0 with
                  seq := get_mbuf_seq_num (Examples.packet 2900 7) },
              network_dpdk.Outcome.stale)
    ∧ ((network_dpdk.set_link (Examples.net 8 0 5000 5000 5000 0) 0
          { (Examples.net 8 0 5000 5000 5000 0).link_data 0 with
            seq := get_mbuf_seq_num (Examples.packet 2900 7) }).link_data 0).last_seq
        = 5000 :=
  ⟨(C6_reset_packet_dropped Examples.deps (Examples.net 8 0 5000 5000 5000 0) 0
      (Examples.packet 2900 7) Examples.t0 [] (by decide) (by decide) (by decide) (by decide)
      (by decide)).1, by decide⟩

/-- C7, counterexample.  A stale packet changes a field of the link state: with
`seq = last_seq = 100` stored in the link, the checked packet with sequence 98
is dropped and leaves `link_data[port].seq = 98`. -/
theorem C7_stale_changes_seq :
    get_mbuf_seq_num (Examples.packet 98 7) < ((Examples.net 8 0 100 100 96 0).link_data 0).last_seq
    ∧ ((Examples.net 8 0 100 100 96 0).link_data 0).seq = 100
    ∧ (network_dpdk.recv_pkt Examples.deps (Examples.net 8 0 100 100 96 0) 0
          (Examples.packet 98 7) Examples.t0).map (fun r => (r.2, (r.1.link_data 0).seq))
        = some (network_dpdk.Outcome.stale, 98) := by
  decide

/-- C7, amended.  In `lcore_recv_pkt` a stale packet on an aligned link
(`seq < last_seq`) is dropped; `last_seq`, the first-packet flag, the stream
identity, both buffer ids and `data_id` of the link keep their values, every
other link, the time base and the frames (bytes and metadata) are unchanged.
Only `link_data[port].seq`, the current sequence, takes the sequence of the
dropped packet. -/
theorem C7_stale_frame (d : Deps) (s : network_dpdk.NetworkDPDK) (port : Nat)
    (m : rte_mbuf) (now : network_dpdk.timeval)
    (hck : (m.ol_flags ||| d.PKT_RX_IP_CKSUM_BAD) ≠ 1)
    (hlen : m.pkt_len = s.args.config.udp_packet_size)
    (hsync : (s.link_data port).first_packet ≠ 1)
    (hlast : (s.link_data port).last_seq < 2 ^ 63)
    (hlt : get_mbuf_seq_num m < (s.link_data port).last_seq) :
    ∃ t, network_dpdk.recv_pkt d s port m now = some (t, network_dpdk.Outcome.stale)
      ∧ (t.link_data port).seq = get_mbuf_seq_num m
      ∧ (t.link_data port).last_seq = (s.link_data port).last_seq
      ∧ (t.link_data port).first_packet = (s.link_data port).first_packet
      ∧ (t.link_data port).stream_ID = (s.link_data port).stream_ID
      ∧ (t.link_data port).s_stream_ID = (s.link_data port).s_stream_ID
      ∧ (t.link_data port).buffer_id = (s.link_data port).buffer_id
      ∧ (t.link_data port).vdif_buffer_id = (s.link_data port).vdif_buffer_id
      ∧ (t.link_data port).finished_buffer = (s.link_data port).finished_buffer
      ∧ (t.link_data port).data_id = (s.link_data port).data_id
      ∧ (∀ p, p ≠ port → t.link_data p = s.link_data p)
      ∧ t.args = s.args
      ∧ t.vdif_time_set = s.vdif_time_set ∧ t.vdif_offset = s.vdif_offset
      ∧ t.vdif_base_time = s.vdif_base_time := by
  refine ⟨network_dpdk.set_link s port { s.link_data port with seq := get_mbuf_seq_num m },
    ?_, by simp, by simp, by simp, by simp, by simp, by simp, by simp, by simp, by simp,
    fun p hp => network_dpdk.set_link_link_data_other _ _ _ _ hp, rfl, rfl, rfl, rfl⟩
  rw [network_dpdk.recv_pkt_of_sync d s port m now hck hlen hsync]
  exact network_dpdk.recv_pkt_seq_stale d s port m now hlast hlt

/-- Witness of C7 (amended): with `last_seq = 100` the checked packet with
sequence 98 is dropped, `last_seq` stays 100 and the frames are unchanged. -/
theorem C7_stale_frame_witness :
    ∃ t, network_dpdk.recv_pkt Examples.deps (Examples.net 8 0 100 100 96 0) 0
          (Examples.packet 98 7) Examples.t0 = some (t, network_dpdk.Outcome.stale)
      ∧ (t.link_data 0).last_seq = 100
      ∧ t.args = (Examples.net 8 0 100 100 96 0).args := by
  obtain ⟨t, h1, _, h3, _, _, _, _, _, _, _, _, h12, _⟩ :=
    C7_stale_frame Examples.deps (Examples.net 8 0 100 100 96 0) 0 (Examples.packet 98 7)
      Examples.t0 (by decide) (by decide) (by decide) (by decide) (by decide)
  exact ⟨t, h1, h3, h12⟩

/-! ## `handle_lost_packets`: lost-sample count and filler on concrete gaps -/

/-- C8, the code on Scenario A.  With two samples per packet and the packets
0, 2, 4, 8, 10 (one packet, two samples, missing) the lost-sample counts of
all frames add up to 4: at the packet 8 `handle_lost_packets` adds
`diff = 8 - 4 = 4`, not `diff - timesamples_per_packet = 2`. -/
theorem C8_scenario_A_counts_four :
    (network_dpdk.recv_loop Examples.deps (Examples.net 8 1 0 0 0 0)
        (Examples.arrivals [0, 2, 4, 8, 10])).bind
      (fun r => (network_dpdk.get_buf r.1 0).map
        (fun b => b.bad_timesamples 0 + b.bad_timesamples 1))
      = some 4 := by
  decide

/-- C9, the code on gaps (frames of 8 samples, two samples per packet).  With
`last_seq = 0` and `seq = 4`, every byte 17 before the call, the slot of the
missing samples 2, 3 is filled and so is the slot of the arriving packet,
samples 4, 5.  With `last_seq = 4` and `seq = 12` the handler moves on to frame
1, which starts at sequence 8, but the filler for the samples from 8 on is
written to frame 0, over the slot of sample 0, and the slot of sample 8 in
frame 1 is not filled.  On Scenario A (packets 0, 2, 4, 8, 10) the slot of
sample 0 in frame 0, which held the payload byte 16 of the packet 0, ends up
holding filler, next to the filler for the lost samples 6, 7. -/
theorem C9_filler_footprint :
    (network_dpdk.handle_lost_packets (Examples.net 8 0 4 0 0 17) 0 Examples.t0).bind
        (fun t => (network_dpdk.get_buf t 0).map
          (fun b => (b.data 0 (2 * 2048), b.data 0 (4 * 2048), b.data 0 (6 * 2048))))
      = some (0x88, 0x88, 17)
    ∧ (network_dpdk.handle_lost_packets (Examples.net 8 0 12 4 0 17) 0 Examples.t0).bind
        (fun t => (network_dpdk.get_buf t 0).map
          (fun b => ((t.link_data 0).buffer_id, b.fpga_seq_num 1, b.data 0 0, b.data 1 0)))
      = some (1, 8, 0x88, 17)
    ∧ (network_dpdk.recv_loop Examples.deps (Examples.net 8 1 0 0 0 0)
        (Examples.arrivals [0, 2, 4])).bind
        (fun r => (network_dpdk.get_buf r.1 0).map (fun b => b.data 0 0))
      = some 16
    ∧ (network_dpdk.recv_loop Examples.deps (Examples.net 8 1 0 0 0 0)
        (Examples.arrivals [0, 2, 4, 8, 10])).bind
        (fun r => (network_dpdk.get_buf r.1 0).map
          (fun b => (b.data 0 0, b.data 0 (2 * 2048), b.data 0 (6 * 2048))))
      = some (0x88, 18, 0x88) := by
  refine ⟨by decide, by decide, by decide, by decide⟩

/-- C10, the code on a gap that starts at a frame boundary (`last_seq = 6`,
`seq = 12`, frame 0 holds the samples 0 to 7).  The loop advances the frame
before it writes anything; after the call frame 0 is marked full, frame 1 is
the current frame, and the filler written after the advance is in frame 0, at
the slots 0, 2 and 4, while frame 1 is untouched.  The same on the packets
0, 2, 4, 6, 12 from the start: after the packet 6 frame 0 is not full and
holds the four payloads; after the packet 12 it is full and three of them are
overwritten with filler, while the slots of the lost samples 8 to 11 in frame 1
hold no filler. -/
theorem C10_filler_after_mark_full :
    to_int64 (to_int64 ((6 : Int) + 2 - 0) * 2048) = (Examples.pool 0 17).buffer_size
    ∧ (Examples.pool 0 17).is_full 0 = false
    ∧ (Examples.pool 0 17).data 0 0 = 17
    ∧ (network_dpdk.handle_lost_packets (Examples.net 8 0 12 6 0 17) 0 Examples.t0).bind
        (fun t => (network_dpdk.get_buf t 0).map
          (fun b => ((t.link_data 0).buffer_id, b.is_full 0, b.is_full 1,
            [b.data 0 0, b.data 0 (2 * 2048), b.data 0 (4 * 2048)],
            [b.data 1 0, b.data 1 (2 * 2048), b.data 1 (4 * 2048)])))
      = some (1, true, false, [0x88, 0x88, 0x88], [17, 17, 17])
    ∧ (network_dpdk.recv_loop Examples.deps (Examples.net 8 1 0 0 0 0)
        (Examples.arrivals [0, 2, 4, 6])).bind
        (fun r => (network_dpdk.get_buf r.1 0).map
          (fun b => ((r.1.link_data 0).buffer_id, b.is_full 0,
            [b.data 0 0, b.data 0 (2 * 2048), b.data 0 (4 * 2048), b.data 0 (6 * 2048)])))
      = some (0, false, [16, 18, 20, 22])
    ∧ (network_dpdk.recv_loop Examples.deps (Examples.net 8 1 0 0 0 0)
        (Examples.arrivals [0, 2, 4, 6, 12])).bind
        (fun r => (network_dpdk.get_buf r.1 0).map
          (fun b => ((r.1.link_data 0).buffer_id, b.is_full 0,
            [b.data 0 0, b.data 0 (2 * 2048), b.data 0 (4 * 2048), b.data 0 (6 * 2048)],
            [b.data 1 0, b.data 1 (2 * 2048), b.data 1 (4 * 2048)])))
      = some (1, true, [0x88, 0x88, 0x88, 22], [0, 0, 28]) := by
  refine ⟨by decide, by decide, by decide, by decide, by decide, by decide⟩

/-! ## The time base -/

namespace double

end double

namespace double

end double

namespace double

end double

namespace double

end double

namespace network_dpdk

end network_dpdk

namespace network_dpdk

end network_dpdk

/-- C18. Sequence to time conversion.  With the time base set, for a sequence
`s = seq + time_step` not below the offset, `set_vdif_header_options` writes
`seconds = (s - offset) div 390625 + base` and
`data_frame = (s - offset) mod 390625` (as long as the 64-bit sum does not
wrap).  The data frame lies in `[0, 390625)`,
`s - offset = (seconds - base) * 390625 + data_frame`, and one period later
the seconds value is larger by exactly 1 and the data frame is the same. -/
theorem C18_seq_to_time (dpdk_net : network_dpdk.NetworkDPDK) (old : network_dpdk.VDIFHeader)
    (invalid elem : Int) (seq time_step : Nat)
    (hset : dpdk_net.vdif_time_set ≠ 0)
    (hoff : dpdk_net.vdif_offset ≤ seq + time_step)
    (hseq : seq + time_step + 390625 < 2 ^ 64)
    (hwrap : ((seq : Int) + time_step + 390625 - dpdk_net.vdif_offset) / 390625
        + dpdk_net.vdif_base_time < 2 ^ 64) :
    (network_dpdk.vdif_header_fields dpdk_net old invalid seq time_step elem).seconds
        = ((seq : Int) + time_step - dpdk_net.vdif_offset) / 390625 + dpdk_net.vdif_base_time
    ∧ (network_dpdk.vdif_header_fields dpdk_net old invalid seq time_step elem).data_frame
        = ((seq : Int) + time_step - dpdk_net.vdif_offset) % 390625
    ∧ 0 ≤ (network_dpdk.vdif_header_fields dpdk_net old invalid seq time_step elem).data_frame
    ∧ (network_dpdk.vdif_header_fields dpdk_net old invalid seq time_step elem).data_frame < 390625
    ∧ (seq : Int) + time_step - dpdk_net.vdif_offset
        = ((network_dpdk.vdif_header_fields dpdk_net old invalid seq time_step elem).seconds
            - dpdk_net.vdif_base_time) * 390625
          + (network_dpdk.vdif_header_fields dpdk_net old invalid seq time_step elem).data_frame
    ∧ (network_dpdk.vdif_header_fields dpdk_net old invalid (seq + 390625) time_step elem).seconds
        = (network_dpdk.vdif_header_fields dpdk_net old invalid seq time_step elem).seconds + 1
    ∧ (network_dpdk.vdif_header_fields dpdk_net old invalid (seq + 390625) time_step elem).data_frame
        = (network_dpdk.vdif_header_fields dpdk_net old invalid seq time_step elem).data_frame := by
  have hb : (0 : Int) ≤ dpdk_net.vdif_base_time := Int.natCast_nonneg _
  have hu1 : to_uint64 ((seq : Int) + time_step - dpdk_net.vdif_offset)
      = (seq : Int) + time_step - dpdk_net.vdif_offset :=
    to_uint64_of_range _ (by omega) (by omega)
  have hu2 : to_uint64 (((seq + 390625 : Nat) : Int) + time_step - dpdk_net.vdif_offset)
      = (seq : Int) + time_step - dpdk_net.vdif_offset + 390625 := by
    rw [to_uint64_of_range _ (by omega) (by omega)]; omega
  unfold network_dpdk.vdif_header_fields
  simp only [hset, ne_eq, not_false_eq_true, if_true, hu1, hu2]
  generalize hx : (seq : Int) + time_step - dpdk_net.vdif_offset = x at *
  have hx0 : 0 ≤ x := by omega
  have hs1 : to_uint64 (x / 390625 + dpdk_net.vdif_base_time)
      = x / 390625 + dpdk_net.vdif_base_time := to_uint64_of_range _ (by omega) (by omega)
  have hs2 : to_uint64 ((x + 390625) / 390625 + dpdk_net.vdif_base_time)
      = x / 390625 + dpdk_net.vdif_base_time + 1 := by
    rw [to_uint64_of_range _ (by omega) (by omega)]; omega
  rw [hs1, hs2]
  and_intros <;> first | trivial | rfl | omega

/-- Witness of C18: with offset 23437 and base 553315198 the sequence 1000000
is second 553315200, data frame 195313. -/
theorem C18_seq_to_time_witness :
    (network_dpdk.vdif_header_fields (Examples.vnet 8 0 1000000 1000000 1000000 1 23437 553315198)
        ⟨0, 0, 0, 0, 0, 0, 0, 0, 0, 0, 0, 0, 0, 0, 0, 0, 0, 0⟩ 1 1000000 (0 : Nat) 0).seconds
      = 553315200
    ∧ (network_dpdk.vdif_header_fields (Examples.vnet 8 0 1000000 1000000 1000000 1 23437 553315198)
        ⟨0, 0, 0, 0, 0, 0, 0, 0, 0, 0, 0, 0, 0, 0, 0, 0, 0, 0⟩ 1 1000000 (0 : Nat) 0).data_frame
      = 195313 :=
  ⟨(C18_seq_to_time (Examples.vnet 8 0 1000000 1000000 1000000 1 23437 553315198)
      ⟨0, 0, 0, 0, 0, 0, 0, 0, 0, 0, 0, 0, 0, 0, 0, 0, 0, 0⟩ 1 0 1000000 0
      (by decide) (by decide) (by decide) (by decide)).1.trans (by decide),
   (C18_seq_to_time (Examples.vnet 8 0 1000000 1000000 1000000 1 23437 553315198)
      ⟨0, 0, 0, 0, 0, 0, 0, 0, 0, 0, 0, 0, 0, 0, 0, 0, 0, 0⟩ 1 0 1000000 0
      (by decide) (by decide) (by decide) (by decide)).2.1.trans (by decide)⟩

namespace network_dpdk

/-- The time base and the first-packet flags after `align_first_packet`: the
time base is written exactly when the packet is accepted on port 0 with the
timestamped output enabled, and then it is a function of the sequence and the
clock reading alone; no first-packet flag changes. -/
theorem align_first_packet_time_base (d : Deps) (s : NetworkDPDK) (m : rte_mbuf) (port : Nat)
    (now : timeval) :
    ((align_first_packet d s m port now).2 = 1 ∧ s.args.vdif_buf.isSome = true ∧ port = 0 →
        (align_first_packet d s m port now).1.vdif_time_set = 1
        ∧ (align_first_packet d s m port now).1.vdif_offset
            = vdif_offset_of (get_mbuf_seq_num m) now
        ∧ (align_first_packet d s m port now).1.vdif_base_time
            = vdif_base_time_of (get_mbuf_seq_num m) (vdif_offset_of (get_mbuf_seq_num m) now) now)
    ∧ (¬ ((align_first_packet d s m port now).2 = 1 ∧ s.args.vdif_buf.isSome = true ∧ port = 0) →
        (align_first_packet d s m port now).1.vdif_time_set = s.vdif_time_set
        ∧ (align_first_packet d s m port now).1.vdif_offset = s.vdif_offset
        ∧ (align_first_packet d s m port now).1.vdif_base_time = s.vdif_base_time)
    ∧ (∀ p, ((align_first_packet d s m port now).1.link_data p).first_packet
        = (s.link_data p).first_packet) := by
  unfold align_first_packet
  by_cases hc : get_mbuf_seq_num m % integration_period s.args.config ≤ 100
  · simp only [hc, ge_iff_le, Nat.zero_le, and_self, if_true]
    refine ⟨?_, ?_, ?_⟩
    · rintro ⟨_, hv, hp⟩
      cases hb : s.args.buf <;> cases hv2 : s.args.vdif_buf <;>
        simp_all [get_buf, set_buf, set_vdif_buf, set_link]
    · intro hn
      have hn2 : ¬ (s.args.vdif_buf.isSome = true ∧ port = 0) := fun h => hn ⟨by simp, h.1, h.2⟩
      cases hb : s.args.buf <;> cases hv2 : s.args.vdif_buf <;>
        simp_all [get_buf, set_buf, set_vdif_buf, set_link]
    · intro p
      by_cases hp : p = port
      · subst hp
        split_ifs <;> cases hb : s.args.buf <;> cases hv2 : s.args.vdif_buf <;>
          simp [get_buf, set_buf, set_vdif_buf, set_link, hb, hv2]
      · split_ifs <;> cases hb : s.args.buf <;> cases hv2 : s.args.vdif_buf <;>
          simp [get_buf, set_buf, set_vdif_buf, set_link, hb, hv2, Function.update_noteq hp]
  · simp [hc]

/-- Whatever `recv_pkt_seq` returns, the first-packet flag of every link and
the time base are as before. -/
theorem recv_pkt_seq_frozen (d : Deps) (s t : NetworkDPDK) (port : Nat) (m : rte_mbuf)
    (now : timeval) (o : Outcome) (h : recv_pkt_seq d s port m now = some (t, o)) :
    (∀ p, (t.link_data p).first_packet = (s.link_data p).first_packet)
    ∧ t.vdif_time_set = s.vdif_time_set ∧ t.vdif_offset = s.vdif_offset
    ∧ t.vdif_base_time = s.vdif_base_time := by
  have hfin : ∀ u : NetworkDPDK,
      link_kept (set_link s port { s.link_data port with seq := get_mbuf_seq_num m }) u port →
      (∀ p, (u.link_data p).first_packet = (s.link_data p).first_packet)
      ∧ u.vdif_time_set = s.vdif_time_set ∧ u.vdif_offset = s.vdif_offset
      ∧ u.vdif_base_time = s.vdif_base_time := by
    intro u hk
    refine ⟨fun p => ?_, hk.vdif_time_set, hk.vdif_offset, hk.vdif_base_time⟩
    by_cases hp : p = port
    · subst hp
      rw [hk.first_packet]
      simp
    · rw [hk.others p hp, set_link_link_data_other _ _ _ _ hp]
  unfold recv_pkt_seq at h
  simp only [set_link_link_data_self] at h
  by_cases hneg : to_int64 (to_int64 (get_mbuf_seq_num m : Int)
      - to_int64 ((s.link_data port).last_seq : Int)) < 0
  · simp only [hneg, if_true, Option.some.injEq, Prod.mk.injEq] at h
    rw [← h.1]
    exact hfin _ (link_kept_refl _ _)
  · simp only [hneg, if_false] at h
    split at h
    · cases h
    · rename_i s3 hs3
      have hk3 : link_kept (set_link s port { s.link_data port with seq := get_mbuf_seq_num m })
          s3 port := by
        split_ifs at hs3
        · simp only [Option.bind_eq_some] at hs3
          obtain ⟨u, hu, hc⟩ := hs3
          exact link_kept_trans (handle_lost_packets_kept _ _ _ _ hu).1
            (copy_data_no_shuffle_kept _ _ _ _ _ hc).1
        · simp only [Option.bind_eq_some] at hs3
          obtain ⟨u, hu, hc⟩ := hs3
          cases hu
          exact (copy_data_no_shuffle_kept _ _ _ _ _ hc).1
        · cases hs3
          exact link_kept_refl _ _
      split at h
      · cases h
      · rename_i s4 hs4
        have hk4 : link_kept s3 s4 port := by
          split_ifs at hs4
          · simp only [Option.bind_eq_some] at hs4
            obtain ⟨u, hu, hc⟩ := hs4
            exact link_kept_trans (handle_lost_raw_packets_kept _ _ _ _ _ hu).1
              (copy_data_to_vdif_kept _ _ _ _ _ _ hc).1
          · simp only [Option.bind_eq_some] at hs4
            obtain ⟨u, hu, hc⟩ := hs4
            cases hu
            exact (copy_data_to_vdif_kept _ _ _ _ _ _ hc).1
          · cases hs4
            exact link_kept_refl _ _
        have hk := link_kept_trans hk3 hk4
        simp only [Option.some.injEq, Prod.mk.injEq] at h
        rw [← h.1]
        obtain ⟨h1, h2, h3, h4⟩ := hfin _ hk
        refine ⟨fun p => ?_, h2, h3, h4⟩
        rw [← h1 p]
        by_cases hp : p = port
        · subst hp; simp
        · rw [set_link_link_data_other _ _ _ _ hp]

/-- One packet of the loop body: either the time base is as before, or the
packet was the first aligned packet of port 0 with the timestamped output
enabled; a first-packet flag that is not 1 stays so. -/
theorem recv_pkt_time_base (d : Deps) (s t : NetworkDPDK) (port : Nat) (m : rte_mbuf)
    (now : timeval) (o : Outcome) (h : recv_pkt d s port m now = some (t, o)) :
    ((t.vdif_time_set = s.vdif_time_set ∧ t.vdif_offset = s.vdif_offset
        ∧ t.vdif_base_time = s.vdif_base_time)
      ∨ (port = 0 ∧ (s.link_data 0).first_packet = 1 ∧ (t.link_data 0).first_packet = 0
        ∧ s.args.vdif_buf.isSome = true
        ∧ t.vdif_time_set = 1
        ∧ t.vdif_offset = vdif_offset_of (get_mbuf_seq_num m) now
        ∧ t.vdif_base_time
            = vdif_base_time_of (get_mbuf_seq_num m) (vdif_offset_of (get_mbuf_seq_num m) now)
                now))
    ∧ (∀ p, (s.link_data p).first_packet ≠ 1 → (t.link_data p).first_packet ≠ 1) := by
  have hal := align_first_packet_time_base d s m port now
  unfold recv_pkt at h
  dsimp only at h
  generalize align_first_packet d s m port now = al at h hal
  obtain ⟨hal1, hal2, hal3⟩ := hal
  split_ifs at h with h1 h2 h3 h4
  · cases h; exact ⟨Or.inl ⟨rfl, rfl, rfl⟩, fun _ hp => hp⟩
  · cases h; exact ⟨Or.inl ⟨rfl, rfl, rfl⟩, fun _ hp => hp⟩
  · simp only [Option.some.injEq, Prod.mk.injEq] at h
    rw [← h.1]
    have hn : ¬ (al.2 = 1 ∧ s.args.vdif_buf.isSome = true ∧ port = 0) := by
      rw [h4]; simp
    exact ⟨Or.inl (hal2 hn), fun p hp => by rw [hal3 p]; exact hp⟩
  · obtain ⟨hf1, hf2, hf3, hf4⟩ := recv_pkt_seq_frozen d _ t port m now o h
    have hf2a : t.vdif_time_set = al.1.vdif_time_set := hf2
    have hf3a : t.vdif_offset = al.1.vdif_offset := hf3
    have hf4a : t.vdif_base_time = al.1.vdif_base_time := hf4
    have hfp : ∀ p, (t.link_data p).first_packet
        = if p = port then 0 else (s.link_data p).first_packet := by
      intro p
      rw [hf1 p]
      by_cases hp : p = port
      · rw [if_pos hp, hp, set_link_link_data_self]
      · rw [set_link_link_data_other _ _ _ _ hp, hal3 p, if_neg hp]
    constructor
    · by_cases hwr : al.2 = 1 ∧ s.args.vdif_buf.isSome = true ∧ port = 0
      · right
        have hw := hal1 hwr
        obtain ⟨_, hv, hp0⟩ := hwr
        refine ⟨hp0, hp0 ▸ h3, ?_, hv, hf2a.trans hw.1, hf3a.trans hw.2.1, hf4a.trans hw.2.2⟩
        rw [hfp 0, if_pos hp0.symm]
      · left
        have hw := hal2 hwr
        exact ⟨hf2a.trans hw.1, hf3a.trans hw.2.1, hf4a.trans hw.2.2⟩
    · intro p hp
      rw [hfp p]
      split_ifs
      · decide
      · exact hp
  · obtain ⟨hf1, hf2, hf3, hf4⟩ := recv_pkt_seq_frozen d _ t port m now o h
    exact ⟨Or.inl ⟨hf2, hf3, hf4⟩, fun p hp => by rw [hf1 p]; exact hp⟩

end network_dpdk

namespace network_dpdk

/-- Over a whole run of the polling loop a first-packet flag that is not 1
stays so, and once port 0 is aligned the time base does not change. -/
theorem recv_loop_frozen (d : Deps) :
    ∀ (arrivals : List (Nat × rte_mbuf × timeval)) (s t : NetworkDPDK) (os : List Outcome),
      recv_loop d s arrivals = some (t, os) →
      (∀ p, (s.link_data p).first_packet ≠ 1 → (t.link_data p).first_packet ≠ 1)
      ∧ ((s.link_data 0).first_packet ≠ 1 →
          t.vdif_time_set = s.vdif_time_set ∧ t.vdif_offset = s.vdif_offset
          ∧ t.vdif_base_time = s.vdif_base_time) := by
  intro arrivals
  induction arrivals with
  | nil =>
    intro s t os h
    simp only [recv_loop, Option.some.injEq, Prod.mk.injEq] at h
    rw [← h.1]
    exact ⟨fun _ hp => hp, fun _ => ⟨rfl, rfl, rfl⟩⟩
  | cons a rest ih =>
    intro s t os h
    obtain ⟨port, m, now⟩ := a
    rw [recv_loop] at h
    split at h
    · cases h
    · rename_i s1 o hstep
      split at h
      · cases h
      · rename_i s2 os2 hrest
        simp only [Option.some.injEq, Prod.mk.injEq] at h
        rw [← h.1]
        have h1 := recv_pkt_time_base d s s1 port m now o hstep
        have h2 := ih s1 s2 os2 hrest
        refine ⟨fun p hp => h2.1 p (h1.2 p hp), fun h0 => ?_⟩
        have h3 := h2.2 (h1.2 0 h0)
        rcases h1.1 with hsame | hwr
        · exact ⟨h3.1.trans hsame.1, h3.2.1.trans hsame.2.1, h3.2.2.trans hsame.2.2⟩
        · exact absurd hwr.2.1 h0

end network_dpdk

/-- C19. The time base is resolved once and frozen.  In every packet step of
`lcore_recv_pkt` the fields `vdif_time_set`, `vdif_offset` and `vdif_base_time`
are either left as they were or written by the step that aligns the first
packet of port 0 (with the timestamped output enabled), which clears the
first-packet flag of port 0; the values written are a function of the sequence
and the clock reading alone, so resolving twice from the same pair gives the
same offset and base time.  No step sets a first-packet flag back to 1.  Hence
over any run, once port 0 is aligned, every later step on any link leaves the
time base unchanged. -/
theorem C19_time_base_frozen (d : Deps) (s t : network_dpdk.NetworkDPDK)
    (arrivals : List (Nat × rte_mbuf × network_dpdk.timeval))
    (os : List network_dpdk.Outcome)
    (hrun : network_dpdk.recv_loop d s arrivals = some (t, os)) :
    (∀ (s1 t1 : network_dpdk.NetworkDPDK) (port : Nat) (m : rte_mbuf)
        (now : network_dpdk.timeval) (o : network_dpdk.Outcome),
        network_dpdk.recv_pkt d s1 port m now = some (t1, o) →
        ((t1.vdif_time_set = s1.vdif_time_set ∧ t1.vdif_offset = s1.vdif_offset
            ∧ t1.vdif_base_time = s1.vdif_base_time)
          ∨ (port = 0 ∧ (s1.link_data 0).first_packet = 1 ∧ (t1.link_data 0).first_packet = 0
            ∧ s1.args.vdif_buf.isSome = true
            ∧ t1.vdif_time_set = 1
            ∧ t1.vdif_offset = network_dpdk.vdif_offset_of (get_mbuf_seq_num m) now
            ∧ t1.vdif_base_time
                = network_dpdk.vdif_base_time_of (get_mbuf_seq_num m)
                    (network_dpdk.vdif_offset_of (get_mbuf_seq_num m) now) now))
        ∧ (∀ p, (s1.link_data p).first_packet ≠ 1 → (t1.link_data p).first_packet ≠ 1))
    ∧ (∀ p, (s.link_data p).first_packet ≠ 1 → (t.link_data p).first_packet ≠ 1)
    ∧ ((s.link_data 0).first_packet ≠ 1 →
        t.vdif_time_set = s.vdif_time_set ∧ t.vdif_offset = s.vdif_offset
        ∧ t.vdif_base_time = s.vdif_base_time)
    ∧ (∀ (s1 s2 : network_dpdk.NetworkDPDK) (m1 m2 : rte_mbuf) (now : network_dpdk.timeval),
        get_mbuf_seq_num m1 = get_mbuf_seq_num m2 →
        (network_dpdk.align_first_packet d s1 m1 0 now).2 = 1 →
        (network_dpdk.align_first_packet d s2 m2 0 now).2 = 1 →
        s1.args.vdif_buf.isSome = true → s2.args.vdif_buf.isSome = true →
        (network_dpdk.align_first_packet d s1 m1 0 now).1.vdif_offset
          = (network_dpdk.align_first_packet d s2 m2 0 now).1.vdif_offset
        ∧ (network_dpdk.align_first_packet d s1 m1 0 now).1.vdif_base_time
          = (network_dpdk.align_first_packet d s2 m2 0 now).1.vdif_base_time) := by
  have hr := network_dpdk.recv_loop_frozen d arrivals s t os hrun
  refine ⟨fun s1 t1 port m now o h => network_dpdk.recv_pkt_time_base d s1 t1 port m now o h,
    hr.1, hr.2, ?_⟩
  intro s1 s2 m1 m2 now hm h1 h2 hv1 hv2
  have a1 := (network_dpdk.align_first_packet_time_base d s1 m1 0 now).1 ⟨h1, hv1, rfl⟩
  have a2 := (network_dpdk.align_first_packet_time_base d s2 m2 0 now).1 ⟨h2, hv2, rfl⟩
  rw [a1.2.1, a1.2.2, a2.2.1, a2.2.2, hm]
  exact ⟨rfl, rfl⟩

set_option maxRecDepth 20000 in
/-- Witness of C19: on an aligned port 0 with the timestamped output and the
time base (1, 23437, 553315198), the packets 10 and 12 are processed and leave
the time base as it was. -/
theorem C19_time_base_frozen_witness :
    (network_dpdk.recv_loop Examples.deps (Examples.vnet 8 0 8 8 8 1 23437 553315198)
        (Examples.arrivals [10, 12])).map
      (fun r => (r.1.vdif_time_set, r.1.vdif_offset, r.1.vdif_base_time))
      = some (1, 23437, 553315198) := by
  have hs : (network_dpdk.recv_loop Examples.deps (Examples.vnet 8 0 8 8 8 1 23437 553315198)
      (Examples.arrivals [10, 12])).isSome = true := by decide
  obtain ⟨⟨t, os⟩, ht⟩ := Option.isSome_iff_exists.mp hs
  have h := (C19_time_base_frozen Examples.deps (Examples.vnet 8 0 8 8 8 1 23437 553315198) t
    (Examples.arrivals [10, 12]) os ht).2.2.1 (by decide)
  rw [ht]
  simp only [Option.map_some', h.1, h.2.1, h.2.2]
  rfl

/-! ## The frame writer and the loss handlers -/

/-- C12. Frame writer.  `copy_data_no_shuffle` computes the byte offset
`(seq - frame_start_seq) * 2048` in the current frame of the link.  If the
offset differs from the frame capacity (in particular if it is below it),
there is no advance: the link state and all metadata are as before and the
`timesamples_per_packet * 2048` payload bytes are copied to that offset of the
current frame.  If the offset equals the capacity, the frame is advanced
first: the current frame is marked full, `buffer_id` becomes
`(buffer_id + num_links_in_group) mod num_buffers`, that frame is acquired
and stamped with the data id, the receive time, the stream identity of the
link and `frame_start_seq = seq`, `data_id` grows by 1, and the payload is
copied to offset 0 of the new frame. -/
theorem C12_frame_writer (s : network_dpdk.NetworkDPDK) (m : rte_mbuf) (port : Nat)
    (now : network_dpdk.timeval) (b : network_dpdk.Buffer)
    (hb : network_dpdk.get_buf s port = some b)
    (htpp1 : 0 ≤ s.args.config.timesamples_per_packet)
    (htpp2 : s.args.config.timesamples_per_packet < 2 ^ 20)
    (hseq : (s.link_data port).seq < 2 ^ 48)
    (hstart : network_dpdk.get_fpga_seq_num b (s.link_data port).buffer_id < 2 ^ 48)
    (hid : 0 ≤ (s.link_data port).buffer_id)
    (hid2 : (s.link_data port).buffer_id + s.args.num_links_in_group port < 2 ^ 32)
    (hnb : 0 < b.num_buffers) (hnb2 : b.num_buffers ≤ 2 ^ 31)
    (hdid1 : -2 ^ 31 ≤ (s.link_data port).data_id + 1)
    (hdid2 : (s.link_data port).data_id + 1 < 2 ^ 31) :
    ((((s.link_data port).seq : Int)
          - network_dpdk.get_fpga_seq_num b (s.link_data port).buffer_id) * 2048
        ≠ b.buffer_size →
      ∃ t, network_dpdk.copy_data_no_shuffle s m port now = some t
        ∧ t.link_data = s.link_data
        ∧ network_dpdk.get_buf t port
            = some (network_dpdk.copy_block m b (s.link_data port).buffer_id
                ((((s.link_data port).seq : Int)
                  - network_dpdk.get_fpga_seq_num b (s.link_data port).buffer_id) * 2048)
                (2048 * s.args.config.timesamples_per_packet) 58))
    ∧ ((((s.link_data port).seq : Int)
          - network_dpdk.get_fpga_seq_num b (s.link_data port).buffer_id) * 2048
        = b.buffer_size →
      ∃ t, network_dpdk.copy_data_no_shuffle s m port now = some t
        ∧ t.link_data port =
            { s.link_data port with
              buffer_id := ((s.link_data port).buffer_id + s.args.num_links_in_group port)
                % b.num_buffers
              data_id := (s.link_data port).data_id + 1 }
        ∧ network_dpdk.get_buf t port
            = some (network_dpdk.copy_block m
                (network_dpdk.set_fpga_seq_num
                  (network_dpdk.set_stream_ID
                    (network_dpdk.set_first_packet_recv_time
                      (network_dpdk.set_data_ID
                        (network_dpdk.wait_for_empty_buffer
                          (network_dpdk.mark_buffer_full b (s.link_data port).buffer_id)
                          (((s.link_data port).buffer_id + s.args.num_links_in_group port)
                            % b.num_buffers))
                        (((s.link_data port).buffer_id + s.args.num_links_in_group port)
                          % b.num_buffers)
                        (s.link_data port).data_id)
                      (((s.link_data port).buffer_id + s.args.num_links_in_group port)
                        % b.num_buffers)
                      now)
                    (((s.link_data port).buffer_id + s.args.num_links_in_group port)
                      % b.num_buffers)
                    (s.link_data port).stream_ID)
                  (((s.link_data port).buffer_id + s.args.num_links_in_group port)
                    % b.num_buffers)
                  (s.link_data port).seq)
                (((s.link_data port).buffer_id + s.args.num_links_in_group port)
                  % b.num_buffers)
                0 (2048 * s.args.config.timesamples_per_packet) 58))
    ∧ (∀ (b0 : network_dpdk.Buffer) (id off : Int) (k : Nat),
        (k : Int) < 2048 * s.args.config.timesamples_per_packet →
        (network_dpdk.copy_block m b0 id off
            (2048 * s.args.config.timesamples_per_packet) 58).data id (off + k)
          = m.data (58 + k)) := by
  have hpds : to_int32 (2048 * s.args.config.timesamples_per_packet)
      = 2048 * s.args.config.timesamples_per_packet := to_int32_of_range _ (by omega) (by omega)
  have hloc : to_int64 (((s.link_data port).seq : Int)
      - network_dpdk.get_fpga_seq_num b (s.link_data port).buffer_id)
      = ((s.link_data port).seq : Int)
        - network_dpdk.get_fpga_seq_num b (s.link_data port).buffer_id :=
    to_int64_of_range _ (by omega) (by omega)
  have hoff : to_int64 ((((s.link_data port).seq : Int)
      - network_dpdk.get_fpga_seq_num b (s.link_data port).buffer_id) * 2048)
      = (((s.link_data port).seq : Int)
        - network_dpdk.get_fpga_seq_num b (s.link_data port).buffer_id) * 2048 :=
    to_int64_of_range _ (by omega) (by omega)
  refine ⟨fun hne => ?_, fun heq => ?_, ?_⟩
  · have hstay := network_dpdk.copy_data_no_shuffle_stay s m port now b hb
      (by rw [hloc, hoff]; exact hne)
    rw [hloc, hoff, hpds] at hstay
    exact ⟨_, hstay, rfl, network_dpdk.get_buf_set_buf _ _ _ b hb⟩
  · have hnew : to_int32 (to_uint32 ((s.link_data port).buffer_id
          + s.args.num_links_in_group port) % to_uint32 b.num_buffers)
        = ((s.link_data port).buffer_id + s.args.num_links_in_group port) % b.num_buffers := by
      have h1 : to_uint32 ((s.link_data port).buffer_id + s.args.num_links_in_group port)
          = (s.link_data port).buffer_id + s.args.num_links_in_group port := by
        unfold to_uint32; omega
      have h2 : to_uint32 b.num_buffers = b.num_buffers := by unfold to_uint32; omega
      rw [h1, h2]
      have h3 := Int.emod_nonneg ((s.link_data port).buffer_id + s.args.num_links_in_group port)
        (show b.num_buffers ≠ 0 by omega)
      have h4 := Int.emod_lt_of_pos ((s.link_data port).buffer_id
        + s.args.num_links_in_group port) hnb
      exact to_int32_of_range _ (by omega) (by omega)
    have hdid : to_int32 ((s.link_data port).data_id + 1) = (s.link_data port).data_id + 1 :=
      to_int32_of_range _ hdid1 hdid2
    have hadv : network_dpdk.advance_frame s port (s.link_data port).seq now
        = some (network_dpdk.set_buf
            (network_dpdk.set_link s port
              { s.link_data port with
                buffer_id := ((s.link_data port).buffer_id + s.args.num_links_in_group port)
                  % b.num_buffers
                data_id := (s.link_data port).data_id + 1 })
            port
            (network_dpdk.set_fpga_seq_num
              (network_dpdk.set_stream_ID
                (network_dpdk.set_first_packet_recv_time
                  (network_dpdk.set_data_ID
                    (network_dpdk.wait_for_empty_buffer
                      (network_dpdk.mark_buffer_full b (s.link_data port).buffer_id)
                      (((s.link_data port).buffer_id + s.args.num_links_in_group port)
                        % b.num_buffers))
                    (((s.link_data port).buffer_id + s.args.num_links_in_group port)
                      % b.num_buffers)
                    (s.link_data port).data_id)
                  (((s.link_data port).buffer_id + s.args.num_links_in_group port)
                    % b.num_buffers)
                  now)
                (((s.link_data port).buffer_id + s.args.num_links_in_group port)
                  % b.num_buffers)
                (s.link_data port).stream_ID)
              (((s.link_data port).buffer_id + s.args.num_links_in_group port)
                % b.num_buffers)
              (s.link_data port).seq)) := by
      unfold network_dpdk.advance_frame
      simp only [hb, hnew, hdid]
    obtain ⟨t1, b1, ht1, hb1, hcopy⟩ := network_dpdk.copy_data_no_shuffle_advance s m port now b
      hb (by rw [hloc, hoff]; exact heq)
    rw [hadv] at ht1
    cases ht1
    have hb1' := network_dpdk.get_buf_set_buf
      (network_dpdk.set_link s port
        { s.link_data port with
          buffer_id := ((s.link_data port).buffer_id + s.args.num_links_in_group port)
            % b.num_buffers
          data_id := (s.link_data port).data_id + 1 }) port
      (network_dpdk.set_fpga_seq_num
        (network_dpdk.set_stream_ID
          (network_dpdk.set_first_packet_recv_time
            (network_dpdk.set_data_ID
              (network_dpdk.wait_for_empty_buffer
                (network_dpdk.mark_buffer_full b (s.link_data port).buffer_id)
                (((s.link_data port).buffer_id + s.args.num_links_in_group port)
                  % b.num_buffers))
              (((s.link_data port).buffer_id + s.args.num_links_in_group port)
                % b.num_buffers)
              (s.link_data port).data_id)
            (((s.link_data port).buffer_id + s.args.num_links_in_group port)
              % b.num_buffers)
            now)
          (((s.link_data port).buffer_id + s.args.num_links_in_group port)
            % b.num_buffers)
          (s.link_data port).stream_ID)
        (((s.link_data port).buffer_id + s.args.num_links_in_group port)
          % b.num_buffers)
        (s.link_data port).seq) b (by simpa using hb)
    rw [hb1'] at hb1
    cases hb1
    rw [hpds] at hcopy
    refine ⟨_, hcopy, ?_, ?_⟩
    · simp
    · refine (network_dpdk.get_buf_set_buf _ _ _ _ hb1').trans ?_
      simp
  · intro b0 id off k hk
    simp [network_dpdk.copy_block, hk]

/-- Witness of C12 with frames of 8 samples starting at sequence 0: the packet
6 is written without an advance and leaves the link state as it was; the
packet 8 is at offset 16384, the capacity, so the frame is advanced to frame 1
and `data_id` becomes 1. -/
theorem C12_frame_writer_witness :
    (∃ t, network_dpdk.copy_data_no_shuffle (Examples.net 8 0 6 4 0 17) (Examples.packet 6 22) 0
          Examples.t0 = some t
        ∧ t.link_data = (Examples.net 8 0 6 4 0 17).link_data)
    ∧ (∃ t, network_dpdk.copy_data_no_shuffle (Examples.net 8 0 8 6 0 17) (Examples.packet 8 24) 0
          Examples.t0 = some t
        ∧ (t.link_data 0).buffer_id = 1 ∧ (t.link_data 0).data_id = 1) := by
  constructor
  · obtain ⟨t, h1, h2, _⟩ := (C12_frame_writer (Examples.net 8 0 6 4 0 17) (Examples.packet 6 22)
      0 Examples.t0 (Examples.pool 0 17) rfl (by decide) (by decide) (by decide) (by decide)
      (by decide) (by decide) (by decide) (by decide) (by decide) (by decide)).1 (by decide)
    exact ⟨t, h1, h2⟩
  · obtain ⟨t, h1, h2, _⟩ := (C12_frame_writer (Examples.net 8 0 8 6 0 17) (Examples.packet 8 24)
      0 Examples.t0 (Examples.pool 0 17) rfl (by decide) (by decide) (by decide) (by decide)
      (by decide) (by decide) (by decide) (by decide) (by decide) (by decide)).2.1 (by decide)
    refine ⟨t, h1, ?_, ?_⟩
    · rw [h2]; decide
    · rw [h2]; decide

/-- A relation that is reflexive, transitive and holds across every successful
step holds across a successful `foldlM` in `Option`. -/
theorem foldlM_option_rel {α β : Type} (R : β → β → Prop) (hrefl : ∀ b, R b b)
    (htrans : ∀ a b c, R a b → R b c → R a c) (f : β → α → Option β)
    (hf : ∀ b x b1, f b x = some b1 → R b b1) :
    ∀ (l : List α) (b b1 : β), l.foldlM f b = some b1 → R b b1 := by
  intro l
  induction l with
  | nil =>
    intro b b1 h
    simp only [List.foldlM, pure, Option.some.injEq] at h
    rw [← h]
    exact hrefl b
  | cons x xs ih =>
    intro b b1 h
    simp only [List.foldlM, bind, Option.bind_eq_some] at h
    obtain ⟨b2, h1, h2⟩ := h
    exact htrans _ _ _ (hf b x b2 h1) (ih b2 b1 h2)

namespace network_dpdk

theorem vdif_buf_set_vdif_buf (s : NetworkDPDK) (b vb : Buffer) (hv : s.args.vdif_buf = some vb) :
    (set_vdif_buf s b).args.vdif_buf = some b := by
  simp [set_vdif_buf, hv]

/-- What a call that only writes headers leaves alone in a pool. -/
theorem set_vdif_header_options_quiet (d : Deps) (s t : NetworkDPDK) (loc ne len inv : Int)
    (seq port : Nat) (vb : Buffer) (hv : s.args.vdif_buf = some vb)
    (h : set_vdif_header_options d s loc ne len inv seq port = some t) :
    ∃ vb1, t = set_vdif_buf s vb1 ∧ t.args.vdif_buf = some vb1
      ∧ vb1.bad_timesamples = vb.bad_timesamples ∧ vb1.buffer_size = vb.buffer_size
      ∧ vb1.num_buffers = vb.num_buffers ∧ vb1.fpga_seq_num = vb.fpga_seq_num := by
  unfold set_vdif_header_options at h
  simp only [hv, Option.map_eq_some'] at h
  obtain ⟨vb1, hfold, ht⟩ := h
  have hrel := foldlM_option_rel
    (fun (a b : Buffer) => b.bad_timesamples = a.bad_timesamples
      ∧ b.buffer_size = a.buffer_size ∧ b.num_buffers = a.num_buffers
      ∧ b.fpga_seq_num = a.fpga_seq_num)
    (fun _ => ⟨rfl, rfl, rfl, rfl⟩)
    (fun a b c h1 h2 => ⟨h2.1.trans h1.1, h2.2.1.trans h1.2.1, h2.2.2.1.trans h1.2.2.1,
      h2.2.2.2.trans h1.2.2.2⟩)
    _ (fun b0 (time_step : Nat) b1 hstep =>
      foldlM_option_rel
        (fun (a b : Buffer) => b.bad_timesamples = a.bad_timesamples
          ∧ b.buffer_size = a.buffer_size ∧ b.num_buffers = a.num_buffers
          ∧ b.fpga_seq_num = a.fpga_seq_num)
        (fun _ => ⟨rfl, rfl, rfl, rfl⟩)
        (fun a b c h1 h2 => ⟨h2.1.trans h1.1, h2.2.1.trans h1.2.1, h2.2.2.1.trans h1.2.2.1,
          h2.2.2.2.trans h1.2.2.2⟩)
        _ (fun b2 (elem : Nat) b3 hin => by
          split_ifs at hin
          cases hin
          exact ⟨rfl, rfl, rfl, rfl⟩)
        _ b0 b1 hstep)
    _ vb vb1 hfold
  refine ⟨vb1, ht.symm, ?_, hrel⟩
  rw [← ht]
  simp [set_vdif_buf, hv]

/-- The timestamped loss loop changes no lost-sample count and no frame
capacity, whatever it returns. -/
theorem lost_raw_packets_loop_quiet (d : Deps) (port : Nat) (now : timeval) (tpp : Int) :
    ∀ (fuel : Nat) (s t : NetworkDPDK) (fl cs lf : Int) (vb : Buffer),
      s.args.vdif_buf = some vb →
      lost_raw_packets_loop d port now tpp fuel s fl cs lf = some t →
      ∃ vb1, t.args.vdif_buf = some vb1
        ∧ vb1.bad_timesamples = vb.bad_timesamples ∧ vb1.buffer_size = vb.buffer_size
        ∧ vb1.num_buffers = vb.num_buffers := by
  intro fuel
  induction fuel with
  | zero =>
    intro s t fl cs lf vb hv h
    unfold lost_raw_packets_loop at h
    split_ifs at h
    cases h
    exact ⟨vb, hv, rfl, rfl, rfl⟩
  | succ n ih =>
    intro s t fl cs lf vb hv h
    rw [lost_raw_packets_loop] at h
    split_ifs at h with hpos
    · simp only [hv] at h
      split at h
      · cases h
      · rename_i s1 hs1
        have h1 : ∃ vb1, s1.args.vdif_buf = some vb1
            ∧ vb1.bad_timesamples = vb.bad_timesamples ∧ vb1.buffer_size = vb.buffer_size
            ∧ vb1.num_buffers = vb.num_buffers := by
          split_ifs at hs1
          · unfold advance_vdif_frame at hs1
            simp only [hv, Option.some.injEq] at hs1
            rw [← hs1]
            exact ⟨_, vdif_buf_set_vdif_buf _ _ vb hv, rfl, rfl, rfl⟩
          · cases hs1
            exact ⟨vb, hv, rfl, rfl, rfl⟩
        obtain ⟨vb1, hv1, hb1, hz1, hn1⟩ := h1
        split at h
        · cases h
        · rename_i s2 hs2
          obtain ⟨vb2, _, hv2, hb2, hz2, hn2, _⟩ :=
            set_vdif_header_options_quiet _ _ _ _ _ _ _ _ _ vb1 hv1 hs2
          obtain ⟨vb3, hv3, hb3, hz3, hn3⟩ := ih _ _ _ _ _ vb2 hv2 h
          exact ⟨vb3, hv3, hb3.trans (hb2.trans hb1),
            hz3.trans (hz2.trans hz1), hn3.trans (hn2.trans hn1)⟩
    · cases h
      exact ⟨vb, hv, rfl, rfl, rfl⟩

/-- Whenever `handle_lost_raw_packets` returns, it has added its count of lost
samples to the lost-sample count of the frame that was current on entry, and
to no other. -/
theorem handle_lost_raw_packets_count (d : Deps) (s t : NetworkDPDK) (port : Nat)
    (now : timeval) (vb : Buffer) (hv : s.args.vdif_buf = some vb)
    (h : handle_lost_raw_packets d s port now = some t) :
    ∃ vb1, t.args.vdif_buf = some vb1
      ∧ vb1.bad_timesamples = Function.update vb.bad_timesamples (s.link_data port).vdif_buffer_id
          (vb.bad_timesamples (s.link_data port).vdif_buffer_id
            + to_int32 (((s.link_data port).seq : Int) - (s.link_data port).last_seq)) := by
  unfold handle_lost_raw_packets at h
  simp only [hv] at h
  obtain ⟨vb1, hv1, hb1, _, _⟩ := lost_raw_packets_loop_quiet _ _ _ _ _ _ _ _ _ _
    (add_bad_timesamples vb (s.link_data port).vdif_buffer_id
      (to_int32 (to_uint64 (((s.link_data port).seq : Int) - (s.link_data port).last_seq))))
    (by simp [set_vdif_buf, hv]) h
  refine ⟨vb1, hv1, ?_⟩
  rw [hb1, to_int32_to_uint64]
  rfl

end network_dpdk

/-- C11, the code on a gap that spans a frame boundary.  Frames hold 8 samples,
`last_seq = 4`, `seq = 12`: the lost samples 6, 7 lie in frame 0 and the lost
samples 8 to 11 in frame 1, which the handler moves on to (it becomes the
current frame and is stamped 8).  The lost-sample count of frame 0 is 8, the
whole `seq - last_seq`, and the count of frame 1 is 0; the same holds for the
timestamped handler. -/
theorem C11_whole_gap_on_one_frame :
    (network_dpdk.handle_lost_packets (Examples.net 8 0 12 4 0 17) 0 Examples.t0).bind
        (fun t => (network_dpdk.get_buf t 0).map
          (fun b => ((t.link_data 0).buffer_id, b.fpga_seq_num 1, b.bad_timesamples 0,
            b.bad_timesamples 1)))
      = some (1, 8, 8, 0)
    ∧ (network_dpdk.handle_lost_raw_packets Examples.deps (Examples.vnet 8 0 12 4 0 1 0 0) 0
        Examples.t0).bind
        (fun t => t.args.vdif_buf.map
          (fun b => ((t.link_data 0).vdif_buffer_id, b.fpga_seq_num 1, b.bad_timesamples 0,
            b.bad_timesamples 1)))
      = some (1, 8, 8, 0) := by
  refine ⟨by decide, by decide⟩

/-! ## The frame writer without a bounds check, and the late first packet -/

/-- C14, the code on a capacity that is not a multiple of the packet size:
frames of 3 samples (6144 bytes), two samples per packet, every byte 17 before.
For the packet 2 the byte offset is 4096, which is not the capacity, so no
frame advance happens, and `copy_data_no_shuffle` returns with the payload
byte 18 at the byte indices 6144 and 8191, beyond the capacity; the whole run
on the packets 0, 2 returns in the same way.  The timestamped writer
`copy_data_to_vdif` on frames of 3 samples (6336 bytes) stops at its
assertion instead. -/
theorem C14_write_beyond_capacity :
    (Examples.pool_cap 6144 0 17).buffer_size = 6144
    ∧ (network_dpdk.copy_data_no_shuffle (Examples.net_cap 6144 8 0 2 0 0 17)
        (Examples.packet 2 18) 0 Examples.t0).bind
        (fun t => (network_dpdk.get_buf t 0).map
          (fun b => ((t.link_data 0).buffer_id, b.buffer_size,
            [b.data 0 4096, b.data 0 6143, b.data 0 6144, b.data 0 8191, b.data 0 8192])))
      = some (0, 6144, [18, 18, 18, 18, 17])
    ∧ (network_dpdk.recv_loop Examples.deps (Examples.net_cap 6144 8 1 0 0 0 17)
        (Examples.arrivals [0, 2])).bind
        (fun r => (network_dpdk.get_buf r.1 0).map
          (fun b => (r.2, b.data 0 6144, b.data 0 8191)))
      = some ([network_dpdk.Outcome.accepted false false,
          network_dpdk.Outcome.accepted false false], 18, 18)
    ∧ (network_dpdk.copy_data_to_vdif Examples.deps
        (Examples.vnet_cap 6336 8 0 2 0 0 1 0 0) (Examples.packet 2 18) 0 Examples.t0).isSome
      = false := by
  refine ⟨by decide, by decide, by decide, by decide⟩

/-- C16, the code on a late first packet (alignment 8, two samples per packet,
every byte 17 before).  First packet 2 (`r = 2`): it is accepted without a
call of the loss handler, the slot of the missing samples 0, 1 still holds 17
and no sample is counted as lost.  First packet 4 (`r = 4`): the loss handler
is called and counts 4, but it fills the slot of the samples 2, 3 and the slot
of the packet itself (then overwritten by the payload 20); the slot of the
missing samples 0, 1 still holds 17. -/
theorem C16_late_first_packet :
    (network_dpdk.recv_loop Examples.deps (Examples.net 8 1 0 0 0 17) (Examples.arrivals [2])).bind
        (fun r => (network_dpdk.get_buf r.1 0).map
          (fun b => (r.2, b.fpga_seq_num 0, [b.data 0 0, b.data 0 2047, b.data 0 (2 * 2048)],
            b.bad_timesamples 0)))
      = some ([network_dpdk.Outcome.accepted false false], 0, [17, 17, 18], 0)
    ∧ (network_dpdk.recv_loop Examples.deps (Examples.net 8 1 0 0 0 17) (Examples.arrivals [4])).bind
        (fun r => (network_dpdk.get_buf r.1 0).map
          (fun b => (r.2, b.fpga_seq_num 0,
            [b.data 0 0, b.data 0 2047, b.data 0 (2 * 2048), b.data 0 (4 * 2048)],
            b.bad_timesamples 0)))
      = some ([network_dpdk.Outcome.accepted true false], 0, [17, 17, 0x88, 20], 4) := by
  refine ⟨by decide, by decide⟩

/-! ## The two loss handlers side by side -/

namespace network_dpdk

/-- The outcome of `recv_pkt_seq` is `stale`, or `accepted` with each loss
handler called exactly when its output is enabled and
`diff > timesamples_per_packet`, for the one `diff` computed before. -/
theorem recv_pkt_seq_flags (d : Deps) (s t : NetworkDPDK) (port : Nat) (m : rte_mbuf)
    (now : timeval) (o : Outcome) (h : recv_pkt_seq d s port m now = some (t, o)) :
    o = Outcome.stale
    ∨ o = Outcome.accepted
          (s.args.buf.isSome && decide (to_int64 s.args.config.timesamples_per_packet
              < to_int64 (to_int64 (get_mbuf_seq_num m) - to_int64 (s.link_data port).last_seq)))
          (s.args.vdif_buf.isSome && decide (to_int64 s.args.config.timesamples_per_packet
              < to_int64 (to_int64 (get_mbuf_seq_num m) - to_int64 (s.link_data port).last_seq))) := by
  unfold recv_pkt_seq at h
  simp only [set_link_link_data_self] at h
  by_cases hneg : to_int64 (to_int64 (get_mbuf_seq_num m) - to_int64 (s.link_data port).last_seq) < 0
  · simp only [hneg, if_true, Option.some.injEq, Prod.mk.injEq] at h
    exact Or.inl h.2.symm
  · right
    simp only [hneg, if_false] at h
    split at h
    · cases h
    · rename_i s3 hs3
      have hk3 : s3.args.vdif_buf = s.args.vdif_buf := by
        split_ifs at hs3
        · simp only [Option.bind_eq_some] at hs3
          obtain ⟨u, hu, hc⟩ := hs3
          have hk := handle_lost_packets_kept _ _ _ _ hu
          have hk2 := copy_data_no_shuffle_kept _ _ _ _ _ hc
          exact hk2.2.trans hk.2
        · simp only [Option.bind_eq_some] at hs3
          obtain ⟨u, hu, hc⟩ := hs3
          cases hu
          exact (copy_data_no_shuffle_kept _ _ _ _ _ hc).2
        · cases hs3
          rfl
      split at h
      · cases h
      · simp only [Option.some.injEq, Prod.mk.injEq] at h
        rw [← h.2, hk3]
        simp [gt_iff_lt]

/-- One iteration of the filling loop of `handle_lost_packets`: the state and
the frame location after the body of the loop. -/
theorem lost_packets_loop_step (port : Nat) (now : timeval) :
    ∃ X : Int → Int → NetworkDPDK → Int → Int → Option (NetworkDPDK × Int),
      ∀ (buffer_id tpp : Int) (n : Nat) (s : NetworkDPDK) (fl cs lf : Int),
        lost_packets_loop port now buffer_id tpp (n + 1) s fl cs lf
          = if lf > 0 then
              (X buffer_id tpp s fl cs).bind (fun p =>
                lost_packets_loop port now buffer_id tpp n p.1 p.2
                  (to_int64 (cs + tpp)) (to_int32 (lf - tpp)))
            else some s := by
  refine ⟨fun buffer_id tpp s fl cs =>
    match get_buf s port with
    | none => none
    | some b =>
      match (if (decide (to_int64 (fl * 2048) = b.buffer_size)) = true
             then advance_frame s port (to_uint64 cs).toNat now else some s) with
      | none => none
      | some s1 =>
        match get_buf s1 port with
        | none => none
        | some b1 =>
          some (set_buf s1 port
            (nt_memset b1 buffer_id
              (to_int64 ((if (decide (to_int64 (fl * 2048) = b.buffer_size)) = true then 0 else fl)
                * 2048)) 0x88 (to_int64 (2048 * tpp))),
            to_int64 ((if (decide (to_int64 (fl * 2048) = b.buffer_size)) = true then 0 else fl)
              + tpp)), ?_⟩
  intro buffer_id tpp n s fl cs lf
  rw [lost_packets_loop]
  by_cases hpos : lf > 0
  · simp only [hpos, if_true]
    cases hb : get_buf s port with
    | none => rfl
    | some b =>
      simp only
      cases hadv : (if (decide (to_int64 (fl * 2048) = b.buffer_size)) = true
             then advance_frame s port (to_uint64 cs).toNat now else some s) with
      | none => rfl
      | some s1 =>
        simp only
        cases hb1 : get_buf s1 port with
        | none => rfl
        | some b1 => rfl
  · simp only [hpos, if_false]

/-- One iteration of the filling loop of `handle_lost_raw_packets`. -/
theorem lost_raw_packets_loop_step (d : Deps) (port : Nat) (now : timeval) :
    ∃ Y : Int → NetworkDPDK → Int → Int → Option (NetworkDPDK × Int),
      ∀ (tpp : Int) (n : Nat) (s : NetworkDPDK) (fl cs lf : Int),
        lost_raw_packets_loop d port now tpp (n + 1) s fl cs lf
          = if lf > 0 then
              (Y tpp s fl cs).bind (fun p =>
                lost_raw_packets_loop d port now tpp n p.1 p.2
                  (to_int64 (cs + tpp)) (to_int32 (lf - tpp)))
            else some s := by
  refine ⟨fun tpp s fl cs =>
    match s.args.vdif_buf with
    | none => none
    | some vb =>
      match (if (decide (to_int64 (fl * to_int32 ((32 + 1024) * 2)) = vb.buffer_size)) = true
             then advance_vdif_frame s port (to_uint64 cs).toNat now else some s) with
      | none => none
      | some s1 =>
        match set_vdif_header_options d s1
            (to_int32 (to_int64
              ((if (decide (to_int64 (fl * to_int32 ((32 + 1024) * 2)) = vb.buffer_size)) = true
                then 0 else fl) * to_int32 ((32 + 1024) * 2))))
            2 (32 + 1024) 1 (to_uint64 cs).toNat port with
        | none => none
        | some s2 =>
          some (s2,
            to_int64 ((if (decide (to_int64 (fl * to_int32 ((32 + 1024) * 2)) = vb.buffer_size))
              = true then 0 else fl) + tpp)), ?_⟩
  intro tpp n s fl cs lf
  rw [lost_raw_packets_loop]
  by_cases hpos : lf > 0
  · simp only [hpos, if_true]
    cases hb : s.args.vdif_buf with
    | none => rfl
    | some vb =>
      simp only
      cases hadv : (if (decide (to_int64 (fl * to_int32 ((32 + 1024) * 2)) = vb.buffer_size)) = true
             then advance_vdif_frame s port (to_uint64 cs).toNat now else some s) with
      | none => rfl
      | some s1 =>
        simp only
        cases hb1 : set_vdif_header_options d s1
            (to_int32 (to_int64
              ((if (decide (to_int64 (fl * to_int32 ((32 + 1024) * 2)) = vb.buffer_size)) = true
                then 0 else fl) * to_int32 ((32 + 1024) * 2))))
            2 (32 + 1024) 1 (to_uint64 cs).toNat port with
        | none => rfl
        | some s2 => rfl
  · simp only [hpos, if_false]

end network_dpdk

set_option maxRecDepth 20000 in
/-- C21.  In the loop body of `lcore_recv_pkt` one `diff` is computed and both
loss handlers are guarded by `diff > timesamples_per_packet`: whenever the body
returns, the packet was stale (no handler called) or each handler was called
exactly when its output is enabled and that one condition holds.  The packed
path (`handle_lost_packets`, `copy_data_no_shuffle`) leaves `seq`, `last_seq`
and the configuration of the link as they were, so the timestamped handler
reads what the packed handler read.  From the same `seq`, `last_seq` and
configuration both handlers start their filling loop with the same lost count
`(int)(seq - last_seq)`, the same first sequence
`last_seq + timesamples_per_packet` and the same bound on the iterations, and
both loops stop when the count is not positive and otherwise go on with the
sequence advanced and the count reduced by `timesamples_per_packet`, whatever
the frames hold: they visit the same sequence values.  On the packets 0, 6
with both outputs enabled both handlers are called at the packet 6 and both
count 6 lost samples. -/
theorem C21_framers_agree (d : Deps) (port : Nat) (now : network_dpdk.timeval) :
    (∀ s t m o, network_dpdk.recv_pkt_seq d s port m now = some (t, o) →
      o = network_dpdk.Outcome.stale
      ∨ o = network_dpdk.Outcome.accepted
          (s.args.buf.isSome && decide (to_int64 s.args.config.timesamples_per_packet
              < to_int64 (to_int64 (get_mbuf_seq_num m) - to_int64 (s.link_data port).last_seq)))
          (s.args.vdif_buf.isSome && decide (to_int64 s.args.config.timesamples_per_packet
              < to_int64 (to_int64 (get_mbuf_seq_num m) - to_int64 (s.link_data port).last_seq))))
    ∧ (∀ s u t m, network_dpdk.handle_lost_packets s port now = some u →
        network_dpdk.copy_data_no_shuffle u m port now = some t →
        (t.link_data port).seq = (s.link_data port).seq
        ∧ (t.link_data port).last_seq = (s.link_data port).last_seq
        ∧ t.args.config = s.args.config)
    ∧ (∀ (s t : network_dpdk.NetworkDPDK) b vb, network_dpdk.get_buf s port = some b →
        t.args.vdif_buf = some vb →
        (t.link_data port).seq = (s.link_data port).seq →
        (t.link_data port).last_seq = (s.link_data port).last_seq →
        t.args.config = s.args.config →
          network_dpdk.handle_lost_packets s port now
            = network_dpdk.lost_packets_loop port now (s.link_data port).buffer_id
                (to_int64 s.args.config.timesamples_per_packet)
                (to_int32 (to_uint64 (((s.link_data port).seq : Int)
                  - (s.link_data port).last_seq))).toNat
                (network_dpdk.set_buf s port (network_dpdk.add_bad_timesamples b
                  (s.link_data port).buffer_id
                  (to_int32 (to_uint64 (((s.link_data port).seq : Int)
                    - (s.link_data port).last_seq)))))
                (to_int64 (((s.link_data port).last_seq : Int)
                  + to_int64 s.args.config.timesamples_per_packet
                  - network_dpdk.get_fpga_seq_num b (s.link_data port).buffer_id))
                (to_int64 (((s.link_data port).last_seq : Int)
                  + to_int64 s.args.config.timesamples_per_packet))
                (to_int32 (to_uint64 (((s.link_data port).seq : Int)
                  - (s.link_data port).last_seq)))
          ∧ network_dpdk.handle_lost_raw_packets d t port now
            = network_dpdk.lost_raw_packets_loop d port now
                (to_int64 s.args.config.timesamples_per_packet)
                (to_int32 (to_uint64 (((s.link_data port).seq : Int)
                  - (s.link_data port).last_seq))).toNat
                (network_dpdk.set_vdif_buf t (network_dpdk.add_bad_timesamples vb
                  (t.link_data port).vdif_buffer_id
                  (to_int32 (to_uint64 (((s.link_data port).seq : Int)
                    - (s.link_data port).last_seq)))))
                (to_int64 (((s.link_data port).last_seq : Int)
                  + to_int64 s.args.config.timesamples_per_packet
                  - network_dpdk.get_fpga_seq_num vb (t.link_data port).vdif_buffer_id))
                (to_int64 (((s.link_data port).last_seq : Int)
                  + to_int64 s.args.config.timesamples_per_packet))
                (to_int32 (to_uint64 (((s.link_data port).seq : Int)
                  - (s.link_data port).last_seq))))
    ∧ (∃ X : Int → Int → network_dpdk.NetworkDPDK → Int → Int
          → Option (network_dpdk.NetworkDPDK × Int),
        ∀ (buffer_id tpp : Int) (n : Nat) (s : network_dpdk.NetworkDPDK) (fl cs lf : Int),
          network_dpdk.lost_packets_loop port now buffer_id tpp 0 s fl cs lf
            = (if lf > 0 then none else some s)
          ∧ network_dpdk.lost_packets_loop port now buffer_id tpp (n + 1) s fl cs lf
            = if lf > 0 then
                (X buffer_id tpp s fl cs).bind (fun p =>
                  network_dpdk.lost_packets_loop port now buffer_id tpp n p.1 p.2
                    (to_int64 (cs + tpp)) (to_int32 (lf - tpp)))
              else some s)
    ∧ (∃ Y : Int → network_dpdk.NetworkDPDK → Int → Int
          → Option (network_dpdk.NetworkDPDK × Int),
        ∀ (tpp : Int) (n : Nat) (s : network_dpdk.NetworkDPDK) (fl cs lf : Int),
          network_dpdk.lost_raw_packets_loop d port now tpp 0 s fl cs lf
            = (if lf > 0 then none else some s)
          ∧ network_dpdk.lost_raw_packets_loop d port now tpp (n + 1) s fl cs lf
            = if lf > 0 then
                (Y tpp s fl cs).bind (fun p =>
                  network_dpdk.lost_raw_packets_loop d port now tpp n p.1 p.2
                    (to_int64 (cs + tpp)) (to_int32 (lf - tpp)))
              else some s)
    ∧ (network_dpdk.recv_loop Examples.deps (Examples.bnet 8 1 0 0 0 0)
          (Examples.arrivals [0, 6])).bind
        (fun r => (network_dpdk.get_buf r.1 0).bind (fun b => r.1.args.vdif_buf.map
          (fun vb => (r.2, b.bad_timesamples 0, vb.bad_timesamples 0))))
      = some ([network_dpdk.Outcome.accepted false false,
          network_dpdk.Outcome.accepted true true], 6, 6) := by
  refine ⟨fun s t m o h => network_dpdk.recv_pkt_seq_flags d s t port m now o h, ?_, ?_, ?_, ?_,
    by decide⟩
  · intro s u t m hu ht
    have hk := network_dpdk.link_kept_trans (network_dpdk.handle_lost_packets_kept _ _ _ _ hu).1
      (network_dpdk.copy_data_no_shuffle_kept _ _ _ _ _ ht).1
    exact ⟨hk.seq, hk.last_seq, hk.config⟩
  · intro s t b vb hb hv hseq hlast hcfg
    refine ⟨?_, ?_⟩
    · unfold network_dpdk.handle_lost_packets
      simp only [hb]
    · unfold network_dpdk.handle_lost_raw_packets
      simp only [hv, hseq, hlast, hcfg]
  · obtain ⟨X, hX⟩ := network_dpdk.lost_packets_loop_step port now
    exact ⟨X, fun buffer_id tpp n s fl cs lf =>
      ⟨by rw [network_dpdk.lost_packets_loop], hX buffer_id tpp n s fl cs lf⟩⟩
  · obtain ⟨Y, hY⟩ := network_dpdk.lost_raw_packets_loop_step d port now
    exact ⟨Y, fun tpp n s fl cs lf =>
      ⟨by rw [network_dpdk.lost_raw_packets_loop], hY tpp n s fl cs lf⟩⟩

/-! ## `iceBoardHandler`: packet checks, wire decoding and counters -/

namespace iceBoardHandler

/-- The checksum test of `check_packet` compares `ol_flags | PKT_RX_IP_CKSUM_BAD`
with 1: when the flag is any bit other than bit 0 the test is false for every
packet. -/
theorem cksum_test_never (d : Deps) (cur_mbuf : rte_mbuf) (hbad : 2 ≤ d.PKT_RX_IP_CKSUM_BAD) :
    (cur_mbuf.ol_flags ||| d.PKT_RX_IP_CKSUM_BAD) ≠ 1 := by
  intro h
  obtain ⟨i, hi, hb⟩ := Nat.ge_two_pow_implies_high_bit_true (x := d.PKT_RX_IP_CKSUM_BAD) (n := 1)
    (by simpa using hbad)
  have hor := Nat.testBit_or cur_mbuf.ol_flags d.PKT_RX_IP_CKSUM_BAD i
  have h1 : Nat.testBit 1 i = false :=
    Nat.testBit_lt_two_pow (Nat.one_lt_two_pow (by omega))
  rw [h, hb, h1] at hor
  simp at hor

/-- With the flag any bit other than bit 0, `check_packet` depends on the
length only: a packet of the configured length is counted as good whatever its
offload flags say. -/
theorem check_packet_ignores_flags (d : Deps) (h : State) (cur_mbuf : rte_mbuf)
    (hbad : 2 ≤ d.PKT_RX_IP_CKSUM_BAD) (hlen : h.fpga_packet_size = cur_mbuf.pkt_len) :
    check_packet d h cur_mbuf =
      ({ h with
          rx_packets_total := u64_add h.rx_packets_total 1
          rx_bytes_total := u64_add h.rx_bytes_total cur_mbuf.pkt_len }, true) := by
  unfold check_packet
  simp [cksum_test_never d cur_mbuf hbad, hlen]

end iceBoardHandler

/-- C22, the code on a packet with a bad IP checksum.  With
`PKT_RX_IP_CKSUM_BAD` bit 4 as in DPDK, a packet of the configured length
4928 whose offload flags have that bit set (16, or 16 together with other
bits) passes `check_packet`: the result is `true`, no checksum error and no
error is counted, and the packet is counted in `rx_packets_total` and
`rx_bytes_total`.  The loop body of `lcore_recv_pkt`, which makes the same
test, accepts the packet and copies its payload into the frame. -/
theorem C22_bad_checksum_passes :
    16 &&& Examples.deps.PKT_RX_IP_CKSUM_BAD = Examples.deps.PKT_RX_IP_CKSUM_BAD
    ∧ iceBoardHandler.check_packet Examples.deps (Examples.handler 8 0 0)
        { Examples.packet 0 16 with ol_flags := 16 }
      = ({ Examples.handler 8 0 0 with rx_packets_total := 1, rx_bytes_total := 4928 }, true)
    ∧ (iceBoardHandler.check_packet Examples.deps (Examples.handler 8 0 0)
        { Examples.packet 0 16 with ol_flags := 16 + 128 }).2 = true
    ∧ (network_dpdk.recv_pkt Examples.deps (Examples.net 8 0 0 0 0 17) 0
        { Examples.packet 2 18 with ol_flags := 16 } Examples.t0).bind
        (fun r => (network_dpdk.get_buf r.1 0).map (fun b => (r.2, b.data 0 (2 * 2048))))
      = some (network_dpdk.Outcome.accepted false false, 18) := by
  refine ⟨by decide, by decide, by decide, by decide⟩

/-- C23.  The decoded sequence number is
`low32 + ((high_word & 0xFFFF) << 32)` with `low32` the little-endian 32-bit
word at byte offset 54 and `high_word` the one at byte offset 50.  It is below
`2^48`, its bits 0 to 31 are `low32`, its bits 32 to 47 are the low 16 bits of
`high_word`, and it is the same for two packets that differ only in the bytes
52 and 53, the upper 16 bits of `high_word`. -/
theorem C23_wire_decoding (m : rte_mbuf) :
    get_mbuf_seq_num m = read_uint32 m 54 + ((read_uint32 m 50 &&& 0xFFFF) <<< 32)
    ∧ read_uint32 m 54 = m.data 54 % 256 + 256 * (m.data 55 % 256)
        + 65536 * (m.data 56 % 256) + 16777216 * (m.data 57 % 256)
    ∧ get_mbuf_seq_num m < 2 ^ 48
    ∧ get_mbuf_seq_num m % 2 ^ 32 = read_uint32 m 54
    ∧ get_mbuf_seq_num m / 2 ^ 32 = read_uint32 m 50 % 2 ^ 16
    ∧ get_mbuf_seq_num m / 2 ^ 32 = m.data 50 % 256 + 256 * (m.data 51 % 256)
    ∧ (∀ m2 : rte_mbuf, (∀ i, i ≠ 52 → i ≠ 53 → m2.data i = m.data i) →
        get_mbuf_seq_num m2 = get_mbuf_seq_num m) := by
  have hlow := read_uint32_lt m 54
  have hand : 0xFFFF &&& read_uint32 m 50 = read_uint32 m 50 % 2 ^ 16 := by
    rw [Nat.and_comm]
    exact Nat.and_pow_two_sub_one_eq_mod _ 16
  have hval : get_mbuf_seq_num m = read_uint32 m 54 + (read_uint32 m 50 % 2 ^ 16) * 2 ^ 32 := by
    unfold get_mbuf_seq_num
    rw [hand, Nat.shiftLeft_eq]
  have hhigh : read_uint32 m 50 % 2 ^ 16 = m.data 50 % 256 + 256 * (m.data 51 % 256) := by
    unfold read_uint32
    simp only [Nat.reduceAdd]
    omega
  refine ⟨?_, rfl, get_mbuf_seq_num_lt m, ?_, ?_, ?_, ?_⟩
  · unfold get_mbuf_seq_num
    rw [Nat.and_comm]
  · rw [hval]; omega
  · rw [hval]; omega
  · rw [hval, hhigh]; omega
  · intro m2 h2
    have hand2 : 0xFFFF &&& read_uint32 m2 50 = read_uint32 m2 50 % 2 ^ 16 := by
      rw [Nat.and_comm]
      exact Nat.and_pow_two_sub_one_eq_mod _ 16
    unfold get_mbuf_seq_num
    rw [hand, hand2]
    have e1 : read_uint32 m2 54 = read_uint32 m 54 := by
      unfold read_uint32
      rw [h2 54 (by decide) (by decide), h2 (54 + 1) (by decide) (by decide),
        h2 (54 + 2) (by decide) (by decide), h2 (54 + 3) (by decide) (by decide)]
    have e2 : read_uint32 m2 50 % 2 ^ 16 = read_uint32 m 50 % 2 ^ 16 := by
      unfold read_uint32
      rw [h2 50 (by decide) (by decide), h2 (50 + 1) (by decide) (by decide)]
      omega
    rw [e1, e2]

/-- C24.  For `cur_seq` and `last_seq` below `2^48`, `get_packet_diff` is the
exact difference `cur_seq - last_seq`; it lies strictly between `-2^48` and
`2^48` and is negative exactly when `cur_seq < last_seq`. -/
theorem C24_get_packet_diff (h : iceBoardHandler.State) (hcur : h.cur_seq < 2 ^ 48)
    (hlast : h.last_seq < 2 ^ 48) :
    iceBoardHandler.get_packet_diff h = (h.cur_seq : Int) - h.last_seq
    ∧ -2 ^ 48 < iceBoardHandler.get_packet_diff h
    ∧ iceBoardHandler.get_packet_diff h < 2 ^ 48
    ∧ (iceBoardHandler.get_packet_diff h < 0 ↔ h.cur_seq < h.last_seq) := by
  have e : iceBoardHandler.get_packet_diff h = (h.cur_seq : Int) - h.last_seq := by
    unfold iceBoardHandler.get_packet_diff to_int64
    omega
  rw [e]
  omega

/-- C24 on `cur_seq = 5`, `last_seq = 2^48 - 1`: the difference is
`5 - (2^48 - 1)`, negative. -/
theorem C24_get_packet_diff_witness :
    iceBoardHandler.get_packet_diff (Examples.handler 8 5 (2 ^ 48 - 1)) = 5 - (2 ^ 48 - 1)
    ∧ iceBoardHandler.get_packet_diff (Examples.handler 8 5 (2 ^ 48 - 1)) < 0 := by
  have h := C24_get_packet_diff (Examples.handler 8 5 (2 ^ 48 - 1)) (by decide) (by decide)
  exact ⟨h.1, h.2.2.2.2 (by decide)⟩

namespace iceBoardHandler

/-- One call: the error total stays the sum of the three error counters, the
counters grow by at most one event, and none of them decreases, as long as
fewer than `N` calls were made before and `N` calls cannot wrap a counter. -/
theorem call_counters (d : Deps) (h : State) (c : Call) (n N : Nat) (hn : n < N)
    (hN : N < 2 ^ 64) (hNS : N * h.fpga_packet_size < 2 ^ 64)
    (hsum : h.rx_errors_total
      = h.rx_ip_cksum_errors_total + h.rx_packet_len_errors_total + h.rx_out_of_order_errors_total)
    (herr : h.rx_errors_total ≤ n) (hpk : h.rx_packets_total ≤ n)
    (hby : h.rx_bytes_total ≤ n * h.fpga_packet_size) :
    (call d h c).fpga_packet_size = h.fpga_packet_size
    ∧ (call d h c).rx_errors_total
      = (call d h c).rx_ip_cksum_errors_total + (call d h c).rx_packet_len_errors_total
        + (call d h c).rx_out_of_order_errors_total
    ∧ (call d h c).rx_errors_total ≤ n + 1 ∧ (call d h c).rx_packets_total ≤ n + 1
    ∧ (call d h c).rx_bytes_total ≤ (n + 1) * h.fpga_packet_size
    ∧ h.rx_errors_total ≤ (call d h c).rx_errors_total
    ∧ h.rx_ip_cksum_errors_total ≤ (call d h c).rx_ip_cksum_errors_total
    ∧ h.rx_packet_len_errors_total ≤ (call d h c).rx_packet_len_errors_total
    ∧ h.rx_out_of_order_errors_total ≤ (call d h c).rx_out_of_order_errors_total
    ∧ h.rx_packets_total ≤ (call d h c).rx_packets_total
    ∧ h.rx_bytes_total ≤ (call d h c).rx_bytes_total
    ∧ h.rx_lost_samples_total ≤ (call d h c).rx_lost_samples_total := by
  have hm1 : (n + 1) * h.fpga_packet_size ≤ N * h.fpga_packet_size :=
    Nat.mul_le_mul_right _ hn
  have hm2 : (n + 1) * h.fpga_packet_size = n * h.fpga_packet_size + h.fpga_packet_size :=
    Nat.succ_mul _ _
  cases c with
  | check_packet m =>
    simp only [call]
    unfold check_packet u64_add
    split_ifs with h1 h2
    · simp only
      and_intros <;> first | trivial | rfl | omega
    · simp only
      and_intros <;> first | trivial | rfl | omega
    · simp only
      have h3 : h.fpga_packet_size = m.pkt_len := by
        by_contra hc
        exact h2 hc
      rw [← h3]
      and_intros <;> first | trivial | rfl | omega
  | check_order diff =>
    simp only [call]
    unfold check_order u64_add
    split_ifs with h1
    · simp only
      and_intros <;> first | trivial | rfl | omega
    · simp only
      and_intros <;> first | trivial | rfl | omega
  | check_for_reset diff =>
    simp only [call]
    unfold check_for_reset
    split_ifs with h1
    · simp only
      and_intros <;> first | trivial | rfl | omega
    · simp only
      and_intros <;> first | trivial | rfl | omega
  | align_first_packet m =>
    simp only [call]
    unfold align_first_packet
    simp only
    split_ifs with h1
    · simp only
      and_intros <;> first | trivial | rfl | omega
    · simp only
      and_intros <;> first | trivial | rfl | omega

/-- The same over a sequence of calls. -/
theorem calls_counters (d : Deps) (N : Nat) (hN : N < 2 ^ 64) :
    ∀ (l : List Call) (h : State) (n : Nat), n + l.length ≤ N →
      N * h.fpga_packet_size < 2 ^ 64 →
      h.rx_errors_total
        = h.rx_ip_cksum_errors_total + h.rx_packet_len_errors_total
          + h.rx_out_of_order_errors_total →
      h.rx_errors_total ≤ n → h.rx_packets_total ≤ n →
      h.rx_bytes_total ≤ n * h.fpga_packet_size →
      (calls d h l).rx_errors_total
        = (calls d h l).rx_ip_cksum_errors_total + (calls d h l).rx_packet_len_errors_total
          + (calls d h l).rx_out_of_order_errors_total
      ∧ h.rx_errors_total ≤ (calls d h l).rx_errors_total
      ∧ h.rx_ip_cksum_errors_total ≤ (calls d h l).rx_ip_cksum_errors_total
      ∧ h.rx_packet_len_errors_total ≤ (calls d h l).rx_packet_len_errors_total
      ∧ h.rx_out_of_order_errors_total ≤ (calls d h l).rx_out_of_order_errors_total
      ∧ h.rx_packets_total ≤ (calls d h l).rx_packets_total
      ∧ h.rx_bytes_total ≤ (calls d h l).rx_bytes_total
      ∧ h.rx_lost_samples_total ≤ (calls d h l).rx_lost_samples_total
      ∧ (calls d h l).fpga_packet_size = h.fpga_packet_size
      ∧ (calls d h l).rx_errors_total ≤ n + l.length
      ∧ (calls d h l).rx_packets_total ≤ n + l.length
      ∧ (calls d h l).rx_bytes_total ≤ (n + l.length) * h.fpga_packet_size := by
  intro l
  induction l with
  | nil =>
    intro h n _ _ hsum herr hpk hby
    simp only [calls, List.foldl, List.length_nil, Nat.add_zero]
    exact ⟨hsum, le_refl _, le_refl _, le_refl _, le_refl _, le_refl _, le_refl _, le_refl _,
      trivial, herr, hpk, hby⟩
  | cons c l ih =>
    intro h n hlen hNS hsum herr hpk hby
    simp only [List.length_cons] at hlen
    obtain ⟨c0, c1, c2, c3, c4, m1, m2, m3, m4, m5, m6, m7⟩ :=
      call_counters d h c n N (by omega) hN hNS hsum herr hpk hby
    have ih2 := ih (call d h c) (n + 1) (by omega) (by rw [c0]; exact hNS) c1 c2 c3
      (by rw [c0]; exact c4)
    have e : calls d h (c :: l) = calls d (call d h c) l := rfl
    rw [e]
    rw [c0] at ih2
    obtain ⟨i1, i2, i3, i4, i5, i6, i7, i8, i9, i10, i11, i12⟩ := ih2
    have el : n + (c :: l).length = n + 1 + l.length := by simp only [List.length_cons]; omega
    rw [el]
    exact ⟨i1, le_trans m1 i2, le_trans m2 i3, le_trans m3 i4, le_trans m4 i5, le_trans m5 i6,
      le_trans m6 i7, le_trans m7 i8, i9, i10, i11, i12⟩

theorem calls_append (d : Deps) (h : State) (l1 l2 : List Call) :
    calls d h (l1 ++ l2) = calls d (calls d h l1) l2 := by
  simp [calls, List.foldl_append]

end iceBoardHandler

/-- C25.  Start with the error, packet and byte counters at zero and make any sequence of
`check_packet`, `check_order`, `check_for_reset` and `align_first_packet`
calls, short enough that no 64-bit counter wraps (fewer than `2^64` calls, and
fewer than `2^64` bytes at `fpga_packet_size` bytes a call).  After the calls
`rx_errors_total` is the sum of `rx_ip_cksum_errors_total`,
`rx_packet_len_errors_total` and `rx_out_of_order_errors_total`, and no counter
is smaller after the calls `l1 ++ l2` than it was after the calls `l1`. -/
theorem C25_error_counters (d : Deps) (h0 : iceBoardHandler.State)
    (l1 l2 : List iceBoardHandler.Call)
    (hz1 : h0.rx_errors_total = 0) (hz2 : h0.rx_ip_cksum_errors_total = 0)
    (hz3 : h0.rx_packet_len_errors_total = 0) (hz4 : h0.rx_out_of_order_errors_total = 0)
    (hz5 : h0.rx_packets_total = 0) (hz6 : h0.rx_bytes_total = 0)
    (hN : l1.length + l2.length < 2 ^ 64)
    (hNS : (l1.length + l2.length) * h0.fpga_packet_size < 2 ^ 64) :
    (iceBoardHandler.calls d h0 (l1 ++ l2)).rx_errors_total
      = (iceBoardHandler.calls d h0 (l1 ++ l2)).rx_ip_cksum_errors_total
        + (iceBoardHandler.calls d h0 (l1 ++ l2)).rx_packet_len_errors_total
        + (iceBoardHandler.calls d h0 (l1 ++ l2)).rx_out_of_order_errors_total
    ∧ (iceBoardHandler.calls d h0 l1).rx_errors_total
        ≤ (iceBoardHandler.calls d h0 (l1 ++ l2)).rx_errors_total
    ∧ (iceBoardHandler.calls d h0 l1).rx_ip_cksum_errors_total
        ≤ (iceBoardHandler.calls d h0 (l1 ++ l2)).rx_ip_cksum_errors_total
    ∧ (iceBoardHandler.calls d h0 l1).rx_packet_len_errors_total
        ≤ (iceBoardHandler.calls d h0 (l1 ++ l2)).rx_packet_len_errors_total
    ∧ (iceBoardHandler.calls d h0 l1).rx_out_of_order_errors_total
        ≤ (iceBoardHandler.calls d h0 (l1 ++ l2)).rx_out_of_order_errors_total
    ∧ (iceBoardHandler.calls d h0 l1).rx_packets_total
        ≤ (iceBoardHandler.calls d h0 (l1 ++ l2)).rx_packets_total
    ∧ (iceBoardHandler.calls d h0 l1).rx_bytes_total
        ≤ (iceBoardHandler.calls d h0 (l1 ++ l2)).rx_bytes_total
    ∧ (iceBoardHandler.calls d h0 l1).rx_lost_samples_total
        ≤ (iceBoardHandler.calls d h0 (l1 ++ l2)).rx_lost_samples_total := by
  obtain ⟨a1, _, _, _, _, _, _, _, a9, a10, a11, a12⟩ :=
    iceBoardHandler.calls_counters d (l1.length + l2.length) hN l1 h0 0 (by omega) hNS
      (by omega) (by omega) (by omega) (by omega)
  obtain ⟨b1, b2, b3, b4, b5, b6, b7, b8, _⟩ :=
    iceBoardHandler.calls_counters d (l1.length + l2.length) hN l2
      (iceBoardHandler.calls d h0 l1) (0 + l1.length) (by omega) (by rw [a9]; exact hNS)
      a1 a10 a11 (by rw [a9]; exact a12)
  rw [iceBoardHandler.calls_append]
  exact ⟨b1, b2, b3, b4, b5, b6, b7, b8⟩

/-- C25 on four calls from a fresh handler: a packet of the wrong length, a
stale difference, a good packet, a reset-sized difference.  The counters are
2 errors = 0 + 1 + 1, and after the first two calls they were not larger. -/
theorem C25_error_counters_witness :
    (iceBoardHandler.calls Examples.deps (Examples.handler 8 0 0)
        ([iceBoardHandler.Call.check_packet { Examples.packet 0 16 with pkt_len := 100 },
          iceBoardHandler.Call.check_order (-3)]
        ++ [iceBoardHandler.Call.check_packet (Examples.packet 2 18),
          iceBoardHandler.Call.check_for_reset (-2000)])).rx_errors_total
      = (iceBoardHandler.calls Examples.deps (Examples.handler 8 0 0)
        ([iceBoardHandler.Call.check_packet { Examples.packet 0 16 with pkt_len := 100 },
          iceBoardHandler.Call.check_order (-3)]
        ++ [iceBoardHandler.Call.check_packet (Examples.packet 2 18),
          iceBoardHandler.Call.check_for_reset (-2000)])).rx_ip_cksum_errors_total
        + (iceBoardHandler.calls Examples.deps (Examples.handler 8 0 0)
        ([iceBoardHandler.Call.check_packet { Examples.packet 0 16 with pkt_len := 100 },
          iceBoardHandler.Call.check_order (-3)]
        ++ [iceBoardHandler.Call.check_packet (Examples.packet 2 18),
          iceBoardHandler.Call.check_for_reset (-2000)])).rx_packet_len_errors_total
        + (iceBoardHandler.calls Examples.deps (Examples.handler 8 0 0)
        ([iceBoardHandler.Call.check_packet { Examples.packet 0 16 with pkt_len := 100 },
          iceBoardHandler.Call.check_order (-3)]
        ++ [iceBoardHandler.Call.check_packet (Examples.packet 2 18),
          iceBoardHandler.Call.check_for_reset (-2000)])).rx_out_of_order_errors_total
    ∧ (iceBoardHandler.calls Examples.deps (Examples.handler 8 0 0)
        ([iceBoardHandler.Call.check_packet { Examples.packet 0 16 with pkt_len := 100 },
          iceBoardHandler.Call.check_order (-3)]
        ++ [iceBoardHandler.Call.check_packet (Examples.packet 2 18),
          iceBoardHandler.Call.check_for_reset (-2000)])).rx_errors_total = 2 :=
  ⟨(C25_error_counters Examples.deps (Examples.handler 8 0 0)
      [iceBoardHandler.Call.check_packet { Examples.packet 0 16 with pkt_len := 100 },
        iceBoardHandler.Call.check_order (-3)]
      [iceBoardHandler.Call.check_packet (Examples.packet 2 18),
        iceBoardHandler.Call.check_for_reset (-2000)]
      rfl rfl rfl rfl rfl rfl (by decide) (by decide)).1, by decide⟩

/-! ## The headers of the timestamped frames -/

namespace network_dpdk

/-- With the time base set and `invalid = 0`, `set_vdif_header_options` leaves
the invalid flag of a header as it finds it. -/
theorem vdif_header_fields_invalid_kept (s : NetworkDPDK) (old : VDIFHeader) (seq : Nat)
    (time_step elem : Int) (hset : s.vdif_time_set ≠ 0) :
    (vdif_header_fields s old 0 seq time_step elem).invalid = old.invalid := by
  simp [vdif_header_fields, hset]

end network_dpdk

set_option maxRecDepth 20000 in
/-- C27, the code on a header that was marked invalid before.  Time base set,
frames of 8 samples, two samples per packet.  For the gap `last_seq = 0`,
`seq = 6` the loss handler marks the headers of the slots 2, 4 and 6; the call
`set_vdif_header_options` with `invalid = 0` for the received packet 6 then
leaves the flag of the headers of slot 6 at 1, while it writes the thread id.
The whole loop on the packets 0, 6: the headers of the packet 0 are valid, the
headers of the received packet 6 are invalid, next to its payload byte 22. -/
theorem C27_invalid_not_cleared :
    ((network_dpdk.handle_lost_raw_packets Examples.deps (Examples.vnet 8 0 6 0 0 1 0 0) 0
          Examples.t0).bind
        (fun s =>
          network_dpdk.set_vdif_header_options Examples.deps s (6 * 2112) 2 1056 0 6 0)).bind
        (fun t => t.args.vdif_buf.map
          (fun b => (t.vdif_time_set, (b.headers 0 (6 * 2112)).invalid,
            (b.headers 0 (6 * 2112 + 1056)).invalid, (b.headers 0 (6 * 2112 + 1056)).thread_id)))
      = some (1, 1, 1, 1)
    ∧ (network_dpdk.recv_loop Examples.deps (Examples.vnet 8 1 0 0 0 0 0 0)
        (Examples.arrivals [0, 6])).bind
        (fun r => r.1.args.vdif_buf.map
          (fun b => (r.2, r.1.vdif_time_set,
            [(b.headers 0 0).invalid, (b.headers 0 (6 * 2112)).invalid,
              (b.headers 0 (6 * 2112 + 1056)).invalid, (b.headers 0 (7 * 2112)).invalid],
            b.data 0 (6 * 2112 + 32))))
      = some ([network_dpdk.Outcome.accepted false false,
          network_dpdk.Outcome.accepted false true], 1, [0, 1, 1, 1], 22) := by
  refine ⟨by decide, by decide⟩

/-! ## `cmap` of `hdf5Writer.cpp` -/

namespace hdf5Writer

/-- Twice the number of pairs in the rows before row `i`, plus the pairs of
the triangle that starts at row `i`, is the whole triangle. -/
theorem rank_closed (n : Nat) : ∀ i, i ≤ n →
    2 * Finset.sum (Finset.range i) (fun k => n - k) + (n - i) * (n - i + 1) = n * (n + 1)
  | 0, _ => by simp
  | i + 1, h => by
    have ih := rank_closed n i (by omega)
    rw [Finset.sum_range_succ]
    obtain ⟨m, hm⟩ : ∃ m, n = i + 1 + m := ⟨n - (i + 1), by omega⟩
    subst hm
    have e1 : i + 1 + m - (i + 1) = m := by omega
    have e2 : i + 1 + m - i = m + 1 := by omega
    rw [e1]
    rw [e2] at ih ⊢
    have e3 : (m + 1) * (m + 1 + 1) = 2 * (m + 1) + m * (m + 1) := by ring
    linarith

theorem rank_mono (n : Nat) {i k : Nat} (h : i ≤ k) :
    Finset.sum (Finset.range i) (fun k => n - k) ≤ Finset.sum (Finset.range k) (fun k => n - k) :=
  Finset.sum_le_sum_of_subset (Finset.range_mono h)

/-- Without overflow of `n * (n + 1)`, `cmap` is the row-major rank. -/
theorem cmap_eq (i j n : Nat) (hn : n * (n + 1) < 2 ^ 32) (hij : i ≤ j) (hj : j < n) :
    cmap i j n = Finset.sum (Finset.range i) (fun k => n - k) + (j - i) := by
  have hk := rank_closed n i (by omega)
  have hkn := rank_closed n (i + 1) (by omega)
  rw [Finset.sum_range_succ] at hkn
  have hev : (n * (n + 1)) % 2 = 0 := Nat.even_iff.mp (Nat.even_mul_succ_self n)
  have hev2 : ((n - i) * (n - i + 1)) % 2 = 0 := Nat.even_iff.mp (Nat.even_mul_succ_self (n - i))
  have hnle : n ≤ n * (n + 1) := Nat.le_mul_of_pos_right n (by omega)
  have h1 : (n : Int) * (n + 1) = ((n * (n + 1) : Nat) : Int) := by push_cast; ring
  have h2 : ((n : Int) - i) = ((n - i : Nat) : Int) := by omega
  have h3 : ((n - i : Nat) : Int) * (((n - i : Nat) : Int) + 1)
      = (((n - i) * (n - i + 1) : Nat) : Int) := by push_cast; ring
  have h4 : ((n - (i + 1)) * (n - (i + 1) + 1)) ≥ 0 := Nat.zero_le _
  unfold cmap to_uint32
  have a1 : ((n : Int) + 1) % 2 ^ 32 = n + 1 := by omega
  rw [a1, h1, h2]
  have a2 : ((n - i : Nat) : Int) % 2 ^ 32 = ((n - i : Nat) : Int) := by omega
  have a3 : (((n - i : Nat) : Int) + 1) % 2 ^ 32 = ((n - i : Nat) : Int) + 1 := by omega
  rw [a2, a3, h3]
  generalize n * (n + 1) = P at *
  generalize (n - i) * (n - i + 1) = Q at *
  generalize Finset.sum (Finset.range i) (fun k => n - k) = R at *
  omega

end hdf5Writer

namespace hdf5Writer

theorem cmap_lt (i j n : Nat) (hn : n * (n + 1) < 2 ^ 32) (hij : i ≤ j) (hj : j < n) :
    cmap i j n < n * (n + 1) / 2 := by
  rw [cmap_eq i j n hn hij hj]
  have hk := rank_closed n i (by omega)
  have hkn := rank_closed n (i + 1) (by omega)
  rw [Finset.sum_range_succ] at hkn
  have h4 : 0 ≤ (n - (i + 1)) * (n - (i + 1) + 1) := Nat.zero_le _
  generalize n * (n + 1) = P at *
  generalize (n - (i + 1)) * (n - (i + 1) + 1) = Q at *
  generalize Finset.sum (Finset.range i) (fun k => n - k) = R at *
  omega

theorem cmap_lex (i j k l n : Nat) (hn : n * (n + 1) < 2 ^ 32) (hij : i ≤ j) (hj : j < n)
    (hkl : k ≤ l) (hl : l < n) (h : i < k ∨ (i = k ∧ j < l)) : cmap i j n < cmap k l n := by
  rw [cmap_eq i j n hn hij hj, cmap_eq k l n hn hkl hl]
  rcases h with h | ⟨h, h2⟩
  · have hm := rank_mono n (Nat.succ_le_of_lt h)
    rw [Finset.sum_range_succ] at hm
    omega
  · subst h
    omega

/-- Every rank below the size of the triangle is the rank of a pair. -/
theorem rank_row (n r : Nat) : ∀ m, m ≤ n → r < Finset.sum (Finset.range m) (fun k => n - k) →
    ∃ i, i < m ∧ Finset.sum (Finset.range i) (fun k => n - k) ≤ r
      ∧ r < Finset.sum (Finset.range i) (fun k => n - k) + (n - i)
  | 0, _, h => by simp at h
  | m + 1, hm, h => by
    by_cases hr : r < Finset.sum (Finset.range m) (fun k => n - k)
    · obtain ⟨i, hi, h1, h2⟩ := rank_row n r m (by omega) hr
      exact ⟨i, by omega, h1, h2⟩
    · rw [Finset.sum_range_succ] at h
      exact ⟨m, by omega, by omega, h⟩

end hdf5Writer

/-- C29, the code on `n = 65536`, where `n (n + 1) / 2 < 2^32` holds but
`n * (n + 1)` does not fit 32 bits: `cmap(1, 1, n)` is 2147549184, while the
row-major rank of the pair (1, 1) is 65536. -/
theorem C29_cmap_overflow :
    65536 * (65536 + 1) / 2 < 2 ^ 32
    ∧ hdf5Writer.cmap 1 1 65536 = 2147549184
    ∧ Finset.sum (Finset.range 1) (fun k => 65536 - k) + (1 - 1) = 65536 := by
  refine ⟨by decide, by decide, by decide⟩

/-- C29, amended.  For every `n` with `n (n + 1) < 2^32` and every pair
`i <= j < n`, `cmap i j n` is the row-major rank of the pair in the upper
triangle, the sum over `k < i` of `n - k` plus `j - i`, and it is below
`n (n + 1) / 2`; it is strictly increasing in the lexicographic order of the
pairs; `cmap 0 0 n = 0` and `cmap (n-1) (n-1) n = n (n + 1) / 2 - 1`; and every
number below `n (n + 1) / 2` is the value of exactly one pair. -/
theorem C29_cmap_rank (n : Nat) (hn : n * (n + 1) < 2 ^ 32) :
    (∀ i j, i ≤ j → j < n →
      hdf5Writer.cmap i j n = Finset.sum (Finset.range i) (fun k => n - k) + (j - i)
      ∧ hdf5Writer.cmap i j n < n * (n + 1) / 2)
    ∧ (∀ i j k l, i ≤ j → j < n → k ≤ l → l < n → (i < k ∨ (i = k ∧ j < l)) →
        hdf5Writer.cmap i j n < hdf5Writer.cmap k l n)
    ∧ (0 < n → hdf5Writer.cmap 0 0 n = 0
        ∧ hdf5Writer.cmap (n - 1) (n - 1) n = n * (n + 1) / 2 - 1)
    ∧ (∀ r, r < n * (n + 1) / 2 →
        ∃ i j, i ≤ j ∧ j < n ∧ hdf5Writer.cmap i j n = r
          ∧ ∀ k l, k ≤ l → l < n → hdf5Writer.cmap k l n = r → k = i ∧ l = j) := by
  refine ⟨fun i j hij hj => ⟨hdf5Writer.cmap_eq i j n hn hij hj, hdf5Writer.cmap_lt i j n hn hij hj⟩,
    fun i j k l hij hj hkl hl h => hdf5Writer.cmap_lex i j k l n hn hij hj hkl hl h, ?_, ?_⟩
  · intro hpos
    constructor
    · rw [hdf5Writer.cmap_eq 0 0 n hn (le_refl 0) hpos]
      simp
    · rw [hdf5Writer.cmap_eq (n - 1) (n - 1) n hn (le_refl _) (by omega)]
      have hk := hdf5Writer.rank_closed n (n - 1) (by omega)
      have e : n - (n - 1) = 1 := by omega
      rw [e] at hk
      generalize n * (n + 1) = P at *
      generalize Finset.sum (Finset.range (n - 1)) (fun k => n - k) = R at *
      omega
  · intro r hr
    have hfull := hdf5Writer.rank_closed n n (le_refl n)
    have hr2 : r < Finset.sum (Finset.range n) (fun k => n - k) := by
      simp only [Nat.sub_self, Nat.zero_mul, Nat.add_zero] at hfull
      generalize n * (n + 1) = P at *
      generalize Finset.sum (Finset.range n) (fun k => n - k) = R at *
      omega
    obtain ⟨i, hi, h1, h2⟩ := hdf5Writer.rank_row n r n (le_refl n) hr2
    have hc : hdf5Writer.cmap i (i + (r - Finset.sum (Finset.range i) (fun k => n - k))) n = r := by
      rw [hdf5Writer.cmap_eq _ _ n hn (by omega) (by omega)]
      omega
    refine ⟨i, i + (r - Finset.sum (Finset.range i) (fun k => n - k)), by omega, by omega, hc, ?_⟩
    intro k l hkl hl hkr
    have hlt := fun h => hdf5Writer.cmap_lex k l i
      (i + (r - Finset.sum (Finset.range i) (fun k => n - k))) n hn hkl hl (by omega) (by omega) h
    have hgt := fun h => hdf5Writer.cmap_lex i
      (i + (r - Finset.sum (Finset.range i) (fun k => n - k))) k l n hn (by omega) (by omega) hkl hl h
    rw [hc, hkr] at hlt hgt
    generalize i + (r - Finset.sum (Finset.range i) (fun k => n - k)) = j at *
    by_contra hne
    rcases Nat.lt_trichotomy k i with h | h | h
    · exact absurd (hlt (Or.inl h)) (lt_irrefl r)
    · rcases Nat.lt_trichotomy l j with h3 | h3 | h3
      · exact absurd (hlt (Or.inr ⟨h, h3⟩)) (lt_irrefl r)
      · exact hne ⟨h, h3⟩
      · exact absurd (hgt (Or.inr ⟨h.symm, h3⟩)) (lt_irrefl r)
    · exact absurd (hgt (Or.inl h)) (lt_irrefl r)

/-- C29, amended, on `n = 4`: the pair (1, 2) has rank `4 + 1 = 5`, the ranks
grow along a row and from a row to the next, the last pair has rank 9, and 7 is
the rank of a pair. -/
theorem C29_cmap_rank_witness :
    4 * (4 + 1) < 2 ^ 32
    ∧ hdf5Writer.cmap 1 2 4 = Finset.sum (Finset.range 1) (fun k => 4 - k) + (2 - 1)
    ∧ hdf5Writer.cmap 1 3 4 < hdf5Writer.cmap 2 2 4
    ∧ hdf5Writer.cmap (4 - 1) (4 - 1) 4 = 4 * (4 + 1) / 2 - 1
    ∧ (∃ i j, i ≤ j ∧ j < 4 ∧ hdf5Writer.cmap i j 4 = 7) := by
  have h := C29_cmap_rank 4 (by decide)
  refine ⟨by decide, (h.1 1 2 (by decide) (by decide)).1,
    h.2.1 1 3 2 2 (by decide) (by decide) (by decide) (by decide) (Or.inl (by decide)),
    (h.2.2.1 (by decide)).2, ?_⟩
  obtain ⟨i, j, h1, h2, h3, _⟩ := h.2.2.2 7 (by decide)
  exact ⟨i, j, h1, h2, h3⟩

/-! ## `mod` of `util.c` -/

namespace util

/-- For a modulus that fits an `int` (`0 < b <= 2^31`), `mod a b` is the
non-negative remainder of `a` modulo `b`. -/
theorem mod_eq_emod (a b : Int) (hb : 0 < b) (hb2 : b ≤ 2 ^ 31) : mod a b = a % b := by
  unfold mod
  have h1 := Int.tmod_lt_of_pos a hb
  have h3 : -b < Int.tmod a b := by
    obtain ⟨n, rfl⟩ := Int.eq_ofNat_of_zero_le (le_of_lt hb)
    cases a with
    | ofNat m =>
      have h0 : 0 ≤ Int.tmod (Int.ofNat m) (n : Int) :=
        Int.tmod_nonneg (n : Int) (Int.ofNat_nonneg m)
      omega
    | negSucc m =>
      have hlt : (m + 1) % n < n := Nat.mod_lt _ (by omega)
      have he : Int.tmod (Int.negSucc m) (n : Int) = -(((m + 1) % n : Nat) : Int) := rfl
      rw [he]
      omega
  have h4 : Int.tmod a b = a % b ∨ Int.tmod a b = a % b - b := by
    have e1 := Int.tmod_add_tdiv a b
    have e2 := Int.emod_add_ediv a b
    have e3 := Int.emod_nonneg a (by omega : b ≠ 0)
    have e4 := Int.emod_lt_of_pos a hb
    have hd : b * (Int.tdiv a b - a / b) = a % b - Int.tmod a b := by
      rw [Int.mul_sub]; omega
    have hdvd : b ∣ a % b - Int.tmod a b := ⟨_, hd.symm⟩
    obtain ⟨c, hc⟩ := hdvd
    have hc1 : c = 0 ∨ c = 1 := by
      have l1 : a % b - Int.tmod a b < b * 2 := by omega
      have l2 : -b < a % b - Int.tmod a b := by omega
      rw [hc] at l1 l2
      have l3 : c < 2 := by
        by_contra hcon
        have : b * 2 ≤ b * c := Int.mul_le_mul_of_nonneg_left (by omega) (by omega)
        omega
      have l4 : -1 < c := by
        by_contra hcon
        have : b * c ≤ b * (-1) := Int.mul_le_mul_of_nonneg_left (by omega) (by omega)
        omega
      omega
    rcases hc1 with h | h
    · subst h; left; omega
    · subst h; right; omega
  have e3 := Int.emod_nonneg a (by omega : b ≠ 0)
  have e4 := Int.emod_lt_of_pos a hb
  generalize Int.tmod a b = t at *
  generalize a % b = r at *
  simp only
  unfold to_int32 to_int64
  split_ifs with hneg
  · omega
  · omega

end util

/-- C30, the code on moduli above `2^31`.  `mod(2^31, 2^32)` returns `-2^31`,
which is negative, and `mod(3000000000, 10000000000)` returns 115098112, which
is not congruent to 3000000000 modulo 10000000000: the remainder is held in an
`int`. -/
theorem C30_mod_truncates :
    util.mod (2 ^ 31) (2 ^ 32) = -2 ^ 31
    ∧ (2 : Int) ^ 31 % 2 ^ 32 = 2 ^ 31
    ∧ util.mod 3000000000 10000000000 = 115098112
    ∧ (3000000000 : Int) % 10000000000 = 3000000000 := by
  refine ⟨by decide, by decide, by decide, by decide⟩

/-! ## Header writes of the timestamped output -/

namespace network_dpdk

theorem only_headers_changed_refl (b : Buffer) : only_headers_changed b b :=
  ⟨rfl, rfl, rfl, rfl, rfl, rfl, rfl, rfl⟩

theorem only_headers_changed_trans {a b c : Buffer} (h1 : only_headers_changed a b)
    (h2 : only_headers_changed b c) : only_headers_changed a c :=
  ⟨h2.num_buffers.trans h1.num_buffers, h2.buffer_size.trans h1.buffer_size,
    h2.is_full.trans h1.is_full,
    h2.fpga_seq_num.trans h1.fpga_seq_num, h2.stream_ID.trans h1.stream_ID,
    h2.data_ID.trans h1.data_ID, h2.first_packet_recv_time.trans h1.first_packet_recv_time,
    h2.bad_timesamples.trans h1.bad_timesamples⟩

theorem exists_map_some {α β : Type} (g : α → β) (X : Option α) (P : α → Prop)
    (h : ∃ a, X = some a ∧ P a) : ∃ a, Option.map g X = some (g a) ∧ P a := by
  obtain ⟨a, h1, h2⟩ := h
  exact ⟨a, by rw [h1]; rfl, h2⟩

/-- One header write: the header at `idx` holds the record, its 32 bytes are the
bytes of the record, every byte outside them and every header that shares no
byte with them is as before, and so is everything else in the pool. -/
theorem store_vdif_header_spec (d : Deps) (b : Buffer) (id idx : Int) (h : VDIFHeader) :
    only_headers_changed b (store_vdif_header d b id idx h)
    ∧ (store_vdif_header d b id idx h).headers id idx = h
    ∧ (∀ k : Nat, k < 32 →
        (store_vdif_header d b id idx h).data id (idx + k) = d.vdif_header_bytes h k)
    ∧ (∀ i j, (i ≠ id ∨ j + 32 ≤ idx ∨ idx + 32 ≤ j) →
        (store_vdif_header d b id idx h).headers i j = b.headers i j)
    ∧ (∀ i j, (i ≠ id ∨ j < idx ∨ idx + 32 ≤ j) →
        (store_vdif_header d b id idx h).data i j = b.data i j) := by
  refine ⟨⟨rfl, rfl, rfl, rfl, rfl, rfl, rfl, rfl⟩, ?_, ?_, ?_, ?_⟩
  · simp [store_vdif_header]
  · intro k hk
    have h1 : idx ≤ idx + (k : Int) ∧ idx + (k : Int) < idx + 32 := by omega
    have h2 : (idx + (k : Int) - idx).toNat = k := by simp
    simp [store_vdif_header, h1, h2]
  · intro i j hij
    have h1 : ¬ (i = id ∧ j = idx) := by omega
    have h2 : ¬ (i = id ∧ idx - 32 < j ∧ j < idx + 32) := by omega
    simp only [store_vdif_header, h1, h2, if_false]
  · intro i j hij
    have h1 : ¬ (i = id ∧ idx ≤ j ∧ j < idx + 32) := by omega
    simp only [store_vdif_header, h1, if_false]

/-- The two nested loops of `set_vdif_header_options` with two elements and a
packet length of 1056, run over the time steps `l` from the pool `b`, for a
frame location `L` whose `N` time steps fit the frame: no assertion fails; the
header of every time step of `l` and element, at byte index
`L + 2112 t + 1056 e`, is assigned from the header found there and its 32
bytes are the bytes of the record; every byte outside these headers and every
header that shares no byte with them is as before. -/
theorem header_loops (d : Deps) (s : NetworkDPDK) (inv : Int) (seq : Nat) (id L : Int)
    (N : Nat) :
    ∀ (l : List Nat) (b : Buffer), l.Nodup → (∀ t ∈ l, t < N) → 0 ≤ L →
      L + 2112 * N ≤ b.buffer_size → b.buffer_size ≤ 2 ^ 31 →
      ∃ a, l.foldlM
          (fun (b : Buffer) (time_step : Nat) =>
            (List.range (2 : Int).toNat).foldlM
              (fun (b : Buffer) (elem : Nat) =>
                if to_int32 (L + (32 + 1024) * 2 * time_step + (32 + 1024) * elem) < b.buffer_size
                then
                  some (store_vdif_header d b id
                    (to_int32 (L + (32 + 1024) * 2 * time_step + (32 + 1024) * elem))
                    (vdif_header_fields s
                      (b.headers id
                        (to_int32 (L + (32 + 1024) * 2 * time_step + (32 + 1024) * elem)))
                      inv seq time_step elem))
                else none)
              b)
          b = some a
        ∧ only_headers_changed b a
        ∧ (∀ t e : Nat, t ∈ l → e < 2 →
            a.headers id (L + 2112 * t + 1056 * e)
              = vdif_header_fields s (b.headers id (L + 2112 * t + 1056 * e)) inv seq t e)
        ∧ (∀ (t e k : Nat), t ∈ l → e < 2 → k < 32 →
            a.data id (L + 2112 * t + 1056 * e + k)
              = d.vdif_header_bytes (a.headers id (L + 2112 * t + 1056 * e)) k)
        ∧ (∀ i j, (i ≠ id ∨ ∀ t e : Nat, t ∈ l → e < 2 →
              (j + 32 ≤ L + 2112 * t + 1056 * e ∨ L + 2112 * t + 1056 * e + 32 ≤ j)) →
            a.headers i j = b.headers i j)
        ∧ (∀ i j, (i ≠ id ∨ ∀ t e : Nat, t ∈ l → e < 2 →
              (j < L + 2112 * t + 1056 * e ∨ L + 2112 * t + 1056 * e + 32 ≤ j)) →
            a.data i j = b.data i j) := by
  intro l
  induction l with
  | nil =>
    intro b _ _ _ _ _
    exact ⟨b, rfl, only_headers_changed_refl b, fun t e ht => absurd ht (List.not_mem_nil t),
      fun t e k ht => absurd ht (List.not_mem_nil t), fun _ _ _ => rfl, fun _ _ _ => rfl⟩
  | cons w rest ih =>
    intro b hnd hmem hL hfit hsz
    have htN : w < N := hmem w (List.mem_cons_self w rest)
    have htN2 : (w : Int) + 1 ≤ N := by omega
    have hr : List.range (2 : Int).toNat = [0, 1] := by decide
    have e0 : to_int32 (L + (32 + 1024) * 2 * (w : Int) + (32 + 1024) * ((0 : Nat) : Int))
        = L + 2112 * w := by
      rw [to_int32_of_range _ (by push_cast; omega) (by push_cast; omega)]
      push_cast; omega
    have e1 : to_int32 (L + (32 + 1024) * 2 * (w : Int) + (32 + 1024) * ((1 : Nat) : Int))
        = L + 2112 * w + 1056 := by
      rw [to_int32_of_range _ (by push_cast; omega) (by push_cast; omega)]
      push_cast; omega
    have c0 : L + 2112 * (w : Int) < b.buffer_size := by omega
    have c1 : L + 2112 * (w : Int) + 1056 < b.buffer_size := by omega
    obtain ⟨b1, hb1⟩ : ∃ b1 : Buffer, b1 = store_vdif_header d b id (L + 2112 * w)
      (vdif_header_fields s (b.headers id (L + 2112 * w)) inv seq w ((0 : Nat) : Int)) :=
      ⟨_, rfl⟩
    obtain ⟨k1, w1, d1, f1, g1⟩ := store_vdif_header_spec d b id (L + 2112 * w)
      (vdif_header_fields s (b.headers id (L + 2112 * w)) inv seq w ((0 : Nat) : Int))
    rw [← hb1] at k1 w1 d1 f1 g1
    obtain ⟨b2, hb2⟩ : ∃ b2 : Buffer, b2 = store_vdif_header d b1 id (L + 2112 * w + 1056)
      (vdif_header_fields s (b1.headers id (L + 2112 * w + 1056)) inv seq w ((1 : Nat) : Int)) :=
      ⟨_, rfl⟩
    obtain ⟨k2, w2, d2, f2, g2⟩ := store_vdif_header_spec d b1 id (L + 2112 * w + 1056)
      (vdif_header_fields s (b1.headers id (L + 2112 * w + 1056)) inv seq w ((1 : Nat) : Int))
    rw [← hb2] at k2 w2 d2 f2 g2
    have hk2 : only_headers_changed b b2 := only_headers_changed_trans k1 k2
    have hsz2 : b2.buffer_size = b.buffer_size := hk2.buffer_size
    have hsz1 : b1.buffer_size = b.buffer_size := k1.buffer_size
    obtain ⟨a, ha, hk, hw, hd, ho, hg⟩ := ih b2
      (List.nodup_cons.mp hnd).2 (fun u hu => hmem u (List.mem_cons_of_mem w hu)) hL
      (by rw [hsz2]; exact hfit) (by rw [hsz2]; exact hsz)
    have hnot : w ∉ rest := (List.nodup_cons.mp hnd).1
    -- the headers of `w` are not touched by the rest
    have far : ∀ (e : Nat), e < 2 → ∀ v f : Nat, v ∈ rest → f < 2 →
        (L + 2112 * (w : Int) + 1056 * e + 32 ≤ L + 2112 * v + 1056 * f
          ∨ L + 2112 * (v : Int) + 1056 * f + 32 ≤ L + 2112 * w + 1056 * e) := by
      intro e he v f hv hf
      have : v ≠ w := fun hvw => hnot (hvw ▸ hv)
      omega
    have hw0 : a.headers id (L + 2112 * w)
        = vdif_header_fields s (b.headers id (L + 2112 * w)) inv seq w ((0 : Nat) : Int) := by
      rw [ho id _ (Or.inr (fun v f hv hf => by have := far 0 (by omega) v f hv hf; omega)),
        f2 id _ (Or.inr (by omega)), w1]
    have hw1 : a.headers id (L + 2112 * w + 1056)
        = vdif_header_fields s (b.headers id (L + 2112 * w + 1056)) inv seq w
            ((1 : Nat) : Int) := by
      rw [ho id _ (Or.inr (fun v f hv hf => by have := far 1 (by omega) v f hv hf; omega)),
        w2, f1 id _ (Or.inr (by omega))]
    refine ⟨a, ?_, only_headers_changed_trans hk2 hk, ?_, ?_, ?_, ?_⟩
    · rw [List.foldlM_cons, hr]
      simp only [List.foldlM_cons, List.foldlM_nil, e0, e1, c0, hsz1, c1, if_true, bind,
        Option.bind, pure]
      rw [← hb1]
      simp only [hsz1, c1, if_true]
      rw [← hb2]
      exact ha
    · intro u e hu he
      rcases List.mem_cons.mp hu with hut | hur
      · subst hut
        have he2 : e = 0 ∨ e = 1 := by omega
        rcases he2 with he0 | he1
        · subst he0
          have x2 : L + 2112 * (u : Int) + 1056 * ((0 : Nat) : Int) = L + 2112 * u := by
            push_cast; omega
          rw [x2]
          exact hw0
        · subst he1
          have x1 : L + 2112 * (u : Int) + 1056 * ((1 : Nat) : Int) = L + 2112 * u + 1056 := by
            push_cast; omega
          rw [x1]
          exact hw1
      · have hne : u ≠ w := fun hut => hnot (hut ▸ hur)
        rw [hw u e hur he, f2 id _ (Or.inr (by omega)), f1 id _ (Or.inr (by omega))]
    · intro u e k hu he hk32
      rcases List.mem_cons.mp hu with hut | hur
      · subst hut
        have he2 : e = 0 ∨ e = 1 := by omega
        rcases he2 with he0 | he1
        · subst he0
          have x2 : L + 2112 * (u : Int) + 1056 * ((0 : Nat) : Int) = L + 2112 * u := by
            push_cast; omega
          rw [x2, hw0, hg id _ (Or.inr (fun v f hv hf => by
            have := far 0 (by omega) v f hv hf; omega)),
            g2 id _ (Or.inr (by omega)), d1 k hk32]
        · subst he1
          have x1 : L + 2112 * (u : Int) + 1056 * ((1 : Nat) : Int) = L + 2112 * u + 1056 := by
            push_cast; omega
          rw [x1, hw1, hg id _ (Or.inr (fun v f hv hf => by
            have := far 1 (by omega) v f hv hf; omega)), d2 k hk32,
            f1 id _ (Or.inr (by omega))]
      · exact hd u e k hur he hk32
    · intro i j hij
      rw [ho i j (by
        rcases hij with h | h
        · exact Or.inl h
        · exact Or.inr (fun v f hv hf => h v f (List.mem_cons_of_mem w hv) hf))]
      rcases hij with h | h
      · rw [f2 i j (Or.inl h), f1 i j (Or.inl h)]
      · have x1 := h w 1 (List.mem_cons_self w rest) (by omega)
        have x0 := h w 0 (List.mem_cons_self w rest) (by omega)
        push_cast at x1 x0
        rw [f2 i j (Or.inr (by omega)), f1 i j (Or.inr (by omega))]
    · intro i j hij
      rw [hg i j (by
        rcases hij with h | h
        · exact Or.inl h
        · exact Or.inr (fun v f hv hf => h v f (List.mem_cons_of_mem w hv) hf))]
      rcases hij with h | h
      · rw [g2 i j (Or.inl h), g1 i j (Or.inl h)]
      · have x1 := h w 1 (List.mem_cons_self w rest) (by omega)
        have x0 := h w 0 (List.mem_cons_self w rest) (by omega)
        push_cast at x1 x0
        rw [g2 i j (Or.inr (by omega)), g1 i j (Or.inr (by omega))]

end network_dpdk

namespace network_dpdk

/-- The contract of `set_vdif_header_options` with two elements and a packet
length of 1056 at byte location `L` of the current timestamped frame, when the
`timesamples_per_packet` time steps from `L` on fit the frame: the call
returns; the header of every time step `t` and element `e`, at byte index
`L + 2112 t + 1056 e`, is assigned from the header found there and its 32
bytes are the bytes of the record; every byte outside these headers, every
header that shares no byte with them, and everything else is as before. -/
theorem set_vdif_header_options_spec (d : Deps) (s : NetworkDPDK) (L inv : Int)
    (seq port : Nat) (vb : Buffer) (hv : s.args.vdif_buf = some vb) (hL : 0 ≤ L)
    (htpp : 0 ≤ s.args.config.timesamples_per_packet)
    (hfit : L + 2112 * s.args.config.timesamples_per_packet ≤ vb.buffer_size)
    (hsz : vb.buffer_size ≤ 2 ^ 31) :
    ∃ a, set_vdif_header_options d s L 2 (32 + 1024) inv seq port = some (set_vdif_buf s a)
      ∧ only_headers_changed vb a
      ∧ (∀ t e : Nat, (t : Int) < s.args.config.timesamples_per_packet → e < 2 →
          a.headers (s.link_data port).vdif_buffer_id (L + 2112 * t + 1056 * e)
            = vdif_header_fields s
                (vb.headers (s.link_data port).vdif_buffer_id (L + 2112 * t + 1056 * e))
                inv seq t e)
      ∧ (∀ t e k : Nat, (t : Int) < s.args.config.timesamples_per_packet → e < 2 → k < 32 →
          a.data (s.link_data port).vdif_buffer_id (L + 2112 * t + 1056 * e + k)
            = d.vdif_header_bytes
                (a.headers (s.link_data port).vdif_buffer_id (L + 2112 * t + 1056 * e)) k)
      ∧ (∀ i j, (i ≠ (s.link_data port).vdif_buffer_id
            ∨ ∀ t e : Nat, (t : Int) < s.args.config.timesamples_per_packet → e < 2 →
                (j + 32 ≤ L + 2112 * t + 1056 * e ∨ L + 2112 * t + 1056 * e + 32 ≤ j)) →
          a.headers i j = vb.headers i j)
      ∧ (∀ i j, (i ≠ (s.link_data port).vdif_buffer_id
            ∨ ∀ t e : Nat, (t : Int) < s.args.config.timesamples_per_packet → e < 2 →
                (j < L + 2112 * t + 1056 * e ∨ L + 2112 * t + 1056 * e + 32 ≤ j)) →
          a.data i j = vb.data i j) := by
  obtain ⟨a, ha, hk, hw, hd, ho, hg⟩ := header_loops d s inv seq
    (s.link_data port).vdif_buffer_id L s.args.config.timesamples_per_packet.toNat
    (List.range s.args.config.timesamples_per_packet.toNat) vb (List.nodup_range _)
    (fun t ht => List.mem_range.mp ht) hL (by rw [Int.toNat_of_nonneg htpp]; exact hfit) hsz
  refine ⟨a, ?_, hk, ?_, ?_, ?_, ?_⟩
  · unfold set_vdif_header_options
    simp only [hv]
    rw [ha]
    rfl
  · intro t e ht he
    exact hw t e (List.mem_range.mpr (by omega)) he
  · intro t e k ht he hk32
    exact hd t e k (List.mem_range.mpr (by omega)) he hk32
  · intro i j hij
    refine ho i j ?_
    rcases hij with h | h
    · exact Or.inl h
    · exact Or.inr (fun t e ht he => h t e (by have := List.mem_range.mp ht; omega) he)
  · intro i j hij
    refine hg i j ?_
    rcases hij with h | h
    · exact Or.inl h
    · exact Or.inr (fun t e ht he => h t e (by have := List.mem_range.mp ht; omega) he)

/-- The fields a header has after an assignment with `invalid = 1`. -/
theorem vdif_header_fields_lost (s : NetworkDPDK) (old : VDIFHeader) (seq : Nat)
    (time_step elem : Int) :
    (vdif_header_fields s old 1 seq time_step elem).invalid = 1
    ∧ (vdif_header_fields s old 1 seq time_step elem).thread_id = elem := by
  unfold vdif_header_fields
  by_cases h : s.vdif_time_set ≠ 0
  · simp [h]
  · simp [h]

end network_dpdk

/-- C28.  Let the assertion of `copy_data_to_vdif` hold,
`(vdif_frame_location + timesamples_per_packet) * 2112 <= buffer_size` with
`vdif_frame_location >= 0` (a difference of sequence numbers, below `2^48`),
for a frame size that fits an `int`.  Then for every time step
`t < timesamples_per_packet` and element `e < 2` the `header_idx` computed by
`set_vdif_header_options` is `vdif_frame_location * 2112 + 2112 t + 1056 e`
without wrap, it is not negative and `header_idx + 1056 <= buffer_size`; the
32-byte headers of two different pairs `(t, e)` do not overlap; and the call
returns (no assertion fails), having assigned each of these headers from the
header found at its own index, with the bytes of the record in its 32 bytes,
and changed no byte outside these headers and nothing else in the pool. -/
theorem C28_header_indices (d : Deps) (s : network_dpdk.NetworkDPDK) (port : Nat)
    (vb : network_dpdk.Buffer) (vfl inv : Int) (seq : Nat)
    (hv : s.args.vdif_buf = some vb) (h0 : 0 ≤ vfl) (hloc : vfl < 2 ^ 48)
    (htpp0 : 0 ≤ s.args.config.timesamples_per_packet)
    (htpp : s.args.config.timesamples_per_packet < 2 ^ 31)
    (hsz : vb.buffer_size < 2 ^ 31)
    (hpre : to_int64 ((vfl + s.args.config.timesamples_per_packet) * 2112) ≤ vb.buffer_size) :
    (∀ t e : Nat, (t : Int) < s.args.config.timesamples_per_packet → e < 2 →
      to_int32 (to_int32 (vfl * 2112) + (32 + 1024) * 2 * t + (32 + 1024) * e)
        = vfl * 2112 + 2112 * t + 1056 * e
      ∧ 0 ≤ to_int32 (to_int32 (vfl * 2112) + (32 + 1024) * 2 * t + (32 + 1024) * e)
      ∧ to_int32 (to_int32 (vfl * 2112) + (32 + 1024) * 2 * t + (32 + 1024) * e) + 1056
          ≤ vb.buffer_size)
    ∧ (∀ t e u f : Nat, (t : Int) < s.args.config.timesamples_per_packet → e < 2 →
        (u : Int) < s.args.config.timesamples_per_packet → f < 2 → (t ≠ u ∨ e ≠ f) →
        to_int32 (to_int32 (vfl * 2112) + (32 + 1024) * 2 * t + (32 + 1024) * e) + 32
            ≤ to_int32 (to_int32 (vfl * 2112) + (32 + 1024) * 2 * u + (32 + 1024) * f)
        ∨ to_int32 (to_int32 (vfl * 2112) + (32 + 1024) * 2 * u + (32 + 1024) * f) + 32
            ≤ to_int32 (to_int32 (vfl * 2112) + (32 + 1024) * 2 * t + (32 + 1024) * e))
    ∧ (∃ a, network_dpdk.set_vdif_header_options d s (to_int32 (vfl * 2112)) 2 (32 + 1024) inv
          seq port = some (network_dpdk.set_vdif_buf s a)
        ∧ network_dpdk.only_headers_changed vb a
        ∧ (∀ t e : Nat, (t : Int) < s.args.config.timesamples_per_packet → e < 2 →
            a.headers (s.link_data port).vdif_buffer_id (vfl * 2112 + 2112 * t + 1056 * e)
              = network_dpdk.vdif_header_fields s
                  (vb.headers (s.link_data port).vdif_buffer_id
                    (vfl * 2112 + 2112 * t + 1056 * e)) inv seq t e)
        ∧ (∀ t e k : Nat, (t : Int) < s.args.config.timesamples_per_packet → e < 2 → k < 32 →
            a.data (s.link_data port).vdif_buffer_id (vfl * 2112 + 2112 * t + 1056 * e + k)
              = d.vdif_header_bytes
                  (a.headers (s.link_data port).vdif_buffer_id
                    (vfl * 2112 + 2112 * t + 1056 * e)) k)
        ∧ (∀ i j, (i ≠ (s.link_data port).vdif_buffer_id
              ∨ ∀ t e : Nat, (t : Int) < s.args.config.timesamples_per_packet → e < 2 →
                  (j < vfl * 2112 + 2112 * t + 1056 * e
                    ∨ vfl * 2112 + 2112 * t + 1056 * e + 32 ≤ j)) →
            a.data i j = vb.data i j)) := by
  have hex : to_int64 ((vfl + s.args.config.timesamples_per_packet) * 2112)
      = (vfl + s.args.config.timesamples_per_packet) * 2112 :=
    to_int64_of_range _ (by omega) (by omega)
  rw [hex] at hpre
  have hL : to_int32 (vfl * 2112) = vfl * 2112 := to_int32_of_range _ (by omega) (by omega)
  have hidx : ∀ t e : Nat, (t : Int) < s.args.config.timesamples_per_packet → e < 2 →
      to_int32 (to_int32 (vfl * 2112) + (32 + 1024) * 2 * t + (32 + 1024) * e)
        = vfl * 2112 + 2112 * t + 1056 * e := by
    intro t e ht he
    rw [hL, to_int32_of_range _ (by omega) (by omega)]
    omega
  refine ⟨fun t e ht he => ?_, fun t e u f ht he hu hf hne => ?_, ?_⟩
  · rw [hidx t e ht he]
    exact ⟨rfl, by omega, by omega⟩
  · rw [hidx t e ht he, hidx u f hu hf]
    omega
  · obtain ⟨a, ha, hk, hw, hd, _, hg⟩ := network_dpdk.set_vdif_header_options_spec d s
      (vfl * 2112) inv seq port vb hv (by omega) htpp0 (by omega) (by omega)
    rw [hL]
    exact ⟨a, ha, hk, hw, hd, hg⟩

/-- C28 on frames of 8 samples with two samples per packet, at frame location 6
(the last slot): the four header indices are 12672, 13728, 14784 and 15840, the
last one ends 1056 bytes later at the frame size 16896, and the call returns. -/
theorem C28_header_indices_witness :
    to_int32 (to_int32 ((6 : Int) * 2112) + (32 + 1024) * 2 * (1 : Nat) + (32 + 1024) * (1 : Nat))
        + 1056 ≤ (Examples.pool_cap (8 * 2112) 0 0).buffer_size
    ∧ (∃ a, network_dpdk.set_vdif_header_options Examples.deps (Examples.vnet 8 0 6 4 0 1 0 0)
          (to_int32 ((6 : Int) * 2112)) 2 (32 + 1024) 0 6 0
        = some (network_dpdk.set_vdif_buf (Examples.vnet 8 0 6 4 0 1 0 0) a)) := by
  have h := C28_header_indices Examples.deps (Examples.vnet 8 0 6 4 0 1 0 0) 0
    (Examples.pool_cap (8 * 2112) 0 0) 6 0 6 rfl (by decide) (by decide) (by decide) (by decide)
    (by decide) (by decide)
  refine ⟨(h.1 1 1 (by decide) (by decide)).2.2, ?_⟩
  obtain ⟨a, ha, _⟩ := h.2.2
  exact ⟨a, ha⟩

namespace network_dpdk

theorem set_vdif_buf_self (s : NetworkDPDK) (vb : Buffer) (hv : s.args.vdif_buf = some vb) :
    set_vdif_buf s vb = s := by
  obtain ⟨ld, args, x, y, z⟩ := s
  obtain ⟨a1, a2, a3, a4, a5, a6, a7, a8, a9⟩ := args
  simp only at hv
  subst hv
  rfl

theorem set_vdif_buf_twice (s : NetworkDPDK) (a b vb : Buffer) (hv : s.args.vdif_buf = some vb) :
    set_vdif_buf (set_vdif_buf s a) b = set_vdif_buf s b := by
  simp [set_vdif_buf, hv]

end network_dpdk

namespace network_dpdk

/-- A call of `set_vdif_header_options` with `invalid = 1`, as the loss handler
makes for the slot at frame location `F` when the slot fits the current frame:
the call returns; for every time step `t` and element `e` the header at byte
index `(F + t) * 2112 + 1056 e` of the current frame is a lost header of `e`;
a lost header at a byte index `p * 2112 + 1056 e` of any frame is still one;
no byte at an offset of 32 or more inside a 1056-byte packet has changed; and
the geometry, flags, metadata and counts of the pool are as before. -/
theorem set_vdif_header_options_lost (d : Deps) (s : NetworkDPDK) (F : Int) (seq port : Nat)
    (vb : Buffer) (hv : s.args.vdif_buf = some vb) (hF : 0 ≤ F)
    (htpp : 0 ≤ s.args.config.timesamples_per_packet)
    (hfit : (F + s.args.config.timesamples_per_packet) * 2112 ≤ vb.buffer_size)
    (hsz : vb.buffer_size ≤ 2 ^ 31) :
    ∃ a, set_vdif_header_options d s (F * 2112) 2 (32 + 1024) 1 seq port
          = some (set_vdif_buf s a)
      ∧ only_headers_changed vb a
      ∧ (∀ i j, 32 ≤ j % 1056 → a.data i j = vb.data i j)
      ∧ (∀ i (p : Int) (e : Nat), e < 2 → lost_header d vb i (p * 2112 + 1056 * e) e →
          lost_header d a i (p * 2112 + 1056 * e) e)
      ∧ (∀ (t e : Nat), (t : Int) < s.args.config.timesamples_per_packet → e < 2 →
          lost_header d a (s.link_data port).vdif_buffer_id ((F + t) * 2112 + 1056 * e) e) := by
  obtain ⟨a, ha, hk, hw, hd, ho, hg⟩ := set_vdif_header_options_spec d s (F * 2112) 1 seq port
    vb hv (by omega) htpp (by omega) hsz
  have mark : ∀ (t e : Nat), (t : Int) < s.args.config.timesamples_per_packet → e < 2 →
      lost_header d a (s.link_data port).vdif_buffer_id ((F + t) * 2112 + 1056 * e) e := by
    intro t e ht he
    have hx : (F + (t : Int)) * 2112 + 1056 * (e : Int) = F * 2112 + 2112 * t + 1056 * e := by
      omega
    rw [hx]
    refine ⟨?_, ?_, fun k hk32 => hd t e k ht he hk32⟩
    · rw [hw t e ht he]; exact (vdif_header_fields_lost s _ _ _ _).1
    · rw [hw t e ht he]; exact (vdif_header_fields_lost s _ _ _ _).2
  refine ⟨a, ha, hk, ?_, ?_, mark⟩
  · intro i j hj
    exact hg i j (Or.inr (fun t e _ he => by omega))
  · intro i p e he hl
    by_cases hin : i = (s.link_data port).vdif_buffer_id
        ∧ F ≤ p ∧ p < F + s.args.config.timesamples_per_packet
    · obtain ⟨hi, hp1, hp2⟩ := hin
      have hm := mark (p - F).toNat e (by omega) he
      have hx : (F + ((p - F).toNat : Int)) * 2112 + 1056 * (e : Int) = p * 2112 + 1056 * e := by
        omega
      rw [hx, ← hi] at hm
      exact hm
    · have hfar : i ≠ (s.link_data port).vdif_buffer_id
          ∨ ∀ t f : Nat, (t : Int) < s.args.config.timesamples_per_packet → f < 2 →
            (p * 2112 + 1056 * (e : Int) + 32 ≤ F * 2112 + 2112 * t + 1056 * f
              ∨ F * 2112 + 2112 * (t : Int) + 1056 * f + 32 ≤ p * 2112 + 1056 * e) := by
        by_cases hi : i = (s.link_data port).vdif_buffer_id
        · right
          intro t f ht hf
          have : ¬ (F ≤ p ∧ p < F + s.args.config.timesamples_per_packet) := fun h => hin ⟨hi, h⟩
          omega
        · exact Or.inl hi
      obtain ⟨l1, l2, l3⟩ := hl
      have hh : a.headers i (p * 2112 + 1056 * e) = vb.headers i (p * 2112 + 1056 * e) :=
        ho i _ hfar
      refine ⟨by rw [hh]; exact l1, by rw [hh]; exact l2, fun k hk32 => ?_⟩
      rw [hh, ← l3 k hk32]
      refine hg i _ ?_
      rcases hfar with h | h
      · exact Or.inl h
      · right
        intro t f ht hf
        have := h t f ht hf
        omega

/-- The function `advance_vdif_frame` on an enabled timestamped output: it
returns, the bytes and headers of the pool are as before, and the link moves
on to the next frame of the ring. -/
theorem advance_vdif_frame_eq (s : NetworkDPDK) (port : Nat) (new_seq : Nat) (now : timeval)
    (vb : Buffer) (hv : s.args.vdif_buf = some vb) :
    ∃ t b1, advance_vdif_frame s port new_seq now = some t ∧ t.args.vdif_buf = some b1
      ∧ b1.data = vb.data ∧ b1.headers = vb.headers ∧ b1.buffer_size = vb.buffer_size
      ∧ b1.num_buffers = vb.num_buffers ∧ b1.bad_timesamples = vb.bad_timesamples
      ∧ (t.link_data port).vdif_buffer_id
          = next_vdif_buffer_id vb.num_buffers (s.link_data port).vdif_buffer_id
      ∧ t.args.config = s.args.config := by
  unfold advance_vdif_frame
  rw [hv]
  simp only
  refine ⟨_, _, rfl, vdif_buf_set_vdif_buf _ _ vb (by simpa using hv), ?_, ?_, ?_, ?_, ?_,
    ?_, ?_⟩
  · rfl
  · rfl
  · rfl
  · rfl
  · rfl
  · simp only [set_vdif_buf, set_link_link_data_self, next_vdif_buffer_id]
  · rfl

end network_dpdk

namespace network_dpdk

/-- The filling loop of `handle_lost_raw_packets` on a correctly configured
timestamped pool (frames of `P` samples, `P` a positive multiple of
`timesamples_per_packet`, a frame size that fits an `int`), started at a frame
location `fl` that is a multiple of `timesamples_per_packet` in `[0, P]`, with
the count `lf`; `hi` is the sample position, counted from the start of the
current frame, at which the loop stops (`fl` plus the count rounded up to whole
packets).  The loop returns, whatever frame advances it makes.  For every
sample position from `fl` up to `hi`, at location `loc` of the frame reached
after `j` advances, the headers of both elements are lost headers; headers
that were lost headers before are still lost headers; no byte at an offset of
32 or more inside a 1056-byte packet has changed. -/
theorem lost_raw_packets_loop_frames (d : Deps) (port : Nat) (now : timeval) (tpp P nb : Int)
    (h1 : 1 ≤ tpp) (hP0 : 0 < P) (hPt : tpp ∣ P) (hP31 : P * 2112 ≤ 2 ^ 31) :
    ∀ (fuel : Nat) (s : NetworkDPDK) (fl cs lf hi : Int) (vb : Buffer),
      s.args.vdif_buf = some vb → s.args.config.timesamples_per_packet = tpp →
      vb.buffer_size = P * 2112 → vb.num_buffers = nb →
      0 ≤ fl → fl ≤ P → tpp ∣ fl →
      -tpp < lf → lf ≤ fuel → lf < 2 ^ 31 →
      tpp ∣ hi - fl → lf ≤ hi - fl → hi - fl < lf + tpp →
      ∃ t a, lost_raw_packets_loop d port now tpp fuel s fl cs lf = some t
        ∧ t.args.vdif_buf = some a
        ∧ a.buffer_size = vb.buffer_size ∧ a.num_buffers = vb.num_buffers
        ∧ a.bad_timesamples = vb.bad_timesamples
        ∧ (∀ i j, 32 ≤ j % 1056 → a.data i j = vb.data i j)
        ∧ (∀ i (p : Int) (e : Nat), e < 2 → lost_header d vb i (p * 2112 + 1056 * e) e →
            lost_header d a i (p * 2112 + 1056 * e) e)
        ∧ (∀ (j : Nat) (loc : Int) (e : Nat), 0 ≤ loc → loc < P → e < 2 →
            fl ≤ j * P + loc → j * P + loc < hi →
            lost_header d a (vdif_buffer_id_after nb j (s.link_data port).vdif_buffer_id)
              (loc * 2112 + 1056 * e) e) := by
  have hfs : to_int32 ((32 + 1024) * 2) = 2112 := by decide
  have htP : tpp ≤ P := Int.le_of_dvd hP0 hPt
  have hstop : ∀ (fuel : Nat) (s : NetworkDPDK) (fl cs lf hi : Int) (vb : Buffer),
      s.args.vdif_buf = some vb → ¬ lf > 0 → -tpp < lf →
      tpp ∣ hi - fl → lf ≤ hi - fl → hi - fl < lf + tpp →
      ∃ t a, lost_raw_packets_loop d port now tpp fuel s fl cs lf = some t
        ∧ t.args.vdif_buf = some a
        ∧ a.buffer_size = vb.buffer_size ∧ a.num_buffers = vb.num_buffers
        ∧ a.bad_timesamples = vb.bad_timesamples
        ∧ (∀ i j, 32 ≤ j % 1056 → a.data i j = vb.data i j)
        ∧ (∀ i (p : Int) (e : Nat), e < 2 → lost_header d vb i (p * 2112 + 1056 * e) e →
            lost_header d a i (p * 2112 + 1056 * e) e)
        ∧ (∀ (j : Nat) (loc : Int) (e : Nat), 0 ≤ loc → loc < P → e < 2 →
            fl ≤ j * P + loc → j * P + loc < hi →
            lost_header d a (vdif_buffer_id_after nb j (s.link_data port).vdif_buffer_id)
              (loc * 2112 + 1056 * e) e) := by
    intro fuel s fl cs lf hi vb hv hz hlo hdvd hle hlt
    have hhi : hi - fl = 0 := by
      obtain ⟨c, hc⟩ := hdvd
      have hc1 : -1 < c := by
        by_contra hcon
        have : tpp * c ≤ tpp * (-1) := Int.mul_le_mul_of_nonneg_left (by omega) (by omega)
        omega
      have hc2 : c < 1 := by
        by_contra hcon
        have : tpp * 1 ≤ tpp * c := Int.mul_le_mul_of_nonneg_left (by omega) (by omega)
        omega
      have : c = 0 := by omega
      rw [hc, this]; simp
    refine ⟨s, vb, ?_, hv, rfl, rfl, rfl, fun _ _ _ => rfl, fun _ _ _ _ h => h,
      fun j loc e _ _ _ hge hlt2 => by omega⟩
    cases fuel with
    | zero => simp [lost_raw_packets_loop, hz]
    | succ n => rw [lost_raw_packets_loop]; simp [hz]
  intro fuel
  induction fuel with
  | zero =>
    intro s fl cs lf hi vb hv _ _ _ _ _ _ hlo hfu _ hdvd hle hlt
    exact hstop 0 s fl cs lf hi vb hv (by simp at hfu; omega) hlo hdvd hle hlt
  | succ n ih =>
    intro s fl cs lf hi vb hv hcfg hsize hnb hfl0 hflP hfld hlo hfu h31 hdvd hle hlt
    by_cases hpos : lf > 0
    · have hlf' : to_int32 (lf - tpp) = lf - tpp := to_int32_of_range _ (by omega) (by omega)
      by_cases hadv : fl = P
      · -- the frame is full: advance, then write the slot at location 0
        have hadv2 : to_int64 (fl * 2112) = vb.buffer_size := by
          rw [to_int64_of_range _ (by omega) (by omega), hsize, hadv]
        obtain ⟨s1, vb1, hs1, hv1, hd1, hh1, hz1, hn1, hbad1, hid1, hc1⟩ :=
          advance_vdif_frame_eq s port (to_uint64 cs).toNat now vb hv
        have hL0 : to_int32 (to_int64 ((0 : Int) * 2112)) = 0 * 2112 := by decide
        obtain ⟨a1, ha1, hk1, hg1, hp1, hm1⟩ := set_vdif_header_options_lost d s1 0
          (to_uint64 cs).toNat port vb1 hv1 (le_refl 0) (by rw [hc1, hcfg]; omega)
          (by rw [hc1, hcfg, hz1, hsize]; omega) (by rw [hz1, hsize]; exact hP31)
        have hv2 : (set_vdif_buf s1 a1).args.vdif_buf = some a1 :=
          vdif_buf_set_vdif_buf s1 a1 vb1 hv1
        obtain ⟨t, a, ht, hva, hza, hna, hbada, hga, hpa, hma⟩ := ih (set_vdif_buf s1 a1)
          (to_int64 (0 + tpp)) (to_int64 (cs + tpp)) (to_int32 (lf - tpp)) (hi - P) a1 hv2
          (by rw [← hcfg, ← hc1]; rfl)
          (by rw [hk1.buffer_size, hz1]; exact hsize)
          (by rw [hk1.num_buffers, hn1]; exact hnb)
          (by rw [to_int64_of_range _ (by omega) (by omega)]; omega)
          (by rw [to_int64_of_range _ (by omega) (by omega)]; omega)
          (by rw [to_int64_of_range _ (by omega) (by omega)]; simp)
          (by rw [hlf']; omega)
          (by rw [hlf']; push_cast at hfu; omega)
          (by rw [hlf']; omega)
          (by
            rw [to_int64_of_range _ (by omega) (by omega)]
            have : hi - P - (0 + tpp) = (hi - fl) - tpp := by omega
            rw [this]
            exact Int.dvd_sub hdvd (dvd_refl tpp))
          (by rw [to_int64_of_range _ (by omega) (by omega), hlf']; omega)
          (by rw [to_int64_of_range _ (by omega) (by omega), hlf']; omega)
        rw [to_int64_of_range (0 + tpp) (by omega) (by omega)] at hma
        have hid2 : ((set_vdif_buf s1 a1).link_data port).vdif_buffer_id
            = next_vdif_buffer_id nb (s.link_data port).vdif_buffer_id := by
          rw [← hnb, ← hid1]; rfl
        rw [hid2] at hma
        refine ⟨t, a, ?_, hva, ?_, ?_, ?_, ?_, ?_, ?_⟩
        · rw [lost_raw_packets_loop]
          simp only [hpos, if_true, hv, hfs, hadv2, decide_True, hs1, hL0, ha1]
          exact ht
        · rw [hza, hk1.buffer_size, hz1]
        · rw [hna, hk1.num_buffers, hn1]
        · rw [hbada, hk1.bad_timesamples, hbad1]
        · intro i j hj
          rw [hga i j hj, hg1 i j hj, hd1]
        · intro i p e he hl
          refine hpa i p e he (hp1 i p e he ?_)
          unfold lost_header at hl ⊢
          rw [hh1, hd1]
          exact hl
        · intro j loc e hl0 hl1 he hge hlt2
          cases j with
          | zero => simp at hge; omega
          | succ j' =>
            have e1 : (((j' + 1 : Nat) : Int)) * P = j' * P + P := by push_cast; ring
            rw [e1] at hge hlt2
            have hj0 : 0 ≤ (j' : Int) * P := Int.mul_nonneg (Int.ofNat_nonneg j') hP0.le
            simp only [vdif_buffer_id_after]
            by_cases hnow : (j' : Int) * P + loc < tpp
            · have hjz : j' = 0 := by
                by_contra hne
                have : (1 : Int) * P ≤ (j' : Int) * P :=
                  Int.mul_le_mul_of_nonneg_right (by omega) hP0.le
                omega
              subst hjz
              simp only [vdif_buffer_id_after]
              have hm := hm1 loc.toNat e (by rw [hc1, hcfg]; simp at hnow; omega) he
              have hx : ((0 : Int) + (loc.toNat : Int)) * 2112 + 1056 * (e : Int)
                  = loc * 2112 + 1056 * e := by omega
              rw [hx, hid1, hnb] at hm
              exact hpa _ loc e he hm
            · exact hma j' loc e hl0 hl1 he (by omega) (by omega)
      · -- the slot fits the current frame
        have hltP : fl < P := by omega
        have hfit : fl + tpp ≤ P := by
          have hd2 : tpp ∣ P - fl := Int.dvd_sub hPt hfld
          have := Int.le_of_dvd (by omega) hd2
          omega
        have hnadv : ¬ (to_int64 (fl * 2112) = vb.buffer_size) := by
          rw [to_int64_of_range _ (by omega) (by omega), hsize]
          omega
        have hL : to_int32 (to_int64 (fl * 2112)) = fl * 2112 := by
          rw [to_int64_of_range _ (by omega) (by omega), to_int32_of_range _ (by omega) (by omega)]
        obtain ⟨a1, ha1, hk1, hg1, hp1, hm1⟩ := set_vdif_header_options_lost d s fl
          (to_uint64 cs).toNat port vb hv hfl0 (by rw [hcfg]; omega)
          (by rw [hcfg, hsize]; omega) (by rw [hsize]; exact hP31)
        have hv2 : (set_vdif_buf s a1).args.vdif_buf = some a1 :=
          vdif_buf_set_vdif_buf s a1 vb hv
        obtain ⟨t, a, ht, hva, hza, hna, hbada, hga, hpa, hma⟩ := ih (set_vdif_buf s a1)
          (to_int64 (fl + tpp)) (to_int64 (cs + tpp)) (to_int32 (lf - tpp)) hi a1 hv2
          hcfg
          (by rw [hk1.buffer_size]; exact hsize)
          (by rw [hk1.num_buffers]; exact hnb)
          (by rw [to_int64_of_range _ (by omega) (by omega)]; omega)
          (by rw [to_int64_of_range _ (by omega) (by omega)]; omega)
          (by rw [to_int64_of_range _ (by omega) (by omega)]; exact Int.dvd_add hfld (dvd_refl tpp))
          (by rw [hlf']; omega)
          (by rw [hlf']; push_cast at hfu; omega)
          (by rw [hlf']; omega)
          (by
            rw [to_int64_of_range _ (by omega) (by omega)]
            have : hi - (fl + tpp) = (hi - fl) - tpp := by omega
            rw [this]
            exact Int.dvd_sub hdvd (dvd_refl tpp))
          (by rw [to_int64_of_range _ (by omega) (by omega), hlf']; omega)
          (by rw [to_int64_of_range _ (by omega) (by omega), hlf']; omega)
        rw [to_int64_of_range (fl + tpp) (by omega) (by omega)] at hma
        have hid2 : ((set_vdif_buf s a1).link_data port).vdif_buffer_id
            = (s.link_data port).vdif_buffer_id := rfl
        rw [hid2] at hma
        refine ⟨t, a, ?_, hva, ?_, ?_, ?_, ?_, ?_, ?_⟩
        · rw [lost_raw_packets_loop]
          simp only [hpos, if_true, hv, hfs, hnadv, decide_False, Bool.false_eq_true, if_false,
            hL, ha1]
          exact ht
        · rw [hza, hk1.buffer_size]
        · rw [hna, hk1.num_buffers]
        · rw [hbada, hk1.bad_timesamples]
        · intro i j hj
          rw [hga i j hj, hg1 i j hj]
        · intro i p e he hl
          exact hpa i p e he (hp1 i p e he hl)
        · intro j loc e hl0 hl1 he hge hlt2
          by_cases hnow : (j : Int) * P + loc < fl + tpp
          · have hjz : j = 0 := by
              by_contra hne
              have : (1 : Int) * P ≤ (j : Int) * P :=
                Int.mul_le_mul_of_nonneg_right (by omega) hP0.le
              omega
            subst hjz
            simp only [vdif_buffer_id_after]
            simp at hge hnow
            have hm := hm1 (loc - fl).toNat e (by rw [hcfg]; omega) he
            have hx : (fl + ((loc - fl).toNat : Int)) * 2112 + 1056 * (e : Int)
                = loc * 2112 + 1056 * e := by omega
            rw [hx] at hm
            exact hpa _ loc e he hm
          · exact hma j loc e hl0 hl1 he (by omega) hlt2
    · exact hstop (n + 1) s fl cs lf hi vb hv hpos hlo hdvd hle hlt

end network_dpdk

/-! ## Counting the iterations of a filling loop -/

/-- A loop that stops when the count `lf` is not positive and otherwise runs
its body and goes on with the count reduced by `tpp`: with `n` iterations
allowed it gives the same result for every `n` with `lf <= n * tpp`, and it is
still running after `n` iterations when `n * tpp < lf`. -/
theorem fuel_count {σ : Type} (loop : Nat → σ → Int → Int → Int → Option σ)
    (X : σ → Int → Int → Option (σ × Int)) (tpp : Int) (h1 : 1 ≤ tpp) (h2 : tpp < 2 ^ 31)
    (h0 : ∀ s fl cs lf, loop 0 s fl cs lf = if lf > 0 then none else some s)
    (hs : ∀ n s fl cs lf, loop (n + 1) s fl cs lf
      = if lf > 0 then
          (X s fl cs).bind (fun p => loop n p.1 p.2 (to_int64 (cs + tpp)) (to_int32 (lf - tpp)))
        else some s) :
    (∀ (n1 n2 : Nat) s fl cs lf, lf < 2 ^ 31 → lf ≤ n1 * tpp → lf ≤ n2 * tpp →
      loop n1 s fl cs lf = loop n2 s fl cs lf)
    ∧ (∀ (n : Nat) s fl cs lf, lf < 2 ^ 31 → n * tpp < lf → loop n s fl cs lf = none) := by
  have hnone : ∀ n s fl cs lf, ¬ lf > 0 → loop n s fl cs lf = some s := by
    intro n s fl cs lf hlf
    cases n with
    | zero => rw [h0]; simp [hlf]
    | succ m => rw [hs]; simp [hlf]
  constructor
  · intro n1
    induction n1 with
    | zero =>
      intro n2 s fl cs lf _ hle1 _
      have hz : ¬ lf > 0 := by simp at hle1; omega
      rw [hnone 0 s fl cs lf hz, hnone n2 s fl cs lf hz]
    | succ m1 ih =>
      intro n2 s fl cs lf hlt hle1 hle2
      by_cases hpos : lf > 0
      · cases n2 with
        | zero => simp at hle2; omega
        | succ m2 =>
          rw [hs, hs]
          simp only [hpos, if_true]
          congr 1
          funext p
          have e1 : (((m1 + 1 : Nat) : Int)) * tpp = m1 * tpp + tpp := by push_cast; ring
          have e2 : (((m2 + 1 : Nat) : Int)) * tpp = m2 * tpp + tpp := by push_cast; ring
          rw [e1] at hle1
          rw [e2] at hle2
          have e3 : to_int32 (lf - tpp) = lf - tpp := to_int32_of_range _ (by omega) (by omega)
          exact ih m2 p.1 p.2 _ _ (by rw [e3]; omega) (by rw [e3]; omega) (by rw [e3]; omega)
      · rw [hnone _ s fl cs lf hpos, hnone n2 s fl cs lf hpos]
  · intro n
    induction n with
    | zero =>
      intro s fl cs lf _ hlt
      rw [h0]
      have : lf > 0 := by simp at hlt; omega
      simp [this]
    | succ m ih =>
      intro s fl cs lf hlt hlt2
      have e1 : (((m + 1 : Nat) : Int)) * tpp = m * tpp + tpp := by push_cast; ring
      rw [e1] at hlt2
      have hm0 : 0 ≤ (m : Int) * tpp := Int.mul_nonneg (Int.ofNat_nonneg m) (by omega)
      have hpos : lf > 0 := by omega
      have e3 : to_int32 (lf - tpp) = lf - tpp := to_int32_of_range _ (by omega) (by omega)
      rw [hs]
      simp only [hpos, if_true]
      cases hX : X s fl cs with
      | none => rfl
      | some p =>
        simp only [Option.some_bind]
        exact ih p.1 p.2 _ _ (by rw [e3]; omega) (by rw [e3]; omega)

/-- The number of iterations `ceil(lf / tpp)` of a filling loop. -/
theorem ceil_count (tpp lf : Int) (h1 : 1 ≤ tpp) (hlf : 0 < lf) :
    lf ≤ (((lf + tpp - 1) / tpp).toNat : Int) * tpp
    ∧ ((((lf + tpp - 1) / tpp).toNat : Int) - 1) * tpp < lf
    ∧ 1 ≤ ((lf + tpp - 1) / tpp).toNat
    ∧ (∀ n : Nat, ((lf + tpp - 1) / tpp).toNat ≤ n → lf ≤ (n : Int) * tpp)
    ∧ (∀ n : Nat, n < ((lf + tpp - 1) / tpp).toNat → (n : Int) * tpp < lf) := by
  have hq := Int.emod_add_ediv (lf + tpp - 1) tpp
  have hm0 := Int.emod_nonneg (lf + tpp - 1) (by omega : tpp ≠ 0)
  have hm1 := Int.emod_lt_of_pos (lf + tpp - 1) (by omega : 0 < tpp)
  have hqpos : 0 < (lf + tpp - 1) / tpp := by
    by_contra hc
    have : tpp * ((lf + tpp - 1) / tpp) ≤ tpp * 0 :=
      Int.mul_le_mul_of_nonneg_left (by omega) (by omega)
    omega
  have hk : (((lf + tpp - 1) / tpp).toNat : Int) = (lf + tpp - 1) / tpp :=
    Int.toNat_of_nonneg (by omega)
  have hcomm : (lf + tpp - 1) / tpp * tpp = tpp * ((lf + tpp - 1) / tpp) := Int.mul_comm _ _
  have hsub : ((lf + tpp - 1) / tpp - 1) * tpp = (lf + tpp - 1) / tpp * tpp - tpp := by ring
  refine ⟨by rw [hk]; omega, by rw [hk, hsub]; omega, by omega, ?_, ?_⟩
  · intro n hn
    have : (lf + tpp - 1) / tpp * tpp ≤ (n : Int) * tpp :=
      Int.mul_le_mul_of_nonneg_right (by omega) (by omega)
    omega
  · intro n hn
    have : (n : Int) * tpp ≤ ((lf + tpp - 1) / tpp - 1) * tpp :=
      Int.mul_le_mul_of_nonneg_right (by omega) (by omega)
    omega

namespace network_dpdk

/-- The function `handle_lost_raw_packets` on a correctly configured
timestamped pool (frames of `P` samples, `P` a positive multiple of
`timesamples_per_packet`, a frame size that fits an `int`), for a link whose
last accepted packet lies in the current frame a whole number of packets after
its start, and a gap `0 < seq - last_seq < 2^31`.  The handler returns,
whatever frame boundaries the gap spans.  It adds `seq - last_seq` to the
lost-sample count of the frame current on entry and changes no other count.
For every sample position from `last_seq + timesamples_per_packet` on, up to
the end of the last slot the loop fills (`k` slots, `k` the gap divided by
`timesamples_per_packet`, rounded up), at location `loc` of the frame reached
after `j` advances, the headers of both elements are lost headers; headers
that were lost headers before are still lost headers; and no byte at an offset
of 32 or more inside a 1056-byte packet has changed. -/
theorem handle_lost_raw_packets_frames (d : Deps) (s : NetworkDPDK) (port : Nat)
    (now : timeval) (vb : Buffer) (P : Int)
    (hv : s.args.vdif_buf = some vb)
    (h1 : 1 ≤ s.args.config.timesamples_per_packet)
    (hP0 : 0 < P) (hPt : s.args.config.timesamples_per_packet ∣ P)
    (hsize : vb.buffer_size = P * 2112) (hP31 : P * 2112 ≤ 2 ^ 31)
    (hgap : (s.link_data port).last_seq < (s.link_data port).seq)
    (hgap2 : ((s.link_data port).seq : Int) - (s.link_data port).last_seq < 2 ^ 31)
    (hstart : vb.fpga_seq_num (s.link_data port).vdif_buffer_id ≤ (s.link_data port).last_seq)
    (hal : s.args.config.timesamples_per_packet
      ∣ ((s.link_data port).last_seq : Int) - vb.fpga_seq_num (s.link_data port).vdif_buffer_id)
    (hin : ((s.link_data port).last_seq : Int)
      - vb.fpga_seq_num (s.link_data port).vdif_buffer_id < P) :
    ∃ t a, handle_lost_raw_packets d s port now = some t ∧ t.args.vdif_buf = some a
      ∧ a.buffer_size = vb.buffer_size ∧ a.num_buffers = vb.num_buffers
      ∧ a.bad_timesamples = Function.update vb.bad_timesamples (s.link_data port).vdif_buffer_id
          (vb.bad_timesamples (s.link_data port).vdif_buffer_id
            + (((s.link_data port).seq : Int) - (s.link_data port).last_seq))
      ∧ (∀ i j, 32 ≤ j % 1056 → a.data i j = vb.data i j)
      ∧ (∀ i (p : Int) (e : Nat), e < 2 → lost_header d vb i (p * 2112 + 1056 * e) e →
          lost_header d a i (p * 2112 + 1056 * e) e)
      ∧ (∀ (j : Nat) (loc : Int) (e : Nat), 0 ≤ loc → loc < P → e < 2 →
          ((s.link_data port).last_seq : Int) + s.args.config.timesamples_per_packet
            ≤ vb.fpga_seq_num (s.link_data port).vdif_buffer_id + j * P + loc →
          (vb.fpga_seq_num (s.link_data port).vdif_buffer_id : Int) + j * P + loc
            < (s.link_data port).last_seq + s.args.config.timesamples_per_packet
              + ((((s.link_data port).seq : Int) - (s.link_data port).last_seq
                  + s.args.config.timesamples_per_packet - 1)
                / s.args.config.timesamples_per_packet).toNat
                * s.args.config.timesamples_per_packet →
          lost_header d a
            (vdif_buffer_id_after vb.num_buffers j (s.link_data port).vdif_buffer_id)
            (loc * 2112 + 1056 * e) e) := by
  have htP : s.args.config.timesamples_per_packet ≤ P := Int.le_of_dvd hP0 hPt
  have htpp : to_int64 s.args.config.timesamples_per_packet
      = s.args.config.timesamples_per_packet := to_int64_of_range _ (by omega) (by omega)
  have hlf : to_int32 (to_uint64 (((s.link_data port).seq : Int) - (s.link_data port).last_seq))
      = ((s.link_data port).seq : Int) - (s.link_data port).last_seq := by
    rw [to_int32_to_uint64, to_int32_of_range _ (by omega) (by omega)]
  have hfl : to_int64 (((s.link_data port).last_seq : Int)
      + s.args.config.timesamples_per_packet
      - get_fpga_seq_num vb (s.link_data port).vdif_buffer_id)
      = ((s.link_data port).last_seq : Int) + s.args.config.timesamples_per_packet
        - vb.fpga_seq_num (s.link_data port).vdif_buffer_id := by
    unfold get_fpga_seq_num
    rw [to_int64_of_range _ (by omega) (by omega)]
  have hfit : ((s.link_data port).last_seq : Int)
      - vb.fpga_seq_num (s.link_data port).vdif_buffer_id
      + s.args.config.timesamples_per_packet ≤ P := by
    have hd2 := Int.dvd_sub hPt hal
    have := Int.le_of_dvd (by omega) hd2
    omega
  obtain ⟨c1, c2, _, _, _⟩ := ceil_count s.args.config.timesamples_per_packet
    (((s.link_data port).seq : Int) - (s.link_data port).last_seq) h1 (by omega)
  generalize hK : ((((s.link_data port).seq : Int) - (s.link_data port).last_seq
      + s.args.config.timesamples_per_packet - 1)
      / s.args.config.timesamples_per_packet).toNat = K at c1 c2 ⊢
  have hsub : ((K : Int) - 1) * s.args.config.timesamples_per_packet
      = K * s.args.config.timesamples_per_packet - s.args.config.timesamples_per_packet := by
    ring
  rw [hsub] at c2
  have hv1 := vdif_buf_set_vdif_buf s
    (add_bad_timesamples vb (s.link_data port).vdif_buffer_id
      (((s.link_data port).seq : Int) - (s.link_data port).last_seq)) vb hv
  obtain ⟨t, a, ht, hva, hza, hna, hbada, hga, hpa, hma⟩ := lost_raw_packets_loop_frames d port
    now s.args.config.timesamples_per_packet P vb.num_buffers h1 hP0 hPt hP31
    (((s.link_data port).seq : Int) - (s.link_data port).last_seq).toNat
    (set_vdif_buf s
      (add_bad_timesamples vb (s.link_data port).vdif_buffer_id
        (((s.link_data port).seq : Int) - (s.link_data port).last_seq)))
    (((s.link_data port).last_seq : Int) + s.args.config.timesamples_per_packet
        - vb.fpga_seq_num (s.link_data port).vdif_buffer_id)
    (to_int64 (((s.link_data port).last_seq : Int) + s.args.config.timesamples_per_packet))
    (((s.link_data port).seq : Int) - (s.link_data port).last_seq)
    (((s.link_data port).last_seq : Int) + s.args.config.timesamples_per_packet
        - vb.fpga_seq_num (s.link_data port).vdif_buffer_id
        + K * s.args.config.timesamples_per_packet)
    _ hv1 rfl hsize rfl (by omega) (by omega)
    (by
      have : ((s.link_data port).last_seq : Int) + s.args.config.timesamples_per_packet
          - vb.fpga_seq_num (s.link_data port).vdif_buffer_id
          = (((s.link_data port).last_seq : Int)
              - vb.fpga_seq_num (s.link_data port).vdif_buffer_id)
            + s.args.config.timesamples_per_packet := by omega
      rw [this]
      exact Int.dvd_add hal (dvd_refl _))
    (by omega) (Int.self_le_toNat _) hgap2
    (by
      have : ((s.link_data port).last_seq : Int) + s.args.config.timesamples_per_packet
          - vb.fpga_seq_num (s.link_data port).vdif_buffer_id
          + K * s.args.config.timesamples_per_packet
          - (((s.link_data port).last_seq : Int) + s.args.config.timesamples_per_packet
              - vb.fpga_seq_num (s.link_data port).vdif_buffer_id)
          = K * s.args.config.timesamples_per_packet := by omega
      rw [this]
      exact Dvd.intro_left _ rfl)
    (by omega) (by omega)
  refine ⟨t, a, ?_, hva, hza, hna, ?_, hga, hpa, ?_⟩
  · unfold handle_lost_raw_packets
    simp only [hv, htpp, hlf, hfl]
    exact ht
  · rw [hbada]
    rfl
  · intro j loc e hl0 hl1 he hge hlt
    exact hma j loc e hl0 hl1 he (by omega) (by omega)

end network_dpdk

/-! ## Loss handling of the timestamped output -/

/-- C11, amended.  Whatever frame boundaries a gap `0 < seq - last_seq < 2^31`
spans, a loss handler increments one lost-sample count only, that of the frame
which is current when the handler is entered, and it does so once, by a
positive amount that is at most `seq - last_seq`; the counts of all other
frames, those the handler moves on to among them, are left as they were.  This
holds of `handle_lost_packets`, which returns when the packed output is
enabled and a packet holds at least one sample; of `handle_lost_raw_packets`
whenever it returns; and `handle_lost_raw_packets` does return on a correctly
configured timestamped pool (frames of `P` samples, `P` a positive multiple of
`timesamples_per_packet`, a frame size that fits an `int`, the last accepted
packet in the current frame a whole number of packets after its start). -/
theorem C11_loss_counted_on_entry_frame (d : Deps) (s u : network_dpdk.NetworkDPDK)
    (port : Nat) (now : network_dpdk.timeval) (b vb : network_dpdk.Buffer) (P : Int)
    (hb : network_dpdk.get_buf s port = some b)
    (h1 : 1 ≤ s.args.config.timesamples_per_packet)
    (h2 : s.args.config.timesamples_per_packet < 2 ^ 31)
    (hs : (s.link_data port).last_seq < (s.link_data port).seq)
    (hs2 : ((s.link_data port).seq : Int) - (s.link_data port).last_seq < 2 ^ 31)
    (hv : u.args.vdif_buf = some vb)
    (hu : (u.link_data port).last_seq < (u.link_data port).seq)
    (hu2 : ((u.link_data port).seq : Int) - (u.link_data port).last_seq < 2 ^ 31) :
    (∃ t b1 n, network_dpdk.handle_lost_packets s port now = some t
      ∧ network_dpdk.get_buf t port = some b1
      ∧ 0 < n ∧ n ≤ ((s.link_data port).seq : Int) - (s.link_data port).last_seq
      ∧ b1.bad_timesamples = Function.update b.bad_timesamples (s.link_data port).buffer_id
          (b.bad_timesamples (s.link_data port).buffer_id + n))
    ∧ (∀ t, network_dpdk.handle_lost_raw_packets d u port now = some t →
        ∃ vb1 n, t.args.vdif_buf = some vb1
          ∧ 0 < n ∧ n ≤ ((u.link_data port).seq : Int) - (u.link_data port).last_seq
          ∧ vb1.bad_timesamples = Function.update vb.bad_timesamples
              (u.link_data port).vdif_buffer_id
              (vb.bad_timesamples (u.link_data port).vdif_buffer_id + n))
    ∧ (1 ≤ u.args.config.timesamples_per_packet → 0 < P →
        u.args.config.timesamples_per_packet ∣ P →
        vb.buffer_size = P * 2112 → P * 2112 ≤ 2 ^ 31 →
        vb.fpga_seq_num (u.link_data port).vdif_buffer_id ≤ (u.link_data port).last_seq →
        u.args.config.timesamples_per_packet
          ∣ ((u.link_data port).last_seq : Int)
            - vb.fpga_seq_num (u.link_data port).vdif_buffer_id →
        ((u.link_data port).last_seq : Int)
          - vb.fpga_seq_num (u.link_data port).vdif_buffer_id < P →
        ∃ t, network_dpdk.handle_lost_raw_packets d u port now = some t) := by
  refine ⟨?_, ?_, ?_⟩
  · obtain ⟨t, b1, ht, hb1, _, _, hbad, _⟩ :=
      network_dpdk.handle_lost_packets_some s port now b hb h1 h2
    refine ⟨t, b1, _, ht, hb1, ?_, ?_, hbad⟩
    · rw [to_int32_of_range _ (by omega) (by omega)]; omega
    · rw [to_int32_of_range _ (by omega) (by omega)]
  · intro t ht
    obtain ⟨vb1, hv1, hbad⟩ := network_dpdk.handle_lost_raw_packets_count d u t port now vb hv ht
    refine ⟨vb1, _, hv1, ?_, ?_, hbad⟩
    · rw [to_int32_of_range _ (by omega) (by omega)]; omega
    · rw [to_int32_of_range _ (by omega) (by omega)]
  · intro g1 hP0 hPt hsize hP31 hstart hal hin
    obtain ⟨t, _, ht, _⟩ := network_dpdk.handle_lost_raw_packets_frames d u port now vb P hv g1
      hP0 hPt hsize hP31 hu hu2 hstart hal hin
    exact ⟨t, ht⟩

/-- C11, amended, on the gap `last_seq = 4`, `seq = 12` over frames of 8
samples: both handlers return, leave the count of frame 1 at 0 and increase
the count of frame 0. -/
theorem C11_loss_counted_on_entry_frame_witness :
    (∃ t b1, network_dpdk.handle_lost_packets (Examples.net 8 0 12 4 0 17) 0 Examples.t0 = some t
      ∧ network_dpdk.get_buf t 0 = some b1
      ∧ 0 < b1.bad_timesamples 0 ∧ b1.bad_timesamples 1 = 0)
    ∧ (∃ t vb1, network_dpdk.handle_lost_raw_packets Examples.deps
          (Examples.vnet 8 0 12 4 0 1 0 0) 0 Examples.t0 = some t
      ∧ t.args.vdif_buf = some vb1
      ∧ 0 < vb1.bad_timesamples 0 ∧ vb1.bad_timesamples 1 = 0) := by
  have h := C11_loss_counted_on_entry_frame Examples.deps (Examples.net 8 0 12 4 0 17)
    (Examples.vnet 8 0 12 4 0 1 0 0) 0 Examples.t0 (Examples.pool 0 17)
    (Examples.pool_cap (8 * 2112) 0 0) 8 rfl (by decide) (by decide)
    (by decide) (by decide) rfl (by decide) (by decide)
  constructor
  · obtain ⟨t, b1, n, ht, hb1, hn, _, hbad⟩ := h.1
    refine ⟨t, b1, ht, hb1, ?_, ?_⟩
    · rw [hbad]
      have e : (Examples.pool 0 17).bad_timesamples
          ((Examples.net 8 0 12 4 0 17).link_data 0).buffer_id = 0 := rfl
      have e2 : ((Examples.net 8 0 12 4 0 17).link_data 0).buffer_id = 0 := rfl
      rw [e, e2, Function.update_same]
      omega
    · rw [hbad]; rfl
  · obtain ⟨t, ht⟩ := h.2.2 (by decide) (by decide) ⟨4, by decide⟩ (by decide) (by decide)
      (by decide) ⟨2, by decide⟩ (by decide)
    obtain ⟨vb1, n, hv1, hn, _, hbad⟩ := h.2.1 t ht
    refine ⟨t, vb1, ht, hv1, ?_, ?_⟩
    · rw [hbad]
      have e : (Examples.pool_cap (8 * 2112) 0 0).bad_timesamples
          ((Examples.vnet 8 0 12 4 0 1 0 0).link_data 0).vdif_buffer_id = 0 := rfl
      have e2 : ((Examples.vnet 8 0 12 4 0 1 0 0).link_data 0).vdif_buffer_id = 0 := rfl
      rw [e, e2, Function.update_same]
      omega
    · rw [hbad]; rfl

/-- C20.  Let the timestamped output be enabled on a correctly configured pool:
frames of `P` samples (`buffer_size = P * 2112`, fitting an `int`), `P` a
positive multiple of `timesamples_per_packet >= 1`.  (1) A call
`set_vdif_header_options` with `invalid = 1`, as the loss handler makes for a
slot at frame location `loc` that fits the current frame, returns; afterwards,
for every time step `t < timesamples_per_packet` and element `e < 2`, the
header at byte index `loc * 2112 + 2112 t + 1056 e` of the current frame has
its invalid flag at 1 and thread id `e` and occupies the 32 bytes from that
index on, and no byte outside these headers has changed.  (2) For a link whose
last accepted packet lies in the current frame a whole number of packets after
its start, and any gap `0 < seq - last_seq < 2^31`, whatever frame boundaries
it spans, `handle_lost_raw_packets` returns; every lost packet slot (a slot
that starts at a sequence from `last_seq + timesamples_per_packet` on and
before `seq`), at location `loc` of the frame reached after `j` frame
advances (the current frame when the slot is written), has for every time
step and element its header at byte index `loc * 2112 + 2112 t + 1056 e`
written in this way; and no sample payload byte, that is no byte at an offset
of 32 or more inside a 1056-byte packet of any frame, has changed. -/
theorem C20_lost_raw_headers (d : Deps) (s : network_dpdk.NetworkDPDK) (port : Nat)
    (now : network_dpdk.timeval) (vb : network_dpdk.Buffer) (P : Int)
    (hv : s.args.vdif_buf = some vb)
    (h1 : 1 ≤ s.args.config.timesamples_per_packet)
    (hP0 : 0 < P) (hPt : s.args.config.timesamples_per_packet ∣ P)
    (hsize : vb.buffer_size = P * 2112) (hP31 : P * 2112 ≤ 2 ^ 31)
    (hgap : (s.link_data port).last_seq < (s.link_data port).seq)
    (hgap2 : ((s.link_data port).seq : Int) - (s.link_data port).last_seq < 2 ^ 31)
    (hstart : vb.fpga_seq_num (s.link_data port).vdif_buffer_id ≤ (s.link_data port).last_seq)
    (hal : s.args.config.timesamples_per_packet
      ∣ ((s.link_data port).last_seq : Int) - vb.fpga_seq_num (s.link_data port).vdif_buffer_id)
    (hin : ((s.link_data port).last_seq : Int)
      - vb.fpga_seq_num (s.link_data port).vdif_buffer_id < P) :
    (∀ (loc : Int) (seq : Nat), 0 ≤ loc → loc + s.args.config.timesamples_per_packet ≤ P →
      ∃ a, network_dpdk.set_vdif_header_options d s (to_int32 (to_int64 (loc * 2112))) 2
          (32 + 1024) 1 seq port = some (network_dpdk.set_vdif_buf s a)
        ∧ (∀ t e : Nat, (t : Int) < s.args.config.timesamples_per_packet → e < 2 →
            network_dpdk.lost_header d a (s.link_data port).vdif_buffer_id
              (loc * 2112 + 2112 * t + 1056 * e) e)
        ∧ (∀ i j, (i ≠ (s.link_data port).vdif_buffer_id
              ∨ ∀ t e : Nat, (t : Int) < s.args.config.timesamples_per_packet → e < 2 →
                  (j < loc * 2112 + 2112 * t + 1056 * e
                    ∨ loc * 2112 + 2112 * t + 1056 * e + 32 ≤ j)) →
            a.data i j = vb.data i j))
    ∧ (∃ t a, network_dpdk.handle_lost_raw_packets d s port now = some t
        ∧ t.args.vdif_buf = some a
        ∧ (∀ (j : Nat) (loc : Int) (t e : Nat), 0 ≤ loc →
            loc + s.args.config.timesamples_per_packet ≤ P →
            (t : Int) < s.args.config.timesamples_per_packet → e < 2 →
            ((s.link_data port).last_seq : Int) + s.args.config.timesamples_per_packet
              ≤ vb.fpga_seq_num (s.link_data port).vdif_buffer_id + j * P + loc →
            (vb.fpga_seq_num (s.link_data port).vdif_buffer_id : Int) + j * P + loc
              < (s.link_data port).seq →
            network_dpdk.lost_header d a
              (network_dpdk.vdif_buffer_id_after vb.num_buffers j
                (s.link_data port).vdif_buffer_id)
              (loc * 2112 + 2112 * t + 1056 * e) e)
        ∧ (∀ i j, 32 ≤ j % 1056 → a.data i j = vb.data i j)) := by
  constructor
  · intro loc seq hloc hlfit
    have hL : to_int32 (to_int64 (loc * 2112)) = loc * 2112 := by
      rw [to_int64_of_range _ (by omega) (by omega), to_int32_of_range _ (by omega) (by omega)]
    obtain ⟨a, ha, _, hw, hd, _, hg⟩ := network_dpdk.set_vdif_header_options_spec d s
      (loc * 2112) 1 seq port vb hv (by omega) (by omega) (by rw [hsize]; omega)
      (by rw [hsize]; exact hP31)
    rw [hL]
    refine ⟨a, ha, fun t e ht he => ⟨?_, ?_, fun k hk => hd t e k ht he hk⟩, hg⟩
    · rw [hw t e ht he]; exact (network_dpdk.vdif_header_fields_lost s _ _ _ _).1
    · rw [hw t e ht he]; exact (network_dpdk.vdif_header_fields_lost s _ _ _ _).2
  · obtain ⟨t, a, ht, hva, _, _, _, hga, _, hma⟩ := network_dpdk.handle_lost_raw_packets_frames
      d s port now vb P hv h1 hP0 hPt hsize hP31 hgap hgap2 hstart hal hin
    obtain ⟨c1, _, _, _, _⟩ := ceil_count s.args.config.timesamples_per_packet
      (((s.link_data port).seq : Int) - (s.link_data port).last_seq) h1 (by omega)
    refine ⟨t, a, ht, hva, ?_, hga⟩
    intro j loc u e hl0 hl1 hu he hge hlt
    have hm := hma j (loc + u) e (by omega) (by omega) he (by omega) (by omega)
    have hx : (loc + (u : Int)) * 2112 + 1056 * (e : Int)
        = loc * 2112 + 2112 * u + 1056 * e := by omega
    rw [hx] at hm
    exact hm

/-- C20 on the gap `last_seq = 4`, `seq = 12` over frames of 8 samples that
start at 0, two samples per packet: the handler returns; the lost slot at
sequence 10 lies at location 2 of the frame reached after one advance, frame
1, and its header of time step 1 and element 1, at byte index
`2 * 2112 + 2112 + 1056`, is marked invalid with thread id 1; the sample byte
at offset 32 of the first packet of frame 0 is as it was. -/
theorem C20_lost_raw_headers_witness :
    ∃ t a, network_dpdk.handle_lost_raw_packets Examples.deps (Examples.vnet 8 0 12 4 0 1 0 0) 0
          Examples.t0 = some t
      ∧ t.args.vdif_buf = some a
      ∧ network_dpdk.lost_header Examples.deps a 1 (2 * 2112 + 2112 * (1 : Nat) + 1056 * (1 : Nat))
          (1 : Nat)
      ∧ a.data 0 32 = (Examples.pool_cap (8 * 2112) 0 0).data 0 32 := by
  obtain ⟨t, a, ht, ha, hm, hg⟩ := (C20_lost_raw_headers Examples.deps
    (Examples.vnet 8 0 12 4 0 1 0 0) 0 Examples.t0 (Examples.pool_cap (8 * 2112) 0 0) 8 rfl
    (by decide) (by decide) ⟨4, by decide⟩ (by decide) (by decide) (by decide) (by decide)
    (by decide) ⟨2, by decide⟩ (by decide)).2
  exact ⟨t, a, ht, ha, hm 1 2 1 1 (by decide) (by decide) (by decide) (by decide) (by decide)
    (by decide), hg 0 32 (by decide)⟩

/-! ## Termination of the filling loops -/

/-- C26.  Let a packet hold at least one sample (`1 <= tpp < 2^31`) and let
the lost count be `0 < lf < 2^31`; write `k` for `ceil(lf / tpp)`.  The filling
loop of `handle_lost_packets`, on a link whose packed output is enabled,
returns after exactly `k` iterations: with `k` or more iterations allowed it
returns one and the same state, with fewer it is still running.  So does the
filling loop of `handle_lost_raw_packets` on a correctly configured
timestamped pool (frames of `P` samples, `P` a positive multiple of `tpp`, a
frame size that fits an `int`, the frame location a multiple of `tpp` in
`[0, P]`), whatever frame advances the gap takes: it returns one and the same
state with `k` or more iterations allowed and is still running with fewer.  On
any pool, more than `k` allowed iterations never change the result of the
timestamped loop and with fewer it has not returned.  Both handlers allow
`lf >= k` iterations.  Each iteration with a positive count makes at most one
frame advance (exactly when the frame location is at the end of the frame, the
location then restarting at 0), and goes on with the frame location and the
sequence cursor advanced by `tpp` and the count reduced by `tpp`. -/
theorem C26_loss_loop_iterations (d : Deps) (port : Nat) (now : network_dpdk.timeval)
    (tpp lf : Int)
    (h1 : 1 ≤ tpp) (h2 : tpp < 2 ^ 31) (hlf0 : 0 < lf) (hlf : lf < 2 ^ 31) :
    (lf ≤ (((lf + tpp - 1) / tpp).toNat : Int) * tpp
      ∧ ((((lf + tpp - 1) / tpp).toNat : Int) - 1) * tpp < lf
      ∧ ((lf + tpp - 1) / tpp).toNat ≤ lf.toNat)
    ∧ (∀ buffer_id s fl cs b, network_dpdk.get_buf s port = some b →
        ∃ t, (∀ n, ((lf + tpp - 1) / tpp).toNat ≤ n →
              network_dpdk.lost_packets_loop port now buffer_id tpp n s fl cs lf = some t)
          ∧ (∀ n, n < ((lf + tpp - 1) / tpp).toNat →
              network_dpdk.lost_packets_loop port now buffer_id tpp n s fl cs lf = none))
    ∧ (∀ s fl cs,
        (∀ n, ((lf + tpp - 1) / tpp).toNat ≤ n →
            network_dpdk.lost_raw_packets_loop d port now tpp n s fl cs lf
              = network_dpdk.lost_raw_packets_loop d port now tpp ((lf + tpp - 1) / tpp).toNat
                  s fl cs lf)
        ∧ (∀ n, n < ((lf + tpp - 1) / tpp).toNat →
            network_dpdk.lost_raw_packets_loop d port now tpp n s fl cs lf = none))
    ∧ (∀ s fl cs vb P, s.args.vdif_buf = some vb →
        s.args.config.timesamples_per_packet = tpp →
        vb.buffer_size = P * 2112 → P * 2112 ≤ 2 ^ 31 → 0 < P → tpp ∣ P →
        0 ≤ fl → fl ≤ P → tpp ∣ fl →
        ∃ t, (∀ n, ((lf + tpp - 1) / tpp).toNat ≤ n →
              network_dpdk.lost_raw_packets_loop d port now tpp n s fl cs lf = some t)
          ∧ (∀ n, n < ((lf + tpp - 1) / tpp).toNat →
              network_dpdk.lost_raw_packets_loop d port now tpp n s fl cs lf = none))
    ∧ (∀ buffer_id n s fl cs b, network_dpdk.get_buf s port = some b →
        network_dpdk.lost_packets_loop port now buffer_id tpp (n + 1) s fl cs lf
          = if to_int64 (fl * 2048) = b.buffer_size then
              (network_dpdk.advance_frame s port (to_uint64 cs).toNat now).bind (fun s1 =>
                (network_dpdk.get_buf s1 port).bind (fun b1 =>
                  network_dpdk.lost_packets_loop port now buffer_id tpp n
                    (network_dpdk.set_buf s1 port (network_dpdk.nt_memset b1 buffer_id
                      (to_int64 (0 * 2048)) 0x88 (to_int64 (2048 * tpp))))
                    (to_int64 (0 + tpp)) (to_int64 (cs + tpp)) (to_int32 (lf - tpp))))
            else
              network_dpdk.lost_packets_loop port now buffer_id tpp n
                (network_dpdk.set_buf s port (network_dpdk.nt_memset b buffer_id
                  (to_int64 (fl * 2048)) 0x88 (to_int64 (2048 * tpp))))
                (to_int64 (fl + tpp)) (to_int64 (cs + tpp)) (to_int32 (lf - tpp)))
    ∧ (∀ n s fl cs vb, s.args.vdif_buf = some vb →
        network_dpdk.lost_raw_packets_loop d port now tpp (n + 1) s fl cs lf
          = if to_int64 (fl * 2112) = vb.buffer_size then
              (network_dpdk.advance_vdif_frame s port (to_uint64 cs).toNat now).bind (fun s1 =>
                (network_dpdk.set_vdif_header_options d s1 (to_int32 (to_int64 (0 * 2112))) 2
                    (32 + 1024) 1 (to_uint64 cs).toNat port).bind (fun s2 =>
                  network_dpdk.lost_raw_packets_loop d port now tpp n s2
                    (to_int64 (0 + tpp)) (to_int64 (cs + tpp)) (to_int32 (lf - tpp))))
            else
              (network_dpdk.set_vdif_header_options d s (to_int32 (to_int64 (fl * 2112))) 2
                  (32 + 1024) 1 (to_uint64 cs).toNat port).bind (fun s2 =>
                network_dpdk.lost_raw_packets_loop d port now tpp n s2
                  (to_int64 (fl + tpp)) (to_int64 (cs + tpp)) (to_int32 (lf - tpp)))) := by
  obtain ⟨c1, c2, c3, c4, c5⟩ := ceil_count tpp lf h1 hlf0
  have hfuel : lf ≤ ((lf.toNat : Nat) : Int) * tpp := by
    have e : ((lf.toNat : Nat) : Int) = lf := Int.toNat_of_nonneg (by omega)
    rw [e]
    have : lf * 1 ≤ lf * tpp := Int.mul_le_mul_of_nonneg_left h1 (by omega)
    omega
  have hkle : ((lf + tpp - 1) / tpp).toNat ≤ lf.toNat := by
    by_contra hc
    have := c5 lf.toNat (by omega)
    omega
  obtain ⟨X, hX⟩ := network_dpdk.lost_packets_loop_step port now
  obtain ⟨Y, hY⟩ := network_dpdk.lost_raw_packets_loop_step d port now
  refine ⟨⟨c1, c2, hkle⟩, ?_, ?_, ?_, ?_, ?_⟩
  · intro buffer_id s fl cs b hb
    obtain ⟨f1, f2⟩ := fuel_count
      (fun n s fl cs lf => network_dpdk.lost_packets_loop port now buffer_id tpp n s fl cs lf)
      (X buffer_id tpp) tpp h1 h2
      (fun s fl cs lf => by simp only; rw [network_dpdk.lost_packets_loop])
      (fun n s fl cs lf => hX buffer_id tpp n s fl cs lf)
    obtain ⟨t, b1, ht, _⟩ := network_dpdk.lost_packets_loop_some port now buffer_id tpp h1 h2
      lf.toNat s fl cs lf b (Int.self_le_toNat lf) hlf hb
    refine ⟨t, fun n hn => ?_, fun n hn => f2 n s fl cs lf hlf (c5 n hn)⟩
    rw [← ht]
    exact f1 n lf.toNat s fl cs lf hlf (c4 n hn) hfuel
  · intro s fl cs
    obtain ⟨f1, f2⟩ := fuel_count
      (fun n s fl cs lf => network_dpdk.lost_raw_packets_loop d port now tpp n s fl cs lf)
      (Y tpp) tpp h1 h2
      (fun s fl cs lf => by simp only; rw [network_dpdk.lost_raw_packets_loop])
      (fun n s fl cs lf => hY tpp n s fl cs lf)
    exact ⟨fun n hn => f1 n _ s fl cs lf hlf (c4 n hn) c1,
      fun n hn => f2 n s fl cs lf hlf (c5 n hn)⟩
  · intro s fl cs vb P hv hcfg hsize hP31 hP0 hPt hfl0 hflP hfld
    obtain ⟨f1, f2⟩ := fuel_count
      (fun n s fl cs lf => network_dpdk.lost_raw_packets_loop d port now tpp n s fl cs lf)
      (Y tpp) tpp h1 h2
      (fun s fl cs lf => by simp only; rw [network_dpdk.lost_raw_packets_loop])
      (fun n s fl cs lf => hY tpp n s fl cs lf)
    have hsub : ((((lf + tpp - 1) / tpp).toNat : Int) - 1) * tpp
        = (((lf + tpp - 1) / tpp).toNat : Int) * tpp - tpp := by ring
    rw [hsub] at c2
    obtain ⟨t, a, ht, _⟩ := network_dpdk.lost_raw_packets_loop_frames d port now tpp P
      vb.num_buffers h1 hP0 hPt hP31 lf.toNat s fl cs lf
      (fl + (((lf + tpp - 1) / tpp).toNat : Int) * tpp) vb hv hcfg hsize rfl hfl0 hflP hfld
      (by omega) (Int.self_le_toNat lf) hlf
      (by
        have : fl + (((lf + tpp - 1) / tpp).toNat : Int) * tpp - fl
            = (((lf + tpp - 1) / tpp).toNat : Int) * tpp := by omega
        rw [this]
        exact Dvd.intro_left _ rfl)
      (by omega) (by omega)
    refine ⟨t, fun n hn => ?_, fun n hn => f2 n s fl cs lf hlf (c5 n hn)⟩
    rw [← ht]
    exact f1 n lf.toNat s fl cs lf hlf (c4 n hn) hfuel
  · intro buffer_id n s fl cs b hb
    rw [network_dpdk.lost_packets_loop]
    have hpos : lf > 0 := hlf0
    simp only [hpos, if_true, hb]
    by_cases hadv : to_int64 (fl * 2048) = b.buffer_size
    · simp only [hadv, decide_True, if_true]
      cases network_dpdk.advance_frame s port (to_uint64 cs).toNat now with
      | none => rfl
      | some s1 =>
        simp only [Option.some_bind]
        cases network_dpdk.get_buf s1 port with
        | none => rfl
        | some b1 => rfl
    · simp only [hadv, decide_False, if_false, Bool.false_eq_true, hb]
  · intro n s fl cs vb hv
    have hfs : to_int32 ((32 + 1024) * 2) = 2112 := by decide
    rw [network_dpdk.lost_raw_packets_loop]
    have hpos : lf > 0 := hlf0
    simp only [hpos, if_true, hv, hfs]
    by_cases hadv : to_int64 (fl * 2112) = vb.buffer_size
    · simp only [hadv, decide_True, if_true]
      cases network_dpdk.advance_vdif_frame s port (to_uint64 cs).toNat now with
      | none => rfl
      | some s1 =>
        simp only [Option.some_bind]
        cases network_dpdk.set_vdif_header_options d s1 (to_int32 (to_int64 (0 * 2112))) 2
            (32 + 1024) 1 (to_uint64 cs).toNat port with
        | none => rfl
        | some s2 => rfl
    · simp only [hadv, decide_False, if_false, Bool.false_eq_true]
      cases network_dpdk.set_vdif_header_options d s (to_int32 (to_int64 (fl * 2112))) 2
          (32 + 1024) 1 (to_uint64 cs).toNat port with
      | none => rfl
      | some s2 => rfl

/-- C26 on a lost count of 6 with two samples per packet (three iterations):
the packed loop returns with 3 iterations allowed and not with 2, and so does
the timestamped loop on frames of 8 samples, started at frame location 6, where
the second iteration advances the frame. -/
theorem C26_loss_loop_iterations_witness :
    ((((6 : Int) + 2 - 1) / 2).toNat = 3)
    ∧ (∃ t, network_dpdk.lost_packets_loop 0 Examples.t0 0 2 3 (Examples.net 8 0 6 0 0 17) 2 2 6
          = some t
        ∧ network_dpdk.lost_packets_loop 0 Examples.t0 0 2 2 (Examples.net 8 0 6 0 0 17) 2 2 6
          = none)
    ∧ (∃ t, network_dpdk.lost_raw_packets_loop Examples.deps 0 Examples.t0 2 3
          (Examples.vnet 8 0 12 4 0 1 0 0) 6 6 6 = some t
        ∧ network_dpdk.lost_raw_packets_loop Examples.deps 0 Examples.t0 2 2
          (Examples.vnet 8 0 12 4 0 1 0 0) 6 6 6 = none) := by
  have h := C26_loss_loop_iterations Examples.deps 0 Examples.t0 2 6 (by decide) (by decide)
    (by decide) (by decide)
  have hk : (((6 : Int) + 2 - 1) / 2).toNat = 3 := by decide
  rw [hk] at h
  refine ⟨hk, ?_, ?_⟩
  · obtain ⟨t, ht1, ht2⟩ := h.2.1 0 (Examples.net 8 0 6 0 0 17) 2 2 (Examples.pool 0 17) rfl
    exact ⟨t, ht1 3 (le_refl 3), ht2 2 (by decide)⟩
  · obtain ⟨t, ht1, ht2⟩ := h.2.2.2.1 (Examples.vnet 8 0 12 4 0 1 0 0) 6 6
      (Examples.pool_cap (8 * 2112) 0 0) 8 rfl rfl (by decide) (by decide) (by decide)
      ⟨4, by decide⟩ (by decide) (by decide) ⟨3, by decide⟩
    exact ⟨t, ht1 3 (le_refl 3), ht2 2 (by decide)⟩

/-! ## Runs of the packed path: frame starts and write bounds -/

namespace network_dpdk

/-- The frame advance: besides what `advance_frame_eq` says, the frame starts
change at the new current frame only, which is stamped with `new_seq`. -/
theorem advance_frame_stamp (s : NetworkDPDK) (port : Nat) (new_seq : Nat) (now : timeval)
    (b : Buffer) (h : get_buf s port = some b) :
    ∃ t b1, advance_frame s port new_seq now = some t ∧ get_buf t port = some b1
      ∧ link_kept s t port ∧ t.args.vdif_buf = s.args.vdif_buf
      ∧ b1.data = b.data ∧ b1.buffer_size = b.buffer_size
      ∧ b1.fpga_seq_num = Function.update b.fpga_seq_num (t.link_data port).buffer_id new_seq := by
  unfold advance_frame
  rw [h]
  refine ⟨_, _, rfl, get_buf_set_buf _ _ _ b (by simpa using h), ?_, rfl, rfl, rfl, ?_⟩
  · refine link_kept_trans ?_ (link_kept_set_buf _ port _ b (by simpa using h))
    exact ⟨by simp, by simp, by simp, by simp, by simp,
      fun p hp => set_link_link_data_other _ _ _ _ hp, rfl, rfl, rfl, rfl, rfl, rfl, rfl⟩
  · simp [set_fpga_seq_num, set_stream_ID, set_first_packet_recv_time, set_data_ID,
      wait_for_empty_buffer, mark_buffer_full]

/-- The filling loop of `handle_lost_packets` on frames of exactly `P`
samples: while the frame location is the distance of the sequence cursor from
the start of the current frame, and that start is a multiple of `P`, every
frame the loop stamps gets a multiple of `P`. -/
theorem lost_packets_loop_stamps (port : Nat) (now : timeval) (buffer_id tpp : Int)
    (h1 : 1 ≤ tpp) (h2 : tpp < 2 ^ 31) (P : Nat) :
    ∀ (fuel : Nat) (s : NetworkDPDK) (fl cs lf : Int) (b : Buffer),
      lf ≤ fuel → lf < 2 ^ 31 → get_buf s port = some b →
      0 ≤ cs → cs + lf + tpp < 2 ^ 50 →
      b.fpga_seq_num (s.link_data port).buffer_id < 2 ^ 50 →
      fl = cs - b.fpga_seq_num (s.link_data port).buffer_id →
      b.buffer_size = P * 2048 →
      (P : Int) ∣ b.fpga_seq_num (s.link_data port).buffer_id →
      ∃ t b1, lost_packets_loop port now buffer_id tpp fuel s fl cs lf = some t
        ∧ get_buf t port = some b1 ∧ link_kept s t port
        ∧ t.args.vdif_buf = s.args.vdif_buf
        ∧ b1.buffer_size = b.buffer_size
        ∧ (P : Int) ∣ b1.fpga_seq_num (t.link_data port).buffer_id
        ∧ b1.fpga_seq_num (t.link_data port).buffer_id < 2 ^ 50
        ∧ ∀ id, (P : Int) ∣ b1.fpga_seq_num id ∨ b1.fpga_seq_num id = b.fpga_seq_num id := by
  intro fuel
  induction fuel with
  | zero =>
    intro s fl cs lf b hle _ hb _ _ hF _ _ hdvd
    have : ¬ lf > 0 := by simp at hle; omega
    exact ⟨s, b, by simp [lost_packets_loop, this], hb, link_kept_refl s port, rfl, rfl, hdvd, hF,
      fun _ => Or.inr rfl⟩
  | succ n ih =>
    intro s fl cs lf b hle hlt hb hcs hbound hF hfl hsz hdvd
    by_cases hpos : lf > 0
    · rw [lost_packets_loop]
      simp only [hpos, if_true, hb]
      have hlf' : to_int32 (lf - tpp) = lf - tpp := to_int32_of_range _ (by omega) (by omega)
      have hcs' : to_int64 (cs + tpp) = cs + tpp := to_int64_of_range _ (by omega) (by omega)
      have hflx : to_int64 (fl * 2048) = fl * 2048 := to_int64_of_range _ (by omega) (by omega)
      by_cases hadv : to_int64 (fl * 2048) = b.buffer_size
      · obtain ⟨t, b1, ht, hb1, hk, hv, _, hsz1, hfp1⟩ :=
          advance_frame_stamp s port (to_uint64 cs).toNat now b hb
        simp only [hadv, decide_True, if_true, ht, hb1]
        have hb2 := get_buf_set_buf t port
          (nt_memset b1 buffer_id (to_int64 (0 * 2048)) 0x88 (to_int64 (2048 * tpp))) b1 hb1
        have hq : (((to_uint64 cs).toNat : Nat) : Int) = cs := by
          rw [Int.toNat_of_nonneg (by unfold to_uint64; omega), to_uint64_of_range _ hcs (by omega)]
        have hstamp : b1.fpga_seq_num (t.link_data port).buffer_id = (to_uint64 cs).toNat := by
          rw [hfp1]; simp
        have hcsP : cs = P + b.fpga_seq_num (s.link_data port).buffer_id := by
          rw [hflx, hsz] at hadv
          omega
        have hdvd1 : (P : Int) ∣ ((to_uint64 cs).toNat : Nat) := by
          rw [hq, hcsP]
          exact dvd_add (dvd_refl _) hdvd
        obtain ⟨u, b3, hu, hb3, hk3, hv3, hsz3, hd3, hF3, hall3⟩ :=
          ih _ (to_int64 (0 + tpp)) (to_int64 (cs + tpp)) (to_int32 (lf - tpp)) _
            (by rw [hlf']; push_cast at hle; omega) (by rw [hlf']; omega) hb2
            (by rw [hcs']; omega) (by rw [hcs', hlf']; omega)
            (by simp only [set_buf_link_data, nt_memset]; rw [hstamp]; omega)
            (by simp only [set_buf_link_data, nt_memset]
                rw [hstamp, hcs', to_int64_of_range _ (by omega) (by omega)]; omega)
            (by simp only [nt_memset]; rw [hsz1]; exact hsz)
            (by simp only [set_buf_link_data, nt_memset]; rw [hstamp]; exact hdvd1)
        refine ⟨u, b3, hu, hb3, ?_, ?_, ?_, hd3, hF3, ?_⟩
        · exact link_kept_trans (link_kept_trans hk (link_kept_set_buf t port _ b1 hb1)) hk3
        · rw [hv3]; simpa using hv
        · rw [hsz3]; simpa [nt_memset] using hsz1
        · intro id
          rcases hall3 id with h | h
          · exact Or.inl h
          · simp only [nt_memset] at h
            rw [h, hfp1]
            by_cases hid : id = (t.link_data port).buffer_id
            · left
              rw [hid]
              simpa using hdvd1
            · right
              simp [Function.update_noteq hid]
      · simp only [hadv, decide_False, if_false, hb, Bool.false_eq_true]
        have hb2 := get_buf_set_buf s port
          (nt_memset b buffer_id (to_int64 (fl * 2048)) 0x88 (to_int64 (2048 * tpp))) b hb
        obtain ⟨u, b3, hu, hb3, hk3, hv3, hsz3, hd3, hF3, hall3⟩ :=
          ih _ (to_int64 (fl + tpp)) (to_int64 (cs + tpp)) (to_int32 (lf - tpp)) _
            (by rw [hlf']; push_cast at hle; omega) (by rw [hlf']; omega) hb2
            (by rw [hcs']; omega) (by rw [hcs', hlf']; omega)
            (by simp only [set_buf_link_data, nt_memset]; exact hF)
            (by simp only [set_buf_link_data, nt_memset]
                rw [hcs', to_int64_of_range _ (by omega) (by omega)]; omega)
            (by simp only [nt_memset]; exact hsz)
            (by simp only [set_buf_link_data, nt_memset]; exact hdvd)
        refine ⟨u, b3, hu, hb3, ?_, ?_, ?_, hd3, hF3, ?_⟩
        · exact link_kept_trans (link_kept_set_buf s port _ b hb) hk3
        · rw [hv3]; simp
        · rw [hsz3]; simp [nt_memset]
        · intro id
          rcases hall3 id with h | h
          · exact Or.inl h
          · exact Or.inr (by simpa [nt_memset] using h)
    · refine ⟨s, b, ?_, hb, link_kept_refl s port, rfl, rfl, hdvd, hF, fun _ => Or.inr rfl⟩
      cases n <;> simp [lost_packets_loop, hpos]

end network_dpdk

namespace network_dpdk

/-- With the packed output only, `align_first_packet` either leaves the state
as it is or stores the sequence fields and stamps the current frame with the
alignment origin. -/
theorem align_first_packet_packed (d : Deps) (s : NetworkDPDK) (m : rte_mbuf) (port : Nat)
    (now : timeval) (b : Buffer) (hb : get_buf s port = some b) (hv : s.args.vdif_buf = none) :
    align_first_packet d s m port now
      = if get_mbuf_seq_num m % integration_period s.args.config ≤ 100 then
          (set_buf
            (set_link s port { s.link_data port with
              stream_ID := get_mbuf_stream_id m
              s_stream_ID := d.extract_stream_id (get_mbuf_stream_id m)
              last_seq := get_mbuf_seq_num m
                - get_mbuf_seq_num m % integration_period s.args.config
              seq := get_mbuf_seq_num m })
            port
            (set_stream_ID
              (set_first_packet_recv_time
                (set_fpga_seq_num b (s.link_data port).buffer_id
                  (get_mbuf_seq_num m - get_mbuf_seq_num m % integration_period s.args.config))
                (s.link_data port).buffer_id now)
              (s.link_data port).buffer_id (get_mbuf_stream_id m)), 1)
        else (s, 0) := by
  unfold align_first_packet
  by_cases hc : get_mbuf_seq_num m % integration_period s.args.config ≤ 100
  · simp [hc, hb, hv]
  · simp [hc]

/-- The loss handler on frames of exactly `P` samples stamps multiples of `P`
only. -/
theorem handle_lost_packets_stamps (s : NetworkDPDK) (port : Nat) (now : timeval) (b : Buffer)
    (P : Nat) (hb : get_buf s port = some b)
    (h1 : 1 ≤ s.args.config.timesamples_per_packet)
    (h2 : s.args.config.timesamples_per_packet < 2 ^ 31)
    (hlast : (s.link_data port).last_seq < 2 ^ 48)
    (hF : b.fpga_seq_num (s.link_data port).buffer_id < 2 ^ 50)
    (hsz : b.buffer_size = P * 2048)
    (hdvd : (P : Int) ∣ b.fpga_seq_num (s.link_data port).buffer_id) :
    ∃ t b1, handle_lost_packets s port now = some t ∧ get_buf t port = some b1
      ∧ link_kept s t port ∧ t.args.vdif_buf = s.args.vdif_buf
      ∧ b1.buffer_size = b.buffer_size
      ∧ (P : Int) ∣ b1.fpga_seq_num (t.link_data port).buffer_id
      ∧ b1.fpga_seq_num (t.link_data port).buffer_id < 2 ^ 50
      ∧ ∀ id, (P : Int) ∣ b1.fpga_seq_num id ∨ b1.fpga_seq_num id = b.fpga_seq_num id := by
  unfold handle_lost_packets
  simp only [hb]
  have htpp : to_int64 s.args.config.timesamples_per_packet
      = s.args.config.timesamples_per_packet := to_int64_of_range _ (by omega) (by omega)
  rw [htpp]
  have hb2 := get_buf_set_buf s port (add_bad_timesamples b (s.link_data port).buffer_id
    (to_int32 (to_uint64 (((s.link_data port).seq : Int) - (s.link_data port).last_seq)))) b hb
  have hlfr : to_int32 (to_uint64 (((s.link_data port).seq : Int) - (s.link_data port).last_seq))
      < 2 ^ 31 := by unfold to_int32; omega
  have hcs : to_int64 (((s.link_data port).last_seq : Int)
      + s.args.config.timesamples_per_packet)
      = ((s.link_data port).last_seq : Int) + s.args.config.timesamples_per_packet :=
    to_int64_of_range _ (by omega) (by omega)
  obtain ⟨t, b1, ht, hb1, hk, hv, hsz1, hd1, hF1, hall⟩ :=
    lost_packets_loop_stamps port now (s.link_data port).buffer_id
      s.args.config.timesamples_per_packet h1 h2 P
      (to_int32 (to_uint64 (((s.link_data port).seq : Int) - (s.link_data port).last_seq))).toNat
      _ (to_int64 (((s.link_data port).last_seq : Int) + s.args.config.timesamples_per_packet
          - get_fpga_seq_num b (s.link_data port).buffer_id))
      (to_int64 (((s.link_data port).last_seq : Int) + s.args.config.timesamples_per_packet))
      (to_int32 (to_uint64 (((s.link_data port).seq : Int) - (s.link_data port).last_seq))) _
      (Int.self_le_toNat _) hlfr hb2
      (by rw [hcs]; omega) (by rw [hcs]; omega)
      (by simp only [set_buf_link_data, add_bad_timesamples]; exact hF)
      (by simp only [set_buf_link_data, add_bad_timesamples, get_fpga_seq_num]
          rw [hcs, to_int64_of_range _ (by omega) (by omega)])
      (by simp only [add_bad_timesamples]; exact hsz)
      (by simp only [set_buf_link_data, add_bad_timesamples]; exact hdvd)
  refine ⟨t, b1, ht, hb1, link_kept_trans (link_kept_set_buf s port _ b hb) hk, ?_, ?_, hd1, hF1,
    ?_⟩
  · rw [hv]; simp
  · rw [hsz1]; simp [add_bad_timesamples]
  · intro id
    rcases hall id with h | h
    · exact Or.inl h
    · exact Or.inr (by simpa [add_bad_timesamples] using h)

/-- The frame writer on frames of exactly `P` samples stamps a multiple of `P`
if it stamps at all. -/
theorem copy_data_no_shuffle_stamps (s : NetworkDPDK) (m : rte_mbuf) (port : Nat) (now : timeval)
    (b : Buffer) (P : Nat) (hb : get_buf s port = some b)
    (hseq : (s.link_data port).seq < 2 ^ 48)
    (hF : b.fpga_seq_num (s.link_data port).buffer_id < 2 ^ 50)
    (hsz : b.buffer_size = P * 2048)
    (hdvd : (P : Int) ∣ b.fpga_seq_num (s.link_data port).buffer_id) :
    ∃ t b1, copy_data_no_shuffle s m port now = some t ∧ get_buf t port = some b1
      ∧ link_kept s t port ∧ t.args.vdif_buf = s.args.vdif_buf
      ∧ b1.buffer_size = b.buffer_size
      ∧ (P : Int) ∣ b1.fpga_seq_num (t.link_data port).buffer_id
      ∧ b1.fpga_seq_num (t.link_data port).buffer_id < 2 ^ 50
      ∧ ∀ id, (P : Int) ∣ b1.fpga_seq_num id ∨ b1.fpga_seq_num id = b.fpga_seq_num id := by
  have hloc : to_int64 (((s.link_data port).seq : Int)
      - get_fpga_seq_num b (s.link_data port).buffer_id)
      = ((s.link_data port).seq : Int) - b.fpga_seq_num (s.link_data port).buffer_id := by
    unfold get_fpga_seq_num
    exact to_int64_of_range _ (by omega) (by omega)
  by_cases hadv : to_int64 (to_int64 (((s.link_data port).seq : Int)
        - get_fpga_seq_num b (s.link_data port).buffer_id) * 2048) = b.buffer_size
  · obtain ⟨t, b1, ht, hb1, hk, hv, _, hsz1, hfp1⟩ :=
      advance_frame_stamp s port (s.link_data port).seq now b hb
    obtain ⟨t2, b2, ht2, hb2, hc⟩ := copy_data_no_shuffle_advance s m port now b hb hadv
    rw [ht] at ht2
    cases ht2
    rw [hb1] at hb2
    cases hb2
    rw [hloc, to_int64_of_range _ (by omega) (by omega), hsz] at hadv
    have hseqP : ((s.link_data port).seq : Int)
        = P + b.fpga_seq_num (s.link_data port).buffer_id := by omega
    have hdvd1 : (P : Int) ∣ ((s.link_data port).seq : Int) := by
      rw [hseqP]
      exact dvd_add (dvd_refl _) hdvd
    have hstamp : b1.fpga_seq_num (t.link_data port).buffer_id = (s.link_data port).seq := by
      rw [hfp1]; simp
    refine ⟨_, _, hc, get_buf_set_buf _ _ _ b1 hb1,
      link_kept_trans hk (link_kept_set_buf _ port _ b1 hb1), by simpa using hv,
      by simpa [copy_block] using hsz1, ?_, ?_, ?_⟩
    · simp only [set_buf_link_data, copy_block]
      rw [hstamp]
      exact hdvd1
    · simp only [set_buf_link_data, copy_block]
      rw [hstamp]
      omega
    · intro id
      simp only [copy_block]
      rw [hfp1]
      by_cases hid : id = (t.link_data port).buffer_id
      · left
        rw [hid]
        simpa using hdvd1
      · right
        simp [Function.update_noteq hid]
  · refine ⟨_, _, copy_data_no_shuffle_stay s m port now b hb hadv, get_buf_set_buf _ _ _ b hb,
      link_kept_set_buf _ port _ b hb, by simp, by simp [copy_block], ?_, ?_, fun _ => Or.inr rfl⟩
    · simpa [copy_block] using hdvd
    · simpa [copy_block] using hF

end network_dpdk

namespace network_dpdk

theorem stamps_trans {P : Nat} {a b c : Buffer}
    (h1 : ∀ id, (P : Int) ∣ b.fpga_seq_num id ∨ b.fpga_seq_num id = a.fpga_seq_num id)
    (h2 : ∀ id, (P : Int) ∣ c.fpga_seq_num id ∨ c.fpga_seq_num id = b.fpga_seq_num id) :
    ∀ id, (P : Int) ∣ c.fpga_seq_num id ∨ c.fpga_seq_num id = a.fpga_seq_num id := by
  intro id
  rcases h2 id with h | h
  · exact Or.inl h
  · rcases h1 id with h3 | h3
    · exact Or.inl (by rw [h]; exact h3)
    · exact Or.inr (h.trans h3)

/-- One packet on an aligned link with frames of exactly `P` samples: the loop
body returns and every frame start it stamps is a multiple of `P`. -/
theorem recv_pkt_seq_period (d : Deps) (port P : Nat) (s : NetworkDPDK) (b : Buffer)
    (m : rte_mbuf) (now : timeval) (h : period_frames port P s b)
    (hal : (s.link_data port).first_packet ≠ 1) :
    ∃ t o b1, recv_pkt_seq d s port m now = some (t, o) ∧ period_frames port P t b1
      ∧ (t.link_data port).first_packet ≠ 1
      ∧ ∀ id, (P : Int) ∣ b1.fpga_seq_num id ∨ b1.fpga_seq_num id = b.fpga_seq_num id := by
  obtain ⟨hdvd, hF, hlast⟩ := h.aligned hal
  have hseq := get_mbuf_seq_num_lt m
  by_cases hlt : get_mbuf_seq_num m < (s.link_data port).last_seq
  · refine ⟨_, _, b, recv_pkt_seq_stale d s port m now (by omega) hlt, ?_, ?_, fun _ => Or.inr rfl⟩
    · exact ⟨h.buf, h.vdif_buf, h.period, h.period_pos, h.size, h.tpp_pos, h.tpp_int,
        fun _ => by simpa using ⟨hdvd, hF, hlast⟩⟩
    · simpa using hal
  · have hle : (s.link_data port).last_seq ≤ get_mbuf_seq_num m := by omega
    have hb2 : get_buf (set_link s port
        { s.link_data port with seq := get_mbuf_seq_num m }) port = some b := h.buf
    have hu : ∃ u bu, (if to_int64 s.args.config.timesamples_per_packet
              < (get_mbuf_seq_num m : Int) - (s.link_data port).last_seq
           then handle_lost_packets
              (set_link s port { s.link_data port with seq := get_mbuf_seq_num m }) port now
           else some (set_link s port { s.link_data port with seq := get_mbuf_seq_num m }))
          = some u
        ∧ get_buf u port = some bu
        ∧ link_kept (set_link s port { s.link_data port with seq := get_mbuf_seq_num m }) u port
        ∧ u.args.vdif_buf = s.args.vdif_buf
        ∧ bu.buffer_size = b.buffer_size
        ∧ (P : Int) ∣ bu.fpga_seq_num (u.link_data port).buffer_id
        ∧ bu.fpga_seq_num (u.link_data port).buffer_id < 2 ^ 50
        ∧ ∀ id, (P : Int) ∣ bu.fpga_seq_num id ∨ bu.fpga_seq_num id = b.fpga_seq_num id := by
      by_cases hlost : to_int64 s.args.config.timesamples_per_packet
              < (get_mbuf_seq_num m : Int) - (s.link_data port).last_seq
      · obtain ⟨u, bu, h1, h2, h3, h4, h5, h6, h7, h8⟩ := handle_lost_packets_stamps
          (set_link s port { s.link_data port with seq := get_mbuf_seq_num m }) port now b P hb2
          h.tpp_pos h.tpp_int (by simpa using hlast) (by simpa using hF) h.size
          (by simpa using hdvd)
        exact ⟨u, bu, by simp only [hlost, if_true]; exact h1, h2, h3, h4, h5, h6, h7, h8⟩
      · exact ⟨_, b, by simp only [hlost, if_false], hb2, link_kept_refl _ _, rfl, rfl,
          by simpa using hdvd, by simpa using hF, fun _ => Or.inr rfl⟩
    obtain ⟨u, bu, hu1, hu2, hu3, hu4, hu5, hu6, hu7, hu8⟩ := hu
    have hsequ : (u.link_data port).seq = get_mbuf_seq_num m := by
      rw [hu3.seq]; simp
    obtain ⟨t, bt, ht1, ht2, ht3, ht4, ht5, ht6, ht7, ht8⟩ := copy_data_no_shuffle_stamps u m port
      now bu P hu2 (by rw [hsequ]; exact hseq) hu7 (hu5.trans h.size) hu6
    have hres := recv_pkt_seq_packed d s port m now b h.buf h.vdif_buf (by omega) hle u t hu1 ht1
    have hk := link_kept_trans hu3 ht3
    refine ⟨_, _, bt, hres, ?_, ?_, stamps_trans hu8 ht8⟩
    · refine ⟨by simpa using ht2, ?_, ?_, h.period_pos, ?_, ?_, ?_, fun _ => ?_⟩
      · simp only [set_link_args]
        rw [ht4, hu4]
        exact h.vdif_buf
      · simp only [set_link_args]
        rw [hk.config]
        exact h.period
      · rw [ht5, hu5]
        exact h.size
      · simp only [set_link_args]
        rw [hk.config]
        exact h.tpp_pos
      · simp only [set_link_args]
        rw [hk.config]
        exact h.tpp_int
      · simp only [set_link_link_data_self]
        refine ⟨ht6, ht7, ?_⟩
        rw [hk.seq]
        simpa using hseq
    · simp only [set_link_link_data_self]
      rw [hk.first_packet]
      simpa using hal

/-- One packet on a link with frames of exactly `P` samples, aligned or not
yet aligned. -/
theorem recv_pkt_period (d : Deps) (port P : Nat) (s : NetworkDPDK) (b : Buffer)
    (m : rte_mbuf) (now : timeval) (h : period_frames port P s b) :
    ∃ t o b1, recv_pkt d s port m now = some (t, o) ∧ period_frames port P t b1
      ∧ ∀ id, (P : Int) ∣ b1.fpga_seq_num id ∨ b1.fpga_seq_num id = b.fpga_seq_num id := by
  unfold recv_pkt
  by_cases hck : (m.ol_flags ||| d.PKT_RX_IP_CKSUM_BAD) = 1
  · exact ⟨s, Outcome.bad_checksum, b, by simp [hck], h, fun _ => Or.inr rfl⟩
  by_cases hlen : m.pkt_len ≠ s.args.config.udp_packet_size
  · exact ⟨s, Outcome.bad_length, b, by simp [hck, hlen], h, fun _ => Or.inr rfl⟩
  simp only [hck, hlen, if_false]
  by_cases hfp : (s.link_data port).first_packet = 1
  · simp only [hfp, if_true]
    rw [align_first_packet_packed d s m port now b h.buf h.vdif_buf, h.period]
    by_cases hc : get_mbuf_seq_num m % P ≤ 100
    · simp only [hc, if_true, one_ne_zero, if_false]
      have hseq := get_mbuf_seq_num_lt m
      have hdvdN : P ∣ get_mbuf_seq_num m - get_mbuf_seq_num m % P := Nat.dvd_sub_mod _
      have hdvd : (P : Int) ∣ ((get_mbuf_seq_num m - get_mbuf_seq_num m % P : Nat) : Int) :=
        Int.natCast_dvd_natCast.mpr hdvdN
      have hbs := get_buf_set_buf
        (set_link s port { s.link_data port with
          stream_ID := get_mbuf_stream_id m
          s_stream_ID := d.extract_stream_id (get_mbuf_stream_id m)
          last_seq := get_mbuf_seq_num m - get_mbuf_seq_num m % P
          seq := get_mbuf_seq_num m })
        port
        (set_stream_ID
          (set_first_packet_recv_time
            (set_fpga_seq_num b (s.link_data port).buffer_id
              (get_mbuf_seq_num m - get_mbuf_seq_num m % P))
            (s.link_data port).buffer_id now)
          (s.link_data port).buffer_id (get_mbuf_stream_id m)) b h.buf
      obtain ⟨t, o, b1, hr, hp, _, hall⟩ := recv_pkt_seq_period d port P _ _ m now
        (⟨by simpa using hbs, by simpa using h.vdif_buf, by simpa using h.period, h.period_pos,
          by simpa [set_stream_ID, set_first_packet_recv_time, set_fpga_seq_num] using h.size,
          by simpa using h.tpp_pos, by simpa using h.tpp_int,
          fun _ => by
            simp only [set_link_link_data_self, set_buf_link_data, set_stream_ID,
              set_first_packet_recv_time, set_fpga_seq_num, Function.update_same]
            exact ⟨hdvd, by omega, by omega⟩⟩ :
          period_frames port P
            (set_link
              (set_buf
                (set_link s port { s.link_data port with
                  stream_ID := get_mbuf_stream_id m
                  s_stream_ID := d.extract_stream_id (get_mbuf_stream_id m)
                  last_seq := get_mbuf_seq_num m - get_mbuf_seq_num m % P
                  seq := get_mbuf_seq_num m })
                port
                (set_stream_ID
                  (set_first_packet_recv_time
                    (set_fpga_seq_num b (s.link_data port).buffer_id
                      (get_mbuf_seq_num m - get_mbuf_seq_num m % P))
                    (s.link_data port).buffer_id now)
                  (s.link_data port).buffer_id (get_mbuf_stream_id m)))
              port
              { (set_buf
                  (set_link s port { s.link_data port with
                    stream_ID := get_mbuf_stream_id m
                    s_stream_ID := d.extract_stream_id (get_mbuf_stream_id m)
                    last_seq := get_mbuf_seq_num m - get_mbuf_seq_num m % P
                    seq := get_mbuf_seq_num m })
                  port
                  (set_stream_ID
                    (set_first_packet_recv_time
                      (set_fpga_seq_num b (s.link_data port).buffer_id
                        (get_mbuf_seq_num m - get_mbuf_seq_num m % P))
                      (s.link_data port).buffer_id now)
                    (s.link_data port).buffer_id (get_mbuf_stream_id m))).link_data port with
                first_packet := 0 })
            (set_stream_ID
              (set_first_packet_recv_time
                (set_fpga_seq_num b (s.link_data port).buffer_id
                  (get_mbuf_seq_num m - get_mbuf_seq_num m % P))
                (s.link_data port).buffer_id now)
              (s.link_data port).buffer_id (get_mbuf_stream_id m)))
        (by simp)
      refine ⟨t, o, b1, hr, hp, ?_⟩
      intro id
      rcases hall id with h3 | h3
      · exact Or.inl h3
      · rw [h3]
        simp only [set_stream_ID, set_first_packet_recv_time, set_fpga_seq_num]
        by_cases hid : id = (s.link_data port).buffer_id
        · left
          rw [hid]
          simpa using hdvd
        · right
          simp [Function.update_noteq hid]
    · simp only [hc, if_false, if_true]
      exact ⟨s, _, b, rfl, h, fun _ => Or.inr rfl⟩
  · simp only [hfp, if_false]
    obtain ⟨t, o, b1, hr, hp, _, hall⟩ := recv_pkt_seq_period d port P s b m now h hfp
    exact ⟨t, o, b1, hr, hp, hall⟩

/-- A stream of packets on a link with frames of exactly `P` samples. -/
theorem recv_loop_period (d : Deps) (port P : Nat) :
    ∀ (pkts : List (rte_mbuf × timeval)) (s : NetworkDPDK) (b : Buffer),
      period_frames port P s b →
      ∃ t os b1, recv_loop d s (pkts.map (fun p => (port, p.1, p.2))) = some (t, os)
        ∧ period_frames port P t b1
        ∧ ∀ id, (P : Int) ∣ b1.fpga_seq_num id ∨ b1.fpga_seq_num id = b.fpga_seq_num id := by
  intro pkts
  induction pkts with
  | nil =>
    intro s b h
    exact ⟨s, [], b, rfl, h, fun _ => Or.inr rfl⟩
  | cons p rest ih =>
    intro s b h
    obtain ⟨t, o, b1, hr, hp, hall⟩ := recv_pkt_period d port P s b p.1 p.2 h
    obtain ⟨u, os, b2, hr2, hp2, hall2⟩ := ih t b1 hp
    refine ⟨u, o :: os, b2, ?_, hp2, stamps_trans hall hall2⟩
    simp only [List.map_cons, recv_loop, hr, hr2]

end network_dpdk

/-- C15.  Take a link with the packed output only whose frames hold exactly one
integration period `P` of samples (`buffer_size = P * 2048`), with at least one
sample per packet; if the link is already aligned, let the start of its current
frame be a multiple of `P`.  Then for every stream of packets on the link, with
or without gaps, the loop of `lcore_recv_pkt` returns, and every frame start it
has stamped is a multiple of `P`: afterwards the `frame_start_seq` of each
frame is a multiple of `P` or is what it was before the stream, and once the
link is aligned the start of its current frame is a multiple of `P`.  At the
alignment itself the current frame is stamped with the alignment origin
`seq - seq mod P`. -/
theorem C15_frame_starts (d : Deps) (port P : Nat) (s : network_dpdk.NetworkDPDK)
    (b : network_dpdk.Buffer) (pkts : List (rte_mbuf × network_dpdk.timeval))
    (h : network_dpdk.period_frames port P s b) :
    (∃ t os b1, network_dpdk.recv_loop d s (pkts.map (fun p => (port, p.1, p.2))) = some (t, os)
      ∧ network_dpdk.get_buf t port = some b1
      ∧ (∀ id, (P : Int) ∣ b1.fpga_seq_num id ∨ b1.fpga_seq_num id = b.fpga_seq_num id)
      ∧ ((t.link_data port).first_packet ≠ 1 →
          (P : Int) ∣ b1.fpga_seq_num (t.link_data port).buffer_id)
      ∧ network_dpdk.period_frames port P t b1)
    ∧ (∀ m now, (network_dpdk.align_first_packet d s m port now).2 = 1 →
        ∃ b2, network_dpdk.get_buf (network_dpdk.align_first_packet d s m port now).1 port
            = some b2
          ∧ b2.fpga_seq_num ((network_dpdk.align_first_packet d s m port now).1.link_data
              port).buffer_id = get_mbuf_seq_num m - get_mbuf_seq_num m % P
          ∧ P ∣ get_mbuf_seq_num m - get_mbuf_seq_num m % P) := by
  constructor
  · obtain ⟨t, os, b1, hr, hp, hall⟩ := network_dpdk.recv_loop_period d port P pkts s b h
    exact ⟨t, os, b1, hr, hp.buf, hall, fun hal => (hp.aligned hal).1, hp⟩
  · intro m now
    rw [network_dpdk.align_first_packet_packed d s m port now b h.buf h.vdif_buf, h.period]
    by_cases hc : get_mbuf_seq_num m % P ≤ 100
    · simp only [hc, if_true]
      intro _
      refine ⟨_, network_dpdk.get_buf_set_buf _ _ _ b (by simpa using h.buf), ?_,
        Nat.dvd_sub_mod _⟩
      simp [network_dpdk.set_stream_ID, network_dpdk.set_first_packet_recv_time,
        network_dpdk.set_fpga_seq_num]
    · simp [hc]

/-- C15 on frames of 8 samples, period 8, two samples per packet, from an
unaligned link whose frames all start at 0, on the packets 0, 2, 12, 26 (two
gaps, the second one over more than a frame): the loop returns and every frame
start is a multiple of 8. -/
theorem C15_frame_starts_witness :
    ∃ t os b1, network_dpdk.recv_loop Examples.deps (Examples.net 8 1 0 0 0 17)
        ([(Examples.packet 0 16, Examples.t0), (Examples.packet 2 18, Examples.t0),
          (Examples.packet 12 28, Examples.t0), (Examples.packet 26 42, Examples.t0)].map
          (fun p => (0, p.1, p.2))) = some (t, os)
      ∧ network_dpdk.get_buf t 0 = some b1
      ∧ ∀ id, (8 : Int) ∣ b1.fpga_seq_num id := by
  obtain ⟨t, os, b1, hr, hb, hall, _⟩ := (C15_frame_starts Examples.deps 0 8
    (Examples.net 8 1 0 0 0 17) (Examples.pool 0 17)
    [(Examples.packet 0 16, Examples.t0), (Examples.packet 2 18, Examples.t0),
      (Examples.packet 12 28, Examples.t0), (Examples.packet 26 42, Examples.t0)]
    ⟨rfl, rfl, by decide, by decide, by decide, by decide, by decide,
      fun hne => absurd rfl hne⟩).1
  refine ⟨t, os, b1, hr, hb, fun id => ?_⟩
  rcases hall id with h | h
  · exact h
  · rw [h]
    exact ⟨0, rfl⟩

namespace network_dpdk

/-- In a frame whose capacity is a whole number of packets, a slot that starts
a whole number of packets into the frame and before its end also ends inside
it. -/
theorem slot_fits (tpp c x : Int) (h1 : 1 ≤ tpp) (hd : tpp ∣ x)
    (hlt : x * 2048 < c * (tpp * 2048)) : (x + tpp) * 2048 ≤ c * (tpp * 2048) := by
  obtain ⟨a, rfl⟩ := hd
  have hpos : 0 < tpp * 2048 := by omega
  have hac : a < c := by
    by_contra hc
    have : c * (tpp * 2048) ≤ a * (tpp * 2048) :=
      Int.mul_le_mul_of_nonneg_right (by omega) (by omega)
    have e : tpp * a * 2048 = a * (tpp * 2048) := by ring
    omega
  have h2 : (a + 1) * (tpp * 2048) ≤ c * (tpp * 2048) :=
    Int.mul_le_mul_of_nonneg_right (by omega) (by omega)
  have e : (tpp * a + tpp) * 2048 = (a + 1) * (tpp * 2048) := by ring
  omega

theorem one_slot_fits (tpp c : Int) (h1 : 1 ≤ tpp) (hc : 1 ≤ c) :
    tpp * 2048 ≤ c * (tpp * 2048) := by
  have : 1 * (tpp * 2048) ≤ c * (tpp * 2048) :=
    Int.mul_le_mul_of_nonneg_right hc (by omega)
  omega

/-- The filling loop of `handle_lost_packets` on a correctly configured link:
it returns, every filler write lies inside `[0, capacity)` of a frame, and at
the end the sequence cursor is a whole number of packets, at least one if the
loop ran, past the start of the current frame, and not beyond its end. -/
theorem lost_packets_loop_bounds (port : Nat) (now : timeval) (buffer_id tpp c cap : Int)
    (h1 : 1 ≤ tpp) (hc : 1 ≤ c) (hcap : cap = c * (tpp * 2048)) (hcap2 : cap < 2 ^ 31) :
    ∀ (fuel : Nat) (s : NetworkDPDK) (fl cs lf : Int) (b : Buffer),
      lf ≤ fuel → get_buf s port = some b → b.buffer_size = cap →
      0 ≤ lf → tpp ∣ lf → lf < 2 ^ 31 → 0 ≤ fl → tpp ∣ fl → fl * 2048 ≤ cap →
      0 ≤ cs → cs + lf < 2 ^ 49 →
      fl = cs - b.fpga_seq_num (s.link_data port).buffer_id →
      ∃ t b1, lost_packets_loop port now buffer_id tpp fuel s fl cs lf = some t
        ∧ get_buf t port = some b1 ∧ link_kept s t port
        ∧ t.args.vdif_buf = s.args.vdif_buf
        ∧ b1.buffer_size = cap
        ∧ (∀ i j, (j < 0 ∨ cap ≤ j) → b1.data i j = b.data i j)
        ∧ tpp ∣ cs + lf - b1.fpga_seq_num (t.link_data port).buffer_id
        ∧ (cs + lf - b1.fpga_seq_num (t.link_data port).buffer_id) * 2048 ≤ cap
        ∧ (0 < lf → tpp ≤ cs + lf - b1.fpga_seq_num (t.link_data port).buffer_id)
        ∧ (lf = 0 → cs + lf - b1.fpga_seq_num (t.link_data port).buffer_id = fl) := by
  have htpp2 : tpp * 2048 ≤ cap := by rw [hcap]; exact one_slot_fits tpp c h1 hc
  intro fuel
  induction fuel with
  | zero =>
    intro s fl cs lf b hle hb hsz hlf0 _ _ hfl0 hfld hflc _ _ hfl
    have hz : lf = 0 := by simp at hle; omega
    have : ¬ lf > 0 := by omega
    refine ⟨s, b, by simp [lost_packets_loop, this], hb, link_kept_refl s port, rfl, hsz,
      fun _ _ _ => rfl, ?_, ?_, fun h => by omega, fun _ => by omega⟩
    · rw [hz, Int.add_zero, ← hfl]; exact hfld
    · rw [hz, Int.add_zero, ← hfl]; exact hflc
  | succ n ih =>
    intro s fl cs lf b hle hb hsz hlf0 hlfd hlf hfl0 hfld hflc hcs hbound hfl
    by_cases hpos : lf > 0
    · have htl : tpp ≤ lf := Int.le_of_dvd hpos hlfd
      rw [lost_packets_loop]
      simp only [hpos, if_true, hb]
      have hlf' : to_int32 (lf - tpp) = lf - tpp := to_int32_of_range _ (by omega) (by omega)
      have hcs' : to_int64 (cs + tpp) = cs + tpp := to_int64_of_range _ (by omega) (by omega)
      have hflx : to_int64 (fl * 2048) = fl * 2048 := to_int64_of_range _ (by omega) (by omega)
      have hlen : to_int64 (2048 * tpp) = 2048 * tpp := to_int64_of_range _ (by omega) (by omega)
      have hdvd' : tpp ∣ lf - tpp := Int.dvd_sub hlfd (dvd_refl tpp)
      by_cases hadv : to_int64 (fl * 2048) = b.buffer_size
      · obtain ⟨t, b1, ht, hb1, hk, hv, hd1, hsz1, hfp1⟩ :=
          advance_frame_stamp s port (to_uint64 cs).toNat now b hb
        simp only [hadv, decide_True, if_true, ht, hb1]
        have hb2 := get_buf_set_buf t port
          (nt_memset b1 buffer_id (to_int64 (0 * 2048)) 0x88 (to_int64 (2048 * tpp))) b1 hb1
        have hq : (((to_uint64 cs).toNat : Nat) : Int) = cs := by
          rw [Int.toNat_of_nonneg (by unfold to_uint64; omega), to_uint64_of_range _ hcs (by omega)]
        have hstamp : b1.fpga_seq_num (t.link_data port).buffer_id = (to_uint64 cs).toNat := by
          rw [hfp1]; simp
        have h0t : to_int64 (0 + tpp) = tpp := by
          rw [to_int64_of_range _ (by omega) (by omega)]; omega
        obtain ⟨u, b3, hu, hb3, hk3, hv3, hsz3, hd3, e1, e2, e3, e4⟩ :=
          ih _ (to_int64 (0 + tpp)) (to_int64 (cs + tpp)) (to_int32 (lf - tpp)) _
            (by rw [hlf']; push_cast at hle; omega) hb2
            (by simp only [nt_memset]; rw [hsz1]; exact hsz)
            (by rw [hlf']; omega) (by rw [hlf']; exact hdvd') (by rw [hlf']; omega)
            (by rw [h0t]; omega) (by rw [h0t]) (by rw [h0t]; omega)
            (by rw [hcs']; omega) (by rw [hcs', hlf']; omega)
            (by simp only [set_buf_link_data, nt_memset]; rw [hstamp, hq, hcs', h0t]; omega)
        rw [hcs', hlf'] at e1 e2 e3 e4
        have ee : cs + tpp + (lf - tpp) = cs + lf := by omega
        rw [ee] at e1 e2 e3 e4
        rw [h0t] at e4
        refine ⟨u, b3, hu, hb3, ?_, ?_, hsz3, ?_, e1, e2, ?_, fun h => by omega⟩
        · exact link_kept_trans (link_kept_trans hk (link_kept_set_buf t port _ b1 hb1)) hk3
        · rw [hv3]; simpa using hv
        · intro i j hj
          rw [hd3 i j hj]
          simp only [nt_memset]
          rw [hlen, to_int64_of_range (0 * 2048) (by omega) (by omega)]
          have hnot : ¬ (i = buffer_id ∧ 0 * 2048 ≤ j ∧ j < 0 * 2048 + 2048 * tpp) := by omega
          simp only [hnot, if_false]
          rw [hd1]
        · intro _
          by_cases h0 : lf - tpp = 0
          · have := e4 h0
            omega
          · exact e3 (by omega)
      · simp only [hadv, decide_False, if_false, hb, Bool.false_eq_true]
        rw [hflx, hsz] at hadv
        have hfit := slot_fits tpp c fl h1 hfld (by rw [← hcap]; omega)
        rw [← hcap] at hfit
        have hb2 := get_buf_set_buf s port
          (nt_memset b buffer_id (to_int64 (fl * 2048)) 0x88 (to_int64 (2048 * tpp))) b hb
        have hft : to_int64 (fl + tpp) = fl + tpp := to_int64_of_range _ (by omega) (by omega)
        obtain ⟨u, b3, hu, hb3, hk3, hv3, hsz3, hd3, e1, e2, e3, e4⟩ :=
          ih _ (to_int64 (fl + tpp)) (to_int64 (cs + tpp)) (to_int32 (lf - tpp)) _
            (by rw [hlf']; push_cast at hle; omega) hb2
            (by simp only [nt_memset]; exact hsz)
            (by rw [hlf']; omega) (by rw [hlf']; exact hdvd') (by rw [hlf']; omega)
            (by rw [hft]; omega) (by rw [hft]; exact Int.dvd_add hfld (dvd_refl tpp))
            (by rw [hft]; omega)
            (by rw [hcs']; omega) (by rw [hcs', hlf']; omega)
            (by simp only [set_buf_link_data, nt_memset]; rw [hcs', hft]; omega)
        rw [hcs', hlf'] at e1 e2 e3 e4
        have ee : cs + tpp + (lf - tpp) = cs + lf := by omega
        rw [ee] at e1 e2 e3 e4
        rw [hft] at e4
        refine ⟨u, b3, hu, hb3, ?_, ?_, hsz3, ?_, e1, e2, ?_, fun h => by omega⟩
        · exact link_kept_trans (link_kept_set_buf s port _ b hb) hk3
        · rw [hv3]; simp
        · intro i j hj
          rw [hd3 i j hj]
          simp only [nt_memset]
          rw [hlen, hflx]
          have hnot : ¬ (i = buffer_id ∧ fl * 2048 ≤ j ∧ j < fl * 2048 + 2048 * tpp) := by omega
          simp only [hnot, if_false]
        · intro _
          by_cases h0 : lf - tpp = 0
          · have := e4 h0
            omega
          · exact e3 (by omega)
    · have hz : lf = 0 := by omega
      refine ⟨s, b, ?_, hb, link_kept_refl s port, rfl, hsz, fun _ _ _ => rfl, ?_, ?_,
        fun h => by omega, fun _ => by omega⟩
      · cases n <;> simp [lost_packets_loop, hpos]
      · rw [hz, Int.add_zero, ← hfl]; exact hfld
      · rw [hz, Int.add_zero, ← hfl]; exact hflc

end network_dpdk

namespace network_dpdk

/-- The loss handler on a correctly configured link: every filler write lies
inside `[0, capacity)` of a frame, and afterwards the slot of the arriving
packet lies inside the current frame. -/
theorem handle_lost_packets_bounds (s : NetworkDPDK) (port : Nat) (now : timeval) (b : Buffer)
    (c : Int) (hb : get_buf s port = some b)
    (h1 : 1 ≤ s.args.config.timesamples_per_packet) (hc : 1 ≤ c)
    (hsz : b.buffer_size = c * (s.args.config.timesamples_per_packet * 2048))
    (hsz2 : b.buffer_size < 2 ^ 31)
    (hseq : (s.link_data port).seq < 2 ^ 48)
    (hF : (b.fpga_seq_num (s.link_data port).buffer_id : Int) ≤ (s.link_data port).last_seq)
    (hLF : s.args.config.timesamples_per_packet
      ∣ ((s.link_data port).last_seq : Int) - b.fpga_seq_num (s.link_data port).buffer_id)
    (hfit : (((s.link_data port).last_seq : Int) - b.fpga_seq_num (s.link_data port).buffer_id
        + s.args.config.timesamples_per_packet) * 2048 ≤ b.buffer_size)
    (hgap0 : (s.link_data port).last_seq < (s.link_data port).seq)
    (hgap : ((s.link_data port).seq : Int) - (s.link_data port).last_seq < 2 ^ 31)
    (hgapd : s.args.config.timesamples_per_packet
      ∣ ((s.link_data port).seq : Int) - (s.link_data port).last_seq) :
    ∃ t b1, handle_lost_packets s port now = some t ∧ get_buf t port = some b1
      ∧ link_kept s t port ∧ t.args.vdif_buf = s.args.vdif_buf
      ∧ b1.buffer_size = b.buffer_size
      ∧ (∀ i j, (j < 0 ∨ b.buffer_size ≤ j) → b1.data i j = b.data i j)
      ∧ s.args.config.timesamples_per_packet
          ∣ ((s.link_data port).seq : Int) - b1.fpga_seq_num (t.link_data port).buffer_id
      ∧ (((s.link_data port).seq : Int) - b1.fpga_seq_num (t.link_data port).buffer_id
          + s.args.config.timesamples_per_packet) * 2048 ≤ b.buffer_size
      ∧ (b1.fpga_seq_num (t.link_data port).buffer_id : Int) ≤ (s.link_data port).seq := by
  have htpp2 : s.args.config.timesamples_per_packet * 2048 ≤ b.buffer_size := by
    rw [hsz]; exact one_slot_fits _ c h1 hc
  unfold handle_lost_packets
  simp only [hb]
  have htpp : to_int64 s.args.config.timesamples_per_packet
      = s.args.config.timesamples_per_packet := to_int64_of_range _ (by omega) (by omega)
  rw [htpp]
  have hlf : to_int32 (to_uint64 (((s.link_data port).seq : Int) - (s.link_data port).last_seq))
      = ((s.link_data port).seq : Int) - (s.link_data port).last_seq := by
    rw [to_int32_to_uint64, to_int32_of_range _ (by omega) (by omega)]
  have hcs : to_int64 (((s.link_data port).last_seq : Int)
      + s.args.config.timesamples_per_packet)
      = ((s.link_data port).last_seq : Int) + s.args.config.timesamples_per_packet :=
    to_int64_of_range _ (by omega) (by omega)
  have hfl : to_int64 (((s.link_data port).last_seq : Int)
      + s.args.config.timesamples_per_packet
      - get_fpga_seq_num b (s.link_data port).buffer_id)
      = ((s.link_data port).last_seq : Int) + s.args.config.timesamples_per_packet
        - b.fpga_seq_num (s.link_data port).buffer_id := by
    unfold get_fpga_seq_num
    exact to_int64_of_range _ (by omega) (by omega)
  rw [hlf, hcs, hfl]
  have hb2 := get_buf_set_buf s port (add_bad_timesamples b (s.link_data port).buffer_id
    (((s.link_data port).seq : Int) - (s.link_data port).last_seq)) b hb
  obtain ⟨t, b1, ht, hb1, hk, hv, hsz1, hd1, e1, e2, e3, _⟩ :=
    lost_packets_loop_bounds port now (s.link_data port).buffer_id
      s.args.config.timesamples_per_packet c b.buffer_size h1 hc hsz hsz2
      (((s.link_data port).seq : Int) - (s.link_data port).last_seq).toNat
      _ (((s.link_data port).last_seq : Int) + s.args.config.timesamples_per_packet
          - b.fpga_seq_num (s.link_data port).buffer_id)
      (((s.link_data port).last_seq : Int) + s.args.config.timesamples_per_packet)
      (((s.link_data port).seq : Int) - (s.link_data port).last_seq) _
      (Int.self_le_toNat _) hb2 (by simp only [add_bad_timesamples])
      (by omega) hgapd hgap (by omega)
      (by
        have e : ((s.link_data port).last_seq : Int) + s.args.config.timesamples_per_packet
            - b.fpga_seq_num (s.link_data port).buffer_id
            = (((s.link_data port).last_seq : Int) - b.fpga_seq_num (s.link_data port).buffer_id)
              + s.args.config.timesamples_per_packet := by omega
        rw [e]
        exact Int.dvd_add hLF (dvd_refl _))
      (by omega) (by omega) (by omega)
      (by simp only [set_buf_link_data, add_bad_timesamples])
  have ee : ((s.link_data port).last_seq : Int) + s.args.config.timesamples_per_packet
      + (((s.link_data port).seq : Int) - (s.link_data port).last_seq)
      = ((s.link_data port).seq : Int) + s.args.config.timesamples_per_packet := by omega
  rw [ee] at e1 e2 e3
  have e3' := e3 (by omega)
  refine ⟨t, b1, ht, hb1, link_kept_trans (link_kept_set_buf s port _ b hb) hk, ?_, hsz1, ?_, ?_,
    ?_, by omega⟩
  · rw [hv]; simp
  · intro i j hj
    rw [hd1 i j hj]
    simp [add_bad_timesamples]
  · have e : ((s.link_data port).seq : Int) - b1.fpga_seq_num (t.link_data port).buffer_id
        = (((s.link_data port).seq : Int) + s.args.config.timesamples_per_packet
            - b1.fpga_seq_num (t.link_data port).buffer_id)
          - s.args.config.timesamples_per_packet := by omega
    rw [e]
    exact Int.dvd_sub e1 (dvd_refl _)
  · omega

/-- The frame writer on a correctly configured link, for a packet whose frame
location is a whole number of packets into the current frame and not beyond
its end: the payload write lies inside `[0, capacity)` of a frame, and
afterwards the slot of the packet lies inside the current frame. -/
theorem copy_data_no_shuffle_bounds (s : NetworkDPDK) (m : rte_mbuf) (port : Nat) (now : timeval)
    (b : Buffer) (c : Int) (hb : get_buf s port = some b)
    (h1 : 1 ≤ s.args.config.timesamples_per_packet) (hc : 1 ≤ c)
    (hsz : b.buffer_size = c * (s.args.config.timesamples_per_packet * 2048))
    (hsz2 : b.buffer_size < 2 ^ 31)
    (hseq : (s.link_data port).seq < 2 ^ 48)
    (hF : (b.fpga_seq_num (s.link_data port).buffer_id : Int) ≤ (s.link_data port).seq)
    (hd : s.args.config.timesamples_per_packet
      ∣ ((s.link_data port).seq : Int) - b.fpga_seq_num (s.link_data port).buffer_id)
    (hfit : (((s.link_data port).seq : Int) - b.fpga_seq_num (s.link_data port).buffer_id)
        * 2048 ≤ b.buffer_size) :
    ∃ t b1, copy_data_no_shuffle s m port now = some t ∧ get_buf t port = some b1
      ∧ link_kept s t port ∧ t.args.vdif_buf = s.args.vdif_buf
      ∧ b1.buffer_size = b.buffer_size
      ∧ (∀ i j, (j < 0 ∨ b.buffer_size ≤ j) → b1.data i j = b.data i j)
      ∧ (b1.fpga_seq_num (t.link_data port).buffer_id : Int) ≤ (s.link_data port).seq
      ∧ s.args.config.timesamples_per_packet
          ∣ ((s.link_data port).seq : Int) - b1.fpga_seq_num (t.link_data port).buffer_id
      ∧ (((s.link_data port).seq : Int) - b1.fpga_seq_num (t.link_data port).buffer_id
          + s.args.config.timesamples_per_packet) * 2048 ≤ b.buffer_size := by
  have htpp2 : s.args.config.timesamples_per_packet * 2048 ≤ b.buffer_size := by
    rw [hsz]; exact one_slot_fits _ c h1 hc
  have hloc : to_int64 (((s.link_data port).seq : Int)
      - get_fpga_seq_num b (s.link_data port).buffer_id)
      = ((s.link_data port).seq : Int) - b.fpga_seq_num (s.link_data port).buffer_id := by
    unfold get_fpga_seq_num
    exact to_int64_of_range _ (by omega) (by omega)
  have hlen : to_int32 (2048 * s.args.config.timesamples_per_packet)
      = 2048 * s.args.config.timesamples_per_packet := to_int32_of_range _ (by omega) (by omega)
  by_cases hadv : to_int64 (to_int64 (((s.link_data port).seq : Int)
        - get_fpga_seq_num b (s.link_data port).buffer_id) * 2048) = b.buffer_size
  · obtain ⟨t, b1, ht, hb1, hk, hv, hd1, hsz1, hfp1⟩ :=
      advance_frame_stamp s port (s.link_data port).seq now b hb
    obtain ⟨t2, b2, ht2, hb2, hcp⟩ := copy_data_no_shuffle_advance s m port now b hb hadv
    rw [ht] at ht2
    cases ht2
    rw [hb1] at hb2
    cases hb2
    have hstamp : b1.fpga_seq_num (t.link_data port).buffer_id = (s.link_data port).seq := by
      rw [hfp1]; simp
    refine ⟨_, _, hcp, get_buf_set_buf _ _ _ b1 hb1,
      link_kept_trans hk (link_kept_set_buf _ port _ b1 hb1), by simpa using hv,
      by simpa [copy_block] using hsz1, ?_, ?_, ?_, ?_⟩
    · intro i j hj
      simp only [copy_block]
      rw [hlen]
      have hnot : ¬ (i = (t.link_data port).buffer_id ∧ 0 ≤ j
          ∧ j < 0 + 2048 * s.args.config.timesamples_per_packet) := by omega
      simp only [hnot, if_false]
      rw [hd1]
    · simp only [set_buf_link_data, copy_block]
      rw [hstamp]
    · simp only [set_buf_link_data, copy_block]
      rw [hstamp]
      simp
    · simp only [set_buf_link_data, copy_block]
      rw [hstamp]
      omega
  · have hres := copy_data_no_shuffle_stay s m port now b hb hadv
    rw [hloc, to_int64_of_range _ (by omega) (by omega)] at hadv hres
    have hfit2 := slot_fits s.args.config.timesamples_per_packet c
      (((s.link_data port).seq : Int) - b.fpga_seq_num (s.link_data port).buffer_id) h1 hd
      (by rw [← hsz]; omega)
    rw [← hsz] at hfit2
    refine ⟨_, _, hres, get_buf_set_buf _ _ _ b hb, link_kept_set_buf _ port _ b hb, by simp,
      by simp [copy_block], ?_, ?_, ?_, ?_⟩
    · intro i j hj
      simp only [copy_block]
      rw [hlen]
      have hnot : ¬ (i = (s.link_data port).buffer_id
          ∧ (((s.link_data port).seq : Int) - b.fpga_seq_num (s.link_data port).buffer_id) * 2048
            ≤ j
          ∧ j < (((s.link_data port).seq : Int)
              - b.fpga_seq_num (s.link_data port).buffer_id) * 2048
            + 2048 * s.args.config.timesamples_per_packet) := by omega
      simp only [hnot, if_false]
    · simpa [copy_block] using hF
    · simpa [copy_block] using hd
    · simp only [set_buf_link_data, copy_block]
      exact hfit2

end network_dpdk

namespace network_dpdk

/-- One packet on an aligned, correctly configured link: the loop body
returns, every write lies inside `[0, capacity)` of a frame, and the link stays
correctly configured. -/
theorem recv_pkt_seq_bounds (d : Deps) (port : Nat) (s : NetworkDPDK) (b : Buffer)
    (m : rte_mbuf) (now : timeval) (h : packed_frames port s b)
    (hal : (s.link_data port).first_packet ≠ 1)
    (hm : s.args.config.timesamples_per_packet ∣ (get_mbuf_seq_num m : Int))
    (hgap : (get_mbuf_seq_num m : Int) - (s.link_data port).last_seq < 2 ^ 31) :
    ∃ t o b1, recv_pkt_seq d s port m now = some (t, o) ∧ packed_frames port t b1
      ∧ (t.link_data port).first_packet ≠ 1
      ∧ t.args.config = s.args.config
      ∧ b1.buffer_size = b.buffer_size
      ∧ ∀ i j, (j < 0 ∨ b.buffer_size ≤ j) → b1.data i j = b.data i j := by
  obtain ⟨c, hc, hsz⟩ := h.size_mult
  obtain ⟨hF, hLd, hLFd, hfit, hlast⟩ := h.aligned hal
  have hseq := get_mbuf_seq_num_lt m
  have htpp2 : s.args.config.timesamples_per_packet * 2048 ≤ b.buffer_size := by
    rw [hsz]; exact one_slot_fits _ c h.tpp_pos hc
  have hsi := h.size_int
  have htp := h.tpp_pos
  have htpp : to_int64 s.args.config.timesamples_per_packet
      = s.args.config.timesamples_per_packet := to_int64_of_range _ (by omega) (by omega)
  by_cases hlt : get_mbuf_seq_num m < (s.link_data port).last_seq
  · refine ⟨_, _, b, recv_pkt_seq_stale d s port m now (by omega) hlt, ?_, ?_, rfl, rfl,
      fun _ _ _ => rfl⟩
    · exact ⟨h.buf, h.vdif_buf, h.tpp_pos, h.size_int, h.size_mult,
        fun _ => by
          simp only [set_link_link_data_self, set_link_args]
          exact ⟨hF, hLd, hLFd, hfit, hlast⟩⟩
    · simpa using hal
  · have hle : (s.link_data port).last_seq ≤ get_mbuf_seq_num m := by omega
    have hdd : s.args.config.timesamples_per_packet
        ∣ (get_mbuf_seq_num m : Int) - (s.link_data port).last_seq := Int.dvd_sub hm hLd
    have hb2 : get_buf (set_link s port
        { s.link_data port with seq := get_mbuf_seq_num m }) port = some b := h.buf
    have hu : ∃ u bu, (if to_int64 s.args.config.timesamples_per_packet
              < (get_mbuf_seq_num m : Int) - (s.link_data port).last_seq
           then handle_lost_packets
              (set_link s port { s.link_data port with seq := get_mbuf_seq_num m }) port now
           else some (set_link s port { s.link_data port with seq := get_mbuf_seq_num m }))
          = some u
        ∧ get_buf u port = some bu
        ∧ link_kept (set_link s port { s.link_data port with seq := get_mbuf_seq_num m }) u port
        ∧ u.args.vdif_buf = s.args.vdif_buf
        ∧ bu.buffer_size = b.buffer_size
        ∧ (∀ i j, (j < 0 ∨ b.buffer_size ≤ j) → bu.data i j = b.data i j)
        ∧ (bu.fpga_seq_num (u.link_data port).buffer_id : Int) ≤ get_mbuf_seq_num m
        ∧ s.args.config.timesamples_per_packet
            ∣ (get_mbuf_seq_num m : Int) - bu.fpga_seq_num (u.link_data port).buffer_id
        ∧ ((get_mbuf_seq_num m : Int) - bu.fpga_seq_num (u.link_data port).buffer_id) * 2048
            ≤ b.buffer_size := by
      by_cases hlost : to_int64 s.args.config.timesamples_per_packet
              < (get_mbuf_seq_num m : Int) - (s.link_data port).last_seq
      · rw [htpp] at hlost
        obtain ⟨u, bu, g1, g2, g3, g4, g5, g6, g7, g8, g9⟩ := handle_lost_packets_bounds
          (set_link s port { s.link_data port with seq := get_mbuf_seq_num m }) port now b c hb2
          (by simpa using h.tpp_pos) hc (by simpa using hsz) hsi
          (by simpa using hseq) (by simpa using hF) (by simpa using hLFd)
          (by simpa using hfit)
          (by simp only [set_link_link_data_self]; omega)
          (by simpa using hgap) (by simpa using hdd)
        simp only [set_link_link_data_self, set_link_args] at g7 g8 g9
        refine ⟨u, bu, ?_, g2, g3, g4, g5, g6, g9, g7, by omega⟩
        rw [htpp]
        simp only [hlost, if_true]
        exact g1
      · rw [htpp] at hlost
        refine ⟨_, b, ?_, hb2, link_kept_refl _ _, rfl, rfl, fun _ _ _ => rfl, ?_, ?_, ?_⟩
        · rw [htpp]
          simp only [hlost, if_false]
        · simp only [set_link_link_data_self]
          omega
        · simp only [set_link_link_data_self]
          have e : (get_mbuf_seq_num m : Int) - b.fpga_seq_num (s.link_data port).buffer_id
              = (((s.link_data port).last_seq : Int)
                  - b.fpga_seq_num (s.link_data port).buffer_id)
                + ((get_mbuf_seq_num m : Int) - (s.link_data port).last_seq) := by omega
          rw [e]
          exact Int.dvd_add hLFd hdd
        · simp only [set_link_link_data_self]
          omega
    obtain ⟨u, bu, hu1, hu2, hu3, hu4, hu5, hu6, hu7, hu8, hu9⟩ := hu
    have hsequ : (u.link_data port).seq = get_mbuf_seq_num m := by
      rw [hu3.seq]; simp
    have hcfgu : u.args.config = s.args.config := by
      rw [hu3.config]; simp
    obtain ⟨t, bt, ht1, ht2, ht3, ht4, ht5, ht6, ht7, ht8, ht9⟩ := copy_data_no_shuffle_bounds u m
      port now bu c hu2 (by rw [hcfgu]; exact h.tpp_pos) hc (by rw [hcfgu, hu5]; exact hsz)
      (by rw [hu5]; exact hsi) (by rw [hsequ]; exact hseq) (by rw [hsequ]; exact hu7)
      (by rw [hsequ, hcfgu]; exact hu8) (by rw [hsequ, hu5]; exact hu9)
    rw [hsequ, hcfgu] at ht8 ht9
    rw [hsequ] at ht7
    rw [hu5] at ht5 ht6 ht9
    have hres := recv_pkt_seq_packed d s port m now b h.buf h.vdif_buf (by omega) hle u t hu1 ht1
    have hk := link_kept_trans hu3 ht3
    have hcfgt : t.args.config = s.args.config := by
      rw [hk.config]; simp
    have hseqt : (t.link_data port).seq = get_mbuf_seq_num m := by
      rw [hk.seq]; simp
    refine ⟨_, _, bt, hres, ?_, ?_, by simpa using hcfgt, ht5, ?_⟩
    · refine ⟨by simpa using ht2, ?_, ?_, by rw [ht5]; exact hsi, ?_, fun _ => ?_⟩
      · simp only [set_link_args]
        rw [ht4, hu4]
        exact h.vdif_buf
      · simp only [set_link_args]
        rw [hcfgt]
        exact h.tpp_pos
      · simp only [set_link_args]
        rw [hcfgt, ht5]
        exact ⟨c, hc, hsz⟩
      · simp only [set_link_link_data_self, set_link_args]
        rw [hcfgt, hseqt, ht5]
        exact ⟨ht7, hm, ht8, ht9, hseq⟩
    · simp only [set_link_link_data_self]
      rw [hk.first_packet]
      simpa using hal
    · intro i j hj
      rw [ht6 i j hj, hu6 i j hj]

/-- One packet on a correctly configured link, aligned or not yet aligned. -/
theorem recv_pkt_bounds (d : Deps) (port : Nat) (s : NetworkDPDK) (b : Buffer)
    (m : rte_mbuf) (now : timeval) (h : packed_frames port s b)
    (hm : s.args.config.timesamples_per_packet ∣ (get_mbuf_seq_num m : Int))
    (ho : s.args.config.timesamples_per_packet
      ∣ ((get_mbuf_seq_num m - get_mbuf_seq_num m % integration_period s.args.config : Nat) : Int))
    (hgap : (s.link_data port).first_packet ≠ 1 →
      (get_mbuf_seq_num m : Int) - (s.link_data port).last_seq < 2 ^ 31) :
    ∃ t o b1, recv_pkt d s port m now = some (t, o) ∧ packed_frames port t b1
      ∧ t.args.config = s.args.config
      ∧ b1.buffer_size = b.buffer_size
      ∧ ∀ i j, (j < 0 ∨ b.buffer_size ≤ j) → b1.data i j = b.data i j := by
  unfold recv_pkt
  by_cases hck : (m.ol_flags ||| d.PKT_RX_IP_CKSUM_BAD) = 1
  · exact ⟨s, Outcome.bad_checksum, b, by simp [hck], h, rfl, rfl, fun _ _ _ => rfl⟩
  by_cases hlen : m.pkt_len ≠ s.args.config.udp_packet_size
  · exact ⟨s, Outcome.bad_length, b, by simp [hck, hlen], h, rfl, rfl, fun _ _ _ => rfl⟩
  simp only [hck, hlen, if_false]
  by_cases hfp : (s.link_data port).first_packet = 1
  · simp only [hfp, if_true]
    rw [align_first_packet_packed d s m port now b h.buf h.vdif_buf]
    by_cases hc : get_mbuf_seq_num m % integration_period s.args.config ≤ 100
    · simp only [hc, if_true, one_ne_zero, if_false]
      have hseq := get_mbuf_seq_num_lt m
      obtain ⟨c, hc1, hsz⟩ := h.size_mult
      have htpp2 : s.args.config.timesamples_per_packet * 2048 ≤ b.buffer_size := by
        rw [hsz]; exact one_slot_fits _ c h.tpp_pos hc1
      have hmod : get_mbuf_seq_num m % integration_period s.args.config ≤ get_mbuf_seq_num m :=
        Nat.mod_le _ _
      have hbs := get_buf_set_buf
        (set_link s port { s.link_data port with
          stream_ID := get_mbuf_stream_id m
          s_stream_ID := d.extract_stream_id (get_mbuf_stream_id m)
          last_seq := get_mbuf_seq_num m
            - get_mbuf_seq_num m % integration_period s.args.config
          seq := get_mbuf_seq_num m })
        port
        (set_stream_ID
          (set_first_packet_recv_time
            (set_fpga_seq_num b (s.link_data port).buffer_id
              (get_mbuf_seq_num m - get_mbuf_seq_num m % integration_period s.args.config))
            (s.link_data port).buffer_id now)
          (s.link_data port).buffer_id (get_mbuf_stream_id m)) b h.buf
      obtain ⟨t, o, b1, hr, hp, _, hcfg, hsz1, hd1⟩ := recv_pkt_seq_bounds d port _ _ m now
        (⟨by simpa using hbs, by simpa using h.vdif_buf, by simpa using h.tpp_pos,
          by simpa [set_stream_ID, set_first_packet_recv_time, set_fpga_seq_num] using h.size_int,
          by simpa [set_stream_ID, set_first_packet_recv_time, set_fpga_seq_num]
            using h.size_mult,
          fun _ => by
            simp only [set_link_link_data_self, set_buf_link_data, set_stream_ID,
              set_first_packet_recv_time, set_fpga_seq_num, Function.update_same, set_link_args,
              set_buf_config]
            refine ⟨le_refl _, ho, ?_, ?_, by omega⟩
            · rw [Int.sub_self]; exact dvd_zero _
            · omega⟩ :
          packed_frames port
            (set_link
              (set_buf
                (set_link s port { s.link_data port with
                  stream_ID := get_mbuf_stream_id m
                  s_stream_ID := d.extract_stream_id (get_mbuf_stream_id m)
                  last_seq := get_mbuf_seq_num m
                    - get_mbuf_seq_num m % integration_period s.args.config
                  seq := get_mbuf_seq_num m })
                port
                (set_stream_ID
                  (set_first_packet_recv_time
                    (set_fpga_seq_num b (s.link_data port).buffer_id
                      (get_mbuf_seq_num m
                        - get_mbuf_seq_num m % integration_period s.args.config))
                    (s.link_data port).buffer_id now)
                  (s.link_data port).buffer_id (get_mbuf_stream_id m)))
              port
              { (set_buf
                  (set_link s port { s.link_data port with
                    stream_ID := get_mbuf_stream_id m
                    s_stream_ID := d.extract_stream_id (get_mbuf_stream_id m)
                    last_seq := get_mbuf_seq_num m
                      - get_mbuf_seq_num m % integration_period s.args.config
                    seq := get_mbuf_seq_num m })
                  port
                  (set_stream_ID
                    (set_first_packet_recv_time
                      (set_fpga_seq_num b (s.link_data port).buffer_id
                        (get_mbuf_seq_num m
                          - get_mbuf_seq_num m % integration_period s.args.config))
                      (s.link_data port).buffer_id now)
                    (s.link_data port).buffer_id (get_mbuf_stream_id m))).link_data port with
                first_packet := 0 })
            (set_stream_ID
              (set_first_packet_recv_time
                (set_fpga_seq_num b (s.link_data port).buffer_id
                  (get_mbuf_seq_num m - get_mbuf_seq_num m % integration_period s.args.config))
                (s.link_data port).buffer_id now)
              (s.link_data port).buffer_id (get_mbuf_stream_id m)))
        (by simp)
        (by simpa using hm)
        (by simp only [set_link_link_data_self, set_buf_link_data]; omega)
      refine ⟨t, o, b1, hr, hp, by simpa using hcfg, ?_, ?_⟩
      · rw [hsz1]; simp [set_stream_ID, set_first_packet_recv_time, set_fpga_seq_num]
      · intro i j hj
        rw [hd1 i j (by simpa [set_stream_ID, set_first_packet_recv_time, set_fpga_seq_num]
          using hj)]
        simp [set_stream_ID, set_first_packet_recv_time, set_fpga_seq_num]
    · simp only [hc, if_false, if_true]
      exact ⟨s, Outcome.waiting, b, rfl, h, rfl, rfl, fun _ _ _ => rfl⟩
  · simp only [hfp, if_false]
    obtain ⟨t, o, b1, hr, hp, _, hcfg, hsz1, hd1⟩ :=
      recv_pkt_seq_bounds d port s b m now h hfp hm (hgap hfp)
    exact ⟨t, o, b1, hr, hp, hcfg, hsz1, hd1⟩

/-- A stream of packets on a correctly configured link. -/
theorem recv_loop_bounds (d : Deps) (port : Nat) :
    ∀ (pkts : List (rte_mbuf × timeval)) (s : NetworkDPDK) (b : Buffer),
      packed_frames port s b →
      (∀ p ∈ pkts, s.args.config.timesamples_per_packet ∣ (get_mbuf_seq_num p.1 : Int)
        ∧ s.args.config.timesamples_per_packet
          ∣ ((get_mbuf_seq_num p.1
              - get_mbuf_seq_num p.1 % integration_period s.args.config : Nat) : Int)) →
      gaps_below d port (2 ^ 31) s pkts = true →
      ∃ t os b1, recv_loop d s (pkts.map (fun p => (port, p.1, p.2))) = some (t, os)
        ∧ packed_frames port t b1
        ∧ b1.buffer_size = b.buffer_size
        ∧ ∀ i j, (j < 0 ∨ b.buffer_size ≤ j) → b1.data i j = b.data i j := by
  intro pkts
  induction pkts with
  | nil =>
    intro s b h _ _
    exact ⟨s, [], b, rfl, h, rfl, fun _ _ _ => rfl⟩
  | cons p rest ih =>
    intro s b h hdiv hg
    rw [gaps_below] at hg
    simp only [Bool.and_eq_true, Bool.or_eq_true, decide_eq_true_eq] at hg
    obtain ⟨hg1, hg2⟩ := hg
    obtain ⟨hm, ho⟩ := hdiv p (List.mem_cons_self p rest)
    obtain ⟨t, o, b1, hr, hp, hcfg, hsz1, hd1⟩ := recv_pkt_bounds d port s b p.1 p.2 h hm ho
      (fun hne => by
        rcases hg1 with h1 | h1
        · exact absurd h1 hne
        · exact h1)
    rw [hr] at hg2
    simp only at hg2
    obtain ⟨u, os, b2, hr2, hp2, hsz2, hd2⟩ := ih t b1 hp
      (fun q hq => by rw [hcfg]; exact hdiv q (List.mem_cons_of_mem p hq)) hg2
    refine ⟨u, o :: os, b2, ?_, hp2, hsz2.trans hsz1, ?_⟩
    · simp only [List.map_cons, recv_loop, hr, hr2]
    · intro i j hj
      rw [hd2 i j (by rw [hsz1]; exact hj), hd1 i j hj]

end network_dpdk

/-- C13.  Take a correctly configured link with the packed output only (at
least one sample per packet, a frame capacity that fits an `int` and is a
positive multiple of `timesamples_per_packet * 2048`, and, if it is already
aligned, a last accepted sequence whose slot lies inside the current frame),
and any stream of packets on it whose sequences and alignment origins are
multiples of `timesamples_per_packet` and whose gaps are below `2^31`.  Then
the loop of `lcore_recv_pkt` returns, and no byte at an index below 0 or at or
beyond the capacity has changed in any frame, whatever the memory held: every
payload write and every filler write lies inside `[0, capacity)`.  The link is
correctly configured again afterwards, so the same holds at every step of the
stream; in particular, once the link is aligned, the byte offset
`(last_seq - frame_start_seq) * 2048` of the last accepted packet is not
negative, strictly below the capacity, and its payload ends at or before the
capacity. -/
theorem C13_in_bounds (d : Deps) (port : Nat) (s : network_dpdk.NetworkDPDK)
    (b : network_dpdk.Buffer) (pkts : List (rte_mbuf × network_dpdk.timeval))
    (h : network_dpdk.packed_frames port s b)
    (hdiv : ∀ p ∈ pkts, s.args.config.timesamples_per_packet ∣ (get_mbuf_seq_num p.1 : Int)
      ∧ s.args.config.timesamples_per_packet
        ∣ ((get_mbuf_seq_num p.1
            - get_mbuf_seq_num p.1 % network_dpdk.integration_period s.args.config : Nat) : Int))
    (hgap : network_dpdk.gaps_below d port (2 ^ 31) s pkts = true) :
    ∃ t os b1, network_dpdk.recv_loop d s (pkts.map (fun p => (port, p.1, p.2))) = some (t, os)
      ∧ network_dpdk.get_buf t port = some b1
      ∧ b1.buffer_size = b.buffer_size
      ∧ (∀ i j, (j < 0 ∨ b.buffer_size ≤ j) → b1.data i j = b.data i j)
      ∧ network_dpdk.packed_frames port t b1
      ∧ ((t.link_data port).first_packet ≠ 1 →
          0 ≤ (((t.link_data port).last_seq : Int)
              - b1.fpga_seq_num (t.link_data port).buffer_id) * 2048
          ∧ (((t.link_data port).last_seq : Int)
              - b1.fpga_seq_num (t.link_data port).buffer_id) * 2048 < b1.buffer_size
          ∧ (((t.link_data port).last_seq : Int)
              - b1.fpga_seq_num (t.link_data port).buffer_id) * 2048
            + 2048 * t.args.config.timesamples_per_packet ≤ b1.buffer_size) := by
  obtain ⟨t, os, b1, hr, hp, hsz, hd⟩ := network_dpdk.recv_loop_bounds d port pkts s b h hdiv hgap
  refine ⟨t, os, b1, hr, hp.buf, hsz, hd, hp, fun hal => ?_⟩
  obtain ⟨hF, _, _, hfit, _⟩ := hp.aligned hal
  have htp := hp.tpp_pos
  exact ⟨by omega, by omega, by omega⟩

set_option maxRecDepth 20000 in
/-- C13 on frames of 8 samples (16384 bytes, 4 packets of 2 samples), from an
unaligned link, on the packets 0, 2, 12, 26: two gaps, the second one over more
than a frame.  The loop returns and no byte outside `[0, 16384)` has changed. -/
theorem C13_in_bounds_witness :
    ∃ t os b1, network_dpdk.recv_loop Examples.deps (Examples.net 8 1 0 0 0 17)
        ([(Examples.packet 0 16, Examples.t0), (Examples.packet 2 18, Examples.t0),
          (Examples.packet 12 28, Examples.t0), (Examples.packet 26 42, Examples.t0)].map
          (fun p => (0, p.1, p.2))) = some (t, os)
      ∧ network_dpdk.get_buf t 0 = some b1
      ∧ ∀ i j, (j < 0 ∨ 16384 ≤ j) → b1.data i j = 17 := by
  obtain ⟨t, os, b1, hr, hb, _, hd, _⟩ := C13_in_bounds Examples.deps 0
    (Examples.net 8 1 0 0 0 17) (Examples.pool 0 17)
    [(Examples.packet 0 16, Examples.t0), (Examples.packet 2 18, Examples.t0),
      (Examples.packet 12 28, Examples.t0), (Examples.packet 26 42, Examples.t0)]
    ⟨rfl, rfl, by decide, by decide, ⟨4, by decide, by decide⟩, fun hne => absurd rfl hne⟩
    (by
      intro p hp
      simp only [List.mem_cons, List.mem_singleton, List.not_mem_nil, or_false] at hp
      rcases hp with rfl | rfl | rfl | rfl
      · exact ⟨by decide, by decide⟩
      · exact ⟨by decide, by decide⟩
      · exact ⟨by decide, by decide⟩
      · exact ⟨by decide, by decide⟩)
    (by decide)
  exact ⟨t, os, b1, hr, hb, fun i j hj => hd i j hj⟩

end Kotekan

